import Mathlib

/-!
# Pool service of `src/pool/srv_pool.c`: shallow embedding and verified properties

The C code is embedded as pure Lean functions.

* `int` return codes are `Int`; `0` is success and errors are `-DER_*`.
* Calls into collaborators that are not part of `srv_pool.c` (RDB, bulk engine, broadcast,
  container service, allocator) are represented by *fault* arguments: the return code the
  collaborator reports at that call (`0` when it succeeds).  Every `if (rc != 0) goto ...`
  of the source therefore has its branch in the embedding.
* The committed contents of the replicated DB are a value of type `PoolDb`; the updates a
  handler queues in its transaction are a list of `TxOp` that `rdb_tx_commit` applies.
* `uint32_t` arithmetic on the handle counter and on the reply field that carries the
  required map-buffer size is taken modulo `2 ^ 32`.

Part I holds the definitions, Part II the theorems.
-/

namespace DaosPool

/-! ## Part I — definitions -/

/-! ### Error codes

`daos_errno.h` is not part of the sources at hand; the codes are the error kinds the
specification lists.  Only their being positive and pairwise distinct is ever used. -/

/-- Modelled from the spec: error kind `NO_PERM` (constant of the missing `daos_errno.h`). -/
def DER_NO_PERM : Int := 1001
/-- Modelled from the spec: error kind `INVAL` (constant of the missing `daos_errno.h`). -/
def DER_INVAL : Int := 1003
/-- Modelled from the spec: error kind `EXIST` (constant of the missing `daos_errno.h`). -/
def DER_EXIST : Int := 1004
/-- Modelled from the spec: error kind `NONEXIST` (constant of the missing `daos_errno.h`). -/
def DER_NONEXIST : Int := 1005
/-- Modelled from the spec: error kind `NOMEM` (constant of the missing `daos_errno.h`). -/
def DER_NOMEM : Int := 1009
/-- Modelled from the spec: error kind `BUSY` (constant of the missing `daos_errno.h`). -/
def DER_BUSY : Int := 1012
/-- Modelled from the spec: error kind `TRUNC` (constant of the missing `daos_errno.h`). -/
def DER_TRUNC : Int := 1016
/-- Modelled from the spec: error kind `IO` (constant of the missing `daos_errno.h`). -/
def DER_IO : Int := 2001
/-- Modelled from the spec: error kind `NOTLEADER` (constant of the missing `daos_errno.h`). -/
def DER_NOTLEADER : Int := 2008

/-- Outcome of a C function that returns an `int` code, hands back a value through an out
parameter on success, and may trip a `D_ASSERT`. -/
inductive Ret (α : Type) where
  | ok (v : α)
  | err (rc : Int)
  | assert_failed
deriving DecidableEq, Repr

/-- A `uuid_t` (16 bytes), read as a number. -/
abbrev uuid_t := Nat

/-! ### `permitted` -/

/-- The fields of `struct pool_attr` filled by `pool_attr_read`. -/
structure pool_attr where
  pa_uid : Nat
  pa_gid : Nat
  pa_mode : Nat
deriving DecidableEq, Repr

/-- Modelled from the spec: `DAOS_PC_MASK`, the mask of one capability triplet "of width
NBITS" (`DAOS_PC_NBITS` and `DAOS_PC_MASK` are macros of a header that is not under src/;
the width is the parameter `nbits`). -/
def DAOS_PC_MASK (nbits : Nat) : Nat := 2 ^ nbits - 1

/-- Function `permitted` (srv_pool.c:1677).  `nbits` is `DAOS_PC_NBITS`. -/
def permitted (nbits : Nat) (attr : pool_attr) (uid gid capas : Nat) : Bool :=
  let shift :=
    if uid = attr.pa_uid then nbits * 2      /- user -/
    else if gid = attr.pa_gid then nbits     /- group -/
    else 0                                   /- other -/
  let capas_permitted := (attr.pa_mode >>> shift) &&& DAOS_PC_MASK nbits
  (capas &&& capas_permitted) == capas

/-- The specification's precedence rule, in its own words: the index of the triplet that
applies to a requester — 2 (user) when the uid matches, else 1 (group) when the gid
matches, else 0 (other).  Triplet `k` of a mode occupies bits `k * nbits .. k * nbits +
nbits - 1`. -/
def spec_triplet_index (attr : pool_attr) (req_uid req_gid : Nat) : Nat :=
  if req_uid = attr.pa_uid then 2 else if req_gid = attr.pa_gid then 1 else 0

/-! ### `select_svc_ranks` -/

/-- Modelled from the spec: `daos_rank_list_find` (common library, not under src/): the
index of the first entry of the rank list equal to `rank`, if there is one. -/
def daos_rank_list_find : List Nat → Nat → Option Nat
  | [], _ => none
  | r :: rest, rank =>
    if r = rank then some 0 else (daos_rank_list_find rest rank).map (· + 1)

/-- The `for` loop of `select_svc_ranks` (srv_pool.c:429-438), started at index `i` with
the entries `target_addrs->rl_ranks[i..]` still to visit; `ranks` is the filled prefix
`ranks->rl_ranks[0..j)` (so `j = ranks.length`) and `rl_nr` is `ranks->rl_nr`. -/
def select_svc_ranks_loop (rl_nr : Nat) (i_rank_zero : Int) (selectable : Int) :
    Nat → List Nat → List Nat → List Nat
  | _, [], ranks => ranks
  | i, r :: rest, ranks =>
    if ranks.length = rl_nr then ranks
    else if (i : Int) = i_rank_zero ∧ selectable > 1 then
      select_svc_ranks_loop rl_nr i_rank_zero selectable (i + 1) rest ranks
    else
      select_svc_ranks_loop rl_nr i_rank_zero selectable (i + 1) rest (ranks ++ [r])

/-- Function `select_svc_ranks` (srv_pool.c:396).  `alloc_ok` tells whether `daos_rank_list_alloc`
returns a list; the result is the rank list stored in `*ranksp`.  The arguments `ndomains`
and `domains` are not read by the C function.  Rank lists are shorter than `2 ^ 31`, so
reading `rl_nr` into the `int selectable` keeps its value. -/
def select_svc_ranks (alloc_ok : Bool) (nreplicas : Int) (target_addrs : List Nat) :
    Ret (List Nat) :=
  if nreplicas ≤ 0 then .err (-DER_INVAL)
  else
    let found := daos_rank_list_find target_addrs 0
    let i_rank_zero : Int := match found with
      | some i => (i : Int)
      | none => -1
    let selectable : Int := (target_addrs.length : Int)
    let selectable : Int :=
      if found.isSome ∧ selectable > 1 then selectable - 1 else selectable
    let nreplicas : Int := if nreplicas > selectable then selectable else nreplicas
    if ¬ alloc_ok then .err (-DER_NOMEM)
    else
      let rl_nr := nreplicas.toNat
      let ranks := select_svc_ranks_loop rl_nr i_rank_zero selectable 0 target_addrs []
      if ranks.length = rl_nr then .ok ranks else .assert_failed

/-! ### Service registry and `pool_svc_lookup_leader` -/

/-- The `enum pool_svc_state`. -/
inductive pool_svc_state where
  | POOL_SVC_UP_EMPTY
  | POOL_SVC_UP
  | POOL_SVC_DRAINING
  | POOL_SVC_DOWN
deriving DecidableEq, Repr

/-- The fields of `struct pool_svc` the embedded functions read or write.  `ps_ref` is the
reference count of the registry entry; `sp_map_version` is the version of the cached map
`svc->ps_pool->sp_map`. -/
structure pool_svc where
  ps_uuid : uuid_t
  ps_ref : Int
  ps_stop : Bool
  ps_term : Nat
  ps_state : pool_svc_state
  ps_leader_ref : Int
  sp_map_version : Nat
deriving DecidableEq, Repr

/-- What `pool_svc_lookup` finds out about the DB file of a pool that has no registry
entry: the path could not be built, `stat` failed with `ENOENT`, `stat` failed with another
errno, or the file is there. -/
inductive rdb_stat where
  | path_nomem
  | enoent
  | other_errno
  | present
deriving DecidableEq, Repr

/-- Result of a registry lookup: the return code and, when an entry was found, the state
of that service object when the function returns. -/
structure lookup_result where
  rc : Int
  svc : Option pool_svc
deriving DecidableEq, Repr

/-- Function `pool_svc_lookup` (srv_pool.c:1125): `d_hash_rec_find` on the registry takes a
reference on the entry it finds. -/
def pool_svc_lookup (pool_svc_hash : List pool_svc) (st : rdb_stat) (uuid : uuid_t) :
    lookup_result :=
  match pool_svc_hash.find? (fun s => s.ps_uuid == uuid) with
  | none =>
    match st with
    | .enoent => { rc := -DER_NONEXIST, svc := none }
    | _ => { rc := -DER_NOTLEADER, svc := none }
  | some svc => { rc := 0, svc := some { svc with ps_ref := svc.ps_ref + 1 } }

/-- Function `pool_svc_put` (srv_pool.c:1178). -/
def pool_svc_put (svc : pool_svc) : pool_svc :=
  { svc with ps_ref := svc.ps_ref - 1 }

/-- Function `pool_svc_up` (srv_pool.c:1191). -/
def pool_svc_up (svc : pool_svc) : Bool :=
  !svc.ps_stop && svc.ps_state == pool_svc_state.POOL_SVC_UP

/-- Function `pool_svc_lookup_leader` (srv_pool.c:1203).  Setting the leader hint does not touch
the service object; a zero code of `pool_svc_lookup` always comes with a service. -/
def pool_svc_lookup_leader (pool_svc_hash : List pool_svc) (st : rdb_stat) (uuid : uuid_t) :
    lookup_result :=
  let r := pool_svc_lookup pool_svc_hash st uuid
  if r.rc ≠ 0 then r
  else
    match r.svc with
    | none => r
    | some svc =>
      if !pool_svc_up svc then
        { rc := -DER_NOTLEADER, svc := some (pool_svc_put svc) }
      else
        { rc := 0, svc := some { svc with ps_leader_ref := svc.ps_leader_ref + 1 } }

/-- Function `pool_svc_put_leader` (srv_pool.c:1228); `none` when the `D_ASSERTF` on the reference
count fails. -/
def pool_svc_put_leader (svc : pool_svc) : Option pool_svc :=
  if svc.ps_leader_ref > 0 then
    some (pool_svc_put { svc with ps_leader_ref := svc.ps_leader_ref - 1 })
  else none

/-! ### The replicated DB of one pool -/

/-- Constants and macros of headers that are not under src/, taken as parameters:
`DAOS_PC_NBITS` (width of a capability triplet), `DAOS_PC_EX` (the exclusive-open bit),
`pool_buf_size` (bytes of a map buffer with the given number of components) and the key
order of the handle KVS (`key_lt a b`: key `a` is stored before key `b`). -/
structure Params where
  DAOS_PC_NBITS : Nat
  DAOS_PC_EX : Nat
  pool_buf_size : Nat → Nat
  key_lt : uuid_t → uuid_t → Bool

/-- Committed contents of the RDB paths the handle operations read and write: the root
KVS entries `uid`, `gid`, `mode` (`attr`), `map_version`, `map_buffer` (of which only the
component count `pb_nr` is read here), `nhandles`, and the handle KVS as the list of its
records `(handle UUID, ph_capas)` in iteration order. -/
structure PoolDb where
  attr : pool_attr
  map_version : Nat
  pb_nr : Nat
  nhandles : Nat
  handles : List (uuid_t × Nat)
deriving DecidableEq, Repr

/-- The updates a handle operation appends to its transaction. -/
inductive TxOp where
  | update_nhandles (n : Nat)
  | update_handle (key : uuid_t) (capas : Nat)
  | delete_handle (key : uuid_t)
deriving DecidableEq, Repr

/-- Modelled from the spec: value stored under `key` in a KVS ("keyed KVS transactions"
of the RDB, which is not under src/). -/
def kvs_lookup (kvs : List (uuid_t × Nat)) (key : uuid_t) : Option Nat :=
  (kvs.find? (fun e => e.1 == key)).map (fun e => e.2)

/-- Modelled from the spec: a new record enters a KVS at the place its key order gives. -/
def kvs_insert (key_lt : uuid_t → uuid_t → Bool) :
    List (uuid_t × Nat) → uuid_t → Nat → List (uuid_t × Nat)
  | [], key, v => [(key, v)]
  | e :: rest, key, v =>
    if key_lt key e.1 then (key, v) :: e :: rest else e :: kvs_insert key_lt rest key v

/-- Modelled from the spec: `update` of a KVS overwrites the value of a key that is there
and inserts the record otherwise. -/
def kvs_update (key_lt : uuid_t → uuid_t → Bool) (kvs : List (uuid_t × Nat)) (key : uuid_t)
    (v : Nat) : List (uuid_t × Nat) :=
  if (kvs_lookup kvs key).isSome then kvs.map (fun e => if e.1 = key then (key, v) else e)
  else kvs_insert key_lt kvs key v

/-- Modelled from the spec: `delete` of a KVS removes the record of the key. -/
def kvs_delete (kvs : List (uuid_t × Nat)) (key : uuid_t) : List (uuid_t × Nat) :=
  kvs.filter (fun e => e.1 != key)

/-- Effect of one queued update on the committed state. -/
def tx_apply_op (p : Params) (db : PoolDb) : TxOp → PoolDb
  | .update_nhandles n => { db with nhandles := n }
  | .update_handle key capas => { db with handles := kvs_update p.key_lt db.handles key capas }
  | .delete_handle key => { db with handles := kvs_delete db.handles key }

/-- Modelled from the spec: `rdb_tx_commit` (RDB, not under src/): with a non-zero code
nothing is applied, otherwise the queued updates are applied in order, atomically. -/
def rdb_tx_commit (p : Params) (fault : Int) (db : PoolDb) (tx : List TxOp) : Int × PoolDb :=
  if fault ≠ 0 then (fault, db) else (0, tx.foldl (tx_apply_op p) db)

/-- Modelled from the spec: `rdb_tx_lookup` of a root-KVS entry that the pool metadata
always holds: the reported fault, or the stored value. -/
def rdb_tx_lookup_root (fault : Int) (stored : Nat) : Int × Nat :=
  if fault ≠ 0 then (fault, 0) else (0, stored)

/-- Modelled from the spec: `rdb_tx_lookup` in the handle KVS.  `-DER_NONEXIST` is what a
missing key gives, so a reported fault is any other non-zero code. -/
def rdb_tx_lookup_handle (fault : Int) (db : PoolDb) (key : uuid_t) : Int × Nat :=
  if fault ≠ 0 ∧ fault ≠ -DER_NONEXIST then (fault, 0)
  else
    match kvs_lookup db.handles key with
    | some capas => (0, capas)
    | none => (-DER_NONEXIST, 0)

/-- Modelled from the spec: `rdb_tx_fetch` with `RDB_PROBE_FIRST` on the handle KVS: the
value of the first record, `-DER_NONEXIST` on an empty KVS, or a reported fault. -/
def rdb_tx_fetch_first (fault : Int) (db : PoolDb) : Int × Nat :=
  if fault ≠ 0 ∧ fault ≠ -DER_NONEXIST then (fault, 0)
  else
    match db.handles with
    | e :: _ => (0, e.2)
    | [] => (-DER_NONEXIST, 0)

/-! ### `transfer_map_buf` -/

/-- Return codes of the collaborator calls of `transfer_map_buf`, in call order
(`rc_eventual_create` and `rc_eventual_wait` after `dss_abterr2der`; `status` is the code
the bulk callback delivers). -/
structure transfer_env where
  rc_lookup_map_version : Int := 0
  rc_lookup_map_buffer : Int := 0
  rc_bulk_get_len : Int := 0
  rc_bulk_create : Int := 0
  rc_eventual_create : Int := 0
  rc_bulk_transfer : Int := 0
  rc_eventual_wait : Int := 0
  status : Int := 0
deriving DecidableEq, Repr

/-- What `transfer_map_buf` leaves behind: its return code, the value it stored through
`required_buf_size` (if it stored one), and the length `bd_len` of the bulk PUT it started
with `crt_bulk_transfer` (if it started one). -/
structure transfer_result where
  rc : Int
  required_buf_size : Option Nat
  bulk_put : Option Nat
deriving DecidableEq, Repr

/-- Function `read_map_buf` (srv_pool.c:102): return code, `pb_nr` of the buffer, version. -/
def read_map_buf (rc_version rc_buffer : Int) (db : PoolDb) : Int × Nat × Nat :=
  let (rc, ver) := rdb_tx_lookup_root rc_version db.map_version
  if rc ≠ 0 then (rc, 0, 0)
  else
    let (rc, nr) := rdb_tx_lookup_root rc_buffer db.pb_nr
    if rc ≠ 0 then (rc, 0, 0)
    else (0, nr, ver)

/-- Function `transfer_map_buf` (srv_pool.c:1768).  `remote_bulk_size` is the length of the client's
bulk handle.  `required_buf_size` points to a `uint32_t`, so the `size_t` stored through it
is reduced modulo `2 ^ 32`. -/
def transfer_map_buf (p : Params) (env : transfer_env) (svc : pool_svc) (db : PoolDb)
    (remote_bulk_size : Nat) : transfer_result :=
  let (rc, pb_nr, map_version) :=
    read_map_buf env.rc_lookup_map_version env.rc_lookup_map_buffer db
  if rc ≠ 0 then { rc := rc, required_buf_size := none, bulk_put := none }
  else if map_version ≠ svc.sp_map_version then
    { rc := - DER_IO, required_buf_size := none, bulk_put := none }
  else
    let map_buf_size := p.pool_buf_size pb_nr
    if env.rc_bulk_get_len ≠ 0 then
      { rc := env.rc_bulk_get_len, required_buf_size := none, bulk_put := none }
    else if remote_bulk_size < map_buf_size then
      { rc := -DER_TRUNC, required_buf_size := some (map_buf_size % 2 ^ 32), bulk_put := none }
    else if env.rc_bulk_create ≠ 0 then
      { rc := env.rc_bulk_create, required_buf_size := none, bulk_put := none }
    else if env.rc_eventual_create ≠ 0 then
      { rc := env.rc_eventual_create, required_buf_size := none, bulk_put := none }
    else if env.rc_bulk_transfer ≠ 0 then
      { rc := env.rc_bulk_transfer, required_buf_size := none, bulk_put := none }
    else if env.rc_eventual_wait ≠ 0 then
      { rc := env.rc_eventual_wait, required_buf_size := none, bulk_put := some map_buf_size }
    else
      { rc := env.status, required_buf_size := none, bulk_put := some map_buf_size }

/-! ### CONNECT -/

/-- Function `pool_attr_read` (srv_pool.c:1528): three root lookups, each with its fault. -/
def pool_attr_read (rc_uid rc_gid rc_mode : Int) (db : PoolDb) : Int × pool_attr :=
  let (rc, uid) := rdb_tx_lookup_root rc_uid db.attr.pa_uid
  if rc ≠ 0 then (rc, ⟨0, 0, 0⟩)
  else
    let (rc, gid) := rdb_tx_lookup_root rc_gid db.attr.pa_gid
    if rc ≠ 0 then (rc, ⟨uid, 0, 0⟩)
    else
      let (rc, mode) := rdb_tx_lookup_root rc_mode db.attr.pa_mode
      if rc ≠ 0 then (rc, ⟨uid, gid, 0⟩)
      else (0, ⟨uid, gid, mode⟩)

/-- Function `pool_connect_bcast` (srv_pool.c:1702): the codes of `crt_group_rank`,
`bcast_create` and `dss_rpc_send`, then the code `tco_rc` the targets report. -/
def pool_connect_bcast (rc_group_rank rc_bcast_create rc_rpc_send tco_rc : Int) : Int :=
  if rc_group_rank ≠ 0 then rc_group_rank
  else if rc_bcast_create ≠ 0 then rc_bcast_create
  else if rc_rpc_send ≠ 0 then rc_rpc_send
  else if tco_rc ≠ 0 then - DER_IO
  else 0

/-- Return codes of the collaborator calls of `ds_pool_connect_handler`, in call order;
`st` is what `pool_svc_lookup` learns about the DB file when the pool is not registered,
`rc_iv_ns` the code of `ds_iv_ns_create` or `ds_iv_global_ns_get`, whichever is called. -/
structure connect_env where
  st : rdb_stat := rdb_stat.present
  rc_iv_ns : Int := 0
  rc_rebuild_query : Int := 0
  rc_tx_begin : Int := 0
  rc_lookup_handle : Int := 0
  rc_lookup_uid : Int := 0
  rc_lookup_gid : Int := 0
  rc_lookup_mode : Int := 0
  transfer : transfer_env := {}
  rc_lookup_nhandles : Int := 0
  rc_fetch_first : Int := 0
  rc_group_rank : Int := 0
  rc_bcast_create : Int := 0
  rc_rpc_send : Int := 0
  tco_rc : Int := 0
  rc_update_nhandles : Int := 0
  rc_update_handle : Int := 0
  rc_commit : Int := 0
deriving DecidableEq, Repr

/-- The fields of `struct pool_connect_in` the handler reads; `pci_map_bulk_len` is the
length of the bulk handle `pci_map_bulk`. -/
structure pool_connect_in where
  pi_uuid : uuid_t
  pi_hdl : uuid_t
  pci_uid : Nat
  pci_gid : Nat
  pci_capas : Nat
  pci_map_bulk_len : Nat
deriving DecidableEq, Repr

/-- What one CONNECT leaves behind: the reply code `po_rc`, the reply field
`pco_map_buf_size` if it was written, the result of `transfer_map_buf` if it was called,
the code of `pool_connect_bcast` if it was called, and the committed DB afterwards. -/
structure connect_result where
  po_rc : Int
  pco_map_buf_size : Option Nat
  transfer : Option transfer_result
  bcast : Option Int
  db : PoolDb
deriving DecidableEq, Repr

/-- The block "Take care of exclusive handles" of `ds_pool_connect_handler`
(srv_pool.c:1965-1985), given the value of `nhandles` just read: the code the handler
leaves with, or 0 when it goes on to the broadcast. -/
def connect_check_exclusive (p : Params) (rc_fetch_first : Int) (db : PoolDb)
    (pci_capas nhandles : Nat) : Int :=
  if nhandles ≠ 0 then
    if pci_capas &&& p.DAOS_PC_EX ≠ 0 then -DER_BUSY
    else
      let r := rdb_tx_fetch_first rc_fetch_first db
      if r.1 ≠ 0 then r.1
      else if r.2 &&& p.DAOS_PC_EX ≠ 0 then -DER_BUSY
      else 0
  else 0

/-- The part of `ds_pool_connect_handler` that adds the handle (srv_pool.c:1960-2009), run
after a successful map transfer `tr` when the handle is not there yet: read `nhandles`,
check exclusivity, broadcast to the targets, queue the two updates, commit. -/
def connect_add_handle (p : Params) (env : connect_env) (db : PoolDb) (req : pool_connect_in)
    (tr : transfer_result) : connect_result :=
  let reply (rc : Int) (bc : Option Int) : connect_result :=
    { po_rc := rc, pco_map_buf_size := tr.required_buf_size, transfer := some tr,
      bcast := bc, db := db }
  let r := rdb_tx_lookup_root env.rc_lookup_nhandles db.nhandles
  if r.1 ≠ 0 then reply r.1 none
  else
    let busy := connect_check_exclusive p env.rc_fetch_first db req.pci_capas r.2
    if busy ≠ 0 then reply busy none
    else
      let bc := pool_connect_bcast env.rc_group_rank env.rc_bcast_create
        env.rc_rpc_send env.tco_rc
      if bc ≠ 0 then reply bc (some bc)
      else
        let nhandles := (r.2 + 1) % 2 ^ 32
        if env.rc_update_nhandles ≠ 0 then reply env.rc_update_nhandles (some bc)
        else if env.rc_update_handle ≠ 0 then reply env.rc_update_handle (some bc)
        else
          let tx := [TxOp.update_nhandles nhandles,
            TxOp.update_handle req.pi_hdl req.pci_capas]
          let c := rdb_tx_commit p env.rc_commit db tx
          { po_rc := c.1, pco_map_buf_size := tr.required_buf_size, transfer := some tr,
            bcast := some bc, db := c.2 }

/-- Function `ds_pool_connect_handler` (srv_pool.c:1857); its last part is
`connect_add_handle`.  Every path that leaves before `rdb_tx_commit` ends the transaction
without committing, so the DB stays as it was.  The leader reference taken at entry is
dropped again at `out_svc`. -/
def ds_pool_connect_handler (p : Params) (env : connect_env) (pool_svc_hash : List pool_svc)
    (db : PoolDb) (req : pool_connect_in) : connect_result :=
  let reply (rc : Int) (tr : Option transfer_result) : connect_result :=
    { po_rc := rc, pco_map_buf_size := tr.bind (fun t => t.required_buf_size),
      transfer := tr, bcast := none, db := db }
  let lk := pool_svc_lookup_leader pool_svc_hash env.st req.pi_uuid
  if lk.rc ≠ 0 then reply lk.rc none
  else
    match lk.svc with
    | none => reply lk.rc none
    | some svc =>
      if env.rc_iv_ns ≠ 0 then reply env.rc_iv_ns none
      else if env.rc_rebuild_query ≠ 0 then reply env.rc_rebuild_query none
      else if env.rc_tx_begin ≠ 0 then reply env.rc_tx_begin none
      else
        /- Check existing pool handles. -/
        let lh := rdb_tx_lookup_handle env.rc_lookup_handle db req.pi_hdl
        if lh.1 = 0 ∧ lh.2 ≠ req.pci_capas then reply (-DER_EXIST) none
        else if lh.1 ≠ 0 ∧ lh.1 ≠ -DER_NONEXIST then reply lh.1 none
        else
          let skip_update : Bool := decide (lh.1 = 0)
          let ar := pool_attr_read env.rc_lookup_uid env.rc_lookup_gid env.rc_lookup_mode db
          if ar.1 ≠ 0 then reply ar.1 none
          else if !permitted p.DAOS_PC_NBITS ar.2 req.pci_uid req.pci_gid req.pci_capas then
            reply (-DER_NO_PERM) none
          else
            let tr := transfer_map_buf p env.transfer svc db req.pci_map_bulk_len
            if tr.rc ≠ 0 then reply tr.rc (some tr)
            else if skip_update then reply 0 (some tr)
            else connect_add_handle p env db req tr

/-! ### DISCONNECT and EVICT -/

/-- Function `pool_disconnect_bcast` (srv_pool.c:2025). -/
def pool_disconnect_bcast (rc_bcast_create rc_rpc_send tdo_rc : Int) : Int :=
  if rc_bcast_create ≠ 0 then rc_bcast_create
  else if rc_rpc_send ≠ 0 then rc_rpc_send
  else if tdo_rc ≠ 0 then - DER_IO
  else 0

/-- Return codes of the collaborator calls of `pool_disconnect_hdls`, in call order;
`rc_delete` lists the codes of the successive `rdb_tx_delete` calls (a call beyond the end
of the list succeeds). -/
structure disconnect_hdls_env where
  rc_cont_close : Int := 0
  rc_bcast_create : Int := 0
  rc_rpc_send : Int := 0
  tdo_rc : Int := 0
  rc_lookup_nhandles : Int := 0
  rc_delete : List Int := []
  rc_update_nhandles : Int := 0
deriving DecidableEq, Repr

/-- The `for` loop of `pool_disconnect_hdls` (srv_pool.c:2098-2105) from index `i` on:
each handle gets a `rdb_tx_delete` appended to the transaction, until one call fails. -/
def pool_disconnect_hdls_loop (rc_delete : List Int) :
    Nat → List uuid_t → List TxOp → Int × List TxOp
  | _, [], tx => (0, tx)
  | i, h :: rest, tx =>
    if rc_delete.getD i 0 ≠ 0 then (rc_delete.getD i 0, tx)
    else pool_disconnect_hdls_loop rc_delete (i + 1) rest (tx ++ [TxOp.delete_handle h])

/-- Function `pool_disconnect_hdls` (srv_pool.c:2063), called with a non-empty array by
both callers (its `D_ASSERTF`).  Returns the code and the transaction with the updates
appended so far.  The counter is a `uint32_t`: the subtraction is modulo `2 ^ 32`. -/
def pool_disconnect_hdls (env : disconnect_hdls_env) (db : PoolDb) (tx : List TxOp)
    (hdl_uuids : List uuid_t) : Int × List TxOp :=
  if env.rc_cont_close ≠ 0 then (env.rc_cont_close, tx)
  else
    let bc := pool_disconnect_bcast env.rc_bcast_create env.rc_rpc_send env.tdo_rc
    if bc ≠ 0 then (bc, tx)
    else
      let (rc, nhandles) := rdb_tx_lookup_root env.rc_lookup_nhandles db.nhandles
      if rc ≠ 0 then (rc, tx)
      else
        let nhandles := (nhandles + (2 ^ 32 - hdl_uuids.length % 2 ^ 32)) % 2 ^ 32
        let (rc, tx) := pool_disconnect_hdls_loop env.rc_delete 0 hdl_uuids tx
        if rc ≠ 0 then (rc, tx)
        else if env.rc_update_nhandles ≠ 0 then (env.rc_update_nhandles, tx)
        else (0, tx ++ [TxOp.update_nhandles nhandles])

/-- Reply code of a handler and the committed DB when it has replied. -/
structure handler_result where
  po_rc : Int
  db : PoolDb
deriving DecidableEq, Repr

/-- Return codes of the collaborator calls of `ds_pool_disconnect_handler`. -/
structure disconnect_env where
  st : rdb_stat := rdb_stat.present
  rc_tx_begin : Int := 0
  rc_lookup_handle : Int := 0
  hdls : disconnect_hdls_env := {}
  rc_commit : Int := 0
deriving DecidableEq, Repr

/-- Function `ds_pool_disconnect_handler` (srv_pool.c:2117). -/
def ds_pool_disconnect_handler (p : Params) (env : disconnect_env)
    (pool_svc_hash : List pool_svc) (db : PoolDb) (pi_uuid pi_hdl : uuid_t) :
    handler_result :=
  let lk := pool_svc_lookup_leader pool_svc_hash env.st pi_uuid
  if lk.rc ≠ 0 then { po_rc := lk.rc, db := db }
  else if env.rc_tx_begin ≠ 0 then { po_rc := env.rc_tx_begin, db := db }
  else
    let (rc, _) := rdb_tx_lookup_handle env.rc_lookup_handle db pi_hdl
    if rc ≠ 0 then
      { po_rc := if rc = -DER_NONEXIST then 0 else rc, db := db }
    else
      let (rc, tx) := pool_disconnect_hdls env.hdls db [] [pi_hdl]
      if rc ≠ 0 then { po_rc := rc, db := db }
      else
        let (rc, db') := rdb_tx_commit p env.rc_commit db tx
        { po_rc := rc, db := db' }

/-- The `struct evict_iter_arg`: the array (one list entry per 16-byte slot, zero-filled
by `D_ALLOC`), its size in bytes, and the number of handles stored. -/
structure evict_iter_arg where
  eia_hdl_uuids : List uuid_t
  eia_hdl_uuids_size : Nat
  eia_n_hdl_uuids : Nat
deriving DecidableEq, Repr

/-- Function `evict_iter_cb` (srv_pool.c:2564) on a record whose key is a `uuid_t` and
whose value is a `struct pool_hdl` (the records of the handle KVS: the size check of the
callback passes).  `alloc_ok` tells whether `D_ALLOC` succeeds should the array have to
grow.  A write past the end of the array is reported as a failed assertion. -/
def evict_iter_cb (alloc_ok : Bool) (arg : evict_iter_arg) (key : uuid_t) :
    Ret evict_iter_arg :=
  if ¬ (arg.eia_hdl_uuids_size > 16) then .assert_failed
  else
    let grow : Bool := decide (16 * (arg.eia_n_hdl_uuids + 1) > arg.eia_hdl_uuids_size)
    if grow ∧ ¬ alloc_ok then .err (-DER_NOMEM)
    else
      let arg : evict_iter_arg :=
        if grow then
          { arg with
            eia_hdl_uuids := arg.eia_hdl_uuids ++ List.replicate arg.eia_hdl_uuids.length 0,
            eia_hdl_uuids_size := arg.eia_hdl_uuids_size * 2 }
        else arg
      if arg.eia_n_hdl_uuids < arg.eia_hdl_uuids.length then
        .ok { arg with
              eia_hdl_uuids := arg.eia_hdl_uuids.set arg.eia_n_hdl_uuids key,
              eia_n_hdl_uuids := arg.eia_n_hdl_uuids + 1 }
      else .assert_failed

/-- Modelled from the spec: `rdb_tx_iterate` (RDB, not under src/) over the records still
to visit, calling `evict_iter_cb` on each key in order and stopping at the first callback
that does not return zero; `alloc_ok` lists, per callback, whether an allocation in it
would succeed (allocations beyond the end of the list succeed). -/
def rdb_tx_iterate_evict (alloc_ok : List Bool) :
    Nat → List (uuid_t × Nat) → evict_iter_arg → Ret evict_iter_arg
  | _, [], arg => .ok arg
  | i, e :: rest, arg =>
    match evict_iter_cb (alloc_ok.getD i true) arg e.1 with
    | .ok arg' => rdb_tx_iterate_evict alloc_ok (i + 1) rest arg'
    | .err rc => .err rc
    | .assert_failed => .assert_failed

/-- Return codes of the collaborator calls of `ds_pool_evict_handler`: `alloc_first_ok`
for the `D_ALLOC` of `find_hdls_to_evict`, `alloc_ok` for those of the callbacks,
`rc_iterate` for a failure of `rdb_tx_iterate` itself. -/
structure evict_env where
  st : rdb_stat := rdb_stat.present
  rc_tx_begin : Int := 0
  alloc_first_ok : Bool := true
  alloc_ok : List Bool := []
  rc_iterate : Int := 0
  hdls : disconnect_hdls_env := {}
  rc_commit : Int := 0
deriving DecidableEq, Repr

/-- Function `find_hdls_to_evict` (srv_pool.c:2607): on success the array, its size and
the count, as one `evict_iter_arg`. -/
def find_hdls_to_evict (env : evict_env) (db : PoolDb) : Ret evict_iter_arg :=
  if ¬ env.alloc_first_ok then .err (-DER_NOMEM)
  else
    let arg : evict_iter_arg :=
      { eia_hdl_uuids := List.replicate 4 0, eia_hdl_uuids_size := 16 * 4,
        eia_n_hdl_uuids := 0 }
    if env.rc_iterate ≠ 0 then .err env.rc_iterate
    else rdb_tx_iterate_evict env.alloc_ok 0 db.handles arg

/-- Function `ds_pool_evict_handler` (srv_pool.c:2633); `none` when an assertion stops the
server before a reply is sent.  As in the source, the code of `pool_disconnect_hdls` is
overwritten by that of `rdb_tx_commit`, which always runs once the handles are listed. -/
def ds_pool_evict_handler (p : Params) (env : evict_env) (pool_svc_hash : List pool_svc)
    (db : PoolDb) (pi_uuid : uuid_t) : Option handler_result :=
  let lk := pool_svc_lookup_leader pool_svc_hash env.st pi_uuid
  if lk.rc ≠ 0 then some { po_rc := lk.rc, db := db }
  else if env.rc_tx_begin ≠ 0 then some { po_rc := env.rc_tx_begin, db := db }
  else
    match find_hdls_to_evict env db with
    | .assert_failed => none
    | .err rc => some { po_rc := rc, db := db }
    | .ok arg =>
      let hdl_uuids := arg.eia_hdl_uuids.take arg.eia_n_hdl_uuids
      let (_, tx) :=
        if arg.eia_n_hdl_uuids > 0 then pool_disconnect_hdls env.hdls db [] hdl_uuids
        else (0, [])
      let (rc, db') := rdb_tx_commit p env.rc_commit db tx
      some { po_rc := rc, db := db' }

/-! ### Sequences of handle operations -/

/-- One CONNECT, DISCONNECT or EVICT request together with the registry it meets and the
codes the collaborators report while it is served. -/
inductive PoolOp where
  | connect (env : connect_env) (pool_svc_hash : List pool_svc) (req : pool_connect_in)
  | disconnect (env : disconnect_env) (pool_svc_hash : List pool_svc) (pi_uuid pi_hdl : uuid_t)
  | evict (env : evict_env) (pool_svc_hash : List pool_svc) (pi_uuid : uuid_t)

/-- The committed DB after a request has been served (unchanged if the server stopped on
an assertion). -/
def pool_step (p : Params) (db : PoolDb) : PoolOp → PoolDb
  | .connect env hash req => (ds_pool_connect_handler p env hash db req).db
  | .disconnect env hash pi_uuid pi_hdl =>
    (ds_pool_disconnect_handler p env hash db pi_uuid pi_hdl).db
  | .evict env hash pi_uuid =>
    match ds_pool_evict_handler p env hash db pi_uuid with
    | some r => r.db
    | none => db

/-- The committed DB after a sequence of requests served one after the other. -/
def pool_run (p : Params) (db : PoolDb) (ops : List PoolOp) : PoolDb :=
  ops.foldl (pool_step p) db

/-! ### Invariants and side conditions used in the theorems -/

/-- What every state reached from a fresh pool in `n` requests satisfies: the handle KVS
has at most `nhandles` records, `nhandles` is at most `n`, and a record with the exclusive
bit is the only record. -/
def handles_inv (p : Params) (n : Nat) (db : PoolDb) : Prop :=
  db.handles.length ≤ db.nhandles ∧ db.nhandles ≤ n ∧
    ∀ e ∈ db.handles, e.2 &&& p.DAOS_PC_EX ≠ 0 → db.handles = [e]

/-- What `rdb_tx_iterate` keeps true of the argument of `evict_iter_cb` after the keys
`seen` have been visited: the size is 16 bytes per slot, there are at least four slots,
and the first `eia_n_hdl_uuids` slots hold the visited keys in order. -/
def evict_arg_ok (arg : evict_iter_arg) (seen : List uuid_t) : Prop :=
  arg.eia_hdl_uuids_size = 16 * arg.eia_hdl_uuids.length ∧
  4 ≤ arg.eia_hdl_uuids.length ∧
  arg.eia_n_hdl_uuids = seen.length ∧
  arg.eia_hdl_uuids.take arg.eia_n_hdl_uuids = seen

/-- No call made by `pool_attr_read` or `transfer_map_buf` on behalf of a CONNECT reports
the code `code` as its own failure. -/
def connect_env.reads_never (env : connect_env) (code : Int) : Prop :=
  env.rc_lookup_uid ≠ code ∧ env.rc_lookup_gid ≠ code ∧ env.rc_lookup_mode ≠ code ∧
  env.transfer.rc_lookup_map_version ≠ code ∧ env.transfer.rc_lookup_map_buffer ≠ code ∧
  env.transfer.rc_bulk_get_len ≠ code ∧ env.transfer.rc_bulk_create ≠ code ∧
  env.transfer.rc_eventual_create ≠ code ∧ env.transfer.rc_bulk_transfer ≠ code ∧
  env.transfer.rc_eventual_wait ≠ code ∧ env.transfer.status ≠ code

/-! ### Sample values (used to instantiate the theorems) -/

/-- A sample choice of the parameters: triplets of 3 bits, exclusive bit `1 <<< 2`, a map
buffer of 32 bytes plus 24 per component, handle keys in ascending order. -/
def sample_params : Params :=
  { DAOS_PC_NBITS := 3, DAOS_PC_EX := 4, pool_buf_size := fun nr => 32 + 24 * nr,
    key_lt := fun a b => decide (a < b) }

/-- A sample service: pool 7, leader of term 3, UP, cached map version 1. -/
def sample_svc : pool_svc :=
  { ps_uuid := 7, ps_ref := 1, ps_stop := false, ps_term := 3,
    ps_state := pool_svc_state.POOL_SVC_UP, ps_leader_ref := 0, sp_map_version := 1 }

/-- The DB of a freshly created sample pool: uid 1000, gid 1000, mode 0x1FF, map version
1, a map of 5 components, no handle. -/
def sample_db : PoolDb :=
  { attr := { pa_uid := 1000, pa_gid := 1000, pa_mode := 0x1FF }, map_version := 1,
    pb_nr := 5, nhandles := 0, handles := [] }

/-- Sample CONNECT request: pool 7, the given handle and capability bits, uid and gid of
the pool owner, a client buffer of 152 bytes. -/
def sample_connect (hdl capas : Nat) : pool_connect_in :=
  { pi_uuid := 7, pi_hdl := hdl, pci_uid := 1000, pci_gid := 1000, pci_capas := capas,
    pci_map_bulk_len := 152 }

/-! ### Pool map buffer and the metadata of a new pool (CREATE) -/

/-- Modelled from the spec: error kind `PROTO` (constant of the missing `daos_errno.h`). -/
def DER_PROTO : Int := 1014
/-- Modelled from the spec: error kind `CANCELED` (constant of the missing `daos_errno.h`). -/
def DER_CANCELED : Int := 1018
/-- Modelled from the spec: code `DER_UNINIT`, which `pool_svc_step_up` returns with a
positive sign for a new DB (constant of the missing `daos_errno.h`). -/
def DER_UNINIT : Int := 1015
/-- Modelled from the spec: error kind of a full buffer (constant of the missing
`daos_errno.h`). -/
def DER_NOSPACE : Int := 1007

/-- The component types `init_pool_metadata` uses (`PO_COMP_TP_*` of the missing
`pool_map.h`). -/
inductive pool_comp_type where
  | PO_COMP_TP_RACK
  | PO_COMP_TP_NODE
  | PO_COMP_TP_TARGET
deriving DecidableEq, Repr

/-- Modelled from the spec: the status of a component, "a small enum {UP, UP_IN, DOWN,
DOWN_OUT, NEW}" (`PO_COMP_ST_*` of the missing `pool_map.h`). -/
inductive pool_comp_state where
  | PO_COMP_ST_NEW
  | PO_COMP_ST_UP
  | PO_COMP_ST_UPIN
  | PO_COMP_ST_DOWN
  | PO_COMP_ST_DOWNOUT
deriving DecidableEq, Repr

/-- The fields of `struct pool_component` that `init_pool_metadata` fills. -/
structure pool_component where
  co_type : pool_comp_type
  co_status : pool_comp_state
  co_index : Nat
  co_id : Nat
  co_rank : Nat
  co_ver : Nat
  co_fseq : Nat
  co_nr : Nat
deriving DecidableEq, Repr

/-- A `struct pool_buf`: `pb_nr` component slots were allocated, `pb_comps` are the
components attached so far, in order. -/
structure pool_buf where
  pb_nr : Nat
  pb_comps : List pool_component
deriving DecidableEq, Repr

/-- Modelled from the spec: `pool_buf_attach` (pool map codec, not under src/) with one
component: the component is stored behind those already attached when a slot is left;
`fault` is any other refusal of the codec. -/
def pool_buf_attach (fault : Int) (buf : pool_buf) (comp : pool_component) : Int × pool_buf :=
  if fault ≠ 0 then (fault, buf)
  else if buf.pb_nr < buf.pb_comps.length + 1 then (-DER_NOSPACE, buf)
  else (0, { buf with pb_comps := buf.pb_comps ++ [comp] })

/-- A loop of `init_pool_metadata` that builds one component per round and attaches it,
leaving at the first attach that fails: `comps` are the components of the rounds still to
run, `k` counts the attach calls made so far (`rc_attach` lists their faults). -/
def attach_each (rc_attach : List Int) : Nat → pool_buf → List pool_component → Int × pool_buf
  | _, buf, [] => (0, buf)
  | k, buf, comp :: rest =>
    let r := pool_buf_attach (rc_attach.getD k 0) buf comp
    if r.1 ≠ 0 then r else attach_each rc_attach (k + 1) r.2 rest

/-- Modelled from the spec: `qsort` with `uuid_compare_cb` (C library and libuuid): the
array in ascending order of `uuid_compare`, which is the order of the UUIDs read as
numbers. -/
def qsort_uuids (uuids : List uuid_t) : List uuid_t :=
  uuids.insertionSort (fun a b => a ≤ b)

/-- Modelled from the spec: `bsearch` with `uuid_compare_cb` in the sorted array, as the
offset `p - uuids` of the element found. -/
def bsearch_uuids (key : uuid_t) (uuids : List uuid_t) : Nat :=
  uuids.indexOf key

/-- The domain component of round `i` (srv_pool.c:291-298); `map_version` is 1. -/
def domain_comp (domains : List Nat) (i : Nat) : pool_component :=
  { co_type := pool_comp_type.PO_COMP_TP_RACK, co_status := pool_comp_state.PO_COMP_ST_UP,
    co_index := i, co_id := i, co_rank := 0, co_ver := 1, co_fseq := 1,
    co_nr := domains.getD i 0 }

/-- The node component of round `i` (srv_pool.c:307-317). -/
def node_comp (dss_nxstreams : Nat) (target_uuids uuids : List uuid_t)
    (target_addrs : List Nat) (i : Nat) : pool_component :=
  { co_type := pool_comp_type.PO_COMP_TP_NODE, co_status := pool_comp_state.PO_COMP_ST_UP,
    co_index := i, co_id := bsearch_uuids (target_uuids.getD i 0) uuids,
    co_rank := target_addrs.getD i 0, co_ver := 1, co_fseq := 1, co_nr := dss_nxstreams }

/-- The target component of rounds `i`, `j` (srv_pool.c:329-336); `co_id` is a
`uint32_t`. -/
def target_comp (dss_nxstreams : Nat) (target_addrs : List Nat) (i j : Nat) : pool_component :=
  { co_type := pool_comp_type.PO_COMP_TP_TARGET, co_status := pool_comp_state.PO_COMP_ST_UP,
    co_index := j, co_id := (i * dss_nxstreams + j) % 2 ^ 32,
    co_rank := target_addrs.getD i 0, co_ver := 1, co_fseq := 1, co_nr := 1 }

/-- Faults of the collaborator calls of `init_pool_metadata`, in call order. -/
structure init_md_env where
  alloc_map_buf_ok : Bool := true
  alloc_uuids_ok : Bool := true
  rc_attach : List Int := []
  rc_update_uid : Int := 0
  rc_update_gid : Int := 0
  rc_update_mode : Int := 0
  rc_update_map_version : Int := 0
  rc_update_map_buffer : Int := 0
  rc_update_map_uuids : Int := 0
  rc_update_nhandles : Int := 0
  rc_create_handles : Int := 0
  rc_create_user : Int := 0
deriving DecidableEq, Repr

/-- The part of `init_pool_metadata` that fills the pool map buffer (srv_pool.c:274-342,
after both allocations): the three loops, each written as the list of the components its
rounds build, attached one by one.  `uuids` is the sorted copy of the target UUIDs.  The
slot count passed to `pool_buf_alloc` is an `unsigned int`. -/
def init_pool_map_buf (dss_nxstreams : Nat) (rc_attach : List Int) (nnodes : Nat)
    (target_uuids uuids : List uuid_t) (target_addrs : List Nat) (ndomains : Nat)
    (domains : List Nat) : Int × pool_buf :=
  let ntargets := nnodes * dss_nxstreams % 2 ^ 32
  let map_buf : pool_buf := { pb_nr := (ndomains + nnodes + ntargets) % 2 ^ 32, pb_comps := [] }
  /- fill domains -/
  let r := attach_each rc_attach 0 map_buf ((List.range ndomains).map (domain_comp domains))
  if r.1 ≠ 0 then r
  else
    /- fill nodes -/
    let r := attach_each rc_attach ndomains r.2
      ((List.range nnodes).map (node_comp dss_nxstreams target_uuids uuids target_addrs))
    if r.1 ≠ 0 then r
    else
      /- fill targets -/
      attach_each rc_attach (ndomains + nnodes) r.2
        ((List.range nnodes).flatMap fun i =>
          (List.range dss_nxstreams).map (target_comp dss_nxstreams target_addrs i))

/-- The updates that CREATE and UPDATE append to a transaction on the root KVS. -/
inductive MdOp where
  | create_root
  | update_uid (v : Nat)
  | update_gid (v : Nat)
  | update_mode (v : Nat)
  | update_map_version (v : Nat)
  | update_map_buffer (buf : pool_buf)
  | update_map_uuids (uuids : List uuid_t)
  | update_nhandles (n : Nat)
  | create_handles
  | create_user
  | cont_init_metadata
deriving DecidableEq, Repr

/-- Committed contents of the root KVS of a pool, every entry being there or not: the
root KVS itself, the attributes, the map, the sorted target UUIDs, the handle counter,
the (empty when created) handle and user-attribute KVSs, the container metadata. -/
structure MdDb where
  root : Bool := false
  uid : Option Nat := none
  gid : Option Nat := none
  mode : Option Nat := none
  map_version : Option Nat := none
  map_buffer : Option pool_buf := none
  map_uuids : Option (List uuid_t) := none
  nhandles : Option Nat := none
  handles : Option (List (uuid_t × Nat)) := none
  user : Option (List (List Nat × List Nat)) := none
  cont_metadata : Bool := false
deriving DecidableEq, Repr

/-- Effect of one queued update on the committed root KVS. -/
def md_apply_op (db : MdDb) : MdOp → MdDb
  | .create_root => { db with root := true }
  | .update_uid v => { db with uid := some v }
  | .update_gid v => { db with gid := some v }
  | .update_mode v => { db with mode := some v }
  | .update_map_version v => { db with map_version := some v }
  | .update_map_buffer buf => { db with map_buffer := some buf }
  | .update_map_uuids uuids => { db with map_uuids := some uuids }
  | .update_nhandles n => { db with nhandles := some n }
  | .create_handles => { db with handles := some [] }
  | .create_user => { db with user := some [] }
  | .cont_init_metadata => { db with cont_metadata := true }

/-- Modelled from the spec: `rdb_tx_commit` on the root KVS: with a non-zero code nothing
is applied, otherwise the queued updates are applied in order. -/
def md_tx_commit (fault : Int) (db : MdDb) (tx : List MdOp) : Int × MdDb :=
  if fault ≠ 0 then (fault, db) else (0, tx.foldl md_apply_op db)

/-- Function `write_map_buf` (srv_pool.c:77): the code and the transaction with the
updates appended. -/
def write_map_buf (rc_version rc_buffer : Int) (tx : List MdOp) (buf : pool_buf)
    (version : Nat) : Int × List MdOp :=
  if rc_version ≠ 0 then (rc_version, tx)
  else if rc_buffer ≠ 0 then (rc_buffer, tx ++ [MdOp.update_map_version version])
  else (0, tx ++ [MdOp.update_map_version version, MdOp.update_map_buffer buf])

/-- Function `init_pool_metadata` (srv_pool.c:256): the code, the transaction with the
updates appended so far, and the map buffer as built (before it is freed). -/
def init_pool_metadata (dss_nxstreams : Nat) (env : init_md_env) (tx : List MdOp)
    (uid gid mode nnodes : Nat) (target_uuids : List uuid_t) (target_addrs : List Nat)
    (ndomains : Nat) (domains : List Nat) : Int × List MdOp × pool_buf :=
  let map_version := 1
  let nhandles := 0
  let none_buf : pool_buf := { pb_nr := 0, pb_comps := [] }
  if !env.alloc_map_buf_ok then (-DER_NOMEM, tx, none_buf)
  else if !env.alloc_uuids_ok then (-DER_NOMEM, tx, none_buf)
  else
    let uuids := qsort_uuids (target_uuids.take nnodes)
    let b := init_pool_map_buf dss_nxstreams env.rc_attach nnodes target_uuids uuids
      target_addrs ndomains domains
    if b.1 ≠ 0 then (b.1, tx, b.2)
    else if env.rc_update_uid ≠ 0 then (env.rc_update_uid, tx, b.2)
    else
      let tx := tx ++ [MdOp.update_uid uid]
      if env.rc_update_gid ≠ 0 then (env.rc_update_gid, tx, b.2)
      else
        let tx := tx ++ [MdOp.update_gid gid]
        if env.rc_update_mode ≠ 0 then (env.rc_update_mode, tx, b.2)
        else
          let tx := tx ++ [MdOp.update_mode mode]
          let w := write_map_buf env.rc_update_map_version env.rc_update_map_buffer tx b.2
            map_version
          if w.1 ≠ 0 then (w.1, w.2, b.2)
          else if env.rc_update_map_uuids ≠ 0 then (env.rc_update_map_uuids, w.2, b.2)
          else
            let tx := w.2 ++ [MdOp.update_map_uuids uuids]
            if env.rc_update_nhandles ≠ 0 then (env.rc_update_nhandles, tx, b.2)
            else
              let tx := tx ++ [MdOp.update_nhandles nhandles]
              if env.rc_create_handles ≠ 0 then (env.rc_create_handles, tx, b.2)
              else
                let tx := tx ++ [MdOp.create_handles]
                if env.rc_create_user ≠ 0 then (env.rc_create_user, tx, b.2)
                else (0, tx ++ [MdOp.create_user], b.2)

/-! ### Service lifecycle: step up, step down, CREATE -/

/-- Modelled from the spec: a pool map, the "versioned topology" the codec builds from a
buffer of components (`struct pool_map` of the missing `pool_map.h`). -/
structure pool_map where
  version : Nat
  comps : List pool_component
deriving DecidableEq, Repr

/-- The fields of `struct ds_pool` (the cached pool `svc->ps_pool`) that the pool service
reads or writes: the cached map (`none` for `NULL`), `sp_map_version`, and whether an
IV namespace is attached. -/
structure ds_pool where
  sp_map : Option pool_map
  sp_map_version : Nat
  sp_iv_ns : Bool
deriving DecidableEq, Repr

/-- Modelled from the spec: `rdb_tx_lookup` of a root entry that may be missing: the
stored value, `-DER_NONEXIST` when there is none, or a reported fault (any other non-zero
code). -/
def md_lookup {α : Type} (fault : Int) (stored : Option α) : Except Int α :=
  if fault ≠ 0 ∧ fault ≠ -DER_NONEXIST then .error fault
  else
    match stored with
    | some v => .ok v
    | none => .error (-DER_NONEXIST)

/-- Function `read_map_buf` (srv_pool.c:102) on a root KVS whose entries may be missing:
the buffer and the version. -/
def MdDb.read_map_buf (db : MdDb) (rc_version rc_buffer : Int) : Except Int (pool_buf × Nat) :=
  match md_lookup rc_version db.map_version with
  | .error rc => .error rc
  | .ok ver =>
    match md_lookup rc_buffer db.map_buffer with
    | .error rc => .error rc
    | .ok buf => .ok (buf, ver)

/-- Modelled from the spec: `pool_map_create`, the codec's "build(components, version) →
map", which may refuse the buffer (`fault`). -/
def pool_map_create (fault : Int) (buf : pool_buf) (version : Nat) : Except Int pool_map :=
  if fault ≠ 0 then .error fault else .ok { version := version, comps := buf.pb_comps }

/-- Function `read_map` (srv_pool.c:130). -/
def MdDb.read_map (db : MdDb) (rc_version rc_buffer rc_create : Int) : Except Int pool_map :=
  match db.read_map_buf rc_version rc_buffer with
  | .error rc => .error rc
  | .ok (buf, version) => pool_map_create rc_create buf version

/-- What the collaborators report to `pool_svc_step_up`, in call order: the codes of
`rdb_tx_begin`, of the lookups and `pool_map_create` inside `read_map`, of
`rdb_get_ranks`; whether the pool group is there already and else the code of
`ds_pool_group_create`; the code of `ds_pool_lookup_create` and the `ds_pool` it finds in
the cache (`none`: it creates one around the map just read); the codes of
`ds_rebuild_regenerate_task` and `crt_group_rank`. -/
structure step_up_env where
  rc_tx_begin : Int := 0
  rc_lookup_map_version : Int := 0
  rc_lookup_map_buffer : Int := 0
  rc_map_create : Int := 0
  rc_get_ranks : Int := 0
  group_exists : Bool := false
  rc_group_create : Int := 0
  rc_lookup_create : Int := 0
  cached_pool : Option ds_pool := none
  rc_regenerate : Int := 0
  rc_group_rank : Int := 0
deriving DecidableEq, Repr

/-- The block of `pool_svc_step_up` that revalidates an existing `ds_pool` against the map
just read (srv_pool.c:692-709); `none` when one of its two `D_ASSERTF` fails. -/
def step_up_revalidate (pool : ds_pool) (map : pool_map) : Option ds_pool :=
  if ¬ pool.sp_map_version ≤ map.version then none
  else
    match pool.sp_map with
    | none => some { pool with sp_map_version := map.version, sp_map := some map }
    | some m =>
      if ¬ m.version ≤ map.version then none
      else if m.version < map.version then
        some { pool with sp_map_version := map.version, sp_map := some map }
      else some pool

/-- Function `pool_svc_step_up` (srv_pool.c:634): the code returned and `svc->ps_pool`
afterwards (no other field of the service is written); `none` when an assertion fails.
A pool created by `ds_pool_lookup_create` holds the map just read and no IV namespace. -/
def pool_svc_step_up (env : step_up_env) (svc : pool_svc) (ps_pool : Option ds_pool)
    (db : MdDb) : Option (Int × Option ds_pool) :=
  if svc.ps_state = pool_svc_state.POOL_SVC_UP then none
  else if env.rc_tx_begin ≠ 0 then some (env.rc_tx_begin, ps_pool)
  else
    match db.read_map env.rc_lookup_map_version env.rc_lookup_map_buffer env.rc_map_create with
    | .error rc => some (if rc = -DER_NONEXIST then DER_UNINIT else rc, ps_pool)
    | .ok map =>
      if env.rc_get_ranks ≠ 0 then
        some (if env.rc_get_ranks = -DER_NONEXIST then DER_UNINIT else env.rc_get_ranks,
          ps_pool)
      else if ¬ env.group_exists ∧ env.rc_group_create ≠ 0 then
        some (env.rc_group_create, ps_pool)
      else if ps_pool.isSome then none
      else if env.rc_lookup_create ≠ 0 then some (env.rc_lookup_create, ps_pool)
      else
        let pool : Option ds_pool :=
          match env.cached_pool with
          | none => some { sp_map := some map, sp_map_version := map.version, sp_iv_ns := false }
          | some pool => step_up_revalidate pool map
        match pool with
        | none => none
        | some pool =>
          if env.rc_regenerate ≠ 0 then some (env.rc_regenerate, none)
          else if env.rc_group_rank ≠ 0 then none
          else some (0, some pool)

/-- Function `pool_svc_step_up_cb` (srv_pool.c:776): the code returned, the service and
`svc->ps_pool` afterwards; `none` when an assertion fails. -/
def pool_svc_step_up_cb (env : step_up_env) (term : Nat) (svc : pool_svc)
    (ps_pool : Option ds_pool) (db : MdDb) : Option (Int × pool_svc × Option ds_pool) :=
  if svc.ps_stop then some (0, svc, ps_pool)
  else if svc.ps_state ≠ pool_svc_state.POOL_SVC_DOWN then none
  else
    let svc := { svc with ps_term := term }
    match pool_svc_step_up env svc ps_pool db with
    | none => none
    | some (rc, ps_pool) =>
      if rc = DER_UNINIT then
        some (0, { svc with ps_state := pool_svc_state.POOL_SVC_UP_EMPTY }, ps_pool)
      else if rc ≠ 0 then some (rc, svc, ps_pool)
      else some (0, { svc with ps_state := pool_svc_state.POOL_SVC_UP }, ps_pool)

/-- The wait of `pool_svc_step_down` for the leader references (srv_pool.c:757-763).
While the service is draining no new reference can be taken; `wakeups` lists, for each
return of `ABT_cond_wait`, how many `pool_svc_put_leader` calls other handlers have made
meanwhile.  `none` when the references are not all released by the end of `wakeups` (the
wait does not end) or a handler puts a reference that is not there. -/
def wait_leader_refs : List Nat → pool_svc → Option pool_svc
  | [], svc => if svc.ps_leader_ref = 0 then some svc else none
  | n :: rest, svc =>
    if svc.ps_leader_ref = 0 then some svc
    else
      match Nat.iterate (fun s => s.bind pool_svc_put_leader) n (some svc) with
      | none => none
      | some svc' => wait_leader_refs rest svc'

/-- What happens around a step-down: the schedule of the wait (see `wait_leader_refs`) and
the code of `crt_group_rank`. -/
structure step_down_env where
  wakeups : List Nat := []
  rc_group_rank : Int := 0
deriving DecidableEq, Repr

/-- Function `pool_svc_step_down` (srv_pool.c:737): the service and `svc->ps_pool`
afterwards; `none` when an assertion fails or the wait does not end. -/
def pool_svc_step_down (env : step_down_env) (svc : pool_svc) (ps_pool : Option ds_pool) :
    Option (pool_svc × Option ds_pool) :=
  if svc.ps_state = pool_svc_state.POOL_SVC_DOWN then none
  else
    let svc := { svc with ps_state := pool_svc_state.POOL_SVC_DRAINING }
    match wait_leader_refs env.wakeups svc with
    | none => none
    | some svc =>
      if ps_pool.isNone then none
      else if env.rc_group_rank ≠ 0 then none
      else some (svc, none)

/-- Function `pool_svc_step_down_cb` (srv_pool.c:807). -/
def pool_svc_step_down_cb (env : step_down_env) (term : Nat) (svc : pool_svc)
    (ps_pool : Option ds_pool) : Option (pool_svc × Option ds_pool) :=
  if svc.ps_term ≠ term then none
  else if svc.ps_state = pool_svc_state.POOL_SVC_DOWN then none
  else
    let r : Option (pool_svc × Option ds_pool) :=
      if svc.ps_state = pool_svc_state.POOL_SVC_UP then pool_svc_step_down env svc ps_pool
      else some (svc, ps_pool)
    match r with
    | none => none
    | some (svc, ps_pool) =>
      some ({ svc with ps_state := pool_svc_state.POOL_SVC_DOWN }, ps_pool)

/-- The request of a CREATE: `pri_op.pi_uuid`, owner and mode, `pri_ntgts`, the target
UUIDs (`pri_tgt_uuids`, `ca_count` is the length), the target ranks (`pri_tgt_ranks`,
`rl_nr` is the length), `pri_ndomains` and the domain array (`pri_domains`). -/
structure pool_create_in where
  pi_uuid : uuid_t
  pri_uid : Nat
  pri_gid : Nat
  pri_mode : Nat
  pri_ntgts : Nat
  pri_tgt_uuids : List uuid_t
  pri_tgt_ranks : List Nat
  pri_ndomains : Nat
  pri_domains : List Nat
deriving DecidableEq, Repr

/-- What the collaborators report to `ds_pool_create_handler`, in call order: the state of
the DB file for `pool_svc_lookup`, the codes of `rdb_tx_begin`, of the lookup of
`map_buffer`, of `rdb_tx_create_root`, the faults inside `init_pool_metadata`, the codes
of `ds_cont_init_metadata` and `rdb_tx_commit`, and the faults inside
`pool_svc_step_up`. -/
structure create_env where
  st : rdb_stat := rdb_stat.present
  rc_tx_begin : Int := 0
  rc_lookup_map_buffer : Int := 0
  rc_create_root : Int := 0
  init : init_md_env := {}
  rc_cont_init : Int := 0
  rc_commit : Int := 0
  step_up : step_up_env := {}

/-- The transaction of `ds_pool_create_handler` (srv_pool.c:1604-1637): the code at
`out_tx`, the updates queued, and the DB afterwards. -/
def create_tx (dss_nxstreams : Nat) (env : create_env) (db : MdDb) (req : pool_create_in) :
    Int × List MdOp × MdDb :=
  match md_lookup env.rc_lookup_map_buffer db.map_buffer with
  | .ok _ => (0, [], db)
  | .error rc =>
    if rc ≠ -DER_NONEXIST then (rc, [], db)
    else if env.rc_create_root ≠ 0 then (env.rc_create_root, [], db)
    else
      let i := init_pool_metadata dss_nxstreams env.init [MdOp.create_root] req.pri_uid
        req.pri_gid req.pri_mode req.pri_ntgts req.pri_tgt_uuids req.pri_tgt_ranks
        req.pri_ndomains req.pri_domains
      if i.1 ≠ 0 then (i.1, i.2.1, db)
      else if env.rc_cont_init ≠ 0 then (env.rc_cont_init, i.2.1, db)
      else
        let tx := i.2.1 ++ [MdOp.cont_init_metadata]
        let c := md_tx_commit env.rc_commit db tx
        (c.1, tx, c.2)

/-- What a run of `ds_pool_create_handler` leaves: the reply code `po_rc`, the updates it
queued, the code with which the transaction ended (`none`: none was begun), the DB, the
service found (after `pool_svc_put`; `none`: none found), `svc->ps_pool`, and whether
`svc->ps_mutex` is still locked when the reply is sent. -/
structure create_result where
  po_rc : Int
  tx : List MdOp
  tx_rc : Option Int
  db : MdDb
  svc : Option pool_svc
  ps_pool : Option ds_pool
  mutex_locked : Bool

/-- Function `ds_pool_create_handler` (srv_pool.c:1561); `none` when an assertion
fails. -/
def ds_pool_create_handler (dss_nxstreams : Nat) (env : create_env)
    (pool_svc_hash : List pool_svc) (ps_pool : Option ds_pool) (db : MdDb)
    (req : pool_create_in) : Option create_result :=
  if req.pri_ntgts ≠ req.pri_tgt_uuids.length ∨ req.pri_ntgts ≠ req.pri_tgt_ranks.length then
    some ⟨-DER_PROTO, [], none, db, none, ps_pool, false⟩
  else if req.pri_ndomains ≠ req.pri_domains.length then
    some ⟨-DER_PROTO, [], none, db, none, ps_pool, false⟩
  else
    let lk := pool_svc_lookup pool_svc_hash env.st req.pi_uuid
    if lk.rc ≠ 0 then some ⟨lk.rc, [], none, db, none, ps_pool, false⟩
    else
      match lk.svc with
      | none => some ⟨lk.rc, [], none, db, none, ps_pool, false⟩
      | some svc =>
        if svc.ps_stop then
          some ⟨-DER_CANCELED, [], none, db, some (pool_svc_put svc), ps_pool, false⟩
        else if env.rc_tx_begin ≠ 0 then
          some ⟨env.rc_tx_begin, [], none, db, some (pool_svc_put svc), ps_pool, false⟩
        else
          let t := create_tx dss_nxstreams env db req
          if t.1 ≠ 0 then
            some ⟨t.1, t.2.1, some t.1, t.2.2, some (pool_svc_put svc), ps_pool, true⟩
          else if svc.ps_state = pool_svc_state.POOL_SVC_UP_EMPTY then
            match pool_svc_step_up env.step_up svc ps_pool t.2.2 with
            | none => none
            | some (rc, ps_pool) =>
              if rc ≠ 0 then
                if rc = DER_UNINIT then none
                else some ⟨rc, t.2.1, some t.1, t.2.2, some (pool_svc_put svc), ps_pool, true⟩
              else
                some ⟨0, t.2.1, some t.1, t.2.2,
                  some (pool_svc_put { svc with ps_state := pool_svc_state.POOL_SVC_UP }),
                  ps_pool, false⟩
          else
            some ⟨t.1, t.2.1, some t.1, t.2.2, some (pool_svc_put svc), ps_pool, false⟩

/-- The assignment `svc->ps_stop = true` of `pool_svc_stop` (srv_pool.c:1335). -/
def pool_svc_stop_mark (svc : pool_svc) : pool_svc :=
  { svc with ps_stop := true }

/-- The first part of `pool_svc_stop` (srv_pool.c:1324-1347), up to its wait for the state
DOWN: the service after it, whether `rdb_resign` is called, and whether the call goes on to
the wait and the removal from the registry.  With the flag already set the function
returns at once. -/
def pool_svc_stop_enter (svc : pool_svc) : pool_svc × Bool × Bool :=
  if svc.ps_stop then (svc, false, false)
  else
    (pool_svc_stop_mark svc,
      decide (svc.ps_state = pool_svc_state.POOL_SVC_UP ∨
        svc.ps_state = pool_svc_state.POOL_SVC_UP_EMPTY),
      true)

/-- One pool service at run time: the service object, `svc->ps_pool`, the DB, whether
`svc->ps_mutex` is locked, and whether the service is an entry of the registry
`pool_svc_hash`. -/
structure pool_svc_rt where
  svc : pool_svc
  ps_pool : Option ds_pool
  db : MdDb
  ps_mutex_locked : Bool
  registered : Bool

/-- The registry `pool_svc_hash`, as far as this service is concerned. -/
def pool_svc_rt.hash (s : pool_svc_rt) : List pool_svc :=
  if s.registered then [s.svc] else []

/-- The service as `pool_svc_init` (srv_pool.c:937) and `ds_pool_svc_start` leave it: one
reference (that of the registry), not stopping, DOWN, no leader reference, no cached pool,
the mutex free, entered in the registry. -/
def pool_svc_rt.init (uuid : uuid_t) (db : MdDb) : pool_svc_rt :=
  { svc := { ps_uuid := uuid, ps_ref := 1, ps_stop := false, ps_term := 0,
             ps_state := pool_svc_state.POOL_SVC_DOWN, ps_leader_ref := 0,
             sp_map_version := 0 },
    ps_pool := none, db := db, ps_mutex_locked := false, registered := true }

/-- The second part of `pool_svc_stop` (srv_pool.c:1347-1357), for the call that has set
the stop flag: the wait `while (svc->ps_state != POOL_SVC_DOWN)` ends in the state DOWN,
the mutex is released, and `d_hash_rec_delete_at` takes the entry out of the registry,
which drops the reference the registry held.  `none` while the wait does not end. -/
def pool_svc_stop_leave (s : pool_svc_rt) : Option pool_svc_rt :=
  if s.svc.ps_state ≠ pool_svc_state.POOL_SVC_DOWN then none
  else some { s with svc := pool_svc_put s.svc, registered := false }

/-- The events in the life of a pool service: the two callbacks of the replicated DB, a
CREATE, a handler taking or putting a leader reference, and `pool_svc_stop` in its two
parts: `stop` is a call up to its wait for the state DOWN (during which the other events
go on), `stop_finish` is the rest of the call that has set the stop flag, from the end of
that wait to the removal of the service from the registry. -/
inductive LifecycleOp where
  | step_up_cb (env : step_up_env) (term : Nat)
  | step_down_cb (env : step_down_env) (term : Nat)
  | create (dss_nxstreams : Nat) (env : create_env) (req : pool_create_in)
  | lookup_leader
  | put_leader
  | stop
  | stop_finish

/-- One event on a pool service; `none` when the event does not complete (an assertion
fails, the wait of a step-down or of `pool_svc_stop` does not end, `ps_mutex` is never
released, or no call of `pool_svc_stop` is at its wait). -/
def lifecycle_step (s : pool_svc_rt) : LifecycleOp → Option pool_svc_rt
  | .step_up_cb env term =>
    if s.ps_mutex_locked then none
    else
      match pool_svc_step_up_cb env term s.svc s.ps_pool s.db with
      | none => none
      | some (_, svc, ps_pool) => some { s with svc := svc, ps_pool := ps_pool }
  | .step_down_cb env term =>
    if s.ps_mutex_locked then none
    else
      match pool_svc_step_down_cb env term s.svc s.ps_pool with
      | none => none
      | some (svc, ps_pool) => some { s with svc := svc, ps_pool := ps_pool }
  | .create nx env req =>
    if s.ps_mutex_locked ∧ (pool_svc_lookup s.hash env.st req.pi_uuid).rc = 0
        ∧ req.pri_ntgts = req.pri_tgt_uuids.length ∧ req.pri_ntgts = req.pri_tgt_ranks.length
        ∧ req.pri_ndomains = req.pri_domains.length then none
    else
      match ds_pool_create_handler nx env s.hash s.ps_pool s.db req with
      | none => none
      | some r =>
        match r.svc with
        | none => some s
        | some svc =>
          some { s with svc := svc, ps_pool := r.ps_pool, db := r.db,
                        ps_mutex_locked := r.mutex_locked }
  | .lookup_leader =>
    match (pool_svc_lookup_leader s.hash rdb_stat.present s.svc.ps_uuid).svc with
    | none => some s
    | some svc => some { s with svc := svc }
  | .put_leader =>
    match pool_svc_put_leader s.svc with
    | none => none
    | some svc => some { s with svc := svc }
  | .stop =>
    if s.ps_mutex_locked then none
    else some { s with svc := (pool_svc_stop_enter s.svc).1 }
  | .stop_finish =>
    if s.ps_mutex_locked ∨ s.svc.ps_stop = false ∨ s.registered = false then none
    else pool_svc_stop_leave s

/-- A sequence of events, from left to right. -/
def lifecycle_run (s : pool_svc_rt) : List LifecycleOp → Option pool_svc_rt
  | [] => some s
  | op :: ops => (lifecycle_step s op).bind (fun s' => lifecycle_run s' ops)

/-- The invariant of the lifecycle: the service is never left DRAINING between events, the
leader reference count is not negative, a service that is UP holds a cached pool, and a
service that is not UP holds none and has no leader reference. -/
def lifecycle_inv (s : pool_svc_rt) : Prop :=
  s.svc.ps_state ≠ pool_svc_state.POOL_SVC_DRAINING ∧ 0 ≤ s.svc.ps_leader_ref ∧
  (s.svc.ps_state = pool_svc_state.POOL_SVC_UP → s.ps_pool.isSome) ∧
  (s.svc.ps_state ≠ pool_svc_state.POOL_SVC_UP → s.ps_pool = none ∧ s.svc.ps_leader_ref = 0)

/-- Sample CREATE request: pool 7, uid 1000, gid 1000, mode 0x1FF, three targets with
UUIDs 30, 10, 20 on ranks 1, 2, 3, one domain of 3 nodes. -/
def sample_create : pool_create_in :=
  { pi_uuid := 7, pri_uid := 1000, pri_gid := 1000, pri_mode := 0x1FF, pri_ntgts := 3,
    pri_tgt_uuids := [30, 10, 20], pri_tgt_ranks := [1, 2, 3], pri_ndomains := 1,
    pri_domains := [3] }

/-! ### UPDATE (membership change) -/

/-- Modelled from the spec: the opcodes of a membership change, "opcode ∈ {EXCLUDE,
EXCLUDE_OUT, ADD, ADD_IN}" (the values `opc_get` gives for the RPCs served by
`ds_pool_update_handler`). -/
inductive pool_opc where
  | POOL_EXCLUDE
  | POOL_EXCLUDE_OUT
  | POOL_ADD
  | POOL_ADD_IN
deriving DecidableEq, Repr

/-- A target address `struct pool_target_addr`: rank and target index. -/
structure pool_target_addr where
  pta_rank : Nat
  pta_target : Nat
deriving DecidableEq, Repr

/-- Functions and strings of files that are not under src/, taken as parameters:
`ds_pool_map_tgts_update` (the code and the map as it leaves it),
`pool_map_find_target_by_rank_idx` (the targets found; `tgt_nr` is their number, and a
negative `tgt_nr` is taken as no target), and the string `REBUILD_ENV_DISABLED` as a
list of bytes. -/
structure UpdateParams where
  ds_pool_map_tgts_update : pool_map → List Nat → pool_opc → Int × pool_map
  pool_map_find_target_by_rank_idx : pool_map → Nat → Nat → List pool_component
  REBUILD_ENV_DISABLED : List Nat

/-- Modelled from the spec: `pool_buf_extract`, the codec's "extract(map) → buffer", the
inverse of `pool_map_create`; `fault` is its code when it fails. -/
def pool_buf_extract (fault : Int) (map : pool_map) : Int × Option pool_buf :=
  if fault ≠ 0 then (fault, none)
  else (0, some { pb_nr := map.comps.length, pb_comps := map.comps })

/-- Function `pool_map_update` (srv_pool.c:2246): the code and the IV entry (map version
and buffer) passed to `pool_iv_update`, if any; `none` when a `NULL` pointer is
dereferenced. -/
def pool_map_update (alloc_ok : Bool) (rc_iv_update : Int) (ps_pool : Option ds_pool)
    (map_version : Nat) (buf : Option pool_buf) : Option (Int × Option (Nat × pool_buf)) :=
  match ps_pool with
  | none => none
  | some pool =>
    if !pool.sp_iv_ns then some (0, none)
    else
      match buf with
      | none => none
      | some b =>
        if !alloc_ok then some (-DER_NOMEM, none)
        else some (if rc_iv_update = -DER_NONEXIST then 0 else rc_iv_update,
          some (map_version, b))

/-- What the collaborators report to `ds_pool_update_internal`, in call order: the state
of the DB file for `pool_svc_lookup`, the codes of `rdb_tx_begin` and `rdb_get_ranks` and
the ranks the latter gives, the codes of the lookups and `pool_map_create` inside
`read_map`, of `pool_buf_extract`, of the two updates inside `write_map_buf`, of
`rdb_tx_commit`, whether the IV entry can be allocated and the code of
`pool_iv_update`. -/
structure update_env where
  st : rdb_stat := rdb_stat.present
  rc_tx_begin : Int := 0
  rc_get_ranks : Int := 0
  replicas : List Nat := []
  rc_lookup_map_version : Int := 0
  rc_lookup_map_buffer : Int := 0
  rc_map_create : Int := 0
  rc_buf_extract : Int := 0
  rc_update_map_version : Int := 0
  rc_update_map_buffer : Int := 0
  rc_commit : Int := 0
  iv_alloc_ok : Bool := true
  rc_iv_update : Int := 0
deriving DecidableEq, Repr

/-- State of `ds_pool_update_internal` at the label `out_replicas`: `rc`, the locals
`updated`, `map_version` and `map_buf`, the updates queued, the DB and `svc->ps_pool`. -/
structure update_core where
  rc : Int
  updated : Bool
  map_version : Nat
  map_buf : Option pool_buf
  tx : List MdOp
  db : MdDb
  ps_pool : Option ds_pool

/-- The part of `ds_pool_update_internal` from `read_map` to the label `out_replicas`
(srv_pool.c:2322-2371); `none` when a `NULL` pointer is dereferenced (the buffer in
`write_map_buf`, `svc->ps_pool` at the swap of the cached map). -/
def update_core_run (p : UpdateParams) (env : update_env) (ps_pool : Option ds_pool)
    (db : MdDb) (tgts : List Nat) (opc : pool_opc) : Option update_core :=
  match db.read_map env.rc_lookup_map_version env.rc_lookup_map_buffer env.rc_map_create with
  | .error rc => some ⟨rc, false, 0, none, [], db, ps_pool⟩
  | .ok map =>
    let map_version_before := map.version
    let u := p.ds_pool_map_tgts_update map tgts opc
    if u.1 ≠ 0 then some ⟨u.1, false, 0, none, [], db, ps_pool⟩
    else
      let map_version := u.2.version
      if map_version = map_version_before then
        some ⟨0, false, map_version, none, [], db, ps_pool⟩
      else
        let e := pool_buf_extract env.rc_buf_extract u.2
        if e.1 ≠ 0 then some ⟨e.1, false, map_version, e.2, [], db, ps_pool⟩
        else
          match e.2 with
          | none => none
          | some map_buf =>
            let w := write_map_buf env.rc_update_map_version env.rc_update_map_buffer []
              map_buf map_version
            if w.1 ≠ 0 then some ⟨w.1, false, map_version, some map_buf, w.2, db, ps_pool⟩
            else
              let c := md_tx_commit env.rc_commit db w.2
              if c.1 ≠ 0 then
                some ⟨c.1, false, map_version, some map_buf, w.2, db, ps_pool⟩
              else
                match ps_pool with
                | none => none
                | some pool =>
                  some ⟨0, true, map_version, some map_buf, w.2, c.2,
                    some { pool with sp_map := some u.2, sp_map_version := map_version }⟩

/-- What a run of `ds_pool_update_internal` leaves: the code returned, the local
`updated`, what is stored to `*p_updated` (`none`: no pointer given),
`pto_op->po_map_version` if written, `*replicasp` (`none`: `NULL` or no pointer given),
the updates queued, the DB, the service found (after `pool_svc_put_leader`),
`svc->ps_pool`, the arguments of the call of `pool_map_update` if made, and the IV entry
that call sent. -/
structure update_result where
  rc : Int
  updated : Bool
  p_updated : Option Bool
  po_map_version : Option Nat
  replicas : Option (List Nat)
  tx : List MdOp
  db : MdDb
  svc : Option pool_svc
  ps_pool : Option ds_pool
  map_update : Option (Nat × Option pool_buf)
  iv_sent : Option (Nat × pool_buf)

/-- The end of `ds_pool_update_internal` from the label `out_map_version` on
(srv_pool.c:2377-2401), for the service `svc` taken by `pool_svc_lookup_leader`; `none`
when a `NULL` pointer is dereferenced or the assertion of `pool_svc_put_leader` fails. -/
def update_finish (env : update_env) (svc : pool_svc) (pto_op p_updated : Bool)
    (replicas : Option (List Nat)) (c : update_core) : Option update_result :=
  let ver : Option (Option Nat) :=
    if pto_op then
      match c.ps_pool with
      | none => none
      | some pool =>
        match pool.sp_map with
        | none => none
        | some m => some (some m.version)
    else some none
  match ver with
  | none => none
  | some po_map_version =>
    let bc : Option (Option (Int × Option (Nat × pool_buf))) :=
      if c.updated then
        (pool_map_update env.iv_alloc_ok env.rc_iv_update c.ps_pool c.map_version
          c.map_buf).map some
      else some none
    match bc with
    | none => none
    | some bc =>
      match pool_svc_put_leader svc with
      | none => none
      | some svc' =>
        some { rc := c.rc, updated := c.updated,
               p_updated := if p_updated then some c.updated else none,
               po_map_version := po_map_version,
               replicas := replicas, tx := c.tx, db := c.db, svc := some svc',
               ps_pool := c.ps_pool,
               map_update := if c.updated then some (c.map_version, c.map_buf) else none,
               iv_sent := bc.bind (fun x => x.2) }

/-- Function `ds_pool_update_internal` (srv_pool.c:2289).  The flags `pto_op`,
`p_updated` and `replicasp` tell whether the pointer of that name is given (not `NULL`);
`none` when a `NULL` pointer is dereferenced or an assertion fails. -/
def ds_pool_update_internal (p : UpdateParams) (env : update_env)
    (pool_svc_hash : List pool_svc) (ps_pool : Option ds_pool) (db : MdDb)
    (pool_uuid : uuid_t) (tgts : List Nat) (opc : pool_opc)
    (pto_op p_updated replicasp : Bool) : Option update_result :=
  let lk := pool_svc_lookup_leader pool_svc_hash env.st pool_uuid
  let upd : Option Bool := if p_updated then some false else none
  if lk.rc ≠ 0 then
    some ⟨lk.rc, false, upd, none, none, [], db, lk.svc, ps_pool, none, none⟩
  else
    match lk.svc with
    | none => some ⟨lk.rc, false, upd, none, none, [], db, none, ps_pool, none, none⟩
    | some svc =>
      if env.rc_tx_begin ≠ 0 then
        match pool_svc_put_leader svc with
        | none => none
        | some svc' =>
          some ⟨env.rc_tx_begin, false, upd, none, none, [], db, some svc', ps_pool, none,
            none⟩
      else if replicasp ∧ env.rc_get_ranks ≠ 0 then
        update_finish env svc pto_op p_updated none
          ⟨env.rc_get_ranks, false, 0, none, [], db, ps_pool⟩
      else
        match update_core_run p env ps_pool db tgts opc with
        | none => none
        | some c =>
          if c.rc ≠ 0 then
            if replicasp then update_finish env svc pto_op p_updated none c
            else none
          else
            update_finish env svc pto_op p_updated
              (if replicasp then some env.replicas else none) c

/-- Function `ds_pool_tgt_exclude_out` (srv_pool.c:2473). -/
def ds_pool_tgt_exclude_out (p : UpdateParams) (env : update_env)
    (pool_svc_hash : List pool_svc) (ps_pool : Option ds_pool) (db : MdDb)
    (pool_uuid : uuid_t) (list : List Nat) : Option update_result :=
  ds_pool_update_internal p env pool_svc_hash ps_pool db pool_uuid list
    pool_opc.POOL_EXCLUDE_OUT false false false

/-- Function `ds_pool_tgt_exclude` (srv_pool.c:2480). -/
def ds_pool_tgt_exclude (p : UpdateParams) (env : update_env)
    (pool_svc_hash : List pool_svc) (ps_pool : Option ds_pool) (db : MdDb)
    (pool_uuid : uuid_t) (list : List Nat) : Option update_result :=
  ds_pool_update_internal p env pool_svc_hash ps_pool db pool_uuid list
    pool_opc.POOL_EXCLUDE false false false

/-- Modelled from the spec: `pool_target_addr_list_append` and
`pool_target_id_list_append` put the element at the end of the list ("addresses with no
match are returned in an out-list", "verbatim"), or fail with the code `fault` and leave
the list as it is. -/
def list_append {α : Type} (fault : Int) (list : List α) (x : α) : Int × List α :=
  if fault ≠ 0 then (fault, list) else (0, list ++ [x])

/-- What the collaborators report to `pool_find_all_targets_by_addr`: the state of the DB
file, the codes of `rdb_tx_begin` and of the calls inside `read_map`, the code of
`pool_target_addr_list_append` for the address number `i`, and the code of
`pool_target_id_list_append` for the target number `j` of the address number `i`. -/
structure find_env where
  st : rdb_stat := rdb_stat.present
  rc_tx_begin : Int := 0
  rc_lookup_map_version : Int := 0
  rc_lookup_map_buffer : Int := 0
  rc_map_create : Int := 0
  rc_addr_append : Nat → Int := fun _ => 0
  rc_id_append : Nat → Nat → Int := fun _ _ => 0

/-- The inner loop of `pool_find_all_targets_by_addr` (srv_pool.c:2454-2463) from target
number `j` on: `rc` and the id list afterwards. -/
def find_ids_loop (rc_id_append : Nat → Int) :
    Nat → Int → List Nat → List pool_component → Int × List Nat
  | _, rc, tgt_list, [] => (rc, tgt_list)
  | j, rc, tgt_list, tgt :: rest =>
    let a := list_append (rc_id_append j) tgt_list tgt.co_id
    if a.1 ≠ 0 then (a.1, a.2)
    else find_ids_loop rc_id_append (j + 1) rc a.2 rest

/-- The outer loop of `pool_find_all_targets_by_addr` (srv_pool.c:2433-2464) from address
number `i` on: `rc`, the id list and the out-list afterwards. -/
def find_addrs_loop (p : UpdateParams) (env : find_env) (map : pool_map) :
    Nat → Int → List Nat → List pool_target_addr → List pool_target_addr →
      Int × List Nat × List pool_target_addr
  | _, rc, tgt_list, out_list, [] => (rc, tgt_list, out_list)
  | i, rc, tgt_list, out_list, addr :: rest =>
    let tgt := p.pool_map_find_target_by_rank_idx map addr.pta_rank addr.pta_target
    if tgt.length = 0 then
      let a := list_append (env.rc_addr_append i) out_list addr
      if a.1 ≠ 0 then (a.1, tgt_list, a.2)
      else find_addrs_loop p env map (i + 1) rc tgt_list a.2 rest
    else
      let r := find_ids_loop (env.rc_id_append i) 0 rc tgt_list tgt
      find_addrs_loop p env map (i + 1) r.1 r.2 out_list rest

/-- Function `pool_find_all_targets_by_addr` (srv_pool.c:2404), called with empty lists:
the code, the id list, the out-list, and the service found (after
`pool_svc_put_leader`); `none` when the assertion of `pool_svc_put_leader` fails. -/
def pool_find_all_targets_by_addr (p : UpdateParams) (env : find_env)
    (pool_svc_hash : List pool_svc) (db : MdDb) (pool_uuid : uuid_t)
    (list : List pool_target_addr) :
    Option (Int × List Nat × List pool_target_addr × Option pool_svc) :=
  let lk := pool_svc_lookup_leader pool_svc_hash env.st pool_uuid
  if lk.rc ≠ 0 then some (lk.rc, [], [], lk.svc)
  else
    match lk.svc with
    | none => some (lk.rc, [], [], none)
    | some svc =>
      match pool_svc_put_leader svc with
      | none => none
      | some svc' =>
        if env.rc_tx_begin ≠ 0 then some (env.rc_tx_begin, [], [], some svc')
        else
          match db.read_map env.rc_lookup_map_version env.rc_lookup_map_buffer
              env.rc_map_create with
          | .error rc => some (rc, [], [], some svc')
          | .ok map =>
            let r := find_addrs_loop p env map 0 0 [] [] list
            some (r.1, r.2.1, r.2.2, some svc')

/-- Function `tolower` of the C library on a byte, in the C locale. -/
def tolower (c : Nat) : Nat :=
  if 65 ≤ c ∧ c ≤ 90 then c + 32 else c

/-- Function `strcasecmp` of the C library, up to what its callers here use: 0 exactly
when the two strings are equal up to the case of their letters. -/
def strcasecmp (a b : List Nat) : Int :=
  if a.map tolower = b.map tolower then 0 else 1

/-- The test of `ds_pool_update_handler` for a disabled rebuild (srv_pool.c:2535-2537):
`getenv(REBUILD_ENV)` gave a string that `strcasecmp` finds equal to
`REBUILD_ENV_DISABLED`, or `daos_fail_check(DAOS_REBUILD_DISABLE)` holds. -/
def rebuild_disabled (p : UpdateParams) (getenv_rebuild : Option (List Nat))
    (fail_check : Bool) : Bool :=
  (match getenv_rebuild with
    | none => false
    | some s => strcasecmp s p.REBUILD_ENV_DISABLED == 0) || fail_check

/-- The request of an UPDATE: the pool, and the address array `pti_addr_list` (`none`:
`ca_arrays` is `NULL`; `ca_count` is the length). -/
structure pool_tgt_update_in where
  pi_uuid : uuid_t
  pti_addr_list : Option (List pool_target_addr)
deriving DecidableEq, Repr

/-- What the collaborators report to `ds_pool_update_handler`: the faults inside
`pool_find_all_targets_by_addr` and `ds_pool_update_internal`, what
`getenv(REBUILD_ENV)` gives, whether `daos_fail_check(DAOS_REBUILD_DISABLE)` holds, and
the code of `ds_rebuild_schedule`. -/
structure update_handler_env where
  find : find_env := {}
  upd : update_env := {}
  getenv_rebuild : Option (List Nat) := none
  fail_check : Bool := false
  rc_rebuild_schedule : Int := 0

/-- What a run of `ds_pool_update_handler` leaves: the reply (`po_rc`, `po_map_version`
if written, the address list `pto_addr_list`, empty unless set), the local `updated`
(`none`: never written), the id list `target_list`, the arguments of the call of
`ds_rebuild_schedule` if made (map version, target ids, replica ranks), the updates
queued, the DB, `svc->ps_pool`, and the arguments of the call of `pool_map_update` if
made. -/
structure update_handler_result where
  po_rc : Int
  po_map_version : Option Nat
  pto_addr_list : List pool_target_addr
  updated : Option Bool
  target_list : List Nat
  rebuild : Option (Option Nat × List Nat × List Nat)
  tx : List MdOp
  db : MdDb
  ps_pool : Option ds_pool
  map_update : Option (Nat × Option pool_buf)

/-- The end of `ds_pool_update_handler` after the reply is sent (srv_pool.c:2530-2550):
the arguments of the call of `ds_rebuild_schedule`, if made; the outer `none` when
`D_ASSERT(replicas != NULL)` fails. -/
def update_schedule_rebuild (p : UpdateParams) (env : update_handler_env) (opc : pool_opc)
    (po_rc : Int) (updated : Option Bool) (po_map_version : Option Nat)
    (target_list : List Nat) (replicas : Option (List Nat)) :
    Option (Option (Option Nat × List Nat × List Nat)) :=
  if po_rc = 0 ∧ updated = some true ∧ opc = pool_opc.POOL_EXCLUDE then
    if rebuild_disabled p env.getenv_rebuild env.fail_check then some none
    else
      match replicas with
      | none => none
      | some reps => some (some (po_map_version, target_list, reps))
  else some none

/-- Function `ds_pool_update_handler` (srv_pool.c:2487) for the opcode `opc` of the RPC;
`none` when a `NULL` pointer is dereferenced or an assertion fails. -/
def ds_pool_update_handler (p : UpdateParams) (env : update_handler_env)
    (pool_svc_hash : List pool_svc) (ps_pool : Option ds_pool) (db : MdDb)
    (opc : pool_opc) (req : pool_tgt_update_in) : Option update_handler_result :=
  match req.pti_addr_list with
  | none => some ⟨-DER_INVAL, none, [], none, [], none, [], db, ps_pool, none⟩
  | some addrs =>
    if addrs.length = 0 then
      some ⟨-DER_INVAL, none, [], none, [], none, [], db, ps_pool, none⟩
    else
      match pool_find_all_targets_by_addr p env.find pool_svc_hash db req.pi_uuid addrs with
      | none => none
      | some (rc, target_list, out_list, _) =>
        if rc ≠ 0 then some ⟨rc, none, [], none, target_list, none, [], db, ps_pool, none⟩
        else
          match ds_pool_update_internal p env.upd pool_svc_hash ps_pool db req.pi_uuid
              target_list opc true true true with
          | none => none
          | some u =>
            match update_schedule_rebuild p env opc u.rc u.p_updated u.po_map_version
                target_list u.replicas with
            | none => none
            | some rebuild =>
              some ⟨u.rc, u.po_map_version, if u.rc ≠ 0 then [] else out_list,
                u.p_updated, target_list, rebuild, u.tx, u.db, u.ps_pool, u.map_update⟩

/-- The addresses of `list` that match no target of `map`, in the order of `list`: what
the spec calls the out-list. -/
def spec_unmatched_addrs (p : UpdateParams) (map : pool_map) (list : List pool_target_addr) :
    List pool_target_addr :=
  list.filter (fun a => (p.pool_map_find_target_by_rank_idx map a.pta_rank
    a.pta_target).length = 0)

/-- The ids of the targets of `map` matched by the addresses of `list`, in the order of
`list`: what the spec calls the resolved ids. -/
def spec_matched_ids (p : UpdateParams) (map : pool_map) (list : List pool_target_addr) :
    List Nat :=
  list.flatMap (fun a => (p.pool_map_find_target_by_rank_idx map a.pta_rank
    a.pta_target).map (fun t => t.co_id))

/-- A sample of the parameters of UPDATE: `POOL_EXCLUDE` puts the targets with the given
ids that are UP or UPIN to DOWN and, if there is any, raises the map version by one; any
other opcode leaves the map as it is; an address matches the targets of its rank and
index; `REBUILD_ENV_DISABLED` is the string "DISABLED". -/
def sample_update_params : UpdateParams :=
  { ds_pool_map_tgts_update := fun map tgts opc =>
      let hit : pool_component → Bool := fun c =>
        c.co_type == pool_comp_type.PO_COMP_TP_TARGET && tgts.contains c.co_id &&
          (c.co_status == pool_comp_state.PO_COMP_ST_UP ||
            c.co_status == pool_comp_state.PO_COMP_ST_UPIN)
      if opc = pool_opc.POOL_EXCLUDE ∧ map.comps.any hit then
        (0, { version := map.version + 1,
              comps := map.comps.map (fun c =>
                if hit c then
                  { c with co_status := pool_comp_state.PO_COMP_ST_DOWN,
                           co_fseq := map.version + 1 }
                else c) })
      else (0, map),
    pool_map_find_target_by_rank_idx := fun map rank idx =>
      map.comps.filter (fun c =>
        c.co_type == pool_comp_type.PO_COMP_TP_TARGET && c.co_rank == rank &&
          c.co_index == idx),
    REBUILD_ENV_DISABLED := [68, 73, 83, 65, 66, 76, 69, 68] }

/-- The DB of the sample pool after the sample CREATE with 2 streams per node: map
version 1, targets 0 to 5, two on each of the ranks 1, 2, 3. -/
def sample_md : MdDb :=
  (create_tx 2 {} {} sample_create).2.2

/-- The cached pool of the sample service: the map of `sample_md`, with an IV namespace
attached. -/
def sample_ds_pool : ds_pool :=
  { sp_map := some { version := 1,
                     comps := (sample_md.map_buffer.map (fun b => b.pb_comps)).getD [] },
    sp_map_version := 1, sp_iv_ns := true }

/-! ### `get_md_cap` -/

/-- Function `get_md_cap` (srv_pool.c:445).  The argument is what `atoi` gives for the
value of `DAOS_MD_CAP` (an `int`), or `none` when the variable is unset.  `size_t` has 64
bits; in the comparison `n < size_default >> 20` and in `(size_t)n << 20` the `int` is
converted to `size_t`, that is taken modulo `2 ^ 64`. -/
def get_md_cap (atoi_md_cap : Option Int) : Nat :=
  let size_default : Nat := (1 <<< 27) % 2 ^ 64
  match atoi_md_cap with
  | none => size_default
  | some n =>
    let n_size_t : Nat := (n % 2 ^ 64).toNat
    if n_size_t < size_default >>> 20 then size_default
    else (n_size_t <<< 20) % 2 ^ 64

/-! ### User attributes: ATTR_LIST -/

/-- The `struct attr_list_iter_args`; `alia_iovs` lists the entries of the IOV array
written so far, each by the name it points to (its `iov_len` and `iov_buf_len` are the
length of the name). -/
structure attr_list_iter_args where
  alia_available : Nat
  alia_length : Nat
  alia_iov_index : Nat
  alia_iov_count : Nat
  alia_iovs : List (List Nat)
deriving DecidableEq, Repr

/-- Function `attr_list_iter_cb` (srv_pool.c:3089) on a record with the key `key` (a list
of bytes): the code returned and the arguments as it leaves them.  `realloc_ok` tells
whether `D_REALLOC` succeeds should the array have to grow; `none` when the entry would be
written past the end of the array.  The lengths are `size_t`; the index and the count of
24-byte IOVs stay far below `2 ^ 64`. -/
def attr_list_iter_cb (realloc_ok : Bool) (i_args : attr_list_iter_args) (key : List Nat) :
    Option (Int × attr_list_iter_args) :=
  let i_args := { i_args with alia_length := (i_args.alia_length + key.length) % 2 ^ 64 }
  if i_args.alia_available > key.length ∧ key.length > 0 then
    if i_args.alia_iov_index = i_args.alia_iov_count ∧ ¬ realloc_ok then
      some (-DER_NOMEM, i_args)
    else
      let i_args :=
        if i_args.alia_iov_index = i_args.alia_iov_count then
          { i_args with alia_iov_count := i_args.alia_iov_count * 2 }
        else i_args
      if i_args.alia_iov_index < i_args.alia_iov_count then
        some (0, { i_args with
                   alia_iovs := i_args.alia_iovs ++ [key],
                   alia_available := i_args.alia_available - key.length,
                   alia_iov_index := i_args.alia_iov_index + 1 })
      else none
  else some (0, i_args)

/-- Modelled from the spec: `rdb_tx_iterate` (RDB, not under src/) over the records still
to visit of the user-attribute KVS, calling `attr_list_iter_cb` on each key in order and
stopping at the first callback that does not return zero; `realloc_ok` lists, per
callback, whether a reallocation in it would succeed (beyond the end of the list it
does). -/
def rdb_tx_iterate_attr_list (realloc_ok : List Bool) :
    Nat → List (List Nat × List Nat) → attr_list_iter_args →
      Option (Int × attr_list_iter_args)
  | _, [], i_args => some (0, i_args)
  | i, e :: rest, i_args =>
    match attr_list_iter_cb (realloc_ok.getD i true) i_args e.1 with
    | none => none
    | some (rc, i_args') =>
      if rc ≠ 0 then some (rc, i_args')
      else rdb_tx_iterate_attr_list realloc_ok (i + 1) rest i_args'

/-- Return codes of the collaborator calls of `attr_bulk_transfer`, in call order
(`rc_eventual_create` and `rc_eventual_wait` after `dss_abterr2der`; `status` is the code
the bulk callback delivers). -/
structure bulk_env where
  rc_eventual_create : Int := 0
  rc_bulk_transfer : Int := 0
  rc_eventual_wait : Int := 0
  status : Int := 0
deriving DecidableEq, Repr

/-- Function `attr_bulk_transfer` (srv_pool.c:2812): the code, and whether
`crt_bulk_transfer` has started the transfer. -/
def attr_bulk_transfer (env : bulk_env) : Int × Bool :=
  if env.rc_eventual_create ≠ 0 then (env.rc_eventual_create, false)
  else if env.rc_bulk_transfer ≠ 0 then (env.rc_bulk_transfer, false)
  else if env.rc_eventual_wait ≠ 0 then (env.rc_eventual_wait, true)
  else (env.status, true)

/-- Return codes of the collaborator calls of `ds_pool_attr_list_handler`, in call order:
`alloc_iovs_ok` for the `D_ALLOC_PTR` of the IOV array, `realloc_ok` for the `D_REALLOC`
of the callbacks, `rc_iterate` for a failure of `rdb_tx_iterate` itself. -/
structure attr_list_env where
  st : rdb_stat := rdb_stat.present
  rc_tx_begin : Int := 0
  rc_bulk_get_len : Int := 0
  alloc_iovs_ok : Bool := true
  realloc_ok : List Bool := []
  rc_iterate : Int := 0
  rc_bulk_create : Int := 0
  bulk : bulk_env := {}
deriving DecidableEq, Repr

/-- What a run of `ds_pool_attr_list_handler` leaves: the reply code, `palo_size` if
written, and, if a bulk PUT was started, the names its local IOVs point to, in order, and
its length `bd_len`. -/
structure attr_list_result where
  po_rc : Int
  palo_size : Option Nat
  sent : Option (List (List Nat) × Nat)
deriving DecidableEq, Repr

/-- Function `ds_pool_attr_list_handler` (srv_pool.c:3133).  `user` lists the records of
the user-attribute KVS `svc->ps_user` (key and value as lists of bytes) in iteration
order; `pali_bulk` is the size of the client's bulk handle, `none` when the client gave no
handle.  The result is `none` when an entry would be written past the end of the IOV
array. -/
def ds_pool_attr_list_handler (env : attr_list_env) (pool_svc_hash : List pool_svc)
    (user : List (List Nat × List Nat)) (pi_uuid : uuid_t) (pali_bulk : Option Nat) :
    Option attr_list_result :=
  let lk := pool_svc_lookup_leader pool_svc_hash env.st pi_uuid
  if lk.rc ≠ 0 then some ⟨lk.rc, none, none⟩
  else if env.rc_tx_begin ≠ 0 then some ⟨env.rc_tx_begin, none, none⟩
  else if pali_bulk.isSome ∧ env.rc_bulk_get_len ≠ 0 then
    some ⟨env.rc_bulk_get_len, none, none⟩
  else if pali_bulk.isSome ∧ ¬ env.alloc_iovs_ok then some ⟨-DER_NOMEM, none, none⟩
  else
    let bulk_size : Nat := pali_bulk.getD 0
    let iter_args : attr_list_iter_args :=
      { alia_available := bulk_size, alia_length := 0, alia_iov_index := 0,
        alia_iov_count := if pali_bulk.isSome then 1 else 0, alia_iovs := [] }
    let it : Option (Int × attr_list_iter_args) :=
      if env.rc_iterate ≠ 0 then some (env.rc_iterate, iter_args)
      else rdb_tx_iterate_attr_list env.realloc_ok 0 user iter_args
    match it with
    | none => none
    | some (rc, iter_args) =>
      if rc ≠ 0 then some ⟨rc, some iter_args.alia_length, none⟩
      else if iter_args.alia_iov_index > 0 then
        if env.rc_bulk_create ≠ 0 then
          some ⟨env.rc_bulk_create, some iter_args.alia_length, none⟩
        else
          let t := attr_bulk_transfer env.bulk
          some ⟨t.1, some iter_args.alia_length,
            if t.2 then some (iter_args.alia_iovs, bulk_size - iter_args.alia_available)
            else none⟩
      else some ⟨rc, some iter_args.alia_length, none⟩

/-- The total concatenated length of the attribute names: the sum of the key lengths of
the user-attribute KVS. -/
def spec_names_length (user : List (List Nat × List Nat)) : Nat :=
  (user.map (fun e => e.1.length)).sum

/-! ### User attributes: ATTR_SET -/

/-- Outcome of code that reads the buffer `data` of `bulk_size` bytes which
`ds_pool_attr_set_handler` allocates and fills by the bulk GET: a value, or a read of the
byte at an offset `off ≥ bulk_size`, outside the allocation. -/
inductive Access (α : Type) where
  | ok (v : α)
  | out_of_bounds (off : Nat)
deriving DecidableEq, Repr

/-- The scan for the end of the names array in `ds_pool_attr_set_handler`
(srv_pool.c:2907-2909): `for (values = names, i = 0; i < in->pasi_count; ++values)
if (*values == '\0') ++i;`.  The first argument holds the bytes of the buffer from the
offset `off` of `values` on, the last one is `pasi_count - i`.  The loop has no test
against `bulk_size`: with NULs still to find at the end of the buffer it reads the byte
after it.  The result is the offset of `values` after the loop. -/
def attr_set_scan : List Nat → Nat → Nat → Access Nat
  | _, off, 0 => .ok off
  | [], off, _ + 1 => .out_of_bounds off
  | b :: rest, off, k + 1 =>
    if b = 0 then attr_set_scan rest (off + 1) k else attr_set_scan rest (off + 1) (k + 1)

/-- Loop of `strlen` over the bytes from offset `off` on, `n` bytes counted so far. -/
def strlen_loop : List Nat → Nat → Nat → Access Nat
  | [], off, _ => .out_of_bounds off
  | b :: rest, off, n => if b = 0 then .ok n else strlen_loop rest (off + 1) (n + 1)

/-- The call `strlen(names)` with `names` at offset `off` of the buffer. -/
def strlen (data : List Nat) (off : Nat) : Access Nat :=
  strlen_loop (data.drop off) off 0

/-- A read of the `len` bytes at offset `off` of the buffer; a read of no byte touches
nothing.  The offset reported is the first one read outside the buffer. -/
def read_bytes (data : List Nat) (off len : Nat) : Access (List Nat) :=
  if len = 0 then .ok []
  else if off + len ≤ data.length then .ok ((data.drop off).take len)
  else .out_of_bounds (max off data.length)

/-- Value of a little-endian sequence of bytes. -/
def le_to_nat : List Nat → Nat
  | [] => 0
  | b :: rest => b + 256 * le_to_nat rest

/-- The read `sizes[i]` of a `size_t` (8 bytes, little-endian: the LP64 x86-64 targets of
the server) at offset `off` of the buffer. -/
def read_size_t (data : List Nat) (off : Nat) : Access Nat :=
  match read_bytes data off 8 with
  | .ok bytes => .ok (le_to_nat bytes)
  | .out_of_bounds o => .out_of_bounds o

/-- The update loop of `ds_pool_attr_set_handler` (srv_pool.c:2913-2930).  Arguments after
the buffer, the codes of the calls of `rdb_tx_update` and the offset of `sizes`:
`pasi_count - i`, `i`, the offsets of `names` and `values`, and the updates of the user
attribute KVS queued so far.  The key is the name with its trailing NUL, the value the
`sizes[i]` bytes at `values`, both read by `rdb_tx_update`.  The result is the code and
the updates queued. -/
def attr_set_loop (data : List Nat) (rc_update : List Int) (sizes : Nat) :
    Nat → Nat → Nat → Nat → List (List Nat × List Nat) →
      Access (Int × List (List Nat × List Nat))
  | 0, _, _, _, tx => .ok (0, tx)
  | n + 1, i, names, values, tx =>
    match strlen data names with
    | .out_of_bounds o => .out_of_bounds o
    | .ok l =>
      let len := l + 1
      match read_size_t data (sizes + 8 * i) with
      | .out_of_bounds o => .out_of_bounds o
      | .ok size =>
        match read_bytes data names len with
        | .out_of_bounds o => .out_of_bounds o
        | .ok key =>
          match read_bytes data values size with
          | .out_of_bounds o => .out_of_bounds o
          | .ok value =>
            if rc_update.getD i 0 ≠ 0 then .ok (rc_update.getD i 0, tx)
            else
              attr_set_loop data rc_update sizes n (i + 1) (names + len) (values + size)
                (tx ++ [(key, value)])

/-- Codes of the calls `ds_pool_attr_set_handler` makes, 0 for success: the RDB state
seen by the lookup, `rdb_tx_begin`, `crt_bulk_get_len`, `D_ALLOC` of the buffer,
`crt_bulk_create`, the bulk GET, the calls of `rdb_tx_update` in order, and
`rdb_tx_commit`. -/
structure attr_set_env where
  st : rdb_stat := rdb_stat.present
  rc_tx_begin : Int := 0
  rc_bulk_get_len : Int := 0
  alloc_ok : Bool := true
  rc_bulk_create : Int := 0
  bulk : bulk_env := {}
  rc_update : List Int := []
  rc_commit : Int := 0
deriving DecidableEq, Repr

/-- Reply of ATTR_SET (`po_rc`), the updates of the user-attribute KVS it queued in its
transaction, in order, and whether `rdb_tx_commit` was reached and returned 0. -/
structure attr_set_result where
  po_rc : Int
  tx : List (List Nat × List Nat)
  committed : Bool
deriving DecidableEq, Repr

/-- Function `ds_pool_attr_set_handler` (srv_pool.c:2850).  `pasi_bulk` is the content of
the client buffer behind the bulk handle, whose length is the `bulk_size` that
`crt_bulk_get_len` gives; after a bulk GET that returns 0 the buffer `data` holds it.
`pasi_count` is compared with the `int` counter `i`; the model is for counts below
`2 ^ 31`. -/
def ds_pool_attr_set_handler (env : attr_set_env) (pool_svc_hash : List pool_svc)
    (pi_uuid : uuid_t) (pasi_count : Nat) (pasi_bulk : List Nat) : Access attr_set_result :=
  let lk := pool_svc_lookup_leader pool_svc_hash env.st pi_uuid
  if lk.rc ≠ 0 then .ok ⟨lk.rc, [], false⟩
  else if env.rc_tx_begin ≠ 0 then .ok ⟨env.rc_tx_begin, [], false⟩
  else if env.rc_bulk_get_len ≠ 0 then .ok ⟨env.rc_bulk_get_len, [], false⟩
  else if ¬ env.alloc_ok then .ok ⟨-DER_NOMEM, [], false⟩
  else if env.rc_bulk_create ≠ 0 then .ok ⟨env.rc_bulk_create, [], false⟩
  else if (attr_bulk_transfer env.bulk).1 ≠ 0 then
    .ok ⟨(attr_bulk_transfer env.bulk).1, [], false⟩
  else
    let data := pasi_bulk
    match attr_set_scan data 0 pasi_count with
    | .out_of_bounds o => .out_of_bounds o
    | .ok sizes =>
      match attr_set_loop data env.rc_update sizes pasi_count 0 0 (sizes + 8 * pasi_count)
          [] with
      | .out_of_bounds o => .out_of_bounds o
      | .ok r =>
        if r.1 ≠ 0 then .ok ⟨r.1, r.2, false⟩
        else .ok ⟨env.rc_commit, r.2, decide (env.rc_commit = 0)⟩

/-- The `n` low bytes of a number, little-endian. -/
def nat_to_le : Nat → Nat → List Nat
  | 0, _ => []
  | n + 1, v => v % 256 :: nat_to_le n (v / 256)

/-- Modelled from the spec: the payload of ATTR_SET, "packed names (NUL-delimited),
sizes, and values", for the pairs of a name (without its NUL) and a value; the client
code that packs it is not under src/. -/
def spec_attr_pack (pairs : List (List Nat × List Nat)) : List Nat :=
  (pairs.map (fun e => e.1 ++ [0])).flatten ++
    ((pairs.map (fun e => nat_to_le 8 e.2.length)).flatten ++
      (pairs.map (fun e => e.2)).flatten)

/-! ## Part II — theorems -/

/-! ### `permitted` -/

theorem and_eq_left_iff_testBit (a b : Nat) :
    (a &&& b) = a ↔ ∀ i, a.testBit i = true → b.testBit i = true := by
  constructor
  · intro h i hi
    have hab : (a &&& b).testBit i = true := by rw [h]; exact hi
    simpa [Nat.testBit_and, hi] using hab
  · intro h
    apply Nat.eq_of_testBit_eq
    intro i
    rw [Nat.testBit_and]
    cases ha : a.testBit i
    · simp
    · simp [h i ha]

theorem testBit_shift_mask (nbits mode shift i : Nat) :
    ((mode >>> shift) &&& DAOS_PC_MASK nbits).testBit i = true ↔
      i < nbits ∧ mode.testBit (shift + i) = true := by
  unfold DAOS_PC_MASK
  rw [Nat.testBit_and, Nat.testBit_shiftRight, Nat.testBit_two_pow_sub_one]
  simp [and_comm]

/-- C1: `permitted` returns true exactly when every requested bit lies inside the
capability triplet of the stored mode that the precedence user > group > other selects:
bit `i` of the request must be one of the `nbits` bits of a triplet, and bit `i` of the
selected triplet (bit `index * nbits + i` of the mode) must be set. -/
theorem permitted_iff_subset_of_selected_triplet (nbits : Nat) (attr : pool_attr)
    (req_uid req_gid req_bits : Nat) :
    permitted nbits attr req_uid req_gid req_bits = true ↔
      ∀ i, req_bits.testBit i = true →
        i < nbits ∧
          attr.pa_mode.testBit (spec_triplet_index attr req_uid req_gid * nbits + i) = true := by
  unfold permitted spec_triplet_index
  simp only [beq_iff_eq]
  rw [and_eq_left_iff_testBit]
  constructor
  · intro h i hi
    have := (testBit_shift_mask nbits attr.pa_mode _ i).1 (h i hi)
    split_ifs at this ⊢ <;> simpa [Nat.mul_comm] using this
  · intro h i hi
    apply (testBit_shift_mask nbits attr.pa_mode _ i).2
    have := h i hi
    split_ifs at this ⊢ <;> simpa [Nat.mul_comm] using this

/-! ### `select_svc_ranks` -/

theorem daos_rank_list_find_lt (l : List Nat) (rank i : Nat)
    (h : daos_rank_list_find l rank = some i) : i < l.length := by
  induction l generalizing i with
  | nil => simp [daos_rank_list_find] at h
  | cons r rest ih =>
    unfold daos_rank_list_find at h
    split_ifs at h with hr
    · simp at h; subst h; simp
    · cases hf : daos_rank_list_find rest rank with
      | none => simp [hf] at h
      | some j =>
        simp [hf] at h
        subst h
        have := ih j hf
        simp; omega

theorem daos_rank_list_find_isSome (l : List Nat) (rank : Nat) :
    (daos_rank_list_find l rank).isSome = true ↔ rank ∈ l := by
  induction l with
  | nil => simp [daos_rank_list_find]
  | cons r rest ih =>
    unfold daos_rank_list_find
    split_ifs with hr
    · simp [hr]
    · simp only [Option.isSome_map', List.mem_cons]
      rw [ih]
      constructor
      · intro h; exact Or.inr h
      · rintro (h | h)
        · exact absurd h.symm hr
        · exact h

/-- Number of entries the selection loop copies: it stops once `rl_nr` are stored and
otherwise stores every visited entry except the one at `i_rank_zero` when that one is
skipped. -/
theorem select_svc_ranks_loop_length (rl_nr : Nat) (iz sel : Int) (rest : List Nat) :
    ∀ (i : Nat) (ranks : List Nat), ranks.length ≤ rl_nr →
      (select_svc_ranks_loop rl_nr iz sel i rest ranks).length =
        min rl_nr (ranks.length + (rest.length -
          (if sel > 1 ∧ (i : Int) ≤ iz ∧ iz < (i : Int) + rest.length then 1 else 0))) := by
  induction rest with
  | nil =>
    intro i ranks h
    simp [select_svc_ranks_loop]
    omega
  | cons r rest ih =>
    intro i ranks h
    unfold select_svc_ranks_loop
    by_cases hfull : ranks.length = rl_nr
    · simp [hfull]
    · rw [if_neg hfull]
      have hlt : ranks.length < rl_nr := by omega
      by_cases hskip : (i : Int) = iz ∧ sel > 1
      · rw [if_pos hskip, ih (i + 1) ranks h]
        obtain ⟨h1, h2⟩ := hskip
        have c1 : ¬ (sel > 1 ∧ ((i + 1 : Nat) : Int) ≤ iz ∧
            iz < ((i + 1 : Nat) : Int) + (rest.length : Int)) := by
          push_cast; omega
        have c2 : sel > 1 ∧ (i : Int) ≤ iz ∧
            iz < (i : Int) + ((r :: rest).length : Int) := by
          simp only [List.length_cons]; push_cast; omega
        rw [if_neg c1, if_pos c2]
        simp
      · rw [if_neg hskip, ih (i + 1) (ranks ++ [r]) (by simp; omega)]
        by_cases c2 : sel > 1 ∧ (i : Int) ≤ iz ∧ iz < (i : Int) + ((r :: rest).length : Int)
        · have c1 : sel > 1 ∧ ((i + 1 : Nat) : Int) ≤ iz ∧
              iz < ((i + 1 : Nat) : Int) + (rest.length : Int) := by
            simp only [List.length_cons] at c2
            push_cast at c2 ⊢
            refine ⟨c2.1, ?_, by omega⟩
            by_contra hc
            exact hskip ⟨by omega, c2.1⟩
          rw [if_pos c1, if_pos c2]
          have : 1 ≤ rest.length := by
            obtain ⟨_, h2, h3⟩ := c1
            push_cast at h2 h3
            omega
          simp only [List.length_append, List.length_cons, List.length_nil]
          omega
        · have c1 : ¬ (sel > 1 ∧ ((i + 1 : Nat) : Int) ≤ iz ∧
              iz < ((i + 1 : Nat) : Int) + (rest.length : Int)) := by
            simp only [List.length_cons] at c2
            push_cast at c2 ⊢
            omega
          rw [if_neg c1, if_neg c2]
          simp only [List.length_append, List.length_cons, List.length_nil]
          omega

/-- C8 (evaluation at the failing input): with the two candidate ranks 0 and 1 and one
replica wanted, `select_svc_ranks` selects rank 0, although the candidate list holds more
than one rank; with the candidates 0, 1, 2 rank 0 is skipped. -/
theorem select_svc_ranks_selects_rank_zero_of_two :
    select_svc_ranks true 1 [0, 1] = Ret.ok [0] ∧ ([0, 1] : List Nat).length > 1 ∧
      select_svc_ranks true 1 [0, 1, 2] = Ret.ok [1] := by
  decide

/-- C9 (counterexample): three candidate ranks 0, 1, 2 and three replicas wanted give two
ranks, not `min 3 3 = 3`. -/
theorem select_svc_ranks_count_not_min :
    select_svc_ranks true 3 [0, 1, 2] = Ret.ok [1, 2] ∧
      ([1, 2] : List Nat).length ≠ min 3 ([0, 1, 2] : List Nat).length := by
  decide

/-- C9 (amended): for every candidate list and every replica count `K > 0`, if the rank
list can be allocated then `select_svc_ranks` succeeds and returns `min K selectable`
ranks, where `selectable` is the number of candidates, less one when rank 0 is among them
and is not the only candidate. -/
theorem select_svc_ranks_count (K : Int) (target_addrs : List Nat) (hK : 0 < K) :
    ∃ ranks, select_svc_ranks true K target_addrs = Ret.ok ranks ∧
      (ranks.length : Int) =
        min K (if 0 ∈ target_addrs ∧ target_addrs.length > 1
          then (target_addrs.length : Int) - 1 else target_addrs.length) := by
  have hK' : ¬ K ≤ 0 := by omega
  have hmem := daos_rank_list_find_isSome target_addrs 0
  have hlen := select_svc_ranks_loop_length
  unfold select_svc_ranks
  simp only [hK', if_false, Bool.not_eq_true, Bool.true_eq_false, not_true_eq_false,
    not_false_eq_true, if_true]
  cases hf : daos_rank_list_find target_addrs 0 with
  | none =>
    have hnot : ¬ (0 ∈ target_addrs) := by
      rw [← hmem, hf]; simp
    simp only [Option.isSome_none, Bool.false_eq_true, false_and, if_false, hnot]
    rw [hlen _ _ _ _ 0 [] (by simp)]
    have c : ¬ ((target_addrs.length : Int) > 1 ∧ ((0 : Nat) : Int) ≤ -1 ∧
        (-1 : Int) < ((0 : Nat) : Int) + (target_addrs.length : Int)) := by omega
    rw [if_neg c]
    simp only [List.length_nil, Nat.zero_add, Nat.sub_zero]
    split_ifs with h1 h2 h2
    all_goals first
      | (refine ⟨_, rfl, ?_⟩
         rw [hlen _ _ _ _ 0 [] (by simp), if_neg c]
         simp only [List.length_nil, Nat.zero_add, Nat.sub_zero]
         omega)
      | (exfalso; omega)
  | some i =>
    have hi := daos_rank_list_find_lt target_addrs 0 i hf
    have hin : 0 ∈ target_addrs := by
      rw [← hmem, hf]; simp
    simp only [Option.isSome_some, true_and, hin]
    by_cases hN : (target_addrs.length : Int) > 1
    · have hN' : target_addrs.length > 1 := by omega
      simp only [hN, hN', if_true]
      split_ifs with h1 h2 h2
      all_goals first
        | (refine ⟨_, rfl, ?_⟩
           rw [hlen _ _ _ _ 0 [] (by simp)]
           simp only [List.length_nil, Nat.zero_add]
           split_ifs <;> omega)
        | (exfalso
           rw [hlen _ _ _ _ 0 [] (by simp)] at h2
           simp only [List.length_nil, Nat.zero_add] at h2
           split_ifs at h2 <;> omega)
    · have hN' : ¬ target_addrs.length > 1 := by omega
      simp only [hN, hN', if_false]
      split_ifs with h1 h2 h2
      all_goals first
        | (refine ⟨_, rfl, ?_⟩
           rw [hlen _ _ _ _ 0 [] (by simp)]
           simp only [List.length_nil, Nat.zero_add]
           split_ifs <;> omega)
        | (exfalso
           rw [hlen _ _ _ _ 0 [] (by simp)] at h2
           simp only [List.length_nil, Nat.zero_add] at h2
           split_ifs at h2 <;> omega)

/-- C9 (amended), at three candidates 0, 1, 2 with three replicas wanted. -/
theorem select_svc_ranks_count_witness :
    (0 : Int) < 3 ∧ ∃ ranks, select_svc_ranks true 3 [0, 1, 2] = Ret.ok ranks ∧
      (ranks.length : Int) =
        min 3 (if 0 ∈ [0, 1, 2] ∧ [0, 1, 2].length > 1
          then (([0, 1, 2] : List Nat).length : Int) - 1 else ([0, 1, 2] : List Nat).length) :=
  ⟨by decide, select_svc_ranks_count 3 [0, 1, 2] (by decide)⟩

/-! ### `pool_svc_lookup_leader` -/

/-- C10: for a pool service registered under `uuid`, `pool_svc_lookup_leader` returns 0
exactly when the state is UP and the stop flag is clear, and then the service object has
its leader reference count raised by exactly one (and holds the registry reference taken
by the lookup), its state, stop flag and term being as before; in every other case it
returns `-DER_NOTLEADER` and the service object is exactly as it was. -/
theorem pool_svc_lookup_leader_registered (pool_svc_hash : List pool_svc) (st : rdb_stat)
    (uuid : uuid_t) (svc : pool_svc)
    (hreg : pool_svc_hash.find? (fun s => s.ps_uuid == uuid) = some svc) :
    ((pool_svc_lookup_leader pool_svc_hash st uuid).rc = 0 ↔
        (svc.ps_state = pool_svc_state.POOL_SVC_UP ∧ svc.ps_stop = false)) ∧
    ((pool_svc_lookup_leader pool_svc_hash st uuid).rc = 0 →
        (pool_svc_lookup_leader pool_svc_hash st uuid).svc =
          some { svc with ps_leader_ref := svc.ps_leader_ref + 1, ps_ref := svc.ps_ref + 1 }) ∧
    ((pool_svc_lookup_leader pool_svc_hash st uuid).rc ≠ 0 →
        (pool_svc_lookup_leader pool_svc_hash st uuid).rc = -DER_NOTLEADER ∧
        (pool_svc_lookup_leader pool_svc_hash st uuid).svc = some svc) := by
  unfold pool_svc_lookup_leader pool_svc_lookup
  simp only [hreg]
  cases hup : pool_svc_up { svc with ps_ref := svc.ps_ref + 1 }
  · have hnot : ¬ (svc.ps_state = pool_svc_state.POOL_SVC_UP ∧ svc.ps_stop = false) := by
      intro ⟨h1, h2⟩
      simp [pool_svc_up, h1, h2] at hup
    simp [hnot, pool_svc_put, DER_NOTLEADER]
  · have hyes : svc.ps_state = pool_svc_state.POOL_SVC_UP ∧ svc.ps_stop = false := by
      simp [pool_svc_up] at hup
      exact ⟨hup.2, hup.1⟩
    simp [hyes]

/-- C10, at a registry holding one service that is UP and not stopping. -/
theorem pool_svc_lookup_leader_registered_witness :
    ([(⟨7, 1, false, 3, pool_svc_state.POOL_SVC_UP, 0, 1⟩ : pool_svc)].find?
        (fun s => s.ps_uuid == 7) = some ⟨7, 1, false, 3, pool_svc_state.POOL_SVC_UP, 0, 1⟩) ∧
    (pool_svc_lookup_leader [⟨7, 1, false, 3, pool_svc_state.POOL_SVC_UP, 0, 1⟩]
        rdb_stat.present 7).rc = 0 :=
  ⟨by decide,
   ((pool_svc_lookup_leader_registered [⟨7, 1, false, 3, pool_svc_state.POOL_SVC_UP, 0, 1⟩]
      rdb_stat.present 7 ⟨7, 1, false, 3, pool_svc_state.POOL_SVC_UP, 0, 1⟩
      (by decide)).1).2 ⟨rfl, rfl⟩⟩

/-! ### `transfer_map_buf` -/

theorem pool_svc_lookup_leader_svc (pool_svc_hash : List pool_svc) (st : rdb_stat)
    (uuid : uuid_t) (h : (pool_svc_lookup_leader pool_svc_hash st uuid).rc = 0) :
    ∃ svc, (pool_svc_lookup_leader pool_svc_hash st uuid).svc = some svc := by
  unfold pool_svc_lookup_leader pool_svc_lookup at h ⊢
  cases hf : pool_svc_hash.find? (fun s => s.ps_uuid == uuid) with
  | none =>
    simp only [hf] at h
    cases st <;> simp [DER_NONEXIST, DER_NOTLEADER] at h
  | some svc =>
    simp only [hf] at h ⊢
    split_ifs <;> simp

theorem rdb_tx_commit_cases (p : Params) (fault : Int) (db : PoolDb) (tx : List TxOp) :
    ((rdb_tx_commit p fault db tx).1 ≠ 0 ∧ (rdb_tx_commit p fault db tx).2 = db) ∨
    ((rdb_tx_commit p fault db tx).1 = 0 ∧
      (rdb_tx_commit p fault db tx).2 = tx.foldl (tx_apply_op p) db) := by
  unfold rdb_tx_commit
  split_ifs with h
  · left; exact ⟨h, rfl⟩
  · right; exact ⟨rfl, rfl⟩

/-- The two ways `connect_add_handle` can end: with a non-zero code and the DB untouched,
or with code 0 after passing the exclusivity check and committing the counter and the new
record. -/
theorem connect_add_handle_cases (p : Params) (env : connect_env) (db : PoolDb)
    (req : pool_connect_in) (tr : transfer_result) :
    ((connect_add_handle p env db req tr).po_rc ≠ 0 ∧
        (connect_add_handle p env db req tr).db = db) ∨
    ((connect_add_handle p env db req tr).po_rc = 0 ∧
        connect_check_exclusive p env.rc_fetch_first db req.pci_capas db.nhandles = 0 ∧
        (connect_add_handle p env db req tr).db =
          [TxOp.update_nhandles ((db.nhandles + 1) % 2 ^ 32),
            TxOp.update_handle req.pi_hdl req.pci_capas].foldl (tx_apply_op p) db) := by
  unfold connect_add_handle rdb_tx_lookup_root
  simp only []
  split_ifs with h1 h2 h3 h4 h5 h6
  all_goals first
    | (left; exact ⟨by assumption, rfl⟩)
    | skip
  simp only [ne_eq, not_not] at h3
  rcases rdb_tx_commit_cases p env.rc_commit db
    [TxOp.update_nhandles ((db.nhandles + 1) % 2 ^ 32),
      TxOp.update_handle req.pi_hdl req.pci_capas] with hc | hc
  · left; exact hc
  · right; exact ⟨hc.1, h3, hc.2⟩

/-- The `bcast` field of `connect_add_handle` is the code of `pool_connect_bcast`, and a
non-zero broadcast code is the reply code. -/
theorem connect_add_handle_bcast (p : Params) (env : connect_env) (db : PoolDb)
    (req : pool_connect_in) (tr : transfer_result) (bc : Int)
    (h : (connect_add_handle p env db req tr).bcast = some bc) :
    bc = pool_connect_bcast env.rc_group_rank env.rc_bcast_create env.rc_rpc_send env.tco_rc ∧
      (bc ≠ 0 → (connect_add_handle p env db req tr).po_rc = bc) := by
  unfold connect_add_handle at h ⊢
  simp only [] at h ⊢
  split_ifs at h ⊢ with h1 h2 h3 h4 h5
  all_goals first
    | (exfalso; simpa using h)
    | (simp only [Option.some.injEq] at h; subst h; exact ⟨rfl, fun _ => rfl⟩)
    | (simp only [Option.some.injEq] at h; subst h
       exact ⟨rfl, fun hne => absurd hne (by assumption)⟩)

theorem rdb_tx_lookup_handle_zero (fault : Int) (db : PoolDb) (key : uuid_t)
    (h : (rdb_tx_lookup_handle fault db key).1 = 0) :
    kvs_lookup db.handles key = some (rdb_tx_lookup_handle fault db key).2 := by
  unfold rdb_tx_lookup_handle at h ⊢
  split_ifs at h ⊢ with hf
  · exact absurd h hf.1
  · cases hk : kvs_lookup db.handles key with
    | none => simp [hk, DER_NONEXIST] at h
    | some v => simp

theorem rdb_tx_lookup_handle_nonexist (fault : Int) (db : PoolDb) (key : uuid_t)
    (h : (rdb_tx_lookup_handle fault db key).1 = -DER_NONEXIST) :
    kvs_lookup db.handles key = none := by
  unfold rdb_tx_lookup_handle at h
  split_ifs at h with hf
  · exact absurd h hf.2
  · cases hk : kvs_lookup db.handles key with
    | none => rfl
    | some v => simp [hk, DER_NONEXIST] at h

theorem rdb_tx_lookup_handle_of_some (db : PoolDb) (key : uuid_t) (v : Nat) (fault : Int)
    (hf : ¬ (fault ≠ 0 ∧ fault ≠ -DER_NONEXIST))
    (h : kvs_lookup db.handles key = some v) :
    rdb_tx_lookup_handle fault db key = (0, v) := by
  unfold rdb_tx_lookup_handle
  rw [if_neg hf, h]

theorem rdb_tx_lookup_handle_of_none (db : PoolDb) (key : uuid_t) (fault : Int)
    (hf : ¬ (fault ≠ 0 ∧ fault ≠ -DER_NONEXIST))
    (h : kvs_lookup db.handles key = none) :
    rdb_tx_lookup_handle fault db key = (-DER_NONEXIST, 0) := by
  unfold rdb_tx_lookup_handle
  rw [if_neg hf, h]

/-- Shape of a CONNECT: either the handler replies before the handle is added (no
broadcast, DB untouched; reply 0 only for a handle already stored with the requested bits,
after a successful map transfer), or the handle is new, the map transfer succeeded and the
handler ends as `connect_add_handle` does. -/
theorem connect_handler_shape (p : Params) (env : connect_env)
    (pool_svc_hash : List pool_svc) (db : PoolDb) (req : pool_connect_in) :
    ((ds_pool_connect_handler p env pool_svc_hash db req).bcast = none ∧
      (ds_pool_connect_handler p env pool_svc_hash db req).db = db ∧
      ((ds_pool_connect_handler p env pool_svc_hash db req).po_rc ≠ 0 ∨
        ((ds_pool_connect_handler p env pool_svc_hash db req).po_rc = 0 ∧
          kvs_lookup db.handles req.pi_hdl = some req.pci_capas)) ∧
      (∀ tr, (ds_pool_connect_handler p env pool_svc_hash db req).transfer = some tr →
        tr.rc = 0 → kvs_lookup db.handles req.pi_hdl = some req.pci_capas)) ∨
    (kvs_lookup db.handles req.pi_hdl = none ∧
      ∃ tr, ds_pool_connect_handler p env pool_svc_hash db req =
        connect_add_handle p env db req tr) := by
  generalize hr : ds_pool_connect_handler p env pool_svc_hash db req = r
  unfold ds_pool_connect_handler at hr
  simp only [] at hr
  by_cases hlk : (pool_svc_lookup_leader pool_svc_hash env.st req.pi_uuid).rc = 0
  · obtain ⟨svc, hsvc⟩ := pool_svc_lookup_leader_svc _ _ _ hlk
    rw [hsvc] at hr
    simp only [] at hr
    have hz := rdb_tx_lookup_handle_zero env.rc_lookup_handle db req.pi_hdl
    have hn := rdb_tx_lookup_handle_nonexist env.rc_lookup_handle db req.pi_hdl
    rw [if_neg (not_not.mpr hlk)] at hr
    by_cases h1 : env.rc_iv_ns ≠ 0
    · rw [if_pos h1] at hr; subst hr; left; exact ⟨rfl, rfl, Or.inl h1, by intro tr h; simp at h⟩
    rw [if_neg h1] at hr
    by_cases h2 : env.rc_rebuild_query ≠ 0
    · rw [if_pos h2] at hr; subst hr; left; exact ⟨rfl, rfl, Or.inl h2, by intro tr h; simp at h⟩
    rw [if_neg h2] at hr
    by_cases h3 : env.rc_tx_begin ≠ 0
    · rw [if_pos h3] at hr; subst hr; left; exact ⟨rfl, rfl, Or.inl h3, by intro tr h; simp at h⟩
    rw [if_neg h3] at hr
    by_cases h4 : (rdb_tx_lookup_handle env.rc_lookup_handle db req.pi_hdl).1 = 0 ∧
        (rdb_tx_lookup_handle env.rc_lookup_handle db req.pi_hdl).2 ≠ req.pci_capas
    · rw [if_pos h4] at hr; subst hr; left
      exact ⟨rfl, rfl, Or.inl (by simp [DER_EXIST]), by intro tr h; simp at h⟩
    rw [if_neg h4] at hr
    by_cases h5 : (rdb_tx_lookup_handle env.rc_lookup_handle db req.pi_hdl).1 ≠ 0 ∧
        (rdb_tx_lookup_handle env.rc_lookup_handle db req.pi_hdl).1 ≠ -DER_NONEXIST
    · rw [if_pos h5] at hr; subst hr; left; exact ⟨rfl, rfl, Or.inl h5.1, by intro tr h; simp at h⟩
    rw [if_neg h5] at hr
    by_cases h6 : (pool_attr_read env.rc_lookup_uid env.rc_lookup_gid env.rc_lookup_mode db).1 ≠ 0
    · rw [if_pos h6] at hr; subst hr; left; exact ⟨rfl, rfl, Or.inl h6, by intro tr h; simp at h⟩
    rw [if_neg h6] at hr
    by_cases h7 : (!permitted p.DAOS_PC_NBITS
        (pool_attr_read env.rc_lookup_uid env.rc_lookup_gid env.rc_lookup_mode db).2
        req.pci_uid req.pci_gid req.pci_capas) = true
    · rw [if_pos h7] at hr; subst hr; left
      exact ⟨rfl, rfl, Or.inl (by simp [DER_NO_PERM]), by intro tr h; simp at h⟩
    rw [if_neg h7] at hr
    by_cases h8 : (transfer_map_buf p env.transfer svc db req.pci_map_bulk_len).rc ≠ 0
    · rw [if_pos h8] at hr; subst hr; left; exact ⟨rfl, rfl, Or.inl h8, by
        intro tr h htr
        simp only [Option.some.injEq] at h
        rw [← h] at htr
        exact absurd htr h8⟩
    rw [if_neg h8] at hr
    by_cases h9 : (rdb_tx_lookup_handle env.rc_lookup_handle db req.pi_hdl).1 = 0
    · rw [if_pos (by simpa using h9)] at hr
      subst hr
      left
      have hcap : (rdb_tx_lookup_handle env.rc_lookup_handle db req.pi_hdl).2 = req.pci_capas := by
        by_contra hne
        exact h4 ⟨h9, hne⟩
      have hk : kvs_lookup db.handles req.pi_hdl = some req.pci_capas := by
        rw [hz h9, hcap]
      exact ⟨rfl, rfl, Or.inr ⟨rfl, hk⟩, fun _ _ _ => hk⟩
    · rw [if_neg (by simpa using h9)] at hr
      subst hr
      have hne : (rdb_tx_lookup_handle env.rc_lookup_handle db req.pi_hdl).1 = -DER_NONEXIST := by
        by_contra hne
        exact h5 ⟨h9, hne⟩
      right
      exact ⟨hn hne, _, rfl⟩
  · left
    rw [if_pos hlk] at hr
    subst hr
    exact ⟨rfl, rfl, Or.inl hlk, by intro tr h; simp at h⟩

/-- The three ways a CONNECT can end: a non-zero reply with the DB untouched; reply 0 for
a handle that is already there with the requested bits, the DB untouched; reply 0 for a
new handle after the exclusivity check, with the counter and the record committed. -/
theorem connect_handler_cases (p : Params) (env : connect_env)
    (pool_svc_hash : List pool_svc) (db : PoolDb) (req : pool_connect_in) :
    ((ds_pool_connect_handler p env pool_svc_hash db req).po_rc ≠ 0 ∧
        (ds_pool_connect_handler p env pool_svc_hash db req).db = db) ∨
    ((ds_pool_connect_handler p env pool_svc_hash db req).po_rc = 0 ∧
        (ds_pool_connect_handler p env pool_svc_hash db req).db = db ∧
        kvs_lookup db.handles req.pi_hdl = some req.pci_capas) ∨
    ((ds_pool_connect_handler p env pool_svc_hash db req).po_rc = 0 ∧
        kvs_lookup db.handles req.pi_hdl = none ∧
        connect_check_exclusive p env.rc_fetch_first db req.pci_capas db.nhandles = 0 ∧
        (ds_pool_connect_handler p env pool_svc_hash db req).db =
          [TxOp.update_nhandles ((db.nhandles + 1) % 2 ^ 32),
            TxOp.update_handle req.pi_hdl req.pci_capas].foldl (tx_apply_op p) db) := by
  rcases connect_handler_shape p env pool_svc_hash db req with ⟨_, hdb, h | h, _⟩ | ⟨hk, tr, hr⟩
  · left; exact ⟨h, hdb⟩
  · right; left; exact ⟨h.1, hdb, h.2⟩
  · rw [hr]
    rcases connect_add_handle_cases p env db req tr with hc | hc
    · left; exact hc
    · right; right; exact ⟨hc.1, hk, hc.2.1, hc.2.2⟩

/-- C6: a CONNECT that replies with a non-zero code leaves the committed DB — handle
table and `nhandles` included — exactly as it was; and when the handler has sent the
TGT_CONNECT broadcast and the targets report a failure (`tco_rc ≠ 0` after the broadcast
was created and sent), the reply is `- DER_IO` and nothing is committed. -/
theorem connect_error_commits_nothing (p : Params) (env : connect_env)
    (pool_svc_hash : List pool_svc) (db : PoolDb) (req : pool_connect_in) :
    ((ds_pool_connect_handler p env pool_svc_hash db req).po_rc ≠ 0 →
      (ds_pool_connect_handler p env pool_svc_hash db req).db = db) ∧
    ((ds_pool_connect_handler p env pool_svc_hash db req).bcast ≠ none →
      env.rc_group_rank = 0 → env.rc_bcast_create = 0 → env.rc_rpc_send = 0 →
      env.tco_rc ≠ 0 →
      (ds_pool_connect_handler p env pool_svc_hash db req).po_rc = - DER_IO ∧
      (ds_pool_connect_handler p env pool_svc_hash db req).db = db) := by
  have hcases := connect_handler_cases p env pool_svc_hash db req
  have hfirst : (ds_pool_connect_handler p env pool_svc_hash db req).po_rc ≠ 0 →
      (ds_pool_connect_handler p env pool_svc_hash db req).db = db := by
    intro h
    rcases hcases with hc | hc | hc
    · exact hc.2
    · exact absurd hc.1 h
    · exact absurd hc.1 h
  refine ⟨hfirst, ?_⟩
  intro hb g1 g2 g3 g4
  rcases connect_handler_shape p env pool_svc_hash db req with ⟨hnone, _⟩ | ⟨_, tr, hr⟩
  · exact absurd hnone hb
  · cases hbc : (ds_pool_connect_handler p env pool_svc_hash db req).bcast with
    | none => exact absurd hbc hb
    | some bc =>
      have hbc' := hbc
      rw [hr] at hbc'
      obtain ⟨e1, e2⟩ := connect_add_handle_bcast p env db req tr bc hbc'
      have hio : bc = - DER_IO := by
        rw [e1]; simp [pool_connect_bcast, g1, g2, g3, g4]
      have hne : bc ≠ 0 := by rw [hio]; simp [ DER_IO]
      have hrc : (ds_pool_connect_handler p env pool_svc_hash db req).po_rc = - DER_IO := by
        rw [hr, e2 hne, hio]
      refine ⟨hrc, hfirst ?_⟩
      rw [hrc]; simp [ DER_IO]

/-! ### Handle table lemmas -/

theorem kvs_insert_length (lt : uuid_t → uuid_t → Bool) (l : List (uuid_t × Nat))
    (k : uuid_t) (v : Nat) : (kvs_insert lt l k v).length = l.length + 1 := by
  induction l with
  | nil => simp [kvs_insert]
  | cons e rest ih =>
    unfold kvs_insert
    split_ifs <;> simp [ih]

theorem mem_kvs_insert (lt : uuid_t → uuid_t → Bool) (l : List (uuid_t × Nat))
    (k : uuid_t) (v : Nat) (x : uuid_t × Nat) :
    x ∈ kvs_insert lt l k v ↔ x = (k, v) ∨ x ∈ l := by
  induction l with
  | nil => simp [kvs_insert]
  | cons e rest ih =>
    unfold kvs_insert
    split_ifs
    · simp
    · simp only [List.mem_cons, ih]
      tauto

theorem kvs_update_of_lookup_none (lt : uuid_t → uuid_t → Bool) (l : List (uuid_t × Nat))
    (k : uuid_t) (v : Nat) (h : kvs_lookup l k = none) :
    kvs_update lt l k v = kvs_insert lt l k v := by
  unfold kvs_update
  simp [h]

theorem kvs_lookup_some_mem (l : List (uuid_t × Nat)) (k : uuid_t) (v : Nat)
    (h : kvs_lookup l k = some v) : (k, v) ∈ l := by
  unfold kvs_lookup at h
  cases hf : l.find? (fun e => e.1 == k) with
  | none => simp [hf] at h
  | some e =>
    simp [hf] at h
    have hm := List.mem_of_find?_eq_some hf
    have hk := List.find?_some hf
    simp at hk
    have : e = (k, v) := by
      cases e; simp_all
    rw [← this]; exact hm

theorem kvs_delete_sublist (l : List (uuid_t × Nat)) (k : uuid_t) :
    (kvs_delete l k).Sublist l := by
  unfold kvs_delete
  exact List.filter_sublist l

theorem kvs_delete_length_lt (l : List (uuid_t × Nat)) (k : uuid_t) (v : Nat)
    (h : (k, v) ∈ l) : (kvs_delete l k).length < l.length := by
  unfold kvs_delete
  apply List.length_filter_lt_length_iff_exists.mpr
  exact ⟨(k, v), h, by simp⟩

theorem foldl_kvs_delete_sublist (ks : List uuid_t) (l : List (uuid_t × Nat)) :
    (ks.foldl kvs_delete l).Sublist l := by
  induction ks generalizing l with
  | nil => exact List.Sublist.refl l
  | cons k rest ih =>
    simp only [List.foldl_cons]
    exact (ih (kvs_delete l k)).trans (kvs_delete_sublist l k)

theorem foldl_kvs_delete_not_mem (ks : List uuid_t) (l : List (uuid_t × Nat))
    (x : uuid_t × Nat) (hx : x ∈ ks.foldl kvs_delete l) : x.1 ∉ ks := by
  induction ks generalizing l with
  | nil => simp
  | cons k rest ih =>
    simp only [List.foldl_cons] at hx
    have h1 := ih (kvs_delete l k) hx
    have h2 : x ∈ kvs_delete l k := (foldl_kvs_delete_sublist rest _).subset hx
    unfold kvs_delete at h2
    simp only [List.mem_filter, bne_iff_ne, ne_eq] at h2
    simp only [List.mem_cons, not_or]
    exact ⟨h2.2, h1⟩

theorem foldl_kvs_delete_all (l : List (uuid_t × Nat)) :
    (l.map Prod.fst).foldl kvs_delete l = [] := by
  apply List.eq_nil_iff_forall_not_mem.mpr
  intro x hx
  have h1 := foldl_kvs_delete_not_mem _ _ x hx
  have h2 : x ∈ l := (foldl_kvs_delete_sublist _ _).subset hx
  exact h1 (List.mem_map_of_mem Prod.fst h2)

theorem foldl_delete_ops (p : Params) (ks : List uuid_t) (db : PoolDb) :
    (ks.map TxOp.delete_handle).foldl (tx_apply_op p) db =
      { db with handles := ks.foldl kvs_delete db.handles } := by
  induction ks generalizing db with
  | nil => rfl
  | cons k rest ih =>
    simp only [List.map_cons, List.foldl_cons, tx_apply_op]
    rw [ih]

theorem handles_inv_mono (p : Params) (n m : Nat) (db : PoolDb) (h : handles_inv p n db)
    (hnm : n ≤ m) : handles_inv p m db :=
  ⟨h.1, le_trans h.2.1 hnm, h.2.2⟩

/-- Removing records keeps the invariant as long as the counter is not below the number
of records left. -/
theorem handles_inv_sublist (p : Params) (n : Nat) (db : PoolDb) (l : List (uuid_t × Nat))
    (nh : Nat) (h : handles_inv p n db) (hl : l.Sublist db.handles) (h1 : l.length ≤ nh)
    (h2 : nh ≤ n) : handles_inv p n { db with nhandles := nh, handles := l } := by
  refine ⟨h1, h2, ?_⟩
  intro e he hex
  have hdb := h.2.2 e (hl.subset he) hex
  simp only at he ⊢
  rw [hdb] at hl
  rcases List.sublist_singleton.mp hl with h0 | h0
  · rw [h0] at he; simp at he
  · exact h0

theorem rdb_tx_fetch_first_zero (f : Int) (db : PoolDb)
    (h : (rdb_tx_fetch_first f db).1 = 0) :
    ∃ e rest, db.handles = e :: rest ∧ (rdb_tx_fetch_first f db).2 = e.2 := by
  unfold rdb_tx_fetch_first at h ⊢
  split_ifs at h ⊢ with hf
  · exact absurd h hf.1
  · cases hh : db.handles with
    | nil => simp [hh, DER_NONEXIST] at h
    | cons e rest => exact ⟨e, rest, rfl, rfl⟩

theorem connect_check_exclusive_zero (p : Params) (f : Int) (db : PoolDb) (capas nh : Nat)
    (h : connect_check_exclusive p f db capas nh = 0) :
    nh = 0 ∨ (capas &&& p.DAOS_PC_EX = 0 ∧
      ∃ e rest, db.handles = e :: rest ∧ e.2 &&& p.DAOS_PC_EX = 0) := by
  unfold connect_check_exclusive at h
  by_cases hnh : nh = 0
  · exact Or.inl hnh
  · right
    simp only [ne_eq, hnh, not_false_eq_true, if_true] at h
    by_cases h1 : capas &&& p.DAOS_PC_EX = 0
    · simp only [h1, not_true_eq_false, if_false] at h
      by_cases h2 : (rdb_tx_fetch_first f db).1 = 0
      · simp only [h2, not_true_eq_false, if_false] at h
        obtain ⟨e, rest, he, hv⟩ := rdb_tx_fetch_first_zero f db h2
        refine ⟨h1, e, rest, he, ?_⟩
        by_contra hex
        rw [hv] at h
        simp [hex, DER_BUSY] at h
      · simp only [h2, not_false_eq_true, if_true] at h
    · simp [h1, DER_BUSY] at h

/-! ### The invariant is kept by every request -/

theorem connect_keeps_inv (p : Params) (env : connect_env) (pool_svc_hash : List pool_svc)
    (db : PoolDb) (req : pool_connect_in) (n : Nat) (h : handles_inv p n db)
    (hn : n + 1 < 2 ^ 32) :
    handles_inv p (n + 1) (ds_pool_connect_handler p env pool_svc_hash db req).db := by
  rcases connect_handler_cases p env pool_svc_hash db req with hc | hc | hc
  · rw [hc.2]; exact handles_inv_mono p n _ db h (Nat.le_succ n)
  · rw [hc.2.1]; exact handles_inv_mono p n _ db h (Nat.le_succ n)
  · obtain ⟨_, hk, hex, hdb⟩ := hc
    rw [hdb]
    simp only [List.foldl_cons, List.foldl_nil, tx_apply_op]
    rw [kvs_update_of_lookup_none _ _ _ _ hk]
    obtain ⟨h1, h2, h3⟩ := h
    have hmod : (db.nhandles + 1) % 2 ^ 32 = db.nhandles + 1 :=
      Nat.mod_eq_of_lt (by omega)
    rw [hmod]
    refine ⟨?_, ?_, ?_⟩
    · simp only [kvs_insert_length]; omega
    · simp only; omega
    · intro e he hee
      simp only at he ⊢
      rcases connect_check_exclusive_zero p _ db _ _ hex with h0 | ⟨hreq, e0, rest, hl, he0⟩
      · have hnil : db.handles = [] := by
          apply List.eq_nil_of_length_eq_zero; omega
        rw [hnil] at he ⊢
        simp only [kvs_insert, List.mem_singleton] at he ⊢
        rw [he]
      · exfalso
        rcases (mem_kvs_insert _ _ _ _ _).1 he with hnew | hold
        · rw [hnew] at hee; exact hee hreq
        · have := h3 e hold hee
          rw [hl] at this
          simp only [List.cons.injEq] at this
          rw [← this.1] at hee
          exact hee he0

theorem pool_disconnect_hdls_loop_cases (rc_delete : List Int) (hdls : List uuid_t) :
    ∀ (i : Nat) (tx : List TxOp),
      ((pool_disconnect_hdls_loop rc_delete i hdls tx).1 = 0 ∧
        (pool_disconnect_hdls_loop rc_delete i hdls tx).2 =
          tx ++ hdls.map TxOp.delete_handle) ∨
      ((pool_disconnect_hdls_loop rc_delete i hdls tx).1 ≠ 0 ∧
        ∃ j, j < hdls.length ∧ rc_delete.getD (i + j) 0 ≠ 0 ∧
          (pool_disconnect_hdls_loop rc_delete i hdls tx).2 =
            tx ++ (hdls.take j).map TxOp.delete_handle) := by
  induction hdls with
  | nil => intro i tx; left; simp [pool_disconnect_hdls_loop]
  | cons h rest ih =>
    intro i tx
    unfold pool_disconnect_hdls_loop
    split_ifs with hf
    · right
      exact ⟨hf, 0, by simp, by simpa using hf, by simp⟩
    · rcases ih (i + 1) (tx ++ [TxOp.delete_handle h]) with hc | ⟨h1, j, hj, hjf, h2⟩
      · left
        refine ⟨hc.1, ?_⟩
        rw [hc.2]; simp
      · right
        refine ⟨h1, j + 1, by simp; omega, ?_, ?_⟩
        · rw [show i + (j + 1) = i + 1 + j by omega]; exact hjf
        · rw [h2]; simp

/-- The two ways `pool_disconnect_hdls` can end: code 0 with a delete per handle and the
counter update queued, or a non-zero code with only the deletes of a proper prefix of the
handles queued. -/
theorem pool_disconnect_hdls_cases (env : disconnect_hdls_env) (db : PoolDb)
    (hdls : List uuid_t) :
    ((pool_disconnect_hdls env db [] hdls).1 = 0 ∧
      (pool_disconnect_hdls env db [] hdls).2 =
        hdls.map TxOp.delete_handle ++
          [TxOp.update_nhandles
            ((db.nhandles + (2 ^ 32 - hdls.length % 2 ^ 32)) % 2 ^ 32)]) ∨
    ((pool_disconnect_hdls env db [] hdls).1 ≠ 0 ∧
      ∃ j, (pool_disconnect_hdls env db [] hdls).2 = (hdls.take j).map TxOp.delete_handle) := by
  unfold pool_disconnect_hdls rdb_tx_lookup_root
  simp only []
  by_cases h1 : env.rc_cont_close ≠ 0
  · rw [if_pos h1]; right; exact ⟨h1, 0, rfl⟩
  rw [if_neg h1]
  by_cases h2 : pool_disconnect_bcast env.rc_bcast_create env.rc_rpc_send env.tdo_rc ≠ 0
  · rw [if_pos h2]; right; exact ⟨h2, 0, rfl⟩
  rw [if_neg h2]
  by_cases h3 : env.rc_lookup_nhandles ≠ 0
  · rw [if_pos h3, if_pos (show (env.rc_lookup_nhandles, 0).1 ≠ 0 from h3)]
    right; exact ⟨h3, 0, rfl⟩
  rw [if_neg h3, if_neg (show ¬ ((0 : Int), db.nhandles).1 ≠ 0 by simp)]
  simp only [ne_eq]
  rcases pool_disconnect_hdls_loop_cases env.rc_delete hdls 0 [] with hc | ⟨hne, j, _, _, hj⟩
  · simp only [hc.1, not_true_eq_false, if_false]
    by_cases h6 : env.rc_update_nhandles = 0
    · left
      simp only [h6, not_true_eq_false, if_false, true_and]
      rw [hc.2]; simp
    · right
      simp only [h6, not_false_eq_true, if_true, true_and]
      exact ⟨hdls.length, by rw [hc.2]; simp⟩
  · right
    simp only [hne, not_false_eq_true, if_true, true_and]
    exact ⟨j, by rw [hj]; simp⟩

/-- The two ways a DISCONNECT can end: the DB untouched, or reply 0 with the record of the
handle removed and the counter lowered by one. -/
theorem disconnect_handler_cases (p : Params) (env : disconnect_env)
    (pool_svc_hash : List pool_svc) (db : PoolDb) (pi_uuid pi_hdl : uuid_t) :
    (ds_pool_disconnect_handler p env pool_svc_hash db pi_uuid pi_hdl).db = db ∨
    ((ds_pool_disconnect_handler p env pool_svc_hash db pi_uuid pi_hdl).po_rc = 0 ∧
      (∃ v, (pi_hdl, v) ∈ db.handles) ∧
      (ds_pool_disconnect_handler p env pool_svc_hash db pi_uuid pi_hdl).db =
        { db with
          nhandles := (db.nhandles + (2 ^ 32 - 1)) % 2 ^ 32,
          handles := kvs_delete db.handles pi_hdl }) := by
  generalize hr : ds_pool_disconnect_handler p env pool_svc_hash db pi_uuid pi_hdl = r
  unfold ds_pool_disconnect_handler at hr
  simp only [] at hr
  by_cases h1 : (pool_svc_lookup_leader pool_svc_hash env.st pi_uuid).rc ≠ 0
  · rw [if_pos h1] at hr; subst hr; left; rfl
  rw [if_neg h1] at hr
  by_cases h2 : env.rc_tx_begin ≠ 0
  · rw [if_pos h2] at hr; subst hr; left; rfl
  rw [if_neg h2] at hr
  by_cases h3 : (rdb_tx_lookup_handle env.rc_lookup_handle db pi_hdl).1 ≠ 0
  · rw [if_pos h3] at hr; subst hr; left; rfl
  rw [if_neg h3] at hr
  have hfound := rdb_tx_lookup_handle_zero env.rc_lookup_handle db pi_hdl (not_not.mp h3)
  have hmem := kvs_lookup_some_mem _ _ _ hfound
  rcases pool_disconnect_hdls_cases env.hdls db [pi_hdl] with hc | hc
  · rw [if_neg (not_not.mpr hc.1)] at hr
    rw [hc.2] at hr
    rcases rdb_tx_commit_cases p env.rc_commit db
      ([pi_hdl].map TxOp.delete_handle ++
        [TxOp.update_nhandles ((db.nhandles + (2 ^ 32 - [pi_hdl].length % 2 ^ 32)) % 2 ^ 32)])
      with hk | hk
    · subst hr; left; exact hk.2
    · subst hr; right
      refine ⟨hk.1, ⟨_, hmem⟩, ?_⟩
      simp only []
      rw [hk.2]
      simp [tx_apply_op]
  · rw [if_pos hc.1] at hr; subst hr; left; rfl

theorem disconnect_keeps_inv (p : Params) (env : disconnect_env)
    (pool_svc_hash : List pool_svc) (db : PoolDb) (pi_uuid pi_hdl : uuid_t) (n : Nat)
    (h : handles_inv p n db) (hn : n + 1 < 2 ^ 32) :
    handles_inv p (n + 1)
      (ds_pool_disconnect_handler p env pool_svc_hash db pi_uuid pi_hdl).db := by
  rcases disconnect_handler_cases p env pool_svc_hash db pi_uuid pi_hdl with hc | ⟨_, ⟨v, hv⟩, hdb⟩
  · rw [hc]; exact handles_inv_mono p n _ db h (Nat.le_succ n)
  · rw [hdb]
    have hlt := kvs_delete_length_lt db.handles pi_hdl v hv
    obtain ⟨h1, h2, _⟩ := h
    have hmod : (db.nhandles + (2 ^ 32 - 1)) % 2 ^ 32 = db.nhandles - 1 := by
      have hpos : 1 ≤ db.nhandles := by omega
      have : db.nhandles + (2 ^ 32 - 1) = (db.nhandles - 1) + 2 ^ 32 := by omega
      rw [this, Nat.add_mod_right]
      exact Nat.mod_eq_of_lt (by omega)
    rw [hmod]
    apply handles_inv_mono p n
    · exact handles_inv_sublist p n db _ _ ⟨h1, h2, by assumption⟩
        (kvs_delete_sublist _ _) (by omega) (by omega)
    · exact Nat.le_succ n

/-! ### EVICT -/

theorem take_succ_set (l : List uuid_t) (n : Nat) (key : uuid_t) (h : n < l.length) :
    (l.set n key).take (n + 1) = l.take n ++ [key] := by
  induction l generalizing n with
  | nil => simp at h
  | cons a rest ih =>
    cases n with
    | zero => simp
    | succ m =>
      simp only [List.length_cons, Nat.add_lt_add_iff_right] at h
      simp only [List.set_cons_succ, List.take_succ_cons, List.cons_append, List.cons.injEq,
        true_and]
      exact ih m h

theorem evict_iter_cb_ok (alloc_ok : Bool) (arg arg' : evict_iter_arg) (seen : List uuid_t)
    (key : uuid_t) (h : evict_arg_ok arg seen)
    (hcb : evict_iter_cb alloc_ok arg key = Ret.ok arg') :
    evict_arg_ok arg' (seen ++ [key]) := by
  obtain ⟨h1, h2, h3, h4⟩ := h
  have hle : arg.eia_n_hdl_uuids ≤ arg.eia_hdl_uuids.length := by
    have := congrArg List.length h4
    simp only [List.length_take] at this
    omega
  unfold evict_iter_cb at hcb
  simp only [] at hcb
  split_ifs at hcb with c1 c2 c3 c4 c5
  · simp only [Ret.ok.injEq] at hcb
    subst hcb
    simp only [List.length_append, List.length_replicate] at c4
    refine ⟨?_, ?_, ?_, ?_⟩
    · simp only [List.length_set, List.length_append, List.length_replicate]; omega
    · simp only [List.length_set, List.length_append, List.length_replicate]; omega
    · simp only [List.length_append, List.length_singleton]; omega
    · simp only
      rw [take_succ_set _ _ _ (by simp; omega)]
      rw [List.take_append_of_le_length hle]
      rw [h4]
  · simp only [Ret.ok.injEq] at hcb
    subst hcb
    refine ⟨?_, ?_, ?_, ?_⟩
    · simp only [List.length_set]; exact h1
    · simp only [List.length_set]; exact h2
    · simp only [List.length_append, List.length_singleton]; omega
    · simp only
      rw [take_succ_set _ _ _ c5, h4]

theorem rdb_tx_iterate_evict_ok (alloc_ok : List Bool) (rest : List (uuid_t × Nat)) :
    ∀ (i : Nat) (arg arg' : evict_iter_arg) (seen : List uuid_t),
      evict_arg_ok arg seen →
      rdb_tx_iterate_evict alloc_ok i rest arg = Ret.ok arg' →
      evict_arg_ok arg' (seen ++ rest.map Prod.fst) := by
  induction rest with
  | nil =>
    intro i arg arg' seen h hit
    simp only [rdb_tx_iterate_evict, Ret.ok.injEq] at hit
    subst hit
    simpa using h
  | cons e rest ih =>
    intro i arg arg' seen h hit
    unfold rdb_tx_iterate_evict at hit
    cases hcb : evict_iter_cb (alloc_ok.getD i true) arg e.1 with
    | ok a =>
      rw [hcb] at hit
      simp only [] at hit
      have := ih (i + 1) a arg' (seen ++ [e.1]) (evict_iter_cb_ok _ _ _ _ _ h hcb) hit
      simpa using this
    | err rc => rw [hcb] at hit; simp at hit
    | assert_failed => rw [hcb] at hit; simp at hit

/-- On success `find_hdls_to_evict` hands back exactly the keys of the handle KVS, in
iteration order, and their number. -/
theorem find_hdls_to_evict_ok (env : evict_env) (db : PoolDb) (arg : evict_iter_arg)
    (h : find_hdls_to_evict env db = Ret.ok arg) :
    arg.eia_hdl_uuids.take arg.eia_n_hdl_uuids = db.handles.map Prod.fst ∧
      arg.eia_n_hdl_uuids = db.handles.length := by
  unfold find_hdls_to_evict at h
  simp only [] at h
  split_ifs at h with c1 c2
  have h0 : evict_arg_ok
      { eia_hdl_uuids := List.replicate 4 0, eia_hdl_uuids_size := 16 * 4,
        eia_n_hdl_uuids := 0 } [] := by
    refine ⟨by simp, by simp, by simp, by simp⟩
  have := rdb_tx_iterate_evict_ok env.alloc_ok db.handles 0 _ arg [] h0 h
  obtain ⟨_, _, h3, h4⟩ := this
  simp only [List.nil_append, List.length_map] at h3 h4
  exact ⟨h4, h3⟩

/-- The ways an EVICT that sends a reply can end: the DB untouched; the records of a
prefix of the handles removed while the counter stays (the close pipeline failed, the
commit went through); or every record removed and the counter lowered by their number. -/
theorem evict_handler_cases (p : Params) (env : evict_env) (pool_svc_hash : List pool_svc)
    (db : PoolDb) (pi_uuid : uuid_t) (r : handler_result)
    (hr : ds_pool_evict_handler p env pool_svc_hash db pi_uuid = some r) :
    r.db = db ∨
    (∃ j, r.db =
      { db with handles := ((db.handles.map Prod.fst).take j).foldl kvs_delete db.handles }) ∨
    (db.handles ≠ [] ∧ r.db =
      { db with
        nhandles := (db.nhandles + (2 ^ 32 - db.handles.length % 2 ^ 32)) % 2 ^ 32,
        handles := [] }) := by
  unfold ds_pool_evict_handler at hr
  simp only [] at hr
  by_cases h1 : (pool_svc_lookup_leader pool_svc_hash env.st pi_uuid).rc ≠ 0
  · rw [if_pos h1] at hr; simp only [Option.some.injEq] at hr; subst hr; left; rfl
  rw [if_neg h1] at hr
  by_cases h2 : env.rc_tx_begin ≠ 0
  · rw [if_pos h2] at hr; simp only [Option.some.injEq] at hr; subst hr; left; rfl
  rw [if_neg h2] at hr
  cases hf : find_hdls_to_evict env db with
  | assert_failed => rw [hf] at hr; simp at hr
  | err rc => rw [hf] at hr; simp only [Option.some.injEq] at hr; subst hr; left; rfl
  | ok arg =>
    rw [hf] at hr
    simp only [Option.some.injEq] at hr
    obtain ⟨hkeys, hcount⟩ := find_hdls_to_evict_ok env db arg hf
    rw [hkeys] at hr
    by_cases hpos : arg.eia_n_hdl_uuids > 0
    · rw [if_pos hpos] at hr
      rcases pool_disconnect_hdls_cases env.hdls db (db.handles.map Prod.fst) with hc | ⟨_, j, hj⟩
      · rw [hc.2] at hr
        rcases rdb_tx_commit_cases p env.rc_commit db
          ((db.handles.map Prod.fst).map TxOp.delete_handle ++
            [TxOp.update_nhandles
              ((db.nhandles + (2 ^ 32 - (db.handles.map Prod.fst).length % 2 ^ 32)) % 2 ^ 32)])
          with hk | hk
        · subst hr; left; exact hk.2
        · subst hr; right; right
          refine ⟨?_, ?_⟩
          · intro hnil; rw [hnil] at hcount; simp only [List.length_nil] at hcount; omega
          · simp only []
            rw [hk.2, List.foldl_append, foldl_delete_ops, foldl_kvs_delete_all]
            simp [tx_apply_op]
      · rw [hj] at hr
        rcases rdb_tx_commit_cases p env.rc_commit db
          (((db.handles.map Prod.fst).take j).map TxOp.delete_handle) with hk | hk
        · subst hr; left; exact hk.2
        · subst hr; right; left
          refine ⟨j, ?_⟩
          simp only []
          rw [hk.2, foldl_delete_ops]
    · rw [if_neg hpos] at hr
      rcases rdb_tx_commit_cases p env.rc_commit db [] with hk | hk
      · subst hr; left; exact hk.2
      · subst hr; left; simp only []; rw [hk.2]; rfl

theorem evict_keeps_inv (p : Params) (env : evict_env) (pool_svc_hash : List pool_svc)
    (db : PoolDb) (pi_uuid : uuid_t) (r : handler_result) (n : Nat)
    (hr : ds_pool_evict_handler p env pool_svc_hash db pi_uuid = some r)
    (h : handles_inv p n db) (hn : n + 1 < 2 ^ 32) : handles_inv p (n + 1) r.db := by
  apply handles_inv_mono p n _ _ _ (Nat.le_succ n)
  rcases evict_handler_cases p env pool_svc_hash db pi_uuid r hr with hc | ⟨j, hc⟩ | ⟨hne, hc⟩
  · rw [hc]; exact h
  · rw [hc]
    have hsub := foldl_kvs_delete_sublist ((db.handles.map Prod.fst).take j) db.handles
    have := handles_inv_sublist p n db _ db.nhandles h hsub
      (le_trans hsub.length_le h.1) h.2.1
    simpa using this
  · rw [hc]
    obtain ⟨h1, h2, _⟩ := h
    have hlen : 0 < db.handles.length := List.length_pos.mpr hne
    have hmod : (db.nhandles + (2 ^ 32 - db.handles.length % 2 ^ 32)) % 2 ^ 32 =
        db.nhandles - db.handles.length := by
      rw [Nat.mod_eq_of_lt (show db.handles.length < 2 ^ 32 by omega)]
      have : db.nhandles + (2 ^ 32 - db.handles.length) =
          (db.nhandles - db.handles.length) + 2 ^ 32 := by omega
      rw [this, Nat.add_mod_right]
      exact Nat.mod_eq_of_lt (by omega)
    rw [hmod]
    exact ⟨by simp, by simp only; omega, by simp⟩

theorem pool_step_keeps_inv (p : Params) (db : PoolDb) (op : PoolOp) (n : Nat)
    (h : handles_inv p n db) (hn : n + 1 < 2 ^ 32) :
    handles_inv p (n + 1) (pool_step p db op) := by
  cases op with
  | connect env hash req => exact connect_keeps_inv p env hash db req n h hn
  | disconnect env hash u k => exact disconnect_keeps_inv p env hash db u k n h hn
  | evict env hash u =>
    simp only [pool_step]
    cases hr : ds_pool_evict_handler p env hash db u with
    | none => exact handles_inv_mono p n _ db h (Nat.le_succ n)
    | some r => exact evict_keeps_inv p env hash db u r n hr h hn

theorem pool_run_keeps_inv (p : Params) (ops : List PoolOp) :
    ∀ (db : PoolDb) (n : Nat), handles_inv p n db → n + ops.length < 2 ^ 32 →
      handles_inv p (n + ops.length) (pool_run p db ops) := by
  induction ops with
  | nil => intro db n h _; simpa [pool_run] using h
  | cons op rest ih =>
    intro db n h hn
    simp only [List.length_cons] at hn
    have h1 := pool_step_keeps_inv p db op n h (by omega)
    have h2 := ih (pool_step p db op) (n + 1) h1 (by omega)
    simp only [pool_run, List.foldl_cons, List.length_cons] at h2 ⊢
    rw [show n + (rest.length + 1) = n + 1 + rest.length by omega]
    exact h2

/-- Every state reached from a fresh pool (no handle, `nhandles = 0`) by fewer than
`2 ^ 32` requests satisfies the invariant of the handle table. -/
theorem reachable_inv (p : Params) (db0 : PoolDb) (ops : List PoolOp)
    (h0 : db0.nhandles = 0) (h1 : db0.handles = []) (hlen : ops.length < 2 ^ 32) :
    handles_inv p ops.length (pool_run p db0 ops) := by
  have hinv : handles_inv p 0 db0 := ⟨by simp [h0, h1], by simp [h0], by simp [h1]⟩
  have := pool_run_keeps_inv p ops db0 0 hinv (by omega)
  simpa using this

/-! ### Claims on CONNECT and the handle table -/

theorem pool_attr_read_rc (rc_uid rc_gid rc_mode : Int) (db : PoolDb) :
    (pool_attr_read rc_uid rc_gid rc_mode db).1 = 0 ∨
    (pool_attr_read rc_uid rc_gid rc_mode db).1 = rc_uid ∨
    (pool_attr_read rc_uid rc_gid rc_mode db).1 = rc_gid ∨
    (pool_attr_read rc_uid rc_gid rc_mode db).1 = rc_mode := by
  unfold pool_attr_read rdb_tx_lookup_root
  simp only []
  split_ifs <;> simp

theorem read_map_buf_cases (a b : Int) (db : PoolDb) :
    (a ≠ 0 ∧ read_map_buf a b db = (a, 0, 0)) ∨
    (a = 0 ∧ b ≠ 0 ∧ read_map_buf a b db = (b, 0, 0)) ∨
    (a = 0 ∧ b = 0 ∧ read_map_buf a b db = (0, db.pb_nr, db.map_version)) := by
  unfold read_map_buf rdb_tx_lookup_root
  by_cases ha : a = 0
  · by_cases hb : b = 0
    · right; right; simp [ha, hb]
    · right; left; simp [ha, hb]
  · left; simp [ha]

theorem transfer_map_buf_rc (p : Params) (env : transfer_env) (svc : pool_svc) (db : PoolDb)
    (L : Nat) :
    (transfer_map_buf p env svc db L).rc = - DER_IO ∨
    (transfer_map_buf p env svc db L).rc = -DER_TRUNC ∨
    (transfer_map_buf p env svc db L).rc = env.rc_lookup_map_version ∨
    (transfer_map_buf p env svc db L).rc = env.rc_lookup_map_buffer ∨
    (transfer_map_buf p env svc db L).rc = env.rc_bulk_get_len ∨
    (transfer_map_buf p env svc db L).rc = env.rc_bulk_create ∨
    (transfer_map_buf p env svc db L).rc = env.rc_eventual_create ∨
    (transfer_map_buf p env svc db L).rc = env.rc_bulk_transfer ∨
    (transfer_map_buf p env svc db L).rc = env.rc_eventual_wait ∨
    (transfer_map_buf p env svc db L).rc = env.status := by
  generalize hr : transfer_map_buf p env svc db L = r
  unfold transfer_map_buf at hr
  rcases read_map_buf_cases env.rc_lookup_map_version env.rc_lookup_map_buffer db with
    ⟨h1, h2⟩ | ⟨h0, h1, h2⟩ | ⟨h0, h1, h2⟩
  · rw [h2] at hr; simp only [ne_eq, h1, not_false_eq_true, if_true] at hr
    subst hr; simp
  · rw [h2] at hr; simp only [ne_eq, h1, not_false_eq_true, if_true] at hr
    subst hr; simp
  · rw [h2] at hr
    simp only [ne_eq, not_true_eq_false, if_false] at hr
    split_ifs at hr
    all_goals subst hr
    all_goals simp

/-- C5: a CONNECT that reaches the lookup of its handle (service up, preliminaries and
`rdb_tx_begin` succeeded, the lookup itself did not fail) and finds the handle stored with
capability bits `stored`:
* replies `-DER_EXIST`, without touching the DB and without a map transfer, when `stored`
  differs from the requested bits;
* when the bits are identical, leaves the DB (handle table and `nhandles`) as it was,
  sends no broadcast, and — once the attributes are read and the request is permitted —
  still runs `transfer_map_buf` and replies with its code;
* so, as long as no read or transfer call reports `-DER_EXIST` of its own, the reply is
  `-DER_EXIST` exactly when the stored bits differ from the requested ones. -/
theorem connect_existing_handle (p : Params) (env : connect_env)
    (pool_svc_hash : List pool_svc) (db : PoolDb) (req : pool_connect_in) (svc : pool_svc)
    (stored : Nat)
    (hlk : pool_svc_lookup_leader pool_svc_hash env.st req.pi_uuid = ⟨0, some svc⟩)
    (hpre : env.rc_iv_ns = 0 ∧ env.rc_rebuild_query = 0 ∧ env.rc_tx_begin = 0 ∧
      env.rc_lookup_handle = 0)
    (hstored : kvs_lookup db.handles req.pi_hdl = some stored) :
    (stored ≠ req.pci_capas →
      (ds_pool_connect_handler p env pool_svc_hash db req).po_rc = -DER_EXIST ∧
      (ds_pool_connect_handler p env pool_svc_hash db req).db = db ∧
      (ds_pool_connect_handler p env pool_svc_hash db req).transfer = none) ∧
    (stored = req.pci_capas →
      (ds_pool_connect_handler p env pool_svc_hash db req).db = db ∧
      (ds_pool_connect_handler p env pool_svc_hash db req).bcast = none ∧
      ((pool_attr_read env.rc_lookup_uid env.rc_lookup_gid env.rc_lookup_mode db).1 = 0 →
        permitted p.DAOS_PC_NBITS
          (pool_attr_read env.rc_lookup_uid env.rc_lookup_gid env.rc_lookup_mode db).2
          req.pci_uid req.pci_gid req.pci_capas = true →
        (ds_pool_connect_handler p env pool_svc_hash db req).transfer =
          some (transfer_map_buf p env.transfer svc db req.pci_map_bulk_len) ∧
        (ds_pool_connect_handler p env pool_svc_hash db req).po_rc =
          (transfer_map_buf p env.transfer svc db req.pci_map_bulk_len).rc)) ∧
    (env.reads_never (-DER_EXIST) →
      ((ds_pool_connect_handler p env pool_svc_hash db req).po_rc = -DER_EXIST ↔
        stored ≠ req.pci_capas)) := by
  obtain ⟨g1, g2, g3, g4⟩ := hpre
  have hlh : rdb_tx_lookup_handle env.rc_lookup_handle db req.pi_hdl = (0, stored) :=
    rdb_tx_lookup_handle_of_some db _ _ _ (by simp [g4]) hstored
  generalize hr : ds_pool_connect_handler p env pool_svc_hash db req = r
  unfold ds_pool_connect_handler at hr
  simp only [hlk, g1, g2, g3, hlh, ne_eq, not_true_eq_false, if_false, true_and, false_and,
    decide_True, if_true] at hr
  by_cases hne : stored = req.pci_capas
  · simp only [hne, not_true_eq_false, if_false] at hr
    have hattr := pool_attr_read_rc env.rc_lookup_uid env.rc_lookup_gid env.rc_lookup_mode db
    have htr := transfer_map_buf_rc p env.transfer svc db req.pci_map_bulk_len
    have e1 : (-DER_EXIST : Int) ≠ 0 := by simp [DER_EXIST]
    have e2 : (-DER_EXIST : Int) ≠ -DER_NO_PERM := by simp [DER_EXIST, DER_NO_PERM]
    have e3 : (-DER_EXIST : Int) ≠ - DER_IO := by simp [DER_EXIST, DER_IO]
    have e4 : (-DER_EXIST : Int) ≠ -DER_TRUNC := by simp [DER_EXIST, DER_TRUNC]
    by_cases c1 : (pool_attr_read env.rc_lookup_uid env.rc_lookup_gid env.rc_lookup_mode db).1 = 0
    · by_cases c2 : permitted p.DAOS_PC_NBITS
          (pool_attr_read env.rc_lookup_uid env.rc_lookup_gid env.rc_lookup_mode db).2
          req.pci_uid req.pci_gid req.pci_capas = true
      · by_cases c3 : (transfer_map_buf p env.transfer svc db req.pci_map_bulk_len).rc = 0
        · simp only [c1, c2, c3, not_true_eq_false, if_false, Bool.not_true,
            Bool.false_eq_true] at hr
          subst hr
          refine ⟨fun h => absurd hne h, fun _ => ⟨rfl, rfl, fun _ _ => ⟨rfl, c3.symm⟩⟩,
            fun _ => ⟨fun hrc => absurd hrc.symm e1, fun h => absurd hne h⟩⟩
        · simp only [c1, c2, c3, not_true_eq_false, not_false_eq_true, if_false, if_true,
            Bool.not_true, Bool.false_eq_true] at hr
          subst hr
          refine ⟨fun h => absurd hne h, fun _ => ⟨rfl, rfl, fun _ _ => ⟨rfl, rfl⟩⟩,
            fun hnever => ⟨fun hrc => ?_, fun h => absurd hne h⟩⟩
          obtain ⟨n1, n2, n3, n4, n5, n6, n7, n8, n9, n10, n11⟩ := hnever
          simp only at hrc
          exfalso
          rcases htr with h | h | h | h | h | h | h | h | h | h
          · exact e3 (hrc ▸ h)
          · exact e4 (hrc ▸ h)
          · exact n4 (h ▸ hrc)
          · exact n5 (h ▸ hrc)
          · exact n6 (h ▸ hrc)
          · exact n7 (h ▸ hrc)
          · exact n8 (h ▸ hrc)
          · exact n9 (h ▸ hrc)
          · exact n10 (h ▸ hrc)
          · exact n11 (h ▸ hrc)
      · have c2' : permitted p.DAOS_PC_NBITS
            (pool_attr_read env.rc_lookup_uid env.rc_lookup_gid env.rc_lookup_mode db).2
            req.pci_uid req.pci_gid req.pci_capas = false := by
          simpa using c2
        simp only [c1, c2', not_true_eq_false, if_false, if_true, Bool.not_false] at hr
        subst hr
        refine ⟨fun h => absurd hne h, fun _ => ⟨rfl, rfl, fun _ h => absurd h c2⟩,
          fun _ => ⟨fun hrc => absurd hrc e2.symm, fun h => absurd hne h⟩⟩
    · simp only [c1, not_false_eq_true, if_true] at hr
      subst hr
      refine ⟨fun h => absurd hne h, fun _ => ⟨rfl, rfl, fun h => absurd h c1⟩,
        fun hnever => ⟨fun hrc => ?_, fun h => absurd hne h⟩⟩
      obtain ⟨n1, n2, n3, _⟩ := hnever
      simp only at hrc
      exfalso
      rcases hattr with h | h | h | h
      · exact c1 h
      · exact n1 (h ▸ hrc)
      · exact n2 (h ▸ hrc)
      · exact n3 (h ▸ hrc)
  · simp only [hne, not_false_eq_true, if_true] at hr
    subst hr
    exact ⟨fun _ => ⟨rfl, rfl, rfl⟩, fun h => absurd h hne, fun _ => ⟨fun _ => hne, fun _ => rfl⟩⟩

theorem connect_add_handle_transfer (p : Params) (env : connect_env) (db : PoolDb)
    (req : pool_connect_in) (tr : transfer_result) :
    (connect_add_handle p env db req tr).transfer = some tr := by
  unfold connect_add_handle
  simp only []
  split_ifs <;> rfl

/-- When `nhandles` is read and is not zero, and the request or the first record carries
the exclusive bit, `connect_add_handle` replies `-DER_BUSY`. -/
theorem connect_add_handle_busy (p : Params) (env : connect_env) (db : PoolDb)
    (req : pool_connect_in) (tr : transfer_result)
    (hread : env.rc_lookup_nhandles = 0) (hnh : db.nhandles ≠ 0)
    (hex : req.pci_capas &&& p.DAOS_PC_EX ≠ 0 ∨
      (env.rc_fetch_first = 0 ∧ ∃ e rest, db.handles = e :: rest ∧
        e.2 &&& p.DAOS_PC_EX ≠ 0)) :
    (connect_add_handle p env db req tr).po_rc = -DER_BUSY := by
  have hbusy : connect_check_exclusive p env.rc_fetch_first db req.pci_capas db.nhandles =
      -DER_BUSY := by
    unfold connect_check_exclusive
    rw [if_pos hnh]
    by_cases hreq : req.pci_capas &&& p.DAOS_PC_EX ≠ 0
    · rw [if_pos hreq]
    · rw [if_neg hreq]
      rcases hex with h | ⟨hf, e, rest, hl, he⟩
      · exact absurd h hreq
      · have : rdb_tx_fetch_first env.rc_fetch_first db = (0, e.2) := by
          unfold rdb_tx_fetch_first
          simp [hf, hl]
        simp only [this, ne_eq, not_true_eq_false, if_false]
        rw [if_pos he]
  unfold connect_add_handle rdb_tx_lookup_root
  simp only []
  rw [if_neg (not_not.mpr hread)]
  simp only [ne_eq, not_true_eq_false, if_false, hbusy]
  rw [if_pos (by simp [DER_BUSY])]

/-- C3 (counterexample): after a CONNECT of handle 11 with the exclusive bit the handle
table holds that exclusive handle, and a further CONNECT — the same handle with the same
bits — replies 0. -/
theorem connect_succeeds_beside_exclusive_handle :
    (11, 4) ∈ (pool_run sample_params sample_db
        [PoolOp.connect {} [sample_svc] (sample_connect 11 4)]).handles ∧
    4 &&& sample_params.DAOS_PC_EX ≠ 0 ∧
    (ds_pool_connect_handler sample_params {} [sample_svc]
        (pool_run sample_params sample_db
          [PoolOp.connect {} [sample_svc] (sample_connect 11 4)])
        (sample_connect 11 4)).po_rc = 0 := by
  decide

/-- C3 (amended): in every state reached from a fresh pool by fewer than `2 ^ 32`
CONNECT/DISCONNECT/EVICT requests, if a record of the handle table has the exclusive bit,
then every further CONNECT leaves the DB as it is (no handle is added), and it can reply 0
only when it names that very handle with the very bits stored for it. -/
theorem exclusive_handle_blocks_connect (p : Params) (db0 : PoolDb) (ops : List PoolOp)
    (hfresh : db0.nhandles = 0 ∧ db0.handles = []) (hlen : ops.length < 2 ^ 32)
    (e : uuid_t × Nat) (he : e ∈ (pool_run p db0 ops).handles)
    (hex : e.2 &&& p.DAOS_PC_EX ≠ 0)
    (env : connect_env) (pool_svc_hash : List pool_svc) (req : pool_connect_in) :
    (ds_pool_connect_handler p env pool_svc_hash (pool_run p db0 ops) req).db =
        pool_run p db0 ops ∧
    ((ds_pool_connect_handler p env pool_svc_hash (pool_run p db0 ops) req).po_rc = 0 →
        req.pi_hdl = e.1 ∧ req.pci_capas = e.2) := by
  obtain ⟨h1, h2, h3⟩ := reachable_inv p db0 ops hfresh.1 hfresh.2 hlen
  have hsingle := h3 e he hex
  have hnh : (pool_run p db0 ops).nhandles ≠ 0 := by
    rw [hsingle] at h1; simp at h1; omega
  rcases connect_handler_cases p env pool_svc_hash (pool_run p db0 ops) req with hc | hc | hc
  · exact ⟨hc.2, fun h => absurd h hc.1⟩
  · refine ⟨hc.2.1, fun _ => ?_⟩
    have hm := kvs_lookup_some_mem _ _ _ hc.2.2
    rw [hsingle] at hm
    simp only [List.mem_singleton] at hm
    rw [← hm]
    exact ⟨rfl, rfl⟩
  · exfalso
    rcases connect_check_exclusive_zero p _ _ _ _ hc.2.2.1 with h0 | ⟨_, e0, rest, hl, he0⟩
    · exact hnh h0
    · rw [hsingle] at hl
      simp only [List.cons.injEq] at hl
      rw [hl.1] at hex
      exact hex he0

/-- C3 (amended), at the state reached by one exclusive CONNECT of handle 11, for a
CONNECT of handle 12. -/
theorem exclusive_handle_blocks_connect_witness :
    (ds_pool_connect_handler sample_params {} [sample_svc]
        (pool_run sample_params sample_db
          [PoolOp.connect {} [sample_svc] (sample_connect 11 4)])
        (sample_connect 12 1)).db =
      pool_run sample_params sample_db
        [PoolOp.connect {} [sample_svc] (sample_connect 11 4)] :=
  (exclusive_handle_blocks_connect sample_params sample_db
    [PoolOp.connect {} [sample_svc] (sample_connect 11 4)] (by decide) (by decide)
    (11, 4) (by decide) (by decide) {} [sample_svc] (sample_connect 12 1)).1

/-- C4: in every state reached from a fresh pool by fewer than `2 ^ 32`
CONNECT/DISCONNECT/EVICT requests, (1) a record with the exclusive bit is the only record
of the handle table, so the first record tells whether any handle is exclusive; and (2) a
CONNECT whose handle is not in the table, whose map transfer has run and returned 0 (so
the permission check was passed), and which reads `nhandles > 0`, replies `-DER_BUSY`
whenever the request carries the exclusive bit or — the probe of the first record
returning without a fault — some record of the table carries it. -/
theorem connect_busy_when_exclusive (p : Params) (db0 : PoolDb) (ops : List PoolOp)
    (hfresh : db0.nhandles = 0 ∧ db0.handles = []) (hlen : ops.length < 2 ^ 32) :
    (∀ e ∈ (pool_run p db0 ops).handles, e.2 &&& p.DAOS_PC_EX ≠ 0 →
      (pool_run p db0 ops).handles = [e]) ∧
    (∀ (env : connect_env) (pool_svc_hash : List pool_svc) (req : pool_connect_in),
      kvs_lookup (pool_run p db0 ops).handles req.pi_hdl = none →
      ((ds_pool_connect_handler p env pool_svc_hash (pool_run p db0 ops) req).transfer.map
        transfer_result.rc) = some 0 →
      env.rc_lookup_nhandles = 0 →
      (pool_run p db0 ops).nhandles > 0 →
      (req.pci_capas &&& p.DAOS_PC_EX ≠ 0 ∨
        (env.rc_fetch_first = 0 ∧
          ∃ e ∈ (pool_run p db0 ops).handles, e.2 &&& p.DAOS_PC_EX ≠ 0)) →
      (ds_pool_connect_handler p env pool_svc_hash (pool_run p db0 ops) req).po_rc =
        -DER_BUSY) := by
  obtain ⟨h1, h2, h3⟩ := reachable_inv p db0 ops hfresh.1 hfresh.2 hlen
  refine ⟨h3, ?_⟩
  intro env hash req hnone htr hread hnh hex
  rcases connect_handler_shape p env hash (pool_run p db0 ops) req with
    ⟨_, _, _, hskip⟩ | ⟨_, tr, hr⟩
  · exfalso
    cases ht : (ds_pool_connect_handler p env hash (pool_run p db0 ops) req).transfer with
    | none => rw [ht] at htr; simp at htr
    | some tr =>
      rw [ht] at htr
      simp only [Option.map_some', Option.some.injEq] at htr
      have := hskip tr ht htr
      rw [hnone] at this
      simp at this
  · rw [hr]
    apply connect_add_handle_busy p env _ req tr hread (by omega)
    rcases hex with h | ⟨hf, e, he, hee⟩
    · exact Or.inl h
    · exact Or.inr ⟨hf, e, [], h3 e he hee, hee⟩

/-- C4, at the state reached by one exclusive CONNECT of handle 11: a CONNECT of handle
12 without the exclusive bit is answered with `-DER_BUSY`. -/
theorem connect_busy_when_exclusive_witness :
    (ds_pool_connect_handler sample_params {} [sample_svc]
        (pool_run sample_params sample_db
          [PoolOp.connect {} [sample_svc] (sample_connect 11 4)])
        (sample_connect 12 1)).po_rc = -DER_BUSY :=
  (connect_busy_when_exclusive sample_params sample_db
    [PoolOp.connect {} [sample_svc] (sample_connect 11 4)] (by decide) (by decide)).2
    {} [sample_svc] (sample_connect 12 1) (by decide) (by decide) (by decide) (by decide)
    (Or.inr ⟨by decide, (11, 4), by decide, by decide⟩)

/-- C6, at a fresh pool when the targets report a failure of TGT_CONNECT: the reply is
`- DER_IO` and the DB is untouched. -/
theorem connect_error_commits_nothing_witness :
    (ds_pool_connect_handler sample_params { tco_rc := 1 } [sample_svc] sample_db
        (sample_connect 11 1)).po_rc = - DER_IO ∧
    (ds_pool_connect_handler sample_params { tco_rc := 1 } [sample_svc] sample_db
        (sample_connect 11 1)).db = sample_db :=
  (connect_error_commits_nothing sample_params { tco_rc := 1 } [sample_svc] sample_db
    (sample_connect 11 1)).2 (by decide) rfl rfl rfl (by decide)

/-- C5, at the state reached by a CONNECT of handle 11 with bits 1: the same CONNECT once
more changes nothing, sends no broadcast, and transfers the map. -/
theorem connect_existing_handle_witness :
    (ds_pool_connect_handler sample_params {} [sample_svc]
        (pool_run sample_params sample_db
          [PoolOp.connect {} [sample_svc] (sample_connect 11 1)])
        (sample_connect 11 1)).db =
      pool_run sample_params sample_db
        [PoolOp.connect {} [sample_svc] (sample_connect 11 1)] ∧
    (ds_pool_connect_handler sample_params {} [sample_svc]
        (pool_run sample_params sample_db
          [PoolOp.connect {} [sample_svc] (sample_connect 11 1)])
        (sample_connect 11 1)).bcast = none :=
  let h := (connect_existing_handle sample_params {} [sample_svc]
    (pool_run sample_params sample_db [PoolOp.connect {} [sample_svc] (sample_connect 11 1)])
    (sample_connect 11 1) ⟨7, 2, false, 3, pool_svc_state.POOL_SVC_UP, 1, 1⟩ 1
    (by decide) (by decide) (by decide)).2.1 rfl
  ⟨h.1, h.2.1⟩

/-- C2 (evaluation at the failing input): two handles are connected (`nhandles = 2`, two
records); an EVICT whose second `rdb_tx_delete` fails with `-DER_NOMEM` still commits,
replies 0, and leaves one record while `nhandles` stays 2. -/
theorem evict_commits_after_failed_close :
    (pool_run sample_params sample_db
      [PoolOp.connect {} [sample_svc] (sample_connect 11 1),
       PoolOp.connect {} [sample_svc] (sample_connect 12 1)]) =
      { sample_db with nhandles := 2, handles := [(11, 1), (12, 1)] } ∧
    ds_pool_evict_handler sample_params { hdls := { rc_delete := [0, -DER_NOMEM] } }
      [sample_svc] { sample_db with nhandles := 2, handles := [(11, 1), (12, 1)] } 7 =
      some { po_rc := 0, db := { sample_db with nhandles := 2, handles := [(12, 1)] } } ∧
    ({ sample_db with nhandles := 2, handles := [(12, 1)] } : PoolDb).nhandles ≠
      ({ sample_db with nhandles := 2, handles := [(12, 1)] } : PoolDb).handles.length := by
  decide

/-! ### Metadata of a new pool -/

theorem attach_each_ok (rc_attach : List Int) (comps : List pool_component) :
    ∀ (k : Nat) (buf : pool_buf), buf.pb_comps.length ≤ buf.pb_nr →
      (attach_each rc_attach k buf comps).1 = 0 →
      (attach_each rc_attach k buf comps).2.pb_comps = buf.pb_comps ++ comps ∧
      (attach_each rc_attach k buf comps).2.pb_nr = buf.pb_nr ∧
      buf.pb_comps.length + comps.length ≤ buf.pb_nr := by
  induction comps with
  | nil => intro k buf h0 _; simpa [attach_each] using h0
  | cons c rest ih =>
    intro k buf _ h
    unfold attach_each at h ⊢
    simp only [] at h ⊢
    by_cases hr : (pool_buf_attach (rc_attach.getD k 0) buf c).1 = 0
    · rw [if_neg (not_not.mpr hr)] at h ⊢
      have hroom : ¬ buf.pb_nr < buf.pb_comps.length + 1 := by
        unfold pool_buf_attach at hr
        split_ifs at hr with c1 c2
        · exact absurd hr c1
        · simp [DER_NOSPACE] at hr
        · assumption
      have hf0 : rc_attach.getD k 0 = 0 := by
        by_contra hne
        unfold pool_buf_attach at hr
        rw [if_pos hne] at hr
        exact hne hr
      have hb : pool_buf_attach (rc_attach.getD k 0) buf c =
          (0, { buf with pb_comps := buf.pb_comps ++ [c] }) := by
        unfold pool_buf_attach
        rw [if_neg (not_not.mpr hf0), if_neg hroom]
      rw [hb] at h ⊢
      obtain ⟨h1, h2, h3⟩ := ih (k + 1) { buf with pb_comps := buf.pb_comps ++ [c] }
        (by simp only [List.length_append, List.length_singleton]; omega) h
      simp only [List.length_append, List.length_singleton, List.append_assoc,
        List.singleton_append] at h1 h2 h3
      refine ⟨h1, h2, ?_⟩
      simp only [List.length_cons]
      omega
    · rw [if_pos hr] at h
      exact absurd h hr

theorem attach_each_no_fault (rc_attach : List Int) (hf : ∀ k, rc_attach.getD k 0 = 0)
    (comps : List pool_component) :
    ∀ (k : Nat) (buf : pool_buf), buf.pb_comps.length + comps.length ≤ buf.pb_nr →
      (attach_each rc_attach k buf comps).1 = 0 := by
  induction comps with
  | nil => intro k buf _; simp [attach_each]
  | cons c rest ih =>
    intro k buf h
    simp only [List.length_cons] at h
    have hb : pool_buf_attach (rc_attach.getD k 0) buf c =
        (0, { buf with pb_comps := buf.pb_comps ++ [c] }) := by
      unfold pool_buf_attach
      rw [hf k]
      simp only [ne_eq, not_true_eq_false, if_false]
      rw [if_neg (by omega)]
    unfold attach_each
    simp only [hb, ne_eq, not_true_eq_false, if_false]
    apply ih
    simp only [List.length_append, List.length_singleton]
    omega

theorem range_flatMap_mul (n m : Nat) :
    ((List.range n).flatMap fun i => (List.range m).map fun j => i * m + j) =
      List.range (n * m) := by
  induction n with
  | zero => simp
  | succ n ih =>
    rw [List.range_succ, List.flatMap_append, ih, Nat.succ_mul, List.range_add]
    simp

theorem length_target_comps (nx : Nat) (addrs : List Nat) (n : Nat) :
    ((List.range n).flatMap fun i =>
      (List.range nx).map (target_comp nx addrs i)).length = n * nx := by
  induction n with
  | zero => simp
  | succ n ih =>
    rw [List.range_succ, List.flatMap_append, List.length_append, ih]
    simp [Nat.succ_mul]

theorem target_comps_ids (nx : Nat) (addrs : List Nat) (n : Nat) (h : n * nx ≤ 2 ^ 32) :
    ((List.range n).flatMap fun i =>
      (List.range nx).map (target_comp nx addrs i)).map pool_component.co_id =
      List.range (n * nx) := by
  rw [← range_flatMap_mul, List.map_flatMap]
  apply List.flatMap_congr
  intro i hi
  rw [List.map_map]
  apply List.map_congr_left
  intro j hj
  simp only [Function.comp, target_comp]
  apply Nat.mod_eq_of_lt
  have hi' : i < n := List.mem_range.mp hi
  have hj' : j < nx := List.mem_range.mp hj
  calc i * nx + j < i * nx + nx := by omega
    _ = (i + 1) * nx := by ring
    _ ≤ n * nx := Nat.mul_le_mul_right nx hi'
    _ ≤ 2 ^ 32 := h


/-- When `init_pool_map_buf` succeeds the buffer holds the domain components, then the
node components, then the target components, and all of them fit 32 bits. -/
theorem init_pool_map_buf_ok (nx : Nat) (rc_attach : List Int) (nnodes : Nat)
    (target_uuids uuids : List uuid_t) (target_addrs : List Nat) (ndomains : Nat)
    (domains : List Nat)
    (h : (init_pool_map_buf nx rc_attach nnodes target_uuids uuids target_addrs ndomains
      domains).1 = 0) :
    (init_pool_map_buf nx rc_attach nnodes target_uuids uuids target_addrs ndomains
      domains).2.pb_comps =
      (List.range ndomains).map (domain_comp domains) ++
      (List.range nnodes).map (node_comp nx target_uuids uuids target_addrs) ++
      ((List.range nnodes).flatMap fun i =>
        (List.range nx).map (target_comp nx target_addrs i)) ∧
    ndomains + nnodes + nnodes * nx < 2 ^ 32 := by
  generalize hr : init_pool_map_buf nx rc_attach nnodes target_uuids uuids target_addrs
    ndomains domains = r at h
  unfold init_pool_map_buf at hr
  simp only [] at hr
  generalize hb0 : (pool_buf.mk ((ndomains + nnodes + nnodes * nx % 2 ^ 32) % 2 ^ 32) []) = b0
    at hr
  have hb0c : b0.pb_comps = [] := by rw [← hb0]
  have hb0n : b0.pb_nr = (ndomains + nnodes + nnodes * nx % 2 ^ 32) % 2 ^ 32 := by rw [← hb0]
  by_cases h1 : (attach_each rc_attach 0 b0
      ((List.range ndomains).map (domain_comp domains))).1 = 0
  · rw [if_neg (not_not.mpr h1)] at hr
    obtain ⟨d1, d2, d3⟩ := attach_each_ok rc_attach _ 0 b0 (by simp [hb0c]) h1
    generalize attach_each rc_attach 0 b0
      ((List.range ndomains).map (domain_comp domains)) = b1 at hr d1 d2 d3 h1
    by_cases h2 : (attach_each rc_attach ndomains b1.2
        ((List.range nnodes).map (node_comp nx target_uuids uuids target_addrs))).1 = 0
    · rw [if_neg (not_not.mpr h2)] at hr
      obtain ⟨n1, n2, n3⟩ := attach_each_ok rc_attach _ ndomains b1.2 (by
        rw [d1, d2]; simpa using d3) h2
      generalize attach_each rc_attach ndomains b1.2
        ((List.range nnodes).map (node_comp nx target_uuids uuids target_addrs)) = b2
        at hr n1 n2 n3 h2
      subst hr
      obtain ⟨t1, t2, t3⟩ := attach_each_ok rc_attach _ (ndomains + nnodes) b2.2 (by
        rw [n1, n2]; simpa using n3) h
      rw [t1, n1, d1, hb0c]
      refine ⟨by simp, ?_⟩
      rw [n1, d1, hb0c, n2, d2, hb0n, length_target_comps] at t3
      simp only [List.nil_append, List.length_append, List.length_map, List.length_range] at t3
      have hlt : (ndomains + nnodes + nnodes * nx % 2 ^ 32) % 2 ^ 32 < 2 ^ 32 :=
        Nat.mod_lt _ (by norm_num)
      omega
    · rw [if_pos h2] at hr; subst hr; exact absurd h h2
  · rw [if_pos h1] at hr; subst hr; exact absurd h h1

/-- Without attach faults and with a component count that fits 32 bits,
`init_pool_map_buf` succeeds. -/
theorem init_pool_map_buf_succeeds (nx : Nat) (rc_attach : List Int)
    (hf : ∀ k, rc_attach.getD k 0 = 0) (nnodes : Nat)
    (target_uuids uuids : List uuid_t) (target_addrs : List Nat) (ndomains : Nat)
    (domains : List Nat) (hfit : ndomains + nnodes + nnodes * nx < 2 ^ 32) :
    (init_pool_map_buf nx rc_attach nnodes target_uuids uuids target_addrs ndomains
      domains).1 = 0 := by
  have hcap : (ndomains + nnodes + nnodes * nx % 2 ^ 32) % 2 ^ 32 =
      ndomains + nnodes + nnodes * nx := by
    rw [Nat.mod_eq_of_lt (show nnodes * nx < 2 ^ 32 by omega), Nat.mod_eq_of_lt hfit]
  unfold init_pool_map_buf
  simp only []
  rw [hcap]
  generalize hb0 : (pool_buf.mk (ndomains + nnodes + nnodes * nx) []) = b0
  have hb0c : b0.pb_comps = [] := by rw [← hb0]
  have hb0n : b0.pb_nr = ndomains + nnodes + nnodes * nx := by rw [← hb0]
  have h1 := attach_each_no_fault rc_attach hf
    ((List.range ndomains).map (domain_comp domains)) 0 b0 (by
      simp only [hb0c, hb0n, List.length_nil, List.length_map, List.length_range]; omega)
  obtain ⟨d1, d2, _⟩ := attach_each_ok rc_attach _ 0 b0 (by simp [hb0c]) h1
  rw [if_neg (not_not.mpr h1)]
  generalize attach_each rc_attach 0 b0
    ((List.range ndomains).map (domain_comp domains)) = b1 at d1 d2 h1
  have h2 := attach_each_no_fault rc_attach hf
    ((List.range nnodes).map (node_comp nx target_uuids uuids target_addrs)) ndomains b1.2
    (by
      rw [d1, d2, hb0c, hb0n]
      simp only [List.nil_append, List.length_map, List.length_range]; omega)
  obtain ⟨n1, n2, _⟩ := attach_each_ok rc_attach _ ndomains b1.2
    (by
      rw [d1, d2, hb0c, hb0n]
      simp only [List.nil_append, List.length_map, List.length_range]; omega) h2
  rw [if_neg (not_not.mpr h2)]
  generalize attach_each rc_attach ndomains b1.2
    ((List.range nnodes).map (node_comp nx target_uuids uuids target_addrs)) = b2 at n1 n2 h2
  apply attach_each_no_fault rc_attach hf
  rw [n1, n2, d1, d2, hb0c, hb0n, length_target_comps]
  simp only [List.nil_append, List.length_append, List.length_map, List.length_range]
  omega


theorem write_map_buf_ok (rc_version rc_buffer : Int) (tx : List MdOp) (buf : pool_buf)
    (version : Nat) (h : (write_map_buf rc_version rc_buffer tx buf version).1 = 0) :
    (write_map_buf rc_version rc_buffer tx buf version).2 =
      tx ++ [MdOp.update_map_version version, MdOp.update_map_buffer buf] := by
  unfold write_map_buf at h ⊢
  split_ifs at h ⊢ with c1 c2
  · exact absurd h c1
  · exact absurd h c2
  · rfl

/-- When `init_pool_metadata` succeeds, the map buffer was built and the transaction has
got exactly the nine updates of the new metadata, in source order. -/
theorem init_pool_metadata_ok (nx : Nat) (env : init_md_env) (tx : List MdOp)
    (uid gid mode nnodes : Nat) (target_uuids : List uuid_t) (target_addrs : List Nat)
    (ndomains : Nat) (domains : List Nat)
    (h : (init_pool_metadata nx env tx uid gid mode nnodes target_uuids target_addrs ndomains
      domains).1 = 0) :
    (init_pool_map_buf nx env.rc_attach nnodes target_uuids
        (qsort_uuids (target_uuids.take nnodes)) target_addrs ndomains domains).1 = 0 ∧
    (init_pool_metadata nx env tx uid gid mode nnodes target_uuids target_addrs ndomains
      domains).2.2 =
      (init_pool_map_buf nx env.rc_attach nnodes target_uuids
        (qsort_uuids (target_uuids.take nnodes)) target_addrs ndomains domains).2 ∧
    (init_pool_metadata nx env tx uid gid mode nnodes target_uuids target_addrs ndomains
      domains).2.1 =
      tx ++ [MdOp.update_uid uid, MdOp.update_gid gid, MdOp.update_mode mode,
        MdOp.update_map_version 1,
        MdOp.update_map_buffer (init_pool_map_buf nx env.rc_attach nnodes target_uuids
          (qsort_uuids (target_uuids.take nnodes)) target_addrs ndomains domains).2,
        MdOp.update_map_uuids (qsort_uuids (target_uuids.take nnodes)),
        MdOp.update_nhandles 0, MdOp.create_handles, MdOp.create_user] := by
  generalize hr : init_pool_metadata nx env tx uid gid mode nnodes target_uuids target_addrs
    ndomains domains = r at h
  unfold init_pool_metadata at hr
  simp only [] at hr
  generalize init_pool_map_buf nx env.rc_attach nnodes target_uuids
    (qsort_uuids (target_uuids.take nnodes)) target_addrs ndomains domains = b at hr ⊢
  by_cases c1 : (!env.alloc_map_buf_ok) = true
  · rw [if_pos c1] at hr; subst hr; simp [DER_NOMEM] at h
  rw [if_neg c1] at hr
  by_cases c2 : (!env.alloc_uuids_ok) = true
  · rw [if_pos c2] at hr; subst hr; simp [DER_NOMEM] at h
  rw [if_neg c2] at hr
  by_cases c3 : b.1 ≠ 0
  · rw [if_pos c3] at hr; subst hr; exact absurd h c3
  rw [if_neg c3] at hr
  by_cases c4 : env.rc_update_uid ≠ 0
  · rw [if_pos c4] at hr; subst hr; exact absurd h c4
  rw [if_neg c4] at hr
  by_cases c5 : env.rc_update_gid ≠ 0
  · rw [if_pos c5] at hr; subst hr; exact absurd h c5
  rw [if_neg c5] at hr
  by_cases c6 : env.rc_update_mode ≠ 0
  · rw [if_pos c6] at hr; subst hr; exact absurd h c6
  rw [if_neg c6] at hr
  have hw := write_map_buf_ok env.rc_update_map_version env.rc_update_map_buffer
    (tx ++ [MdOp.update_uid uid] ++ [MdOp.update_gid gid] ++ [MdOp.update_mode mode]) b.2 1
  generalize write_map_buf env.rc_update_map_version env.rc_update_map_buffer
    (tx ++ [MdOp.update_uid uid] ++ [MdOp.update_gid gid] ++ [MdOp.update_mode mode]) b.2 1 = w
    at hr hw
  by_cases c7 : w.1 ≠ 0
  · rw [if_pos c7] at hr; subst hr; exact absurd h c7
  rw [if_neg c7] at hr
  by_cases c8 : env.rc_update_map_uuids ≠ 0
  · rw [if_pos c8] at hr; subst hr; exact absurd h c8
  rw [if_neg c8] at hr
  by_cases c9 : env.rc_update_nhandles ≠ 0
  · rw [if_pos c9] at hr; subst hr; exact absurd h c9
  rw [if_neg c9] at hr
  by_cases c10 : env.rc_create_handles ≠ 0
  · rw [if_pos c10] at hr; subst hr; exact absurd h c10
  rw [if_neg c10] at hr
  by_cases c11 : env.rc_create_user ≠ 0
  · rw [if_pos c11] at hr; subst hr; exact absurd h c11
  rw [if_neg c11] at hr
  subst hr
  refine ⟨not_not.mp c3, rfl, ?_⟩
  simp only []
  rw [hw (not_not.mp c7)]
  simp

/-- Without faults and with a component count that fits 32 bits, `init_pool_metadata`
succeeds. -/
theorem init_pool_metadata_succeeds (nx : Nat) (tx : List MdOp)
    (uid gid mode nnodes : Nat) (target_uuids : List uuid_t) (target_addrs : List Nat)
    (ndomains : Nat) (domains : List Nat) (hfit : ndomains + nnodes + nnodes * nx < 2 ^ 32) :
    (init_pool_metadata nx {} tx uid gid mode nnodes target_uuids target_addrs ndomains
      domains).1 = 0 := by
  have hb := init_pool_map_buf_succeeds nx [] (by simp) nnodes target_uuids
    (qsort_uuids (target_uuids.take nnodes)) target_addrs ndomains domains hfit
  unfold init_pool_metadata write_map_buf
  simp only [hb]
  simp


/-- C12: when `init_pool_metadata` succeeds for inputs with one UUID per node, the root
KVS — once the transaction is applied, whatever it held before — has `uid`, `gid` and
`mode` equal to the inputs, `map_version = 1`, `nhandles = 0`, and `map_uuids` equal to a
list that is in ascending order and is a permutation of the input target UUIDs. -/
theorem init_pool_metadata_root_values (nx : Nat) (env : init_md_env) (tx : List MdOp)
    (uid gid mode nnodes : Nat) (target_uuids : List uuid_t) (target_addrs : List Nat)
    (ndomains : Nat) (domains : List Nat) (db : MdDb)
    (hlen : target_uuids.length = nnodes)
    (h : (init_pool_metadata nx env tx uid gid mode nnodes target_uuids target_addrs ndomains
      domains).1 = 0) :
    ((init_pool_metadata nx env tx uid gid mode nnodes target_uuids target_addrs ndomains
        domains).2.1.foldl md_apply_op db).uid = some uid ∧
    ((init_pool_metadata nx env tx uid gid mode nnodes target_uuids target_addrs ndomains
        domains).2.1.foldl md_apply_op db).gid = some gid ∧
    ((init_pool_metadata nx env tx uid gid mode nnodes target_uuids target_addrs ndomains
        domains).2.1.foldl md_apply_op db).mode = some mode ∧
    ((init_pool_metadata nx env tx uid gid mode nnodes target_uuids target_addrs ndomains
        domains).2.1.foldl md_apply_op db).map_version = some 1 ∧
    ((init_pool_metadata nx env tx uid gid mode nnodes target_uuids target_addrs ndomains
        domains).2.1.foldl md_apply_op db).nhandles = some 0 ∧
    ∃ sorted,
      ((init_pool_metadata nx env tx uid gid mode nnodes target_uuids target_addrs ndomains
        domains).2.1.foldl md_apply_op db).map_uuids = some sorted ∧
      sorted.Sorted (fun a b => a ≤ b) ∧ sorted.Perm target_uuids := by
  obtain ⟨_, _, htx⟩ := init_pool_metadata_ok nx env tx uid gid mode nnodes target_uuids
    target_addrs ndomains domains h
  rw [htx]
  have htake : target_uuids.take nnodes = target_uuids := by
    rw [← hlen]; exact List.take_length target_uuids
  simp only [List.foldl_append, List.foldl_cons, List.foldl_nil, md_apply_op, true_and]
  refine ⟨_, rfl, ?_, ?_⟩
  · exact List.sorted_insertionSort _ _
  · unfold qsort_uuids
    rw [htake]
    exact List.perm_insertionSort _ _

/-- C12, at the inputs uid 1000, gid 1000, mode 0x1FF, target UUIDs 30, 10, 20 on ranks
1, 2, 3, one domain of 3 nodes, 2 streams per node, on an empty DB: the sorted UUIDs
written are 10, 20, 30. -/
theorem init_pool_metadata_root_values_witness :
    ((init_pool_metadata 2 {} [MdOp.create_root] 1000 1000 0x1FF 3 [30, 10, 20] [1, 2, 3] 1
        [3]).2.1.foldl md_apply_op {}).map_version = some 1 ∧
    ((init_pool_metadata 2 {} [MdOp.create_root] 1000 1000 0x1FF 3 [30, 10, 20] [1, 2, 3] 1
        [3]).2.1.foldl md_apply_op {}).map_uuids = some [10, 20, 30] :=
  ⟨(init_pool_metadata_root_values 2 {} [MdOp.create_root] 1000 1000 0x1FF 3 [30, 10, 20]
      [1, 2, 3] 1 [3] {} (by decide) (by decide)).2.2.2.1, by decide⟩

/-- C13: when `init_pool_metadata` succeeds, the map buffer it has built (and queued as
`map_buffer`) consists of `ndomains` domain components, then `nnodes` node components,
then `nnodes * nx` target components (`nx` streams per node), and the ids of the target
components are 0, 1, ..., `nnodes * nx - 1` in this order, hence pairwise distinct and
dense; and with no fault reported and `ndomains + nnodes + nnodes * nx < 2 ^ 32` it does
succeed. -/
theorem init_pool_metadata_map_layout (nx : Nat) (env : init_md_env) (tx : List MdOp)
    (uid gid mode nnodes : Nat) (target_uuids : List uuid_t) (target_addrs : List Nat)
    (ndomains : Nat) (domains : List Nat) :
    ((init_pool_metadata nx env tx uid gid mode nnodes target_uuids target_addrs ndomains
        domains).1 = 0 →
      ∃ doms nodes tgts,
        (init_pool_metadata nx env tx uid gid mode nnodes target_uuids target_addrs ndomains
          domains).2.2.pb_comps = doms ++ nodes ++ tgts ∧
        doms.length = ndomains ∧ nodes.length = nnodes ∧ tgts.length = nnodes * nx ∧
        (∀ c ∈ doms, c.co_type = pool_comp_type.PO_COMP_TP_RACK) ∧
        (∀ c ∈ nodes, c.co_type = pool_comp_type.PO_COMP_TP_NODE) ∧
        (∀ c ∈ tgts, c.co_type = pool_comp_type.PO_COMP_TP_TARGET) ∧
        tgts.map pool_component.co_id = List.range (nnodes * nx) ∧
        (tgts.map pool_component.co_id).Nodup ∧
        MdOp.update_map_buffer
          (init_pool_metadata nx env tx uid gid mode nnodes target_uuids target_addrs ndomains
            domains).2.2 ∈
          (init_pool_metadata nx env tx uid gid mode nnodes target_uuids target_addrs ndomains
            domains).2.1) ∧
    (ndomains + nnodes + nnodes * nx < 2 ^ 32 →
      (init_pool_metadata nx {} tx uid gid mode nnodes target_uuids target_addrs ndomains
        domains).1 = 0) := by
  refine ⟨fun h => ?_, fun hfit => init_pool_metadata_succeeds nx tx uid gid mode nnodes
    target_uuids target_addrs ndomains domains hfit⟩
  obtain ⟨hb, hbuf, htx⟩ := init_pool_metadata_ok nx env tx uid gid mode nnodes target_uuids
    target_addrs ndomains domains h
  obtain ⟨hcomps, hfit⟩ := init_pool_map_buf_ok nx env.rc_attach nnodes target_uuids _
    target_addrs ndomains domains hb
  have hids := target_comps_ids nx target_addrs nnodes (by omega)
  refine ⟨_, _, _, by rw [hbuf, hcomps], by simp, by simp,
    length_target_comps nx target_addrs nnodes, ?_, ?_, ?_, hids, ?_, ?_⟩
  · intro c hc
    simp only [List.mem_map, List.mem_range] at hc
    obtain ⟨i, _, rfl⟩ := hc
    rfl
  · intro c hc
    simp only [List.mem_map, List.mem_range] at hc
    obtain ⟨i, _, rfl⟩ := hc
    rfl
  · intro c hc
    simp only [List.mem_flatMap, List.mem_map, List.mem_range] at hc
    obtain ⟨i, _, j, _, rfl⟩ := hc
    rfl
  · rw [hids]; exact List.nodup_range _
  · rw [htx, hbuf]; simp

/-- C13, at 3 nodes with 2 streams each and 1 domain: 10 components, target ids 0..5. -/
theorem init_pool_metadata_map_layout_witness :
    ∃ doms nodes tgts,
      (init_pool_metadata 2 {} [] 1000 1000 0x1FF 3 [30, 10, 20] [1, 2, 3] 1
        [3]).2.2.pb_comps = doms ++ nodes ++ tgts ∧
      doms.length = 1 ∧ nodes.length = 3 ∧ tgts.length = 3 * 2 ∧
      tgts.map pool_component.co_id = List.range (3 * 2) :=
  let ⟨doms, nodes, tgts, h1, h2, h3, h4, _, _, _, h8, _⟩ :=
    (init_pool_metadata_map_layout 2 {} [] 1000 1000 0x1FF 3 [30, 10, 20] [1, 2, 3] 1 [3]).1
      (by decide)
  ⟨doms, nodes, tgts, h1, h2, h3, h4, h8⟩

/-! ### Service lifecycle -/

theorem md_lookup_error_ne_zero {α : Type} (fault : Int) (stored : Option α) (rc : Int)
    (h : md_lookup fault stored = .error rc) : rc ≠ 0 := by
  unfold md_lookup at h
  by_cases c : fault ≠ 0 ∧ fault ≠ -DER_NONEXIST
  · rw [if_pos c] at h
    cases h
    exact c.1
  · rw [if_neg c] at h
    cases stored with
    | none =>
      cases h
      simp [DER_NONEXIST]
    | some v => cases h

theorem md_lookup_some {α : Type} (fault : Int) (v : α)
    (h : fault = 0 ∨ fault = -DER_NONEXIST) : md_lookup fault (some v) = .ok v := by
  unfold md_lookup
  rw [if_neg]
  rintro ⟨h1, h2⟩
  rcases h with h | h
  · exact h1 h
  · exact h2 h

theorem md_lookup_none {α : Type} (fault : Int)
    (h : fault = 0 ∨ fault = -DER_NONEXIST) :
    md_lookup fault (none : Option α) = .error (-DER_NONEXIST) := by
  unfold md_lookup
  rw [if_neg]
  rintro ⟨h1, h2⟩
  rcases h with h | h
  · exact h1 h
  · exact h2 h

theorem read_map_error_ne_zero (db : MdDb) (a b c rc : Int)
    (h : db.read_map a b c = .error rc) : rc ≠ 0 := by
  unfold MdDb.read_map MdDb.read_map_buf at h
  cases h1 : md_lookup a db.map_version with
  | error e =>
    rw [h1] at h
    cases h
    exact md_lookup_error_ne_zero _ _ _ h1
  | ok ver =>
    rw [h1] at h
    cases h2 : md_lookup b db.map_buffer with
    | error e =>
      rw [h2] at h
      cases h
      exact md_lookup_error_ne_zero _ _ _ h2
    | ok buf =>
      rw [h2] at h
      simp only [pool_map_create] at h
      by_cases cc : c ≠ 0
      · rw [if_pos cc] at h
        cases h
        exact cc
      · rw [if_neg cc] at h
        cases h

/-- A DB without a pool map is reported as `-DER_NONEXIST` by `read_map` when its lookups
report no fault of their own. -/
theorem read_map_new_db (db : MdDb) (a b c : Int)
    (hnew : db.map_version = none ∨ db.map_buffer = none)
    (ha : a = 0 ∨ a = -DER_NONEXIST) (hb : b = 0 ∨ b = -DER_NONEXIST) :
    db.read_map a b c = .error (-DER_NONEXIST) := by
  unfold MdDb.read_map MdDb.read_map_buf
  cases hv : db.map_version with
  | none => rw [md_lookup_none a ha]
  | some ver =>
    rw [md_lookup_some a ver ha]
    rcases hnew with h | h
    · rw [hv] at h
      cases h
    · rw [h, md_lookup_none b hb]

theorem read_map_present (db : MdDb) (ver : Nat) (buf : pool_buf)
    (hv : db.map_version = some ver) (hb : db.map_buffer = some buf) :
    db.read_map 0 0 0 = .ok { version := ver, comps := buf.pb_comps } := by
  unfold MdDb.read_map MdDb.read_map_buf
  rw [hv, hb, md_lookup_some 0 ver (Or.inl rfl), md_lookup_some 0 buf (Or.inl rfl)]
  simp [pool_map_create]

/-- Function `pool_svc_step_up`, entered without a cached pool, returns 0 with a cached
pool or a non-zero code without one. -/
theorem pool_svc_step_up_cases (env : step_up_env) (svc : pool_svc) (db : MdDb) (rc : Int)
    (p : Option ds_pool) (h : pool_svc_step_up env svc none db = some (rc, p)) :
    (rc = 0 ∧ p.isSome) ∨ (rc ≠ 0 ∧ p = none) := by
  unfold pool_svc_step_up at h
  by_cases c1 : svc.ps_state = pool_svc_state.POOL_SVC_UP
  · rw [if_pos c1] at h
    cases h
  rw [if_neg c1] at h
  by_cases c2 : env.rc_tx_begin ≠ 0
  · rw [if_pos c2] at h
    cases h
    exact Or.inr ⟨c2, rfl⟩
  rw [if_neg c2] at h
  cases hm : db.read_map env.rc_lookup_map_version env.rc_lookup_map_buffer env.rc_map_create with
  | error e =>
    rw [hm] at h
    have he := read_map_error_ne_zero _ _ _ _ _ hm
    simp only [Option.some.injEq, Prod.mk.injEq] at h
    obtain ⟨h1, h2⟩ := h
    refine Or.inr ⟨?_, h2.symm⟩
    rw [← h1]
    by_cases cn : e = -DER_NONEXIST
    · rw [if_pos cn]
      simp [DER_UNINIT]
    · rw [if_neg cn]
      exact he
  | ok map =>
    rw [hm] at h
    simp only [] at h
    by_cases c3 : env.rc_get_ranks ≠ 0
    · rw [if_pos c3] at h
      simp only [Option.some.injEq, Prod.mk.injEq] at h
      obtain ⟨h1, h2⟩ := h
      refine Or.inr ⟨?_, h2.symm⟩
      rw [← h1]
      by_cases cn : env.rc_get_ranks = -DER_NONEXIST
      · rw [if_pos cn]
        simp [DER_UNINIT]
      · rw [if_neg cn]
        exact c3
    rw [if_neg c3] at h
    by_cases c4 : ¬ env.group_exists ∧ env.rc_group_create ≠ 0
    · rw [if_pos c4] at h
      cases h
      exact Or.inr ⟨c4.2, rfl⟩
    rw [if_neg c4] at h
    rw [if_neg (by simp)] at h
    by_cases c5 : env.rc_lookup_create ≠ 0
    · rw [if_pos c5] at h
      cases h
      exact Or.inr ⟨c5, rfl⟩
    rw [if_neg c5] at h
    have fin : ∀ pool : Option ds_pool,
        (match pool with
          | none => (none : Option (Int × Option ds_pool))
          | some pool =>
            if env.rc_regenerate ≠ 0 then some (env.rc_regenerate, none)
            else if env.rc_group_rank ≠ 0 then none else some (0, some pool)) = some (rc, p) →
        (rc = 0 ∧ p.isSome) ∨ (rc ≠ 0 ∧ p = none) := by
      intro pool hh
      cases pool with
      | none => cases hh
      | some pool =>
        simp only [] at hh
        by_cases c6 : env.rc_regenerate ≠ 0
        · rw [if_pos c6] at hh
          cases hh
          exact Or.inr ⟨c6, rfl⟩
        rw [if_neg c6] at hh
        by_cases c7 : env.rc_group_rank ≠ 0
        · rw [if_pos c7] at hh
          cases hh
        rw [if_neg c7] at hh
        cases hh
        exact Or.inl ⟨rfl, rfl⟩
    exact fin _ h

/-- Function `pool_svc_step_up` on a new DB: positive `DER_UNINIT`, nothing cached. -/
theorem pool_svc_step_up_new_db (env : step_up_env) (svc : pool_svc) (ps_pool : Option ds_pool)
    (db : MdDb) (hst : svc.ps_state ≠ pool_svc_state.POOL_SVC_UP)
    (hnew : db.map_version = none ∨ db.map_buffer = none)
    (h0 : env.rc_tx_begin = 0)
    (ha : env.rc_lookup_map_version = 0 ∨ env.rc_lookup_map_version = -DER_NONEXIST)
    (hb : env.rc_lookup_map_buffer = 0 ∨ env.rc_lookup_map_buffer = -DER_NONEXIST) :
    pool_svc_step_up env svc ps_pool db = some (DER_UNINIT, ps_pool) := by
  unfold pool_svc_step_up
  rw [if_neg hst, if_neg (by simp [h0]), read_map_new_db db _ _ _ hnew ha hb]
  simp

/-- Function `pool_svc_step_up` on a DB holding a pool map, when no collaborator reports a
fault and nothing is cached yet: 0, and the cached pool holds the map read. -/
theorem pool_svc_step_up_present (svc : pool_svc) (db : MdDb) (ver : Nat) (buf : pool_buf)
    (hst : svc.ps_state ≠ pool_svc_state.POOL_SVC_UP)
    (hv : db.map_version = some ver) (hb : db.map_buffer = some buf) :
    pool_svc_step_up {} svc none db =
      some (0, some { sp_map := some { version := ver, comps := buf.pb_comps },
                      sp_map_version := ver, sp_iv_ns := false }) := by
  unfold pool_svc_step_up
  rw [if_neg hst]
  simp only [ne_eq, not_true_eq_false, if_false]
  rw [read_map_present db ver buf hv hb]
  simp

/-- C15: when the step-up callback runs with the stop flag clear and the service DOWN, it
sets the term to the callback's term, and then follows the code of `pool_svc_step_up`:
positive `DER_UNINIT` leaves the service UP_EMPTY and returns 0, 0 leaves it UP and
returns 0, any other code leaves it DOWN and is returned; nothing else of the service
changes.  A DB without a pool map (no fault from `rdb_tx_begin` or the lookups) is such a
new DB: the callback returns 0 with the service UP_EMPTY.  A DB with a pool map, no fault
and no cached pool yet gives 0 with the service UP. -/
theorem pool_svc_step_up_cb_outcome (env : step_up_env) (term : Nat) (svc : pool_svc)
    (ps_pool : Option ds_pool) (db : MdDb)
    (hstop : svc.ps_stop = false) (hdown : svc.ps_state = pool_svc_state.POOL_SVC_DOWN) :
    (∀ rc svc' p, pool_svc_step_up_cb env term svc ps_pool db = some (rc, svc', p) →
      svc'.ps_term = term ∧
      ∃ rc_up, pool_svc_step_up env { svc with ps_term := term } ps_pool db = some (rc_up, p) ∧
        (rc_up = DER_UNINIT →
          rc = 0 ∧ svc' = { svc with ps_term := term,
                                     ps_state := pool_svc_state.POOL_SVC_UP_EMPTY }) ∧
        (rc_up = 0 →
          rc = 0 ∧ svc' = { svc with ps_term := term,
                                     ps_state := pool_svc_state.POOL_SVC_UP }) ∧
        (rc_up ≠ DER_UNINIT → rc_up ≠ 0 →
          rc = rc_up ∧ svc' = { svc with ps_term := term })) ∧
    ((db.map_version = none ∨ db.map_buffer = none) → env.rc_tx_begin = 0 →
      (env.rc_lookup_map_version = 0 ∨ env.rc_lookup_map_version = -DER_NONEXIST) →
      (env.rc_lookup_map_buffer = 0 ∨ env.rc_lookup_map_buffer = -DER_NONEXIST) →
      pool_svc_step_up_cb env term svc ps_pool db =
        some (0, { svc with ps_term := term, ps_state := pool_svc_state.POOL_SVC_UP_EMPTY },
          ps_pool)) ∧
    (∀ ver buf, db.map_version = some ver → db.map_buffer = some buf → ps_pool = none →
      pool_svc_step_up_cb {} term svc ps_pool db =
        some (0, { svc with ps_term := term, ps_state := pool_svc_state.POOL_SVC_UP },
          some { sp_map := some { version := ver, comps := buf.pb_comps },
                 sp_map_version := ver, sp_iv_ns := false })) := by
  have hst : ({ svc with ps_term := term } : pool_svc).ps_state ≠ pool_svc_state.POOL_SVC_UP := by
    simp [hdown]
  refine ⟨?_, ?_, ?_⟩
  · intro rc svc' p h
    unfold pool_svc_step_up_cb at h
    rw [if_neg (by simp [hstop]), if_neg (by simp [hdown])] at h
    simp only [] at h
    cases hu : pool_svc_step_up env { svc with ps_term := term } ps_pool db with
    | none =>
      rw [hu] at h
      cases h
    | some r =>
      obtain ⟨rc_up, p'⟩ := r
      rw [hu] at h
      simp only [] at h
      by_cases c1 : rc_up = DER_UNINIT
      · rw [if_pos c1] at h
        cases h
        refine ⟨rfl, _, rfl, fun _ => ⟨rfl, rfl⟩, ?_, fun hne => absurd c1 hne⟩
        intro h0
        rw [h0] at c1
        simp [DER_UNINIT] at c1
      · rw [if_neg c1] at h
        by_cases c2 : rc_up ≠ 0
        · rw [if_pos c2] at h
          cases h
          exact ⟨rfl, _, rfl, fun hu => absurd hu c1, fun h0 => absurd h0 c2,
            fun _ _ => ⟨rfl, rfl⟩⟩
        · rw [if_neg c2] at h
          cases h
          exact ⟨rfl, _, rfl, fun hu => absurd hu c1, fun _ => ⟨rfl, rfl⟩,
            fun _ hne => absurd hne c2⟩
  · intro hnew h0 ha hb
    unfold pool_svc_step_up_cb
    rw [if_neg (by simp [hstop]), if_neg (by simp [hdown])]
    simp only []
    rw [pool_svc_step_up_new_db env _ ps_pool db hst hnew h0 ha hb]
    simp
  · intro ver buf hv hb hp
    subst hp
    unfold pool_svc_step_up_cb
    rw [if_neg (by simp [hstop]), if_neg (by simp [hdown])]
    simp only []
    rw [pool_svc_step_up_present _ db ver buf hst hv hb]
    simp [DER_UNINIT]

/-- C15, at a freshly initialised service of pool 7 with an empty DB and term 3: the
callback returns 0 and leaves the service UP_EMPTY in term 3. -/
theorem pool_svc_step_up_cb_outcome_witness :
    pool_svc_step_up_cb {} 3 ⟨7, 1, false, 0, pool_svc_state.POOL_SVC_DOWN, 0, 0⟩ none {} =
      some (0, ⟨7, 1, false, 3, pool_svc_state.POOL_SVC_UP_EMPTY, 0, 0⟩, none) :=
  (pool_svc_step_up_cb_outcome {} 3 ⟨7, 1, false, 0, pool_svc_state.POOL_SVC_DOWN, 0, 0⟩
    none {} rfl rfl).2.1 (Or.inl rfl) rfl (Or.inl rfl) (Or.inl rfl)

/-! ### CREATE -/

theorem md_lookup_ok_some {α : Type} (fault : Int) (stored : Option α) (v : α)
    (h : md_lookup fault stored = .ok v) : stored = some v := by
  unfold md_lookup at h
  by_cases c : fault ≠ 0 ∧ fault ≠ -DER_NONEXIST
  · rw [if_pos c] at h
    cases h
  · rw [if_neg c] at h
    cases stored with
    | none => cases h
    | some w =>
      cases h
      rfl

/-- The transaction of a CREATE on a DB that already holds a pool map queues nothing and
leaves the DB as it is; its code is that of the lookup. -/
theorem create_tx_existing (nx : Nat) (env : create_env) (db : MdDb) (req : pool_create_in)
    (buf : pool_buf) (hbuf : db.map_buffer = some buf) :
    (create_tx nx env db req).2.1 = [] ∧ (create_tx nx env db req).2.2 = db ∧
    ((env.rc_lookup_map_buffer = 0 ∨ env.rc_lookup_map_buffer = -DER_NONEXIST) →
      (create_tx nx env db req).1 = 0) := by
  unfold create_tx
  cases hl : md_lookup env.rc_lookup_map_buffer db.map_buffer with
  | ok v => exact ⟨rfl, rfl, fun _ => rfl⟩
  | error e =>
    simp only []
    have hne : e ≠ -DER_NONEXIST := by
      intro he
      unfold md_lookup at hl
      by_cases c : env.rc_lookup_map_buffer ≠ 0 ∧ env.rc_lookup_map_buffer ≠ -DER_NONEXIST
      · rw [if_pos c] at hl
        cases hl
        exact c.2 he
      · rw [if_neg c, hbuf] at hl
        cases hl
    rw [if_pos hne]
    refine ⟨rfl, rfl, fun h => ?_⟩
    rw [hbuf, md_lookup_some _ buf h] at hl
    cases hl

/-- The transaction of a CREATE either ends with 0 and a DB that holds a pool map, or
ends with an error and the DB as it was. -/
theorem create_tx_cases (nx : Nat) (env : create_env) (db : MdDb) (req : pool_create_in) :
    ((create_tx nx env db req).1 = 0 ∧ (create_tx nx env db req).2.2.map_buffer.isSome) ∨
    ((create_tx nx env db req).1 ≠ 0 ∧ (create_tx nx env db req).2.2 = db) := by
  unfold create_tx
  cases hl : md_lookup env.rc_lookup_map_buffer db.map_buffer with
  | ok v =>
    refine Or.inl ⟨rfl, ?_⟩
    simp only []
    rw [md_lookup_ok_some _ _ _ hl]
    rfl
  | error e =>
    simp only []
    have he := md_lookup_error_ne_zero _ _ _ hl
    by_cases c1 : e ≠ -DER_NONEXIST
    · rw [if_pos c1]
      exact Or.inr ⟨he, rfl⟩
    rw [if_neg c1]
    by_cases c2 : env.rc_create_root ≠ 0
    · rw [if_pos c2]
      exact Or.inr ⟨c2, rfl⟩
    rw [if_neg c2]
    by_cases c3 : (init_pool_metadata nx env.init [MdOp.create_root] req.pri_uid
        req.pri_gid req.pri_mode req.pri_ntgts req.pri_tgt_uuids req.pri_tgt_ranks
        req.pri_ndomains req.pri_domains).1 ≠ 0
    · rw [if_pos c3]
      exact Or.inr ⟨c3, rfl⟩
    rw [if_neg c3]
    by_cases c4 : env.rc_cont_init ≠ 0
    · rw [if_pos c4]
      exact Or.inr ⟨c4, rfl⟩
    rw [if_neg c4]
    unfold md_tx_commit
    by_cases c5 : env.rc_commit ≠ 0
    · rw [if_pos c5]
      exact Or.inr ⟨c5, rfl⟩
    rw [if_neg c5]
    refine Or.inl ⟨rfl, ?_⟩
    have hi := (init_pool_metadata_ok nx env.init [MdOp.create_root] req.pri_uid
        req.pri_gid req.pri_mode req.pri_ntgts req.pri_tgt_uuids req.pri_tgt_ranks
        req.pri_ndomains req.pri_domains (not_not.mp c3)).2.2
    simp only []
    rw [hi]
    simp [md_apply_op]

/-- The ways `ds_pool_create_handler` ends when the registry holds the service: before
the transaction (nothing changed), with a failed transaction, with a transaction that
ended with 0 outside UP_EMPTY, or, in UP_EMPTY, with a failed or a successful step-up. -/
theorem create_handler_cases (nx : Nat) (env : create_env) (pool_svc_hash : List pool_svc)
    (ps_pool : Option ds_pool) (db : MdDb) (req : pool_create_in) (svc0 : pool_svc)
    (hreg : pool_svc_hash.find? (fun s => s.ps_uuid == req.pi_uuid) = some svc0)
    (r : create_result)
    (h : ds_pool_create_handler nx env pool_svc_hash ps_pool db req = some r) :
    (∃ rc s, rc ≠ 0 ∧ (s = none ∨ s = some svc0) ∧ r = ⟨rc, [], none, db, s, ps_pool, false⟩) ∨
    ((create_tx nx env db req).1 ≠ 0 ∧ svc0.ps_stop = false ∧
      r = ⟨(create_tx nx env db req).1, (create_tx nx env db req).2.1,
        some (create_tx nx env db req).1, (create_tx nx env db req).2.2, some svc0, ps_pool,
        true⟩) ∨
    ((create_tx nx env db req).1 = 0 ∧ svc0.ps_stop = false ∧
      svc0.ps_state ≠ pool_svc_state.POOL_SVC_UP_EMPTY ∧
      r = ⟨0, (create_tx nx env db req).2.1, some 0, (create_tx nx env db req).2.2,
        some svc0, ps_pool, false⟩) ∨
    ((create_tx nx env db req).1 = 0 ∧ svc0.ps_stop = false ∧
      svc0.ps_state = pool_svc_state.POOL_SVC_UP_EMPTY ∧
      ∃ rc p, pool_svc_step_up env.step_up { svc0 with ps_ref := svc0.ps_ref + 1 } ps_pool
          (create_tx nx env db req).2.2 = some (rc, p) ∧ rc ≠ 0 ∧
        r = ⟨rc, (create_tx nx env db req).2.1, some 0, (create_tx nx env db req).2.2,
          some svc0, p, true⟩) ∨
    ((create_tx nx env db req).1 = 0 ∧ svc0.ps_stop = false ∧
      svc0.ps_state = pool_svc_state.POOL_SVC_UP_EMPTY ∧
      ∃ p, pool_svc_step_up env.step_up { svc0 with ps_ref := svc0.ps_ref + 1 } ps_pool
          (create_tx nx env db req).2.2 = some (0, p) ∧
        r = ⟨0, (create_tx nx env db req).2.1, some 0, (create_tx nx env db req).2.2,
          some { svc0 with ps_state := pool_svc_state.POOL_SVC_UP }, p, false⟩) := by
  have hput : pool_svc_put { svc0 with ps_ref := svc0.ps_ref + 1 } = svc0 := by
    simp [pool_svc_put]
  have hput2 : pool_svc_put
      { svc0 with ps_ref := svc0.ps_ref + 1, ps_state := pool_svc_state.POOL_SVC_UP } =
      { svc0 with ps_state := pool_svc_state.POOL_SVC_UP } := by
    simp [pool_svc_put]
  unfold ds_pool_create_handler at h
  by_cases c1 : req.pri_ntgts ≠ req.pri_tgt_uuids.length ∨
      req.pri_ntgts ≠ req.pri_tgt_ranks.length
  · rw [if_pos c1] at h
    cases h
    exact Or.inl ⟨_, none, by simp [DER_PROTO], Or.inl rfl, rfl⟩
  rw [if_neg c1] at h
  by_cases c2 : req.pri_ndomains ≠ req.pri_domains.length
  · rw [if_pos c2] at h
    cases h
    exact Or.inl ⟨_, none, by simp [DER_PROTO], Or.inl rfl, rfl⟩
  rw [if_neg c2] at h
  have hlk : pool_svc_lookup pool_svc_hash env.st req.pi_uuid =
      { rc := 0, svc := some { svc0 with ps_ref := svc0.ps_ref + 1 } } := by
    unfold pool_svc_lookup
    rw [hreg]
  simp only [hlk, ne_eq, not_true_eq_false, if_false] at h
  by_cases c3 : svc0.ps_stop = true
  · rw [if_pos c3] at h
    cases h
    rw [hput]
    exact Or.inl ⟨_, some svc0, by simp [DER_CANCELED], Or.inr rfl, rfl⟩
  rw [if_neg c3] at h
  have hstop : svc0.ps_stop = false := by
    cases hs : svc0.ps_stop
    · rfl
    · exact absurd hs c3
  by_cases c4 : env.rc_tx_begin = 0
  swap
  · rw [if_pos c4] at h
    cases h
    rw [hput]
    exact Or.inl ⟨_, some svc0, c4, Or.inr rfl, rfl⟩
  rw [if_neg (not_not.mpr c4)] at h
  by_cases c5 : (create_tx nx env db req).1 = 0
  swap
  · rw [if_pos c5] at h
    cases h
    rw [hput]
    exact Or.inr (Or.inl ⟨c5, hstop, rfl⟩)
  rw [if_neg (not_not.mpr c5)] at h
  by_cases c6 : svc0.ps_state = pool_svc_state.POOL_SVC_UP_EMPTY
  swap
  · rw [if_neg c6] at h
    cases h
    rw [hput, c5]
    exact Or.inr (Or.inr (Or.inl ⟨rfl, hstop, c6, rfl⟩))
  rw [if_pos c6] at h
  cases hu : pool_svc_step_up env.step_up { svc0 with ps_ref := svc0.ps_ref + 1 } ps_pool
      (create_tx nx env db req).2.2 with
  | none =>
    rw [hu] at h
    cases h
  | some x =>
    obtain ⟨rc, p⟩ := x
    rw [hu] at h
    simp only [] at h
    by_cases c7 : rc = 0
    · rw [if_neg (not_not.mpr c7)] at h
      cases h
      subst c7
      rw [hput2, c5]
      exact Or.inr (Or.inr (Or.inr (Or.inr ⟨rfl, hstop, c6, p, rfl, rfl⟩)))
    · rw [if_pos c7] at h
      by_cases c8 : rc = DER_UNINIT
      · rw [if_pos c8] at h
        cases h
      · rw [if_neg c8] at h
        cases h
        rw [hput, c5]
        exact Or.inr (Or.inr (Or.inr (Or.inl ⟨rfl, hstop, c6, rc, p, rfl, c7, rfl⟩)))

theorem create_handler_unregistered (nx : Nat) (env : create_env)
    (pool_svc_hash : List pool_svc) (ps_pool : Option ds_pool) (db : MdDb)
    (req : pool_create_in)
    (hreg : pool_svc_hash.find? (fun s => s.ps_uuid == req.pi_uuid) = none) :
    ∃ rc, rc ≠ 0 ∧ ds_pool_create_handler nx env pool_svc_hash ps_pool db req =
      some ⟨rc, [], none, db, none, ps_pool, false⟩ := by
  unfold ds_pool_create_handler
  by_cases c1 : req.pri_ntgts ≠ req.pri_tgt_uuids.length ∨
      req.pri_ntgts ≠ req.pri_tgt_ranks.length
  · rw [if_pos c1]
    exact ⟨_, by simp [DER_PROTO], rfl⟩
  rw [if_neg c1]
  by_cases c2 : req.pri_ndomains ≠ req.pri_domains.length
  · rw [if_pos c2]
    exact ⟨_, by simp [DER_PROTO], rfl⟩
  rw [if_neg c2]
  have hne : (pool_svc_lookup pool_svc_hash env.st req.pi_uuid).rc ≠ 0 ∧
      (pool_svc_lookup pool_svc_hash env.st req.pi_uuid).svc = none := by
    unfold pool_svc_lookup
    rw [hreg]
    cases env.st <;> simp [DER_NONEXIST, DER_NOTLEADER]
  simp only []
  rw [if_pos hne.1]
  exact ⟨_, hne.1, rfl⟩

/-- A CREATE queues nothing and leaves the DB as it is when the DB holds a pool map. -/
theorem create_handler_existing (nx : Nat) (env : create_env)
    (pool_svc_hash : List pool_svc) (ps_pool : Option ds_pool) (db : MdDb)
    (req : pool_create_in) (buf : pool_buf) (hbuf : db.map_buffer = some buf)
    (r : create_result)
    (h : ds_pool_create_handler nx env pool_svc_hash ps_pool db req = some r) :
    r.tx = [] ∧ r.db = db := by
  obtain ⟨ht1, ht2, _⟩ := create_tx_existing nx env db req buf hbuf
  cases hreg : pool_svc_hash.find? (fun s => s.ps_uuid == req.pi_uuid) with
  | none =>
    obtain ⟨rc, _, hr⟩ := create_handler_unregistered nx env pool_svc_hash ps_pool db req hreg
    rw [hr] at h
    cases h
    exact ⟨rfl, rfl⟩
  | some svc0 =>
    rcases create_handler_cases nx env pool_svc_hash ps_pool db req svc0 hreg r h with
      ⟨rc, s, _, _, hr⟩ | ⟨_, _, hr⟩ | ⟨_, _, _, hr⟩ | ⟨_, _, _, rc, p, _, _, hr⟩ |
      ⟨_, _, _, p, _, hr⟩
    · rw [hr]
      exact ⟨rfl, rfl⟩
    · rw [hr]
      exact ⟨ht1, ht2⟩
    · rw [hr]
      exact ⟨ht1, ht2⟩
    · rw [hr]
      exact ⟨ht1, ht2⟩
    · rw [hr]
      exact ⟨ht1, ht2⟩

/-- A CREATE that replies 0 leaves a DB that holds a pool map. -/
theorem create_handler_ok_has_map (nx : Nat) (env : create_env)
    (pool_svc_hash : List pool_svc) (ps_pool : Option ds_pool) (db : MdDb)
    (req : pool_create_in) (r : create_result)
    (h : ds_pool_create_handler nx env pool_svc_hash ps_pool db req = some r)
    (h0 : r.po_rc = 0) : r.db.map_buffer.isSome := by
  have hmap : (create_tx nx env db req).1 = 0 →
      (create_tx nx env db req).2.2.map_buffer.isSome := by
    intro ht
    rcases create_tx_cases nx env db req with ⟨_, hm⟩ | ⟨hne, _⟩
    · exact hm
    · exact absurd ht hne
  cases hreg : pool_svc_hash.find? (fun s => s.ps_uuid == req.pi_uuid) with
  | none =>
    obtain ⟨rc, hrc, hr⟩ := create_handler_unregistered nx env pool_svc_hash ps_pool db req hreg
    rw [hr] at h
    cases h
    exact absurd h0 hrc
  | some svc0 =>
    rcases create_handler_cases nx env pool_svc_hash ps_pool db req svc0 hreg r h with
      ⟨rc, s, hrc, _, hr⟩ | ⟨hne, _, hr⟩ | ⟨ht, _, _, hr⟩ | ⟨ht, _, _, rc, p, _, hrc, hr⟩ |
      ⟨ht, _, _, p, _, hr⟩
    · rw [hr] at h0
      exact absurd h0 hrc
    · rw [hr] at h0
      exact absurd h0 hne
    · rw [hr]
      exact hmap ht
    · rw [hr] at h0
      exact absurd h0 hrc
    · rw [hr]
      exact hmap ht

/-- The transaction of a CREATE on a DB without a pool map, with no fault reported and a
component count that fits 32 bits, commits version 1 and a map buffer. -/
theorem create_tx_fresh (nx : Nat) (db : MdDb) (req : pool_create_in)
    (hnew : db.map_buffer = none)
    (hfit : req.pri_ndomains + req.pri_ntgts + req.pri_ntgts * nx < 2 ^ 32) :
    (create_tx nx {} db req).1 = 0 ∧
    (create_tx nx {} db req).2.2.map_version = some 1 ∧
    ∃ buf, (create_tx nx {} db req).2.2.map_buffer = some buf := by
  have hs := init_pool_metadata_succeeds nx [MdOp.create_root] req.pri_uid
    req.pri_gid req.pri_mode req.pri_ntgts req.pri_tgt_uuids req.pri_tgt_ranks
    req.pri_ndomains req.pri_domains hfit
  have hi := (init_pool_metadata_ok nx {} [MdOp.create_root] req.pri_uid
    req.pri_gid req.pri_mode req.pri_ntgts req.pri_tgt_uuids req.pri_tgt_ranks
    req.pri_ndomains req.pri_domains hs).2.2
  unfold create_tx
  rw [hnew, md_lookup_none 0 (Or.inl rfl)]
  simp only [ne_eq, not_true_eq_false, if_false, hs, md_tx_commit]
  rw [hi]
  simp [md_apply_op]

/-- A CREATE on a registered service that is UP_EMPTY and not stopping, holds no cached
pool and has a DB without a pool map, for a request whose counts match its arrays and fit
32 bits, with no fault reported: it replies 0, commits the pool map, caches a pool,
releases the mutex and leaves the service UP. -/
theorem create_handler_succeeds (nx : Nat) (pool_svc_hash : List pool_svc) (db : MdDb)
    (req : pool_create_in) (svc0 : pool_svc)
    (hreg : pool_svc_hash.find? (fun s => s.ps_uuid == req.pi_uuid) = some svc0)
    (hstop : svc0.ps_stop = false)
    (hstate : svc0.ps_state = pool_svc_state.POOL_SVC_UP_EMPTY)
    (hnew : db.map_buffer = none)
    (hu : req.pri_ntgts = req.pri_tgt_uuids.length)
    (hr : req.pri_ntgts = req.pri_tgt_ranks.length)
    (hd : req.pri_ndomains = req.pri_domains.length)
    (hfit : req.pri_ndomains + req.pri_ntgts + req.pri_ntgts * nx < 2 ^ 32) :
    ∃ r, ds_pool_create_handler nx {} pool_svc_hash none db req = some r ∧ r.po_rc = 0 ∧
      r.svc = some { svc0 with ps_state := pool_svc_state.POOL_SVC_UP } ∧
      r.ps_pool.isSome ∧ r.mutex_locked = false ∧ r.db.map_buffer.isSome := by
  obtain ⟨ht, hv, buf, hb⟩ := create_tx_fresh nx db req hnew hfit
  have hst : ({ svc0 with ps_ref := svc0.ps_ref + 1 } : pool_svc).ps_state ≠
      pool_svc_state.POOL_SVC_UP := by
    simp [hstate]
  have hup := pool_svc_step_up_present { svc0 with ps_ref := svc0.ps_ref + 1 }
    (create_tx nx {} db req).2.2 1 buf hst hv hb
  simp only [hstop, hstate] at hup
  have hlk : pool_svc_lookup pool_svc_hash rdb_stat.present req.pi_uuid =
      { rc := 0, svc := some { svc0 with ps_ref := svc0.ps_ref + 1 } } := by
    unfold pool_svc_lookup
    rw [hreg]
  unfold ds_pool_create_handler
  rw [if_neg (by simp [← hu, ← hr]), if_neg (by simp [← hd])]
  simp only [hlk, ne_eq, not_true_eq_false, if_false, hstop, Bool.false_eq_true, ht, hstate,
    if_true, hup]
  refine ⟨_, rfl, rfl, ?_, rfl, rfl, ?_⟩
  · simp [pool_svc_put]
  · simp [hb]

/-- C11: a CREATE on a DB whose root KVS already holds `map_buffer` queues no update and
leaves the DB as it is, however the handler ends; when the handler gets as far as the
lookup of `map_buffer` (request counts match, the service is registered and not stopping,
`rdb_tx_begin` succeeds) and the lookup reports no fault, the transaction ends with 0,
and outside UP_EMPTY the handler replies 0 with the service untouched.  Hence CREATE is
idempotent: after a CREATE that replied 0 the DB holds `map_buffer`, so any further CREATE
changes nothing in it. -/
theorem create_on_existing_map_is_noop (nx : Nat) :
    (∀ env pool_svc_hash ps_pool db req buf r, db.map_buffer = some buf →
      ds_pool_create_handler nx env pool_svc_hash ps_pool db req = some r →
      r.tx = [] ∧ r.db = db) ∧
    (∀ env pool_svc_hash ps_pool db req buf svc0, db.map_buffer = some buf →
      pool_svc_hash.find? (fun s => s.ps_uuid == req.pi_uuid) = some svc0 →
      svc0.ps_stop = false → req.pri_ntgts = req.pri_tgt_uuids.length →
      req.pri_ntgts = req.pri_tgt_ranks.length → req.pri_ndomains = req.pri_domains.length →
      env.rc_tx_begin = 0 → env.rc_lookup_map_buffer = 0 →
      (∀ r, ds_pool_create_handler nx env pool_svc_hash ps_pool db req = some r →
        r.tx_rc = some 0) ∧
      (svc0.ps_state ≠ pool_svc_state.POOL_SVC_UP_EMPTY →
        ds_pool_create_handler nx env pool_svc_hash ps_pool db req =
          some ⟨0, [], some 0, db, some svc0, ps_pool, false⟩)) ∧
    (∀ env1 env2 hash1 hash2 pool1 pool2 db req1 req2 r1 r2,
      ds_pool_create_handler nx env1 hash1 pool1 db req1 = some r1 → r1.po_rc = 0 →
      ds_pool_create_handler nx env2 hash2 pool2 r1.db req2 = some r2 →
      r2.tx = [] ∧ r2.db = r1.db) := by
  refine ⟨?_, ?_, ?_⟩
  · intro env pool_svc_hash ps_pool db req buf r hbuf h
    exact create_handler_existing nx env pool_svc_hash ps_pool db req buf hbuf r h
  · intro env pool_svc_hash ps_pool db req buf svc0 hbuf hreg hstop hu hr hd hb hl
    obtain ⟨ht1, ht2, ht3⟩ := create_tx_existing nx env db req buf hbuf
    have ht := ht3 (Or.inl hl)
    have hlk : pool_svc_lookup pool_svc_hash env.st req.pi_uuid =
        { rc := 0, svc := some { svc0 with ps_ref := svc0.ps_ref + 1 } } := by
      unfold pool_svc_lookup
      rw [hreg]
    constructor
    · intro r h
      unfold ds_pool_create_handler at h
      rw [if_neg (by simp [← hu, ← hr]), if_neg (by simp [← hd])] at h
      simp only [hlk, ne_eq, not_true_eq_false, if_false, hstop, Bool.false_eq_true, hb,
        ht] at h
      split at h
      · split at h
        · cases h
        · split at h
          · split at h
            · cases h
            · cases h
              rfl
          · cases h
            rfl
      · cases h
        rfl
    · intro hst
      unfold ds_pool_create_handler
      rw [if_neg (by simp [← hu, ← hr]), if_neg (by simp [← hd])]
      simp only [hlk, ne_eq, not_true_eq_false, if_false, hstop, Bool.false_eq_true, hb, ht,
        hst, ht1, ht2]
      cases svc0
      simp_all [pool_svc_put]
  · intro env1 env2 hash1 hash2 pool1 pool2 db req1 req2 r1 r2 h1 h0 h2
    have hm := create_handler_ok_has_map nx env1 hash1 pool1 db req1 r1 h1 h0
    cases hb : r1.db.map_buffer with
    | none =>
      rw [hb] at hm
      cases hm
    | some buf => exact create_handler_existing nx env2 hash2 pool2 r1.db req2 buf hb r2 h2

/-- C14: for a CREATE on a registered service: a reply of 0 while the service is UP_EMPTY
leaves it UP (nothing else of it changed); while the service is in any other state, and
whenever the reply is not 0, the service is left exactly as it was (`r.svc` is `none`
when the handler ended before looking the service up).  A CREATE can succeed in
UP_EMPTY: it does for a not-stopping service with a DB without a pool map, nothing
cached, a request whose counts match its arrays and fit 32 bits, and no fault reported. -/
theorem create_state_transition (nx : Nat) (env : create_env) (pool_svc_hash : List pool_svc)
    (ps_pool : Option ds_pool) (db : MdDb) (req : pool_create_in) (svc0 : pool_svc)
    (hreg : pool_svc_hash.find? (fun s => s.ps_uuid == req.pi_uuid) = some svc0) :
    (∀ r, ds_pool_create_handler nx env pool_svc_hash ps_pool db req = some r →
      (r.po_rc = 0 → svc0.ps_state = pool_svc_state.POOL_SVC_UP_EMPTY →
        r.svc = some { svc0 with ps_state := pool_svc_state.POOL_SVC_UP }) ∧
      (svc0.ps_state ≠ pool_svc_state.POOL_SVC_UP_EMPTY → r.svc.getD svc0 = svc0) ∧
      (r.po_rc ≠ 0 → r.svc.getD svc0 = svc0)) ∧
    (svc0.ps_stop = false → svc0.ps_state = pool_svc_state.POOL_SVC_UP_EMPTY →
      db.map_buffer = none → req.pri_ntgts = req.pri_tgt_uuids.length →
      req.pri_ntgts = req.pri_tgt_ranks.length → req.pri_ndomains = req.pri_domains.length →
      req.pri_ndomains + req.pri_ntgts + req.pri_ntgts * nx < 2 ^ 32 →
      ∃ r, ds_pool_create_handler nx {} pool_svc_hash none db req = some r ∧ r.po_rc = 0 ∧
        r.svc = some { svc0 with ps_state := pool_svc_state.POOL_SVC_UP }) := by
  constructor
  · intro r h
    rcases create_handler_cases nx env pool_svc_hash ps_pool db req svc0 hreg r h with
      ⟨rc, s, hrc, hs, hr⟩ | ⟨hne, _, hr⟩ | ⟨_, _, hst, hr⟩ | ⟨_, _, _, rc, p, _, hrc, hr⟩ |
      ⟨_, _, hst, p, _, hr⟩
    · rw [hr]
      refine ⟨fun h0 => absurd h0 hrc, fun _ => ?_, fun _ => ?_⟩ <;>
        rcases hs with hs | hs <;> simp [hs]
    · rw [hr]
      exact ⟨fun h0 => absurd h0 hne, fun _ => rfl, fun _ => rfl⟩
    · rw [hr]
      exact ⟨fun _ he => absurd he hst, fun _ => rfl, fun _ => rfl⟩
    · rw [hr]
      exact ⟨fun h0 => absurd h0 hrc, fun _ => rfl, fun _ => rfl⟩
    · rw [hr]
      exact ⟨fun _ _ => rfl, fun hne => absurd hst hne, fun hne => absurd rfl hne⟩
  · intro hstop hstate hnew hu hr hd hfit
    obtain ⟨r, h, h0, hs, _⟩ := create_handler_succeeds nx pool_svc_hash db req svc0 hreg
      hstop hstate hnew hu hr hd hfit
    exact ⟨r, h, h0, hs⟩

/-- C11, at the sample service (UP) with a DB that already holds an (empty) map buffer:
the sample CREATE replies 0, queues nothing and leaves the DB as it is. -/
theorem create_on_existing_map_is_noop_witness :
    ds_pool_create_handler 2 {} [sample_svc] none { map_buffer := some ⟨0, []⟩ }
        sample_create =
      some ⟨0, [], some 0, { map_buffer := some ⟨0, []⟩ }, some sample_svc, none, false⟩ :=
  ((create_on_existing_map_is_noop 2).2.1 {} [sample_svc] none
    { map_buffer := some ⟨0, []⟩ } sample_create ⟨0, []⟩ sample_svc rfl (by decide) rfl rfl
    rfl rfl rfl rfl).2 (by decide)

/-- C14, at a service of pool 7 that is UP_EMPTY with an empty DB: the sample CREATE
replies 0 and leaves the service UP. -/
theorem create_state_transition_witness :
    ∃ r, ds_pool_create_handler 2 {}
        [⟨7, 1, false, 3, pool_svc_state.POOL_SVC_UP_EMPTY, 0, 0⟩] none {} sample_create =
          some r ∧ r.po_rc = 0 ∧
      r.svc = some ⟨7, 1, false, 3, pool_svc_state.POOL_SVC_UP, 0, 0⟩ :=
  (create_state_transition 2 {} [⟨7, 1, false, 3, pool_svc_state.POOL_SVC_UP_EMPTY, 0, 0⟩]
    none {} sample_create ⟨7, 1, false, 3, pool_svc_state.POOL_SVC_UP_EMPTY, 0, 0⟩
    (by decide)).2 rfl rfl rfl rfl rfl rfl (by decide)

/-! ### Lifecycle invariant -/

theorem put_leader_iterate_some (n : Nat) (o : Option pool_svc) (svc' : pool_svc)
    (h : Nat.iterate (fun s => s.bind pool_svc_put_leader) n o = some svc') :
    ∃ svc, o = some svc ∧ svc'.ps_state = svc.ps_state ∧ svc'.ps_stop = svc.ps_stop ∧
      svc'.ps_term = svc.ps_term := by
  induction n generalizing o with
  | zero => exact ⟨svc', h, rfl, rfl, rfl⟩
  | succ n ih =>
    rw [Function.iterate_succ_apply] at h
    obtain ⟨svc1, h1, h2, h3, h4⟩ := ih _ h
    cases o with
    | none => cases h1
    | some svc =>
      refine ⟨svc, rfl, ?_⟩
      simp only [Option.bind] at h1
      unfold pool_svc_put_leader at h1
      by_cases c : svc.ps_leader_ref > 0
      · rw [if_pos c] at h1
        cases h1
        exact ⟨h2, h3, h4⟩
      · rw [if_neg c] at h1
        cases h1

/-- Releasing `k` leader references of a service that holds exactly `k` leaves none. -/
theorem put_leader_iterate_all (k : Nat) (svc : pool_svc) (h : svc.ps_leader_ref = (k : Int)) :
    ∃ svc', Nat.iterate (fun s => s.bind pool_svc_put_leader) k (some svc) = some svc' ∧
      svc'.ps_leader_ref = 0 := by
  induction k generalizing svc with
  | zero => exact ⟨svc, rfl, by simpa using h⟩
  | succ k ih =>
    rw [Function.iterate_succ_apply]
    have hpos : svc.ps_leader_ref > 0 := by
      rw [h]
      exact Int.natCast_pos.mpr (Nat.succ_pos k)
    have hput : (some svc).bind pool_svc_put_leader =
        some (pool_svc_put { svc with ps_leader_ref := svc.ps_leader_ref - 1 }) := by
      simp only [Option.bind]
      unfold pool_svc_put_leader
      rw [if_pos hpos]
    rw [hput]
    apply ih
    simp only [pool_svc_put, h]
    push_cast
    ring

theorem wait_leader_refs_done (wakeups : List Nat) (svc svc' : pool_svc)
    (h : wait_leader_refs wakeups svc = some svc') :
    svc'.ps_leader_ref = 0 ∧ svc'.ps_state = svc.ps_state ∧ svc'.ps_stop = svc.ps_stop ∧
      svc'.ps_term = svc.ps_term := by
  induction wakeups generalizing svc with
  | nil =>
    unfold wait_leader_refs at h
    by_cases c : svc.ps_leader_ref = 0
    · rw [if_pos c] at h
      cases h
      exact ⟨c, rfl, rfl, rfl⟩
    · rw [if_neg c] at h
      cases h
  | cons n rest ih =>
    unfold wait_leader_refs at h
    by_cases c : svc.ps_leader_ref = 0
    · rw [if_pos c] at h
      cases h
      exact ⟨c, rfl, rfl, rfl⟩
    · rw [if_neg c] at h
      cases hi : Nat.iterate (fun s => s.bind pool_svc_put_leader) n (some svc) with
      | none =>
        rw [hi] at h
        cases h
      | some svc1 =>
        rw [hi] at h
        obtain ⟨svc2, h2, h3, h4, h5⟩ := put_leader_iterate_some n _ _ hi
        cases h2
        obtain ⟨g1, g2, g3, g4⟩ := ih svc1 h
        exact ⟨g1, g2.trans h3, g3.trans h4, g4.trans h5⟩

/-- The wait of a step-down ends when the other handlers release all leader references at
the first wakeup. -/
theorem wait_leader_refs_completes (svc : pool_svc) (h : 0 ≤ svc.ps_leader_ref) :
    ∃ svc', wait_leader_refs [svc.ps_leader_ref.toNat] svc = some svc' := by
  unfold wait_leader_refs
  by_cases c : svc.ps_leader_ref = 0
  · rw [if_pos c]
    exact ⟨svc, rfl⟩
  · rw [if_neg c]
    obtain ⟨svc1, h1, h2⟩ := put_leader_iterate_all svc.ps_leader_ref.toNat svc
      (Int.toNat_of_nonneg h).symm
    rw [h1]
    simp only []
    unfold wait_leader_refs
    rw [if_pos h2]
    exact ⟨svc1, rfl⟩

/-- The step-down callback on a service that satisfies the lifecycle invariant. -/
theorem pool_svc_step_down_cb_inv (env : step_down_env) (term : Nat) (s : pool_svc_rt)
    (hinv : lifecycle_inv s) (svc' : pool_svc) (p' : Option ds_pool)
    (h : pool_svc_step_down_cb env term s.svc s.ps_pool = some (svc', p')) :
    svc'.ps_state = pool_svc_state.POOL_SVC_DOWN ∧ svc'.ps_leader_ref = 0 ∧ p' = none ∧
    (s.svc.ps_state = pool_svc_state.POOL_SVC_UP ∨
      s.svc.ps_state = pool_svc_state.POOL_SVC_UP_EMPTY) := by
  obtain ⟨hdr, hnn, hup, hnup⟩ := hinv
  unfold pool_svc_step_down_cb at h
  by_cases c1 : s.svc.ps_term ≠ term
  · rw [if_pos c1] at h
    cases h
  rw [if_neg c1] at h
  by_cases c2 : s.svc.ps_state = pool_svc_state.POOL_SVC_DOWN
  · rw [if_pos c2] at h
    cases h
  rw [if_neg c2] at h
  simp only [] at h
  by_cases c3 : s.svc.ps_state = pool_svc_state.POOL_SVC_UP
  · rw [if_pos c3] at h
    unfold pool_svc_step_down at h
    rw [if_neg c2] at h
    simp only [] at h
    cases hw : wait_leader_refs env.wakeups
        { s.svc with ps_state := pool_svc_state.POOL_SVC_DRAINING } with
    | none =>
      rw [hw] at h
      cases h
    | some svc1 =>
      rw [hw] at h
      simp only [] at h
      obtain ⟨g1, _, _, _⟩ := wait_leader_refs_done _ _ _ hw
      by_cases c4 : s.ps_pool.isNone = true
      · rw [if_pos c4] at h
        cases h
      rw [if_neg c4] at h
      by_cases c5 : env.rc_group_rank ≠ 0
      · rw [if_pos c5] at h
        cases h
      rw [if_neg c5] at h
      cases h
      exact ⟨rfl, g1, rfl, Or.inl c3⟩
  · rw [if_neg c3] at h
    cases h
    obtain ⟨g1, g2⟩ := hnup c3
    refine ⟨rfl, g2, g1, Or.inr ?_⟩
    cases hs : s.svc.ps_state with
    | POOL_SVC_UP_EMPTY => rfl
    | POOL_SVC_UP => exact absurd hs c3
    | POOL_SVC_DRAINING => exact absurd hs hdr
    | POOL_SVC_DOWN => exact absurd hs c2

/-- A lookup in the registry of a service finds that service or nothing. -/
theorem pool_svc_rt_hash_find (s : pool_svc_rt) (uuid : uuid_t) (svc0 : pool_svc)
    (h : s.hash.find? (fun x => x.ps_uuid == uuid) = some svc0) : svc0 = s.svc := by
  unfold pool_svc_rt.hash at h
  by_cases hb : s.registered = true
  · rw [if_pos hb] at h
    simp only [List.find?_cons, List.find?_nil] at h
    split at h
    · cases h
      rfl
    · cases h
  · rw [if_neg hb] at h
    cases h

/-- With no entry in the registry `pool_svc_lookup_leader` returns `-DER_NONEXIST` when the
DB file does not exist and `-DER_NOTLEADER` otherwise, and no service. -/
theorem pool_svc_lookup_leader_nil (st : rdb_stat) (uuid : uuid_t) :
    pool_svc_lookup_leader [] st uuid =
      { rc := if st = rdb_stat.enoent then -DER_NONEXIST else -DER_NOTLEADER, svc := none } := by
  cases st <;> simp [pool_svc_lookup_leader, pool_svc_lookup, DER_NONEXIST, DER_NOTLEADER]

/-- The service after the first part of `pool_svc_stop` is the service with the stop flag
set. -/
theorem pool_svc_stop_enter_fst (svc : pool_svc) :
    (pool_svc_stop_enter svc).1 = pool_svc_stop_mark svc := by
  unfold pool_svc_stop_enter pool_svc_stop_mark
  by_cases c : svc.ps_stop = true
  · rw [if_pos c]
    cases svc
    simp_all
  · rw [if_neg c]

theorem lifecycle_inv_init (uuid : uuid_t) (db : MdDb) :
    lifecycle_inv (pool_svc_rt.init uuid db) := by
  unfold lifecycle_inv pool_svc_rt.init
  simp

/-- Every event keeps the lifecycle invariant. -/
theorem lifecycle_step_inv (s s' : pool_svc_rt) (op : LifecycleOp) (hinv : lifecycle_inv s)
    (h : lifecycle_step s op = some s') : lifecycle_inv s' := by
  have hinv0 := hinv
  obtain ⟨hdr, hnn, hup, hnup⟩ := hinv
  cases op with
  | step_up_cb env term =>
    simp only [lifecycle_step] at h
    by_cases cm : s.ps_mutex_locked = true
    · rw [if_pos cm] at h
      cases h
    rw [if_neg cm] at h
    unfold pool_svc_step_up_cb at h
    by_cases c1 : s.svc.ps_stop = true
    · rw [if_pos c1] at h
      cases h
      exact hinv0
    rw [if_neg c1] at h
    by_cases c2 : s.svc.ps_state ≠ pool_svc_state.POOL_SVC_DOWN
    · rw [if_pos c2] at h
      cases h
    rw [if_neg c2] at h
    have hdown : s.svc.ps_state = pool_svc_state.POOL_SVC_DOWN := not_not.mp c2
    obtain ⟨hp, hl⟩ := hnup (by rw [hdown]; decide)
    rw [hp] at h
    simp only [] at h
    cases hu : pool_svc_step_up env { s.svc with ps_term := term } none s.db with
    | none =>
      rw [hu] at h
      cases h
    | some x =>
      obtain ⟨rc, p⟩ := x
      rw [hu] at h
      simp only [] at h
      have hc := pool_svc_step_up_cases _ _ _ _ _ hu
      by_cases c3 : rc = DER_UNINIT
      · rw [if_pos c3] at h
        cases h
        rcases hc with ⟨h0, _⟩ | ⟨_, hpn⟩
        · rw [h0] at c3
          simp [DER_UNINIT] at c3
        · exact ⟨by simp, by simpa using hnn, by simp, fun _ => ⟨hpn, hl⟩⟩
      rw [if_neg c3] at h
      by_cases c4 : rc ≠ 0
      · rw [if_pos c4] at h
        cases h
        rcases hc with ⟨h0, _⟩ | ⟨_, hpn⟩
        · exact absurd h0 c4
        · exact ⟨by simp [hdown], by simpa using hnn, by simp [hdown], fun _ => ⟨hpn, hl⟩⟩
      rw [if_neg c4] at h
      cases h
      rcases hc with ⟨_, hps⟩ | ⟨hne, _⟩
      · exact ⟨by simp, by simpa using hnn, fun _ => hps, fun hne => absurd rfl hne⟩
      · exact absurd hne c4
  | step_down_cb env term =>
    simp only [lifecycle_step] at h
    by_cases cm : s.ps_mutex_locked = true
    · rw [if_pos cm] at h
      cases h
    rw [if_neg cm] at h
    cases hd : pool_svc_step_down_cb env term s.svc s.ps_pool with
    | none =>
      rw [hd] at h
      cases h
    | some x =>
      obtain ⟨svc', p'⟩ := x
      rw [hd] at h
      cases h
      obtain ⟨g1, g2, g3, _⟩ := pool_svc_step_down_cb_inv env term s hinv0 svc' p' hd
      exact ⟨by simp [g1], by simp [g2], by simp [g1], fun _ => ⟨g3, g2⟩⟩
  | create nx env req =>
    simp only [lifecycle_step] at h
    split at h
    · cases h
    cases hc : ds_pool_create_handler nx env s.hash s.ps_pool s.db req with
    | none =>
      rw [hc] at h
      cases h
    | some r =>
      rw [hc] at h
      simp only [] at h
      cases hreg : s.hash.find? (fun x => x.ps_uuid == req.pi_uuid) with
      | none =>
        obtain ⟨rc, _, hr⟩ := create_handler_unregistered nx env s.hash s.ps_pool s.db req hreg
        rw [hr] at hc
        cases hc
        simp only [] at h
        cases h
        exact hinv0
      | some svc0 =>
        have hs0 : svc0 = s.svc := pool_svc_rt_hash_find s _ svc0 hreg
        subst hs0
        rcases create_handler_cases nx env s.hash s.ps_pool s.db req s.svc hreg r hc with
          ⟨rc, sv, _, hsv, hr⟩ | ⟨_, _, hr⟩ | ⟨_, _, _, hr⟩ | ⟨_, _, hst, rc, p, hu, hrc, hr⟩ |
          ⟨_, _, hst, p, hu, hr⟩
        · rw [hr] at h
          rcases hsv with hsv | hsv
          · rw [hsv] at h
            cases h
            exact hinv0
          · rw [hsv] at h
            cases h
            exact ⟨hdr, hnn, hup, hnup⟩
        · rw [hr] at h
          cases h
          exact ⟨hdr, hnn, hup, hnup⟩
        · rw [hr] at h
          cases h
          exact ⟨hdr, hnn, hup, hnup⟩
        · rw [hr] at h
          cases h
          obtain ⟨hp, hl⟩ := hnup (by rw [hst]; decide)
          rw [hp] at hu
          rcases pool_svc_step_up_cases _ _ _ _ _ hu with ⟨h0, _⟩ | ⟨_, hpn⟩
          · exact absurd h0 hrc
          · refine ⟨hdr, hnn, fun hh => ?_, fun _ => ⟨hpn, hl⟩⟩
            simp only [] at hh
            rw [hst] at hh
            cases hh
        · rw [hr] at h
          cases h
          obtain ⟨hp, hl⟩ := hnup (by rw [hst]; decide)
          rw [hp] at hu
          rcases pool_svc_step_up_cases _ _ _ _ _ hu with ⟨_, hps⟩ | ⟨hne, _⟩
          · exact ⟨by simp, by simpa using hnn, fun _ => hps, fun hne => absurd rfl hne⟩
          · exact absurd rfl hne
  | lookup_leader =>
    simp only [lifecycle_step] at h
    unfold pool_svc_rt.hash at h
    by_cases hb : s.registered = true
    swap
    · rw [if_neg hb, pool_svc_lookup_leader_nil] at h
      cases h
      exact hinv0
    rw [if_pos hb] at h
    have hfind : [s.svc].find? (fun x => x.ps_uuid == s.svc.ps_uuid) = some s.svc := by
      simp
    unfold pool_svc_lookup_leader pool_svc_lookup at h
    rw [hfind] at h
    simp only [ne_eq, not_true_eq_false, if_false] at h
    cases hupb : pool_svc_up { s.svc with ps_ref := s.svc.ps_ref + 1 } with
    | false =>
      rw [hupb] at h
      simp only [Bool.not_false, if_true] at h
      cases h
      exact ⟨hdr, hnn, hup, hnup⟩
    | true =>
      rw [hupb] at h
      simp only [Bool.not_true, Bool.false_eq_true, if_false] at h
      cases h
      have hst : s.svc.ps_state = pool_svc_state.POOL_SVC_UP := by
        simp [pool_svc_up] at hupb
        exact hupb.2
      exact ⟨hdr, by simp only []; omega, hup, fun hne => absurd hst hne⟩
  | put_leader =>
    simp only [lifecycle_step] at h
    unfold pool_svc_put_leader at h
    by_cases c : s.svc.ps_leader_ref > 0
    · rw [if_pos c] at h
      simp only [] at h
      cases h
      refine ⟨hdr, by simp only [pool_svc_put]; omega, hup, fun hne => ?_⟩
      have := (hnup hne).2
      omega
    · rw [if_neg c] at h
      cases h
  | stop =>
    simp only [lifecycle_step] at h
    by_cases cm : s.ps_mutex_locked = true
    · rw [if_pos cm] at h
      cases h
    rw [if_neg cm, pool_svc_stop_enter_fst] at h
    cases h
    exact ⟨hdr, hnn, hup, hnup⟩
  | stop_finish =>
    simp only [lifecycle_step] at h
    by_cases cm : s.ps_mutex_locked = true ∨ s.svc.ps_stop = false ∨ s.registered = false
    · rw [if_pos cm] at h
      cases h
    rw [if_neg cm] at h
    unfold pool_svc_stop_leave at h
    by_cases cd : s.svc.ps_state ≠ pool_svc_state.POOL_SVC_DOWN
    · rw [if_pos cd] at h
      cases h
    rw [if_neg cd] at h
    cases h
    exact ⟨hdr, hnn, hup, hnup⟩

/-- Every state reached by a sequence of events from one that satisfies the lifecycle
invariant satisfies it. -/
theorem lifecycle_run_inv (ops : List LifecycleOp) (s s' : pool_svc_rt)
    (hinv : lifecycle_inv s) (h : lifecycle_run s ops = some s') : lifecycle_inv s' := by
  induction ops generalizing s with
  | nil =>
    simp only [lifecycle_run] at h
    cases h
    exact hinv
  | cons op ops ih =>
    simp only [lifecycle_run] at h
    cases hs : lifecycle_step s op with
    | none =>
      rw [hs] at h
      cases h
    | some s1 =>
      rw [hs] at h
      exact ih s1 (lifecycle_step_inv s s1 op hinv hs) h

/-- C16: in every state reached from a freshly initialised service by step-up callbacks,
step-down callbacks, CREATEs, handlers taking and putting leader references, and calls of
`pool_svc_stop`, a step-down callback that completes leaves the service DOWN, with leader reference
count 0 and no cached pool, and it started from UP or from UP_EMPTY.  It does complete,
for the term of the service, when the mutex is free, the service is not DOWN and the other
handlers release their leader references at the first wakeup. -/
theorem step_down_cb_leaves_down (uuid : uuid_t) (db : MdDb) (ops : List LifecycleOp)
    (s : pool_svc_rt) (hrun : lifecycle_run (pool_svc_rt.init uuid db) ops = some s) :
    (∀ env term s', lifecycle_step s (.step_down_cb env term) = some s' →
      s'.svc.ps_state = pool_svc_state.POOL_SVC_DOWN ∧ s'.svc.ps_leader_ref = 0 ∧
      s'.ps_pool = none ∧
      (s.svc.ps_state = pool_svc_state.POOL_SVC_UP ∨
        s.svc.ps_state = pool_svc_state.POOL_SVC_UP_EMPTY)) ∧
    (s.ps_mutex_locked = false → s.svc.ps_state ≠ pool_svc_state.POOL_SVC_DOWN →
      ∃ s', lifecycle_step s
        (.step_down_cb ⟨[s.svc.ps_leader_ref.toNat], 0⟩ s.svc.ps_term) = some s') := by
  have hinv := lifecycle_run_inv ops _ s (lifecycle_inv_init uuid db) hrun
  constructor
  · intro env term s' h
    simp only [lifecycle_step] at h
    by_cases cm : s.ps_mutex_locked = true
    · rw [if_pos cm] at h
      cases h
    rw [if_neg cm] at h
    cases hd : pool_svc_step_down_cb env term s.svc s.ps_pool with
    | none =>
      rw [hd] at h
      cases h
    | some x =>
      obtain ⟨svc', p'⟩ := x
      rw [hd] at h
      cases h
      exact pool_svc_step_down_cb_inv env term s hinv svc' p' hd
  · intro hm hnd
    obtain ⟨hdr, hnn, hup, hnup⟩ := hinv
    simp only [lifecycle_step]
    rw [if_neg (by simp [hm])]
    unfold pool_svc_step_down_cb
    rw [if_neg (by simp), if_neg hnd]
    simp only []
    by_cases c3 : s.svc.ps_state = pool_svc_state.POOL_SVC_UP
    · rw [if_pos c3]
      unfold pool_svc_step_down
      rw [if_neg hnd]
      simp only []
      obtain ⟨svc1, h1⟩ := wait_leader_refs_completes
        { s.svc with ps_state := pool_svc_state.POOL_SVC_DRAINING } hnn
      simp only [] at h1
      rw [h1]
      simp only []
      have hp := hup c3
      rw [if_neg (by simp [Option.isSome_iff_ne_none.mp hp])]
      simp
    · rw [if_neg c3]
      exact ⟨_, rfl⟩

/-- C16, at the service of pool 7 after a step-up on an empty DB (UP_EMPTY), the sample
CREATE (UP) and two handlers taking a leader reference: the step-down callback, with the
two references released one per wakeup, leaves the service DOWN with no leader reference
and no cached pool. -/
theorem step_down_cb_leaves_down_witness :
    ∃ s s', lifecycle_run (pool_svc_rt.init 7 {})
        [.step_up_cb {} 3, .create 2 {} sample_create, .lookup_leader, .lookup_leader] =
          some s ∧
      s.svc.ps_state = pool_svc_state.POOL_SVC_UP ∧ s.svc.ps_leader_ref = 2 ∧
      lifecycle_step s (.step_down_cb ⟨[1, 1], 0⟩ 3) = some s' ∧
      s'.svc.ps_state = pool_svc_state.POOL_SVC_DOWN ∧ s'.svc.ps_leader_ref = 0 ∧
      s'.ps_pool = none :=
  ⟨_, _, rfl, rfl, rfl, rfl,
    ((step_down_cb_leaves_down 7 {}
      [.step_up_cb {} 3, .create 2 {} sample_create, .lookup_leader, .lookup_leader] _
      rfl).1 ⟨[1, 1], 0⟩ 3 _ rfl).1,
    ((step_down_cb_leaves_down 7 {}
      [.step_up_cb {} 3, .create 2 {} sample_create, .lookup_leader, .lookup_leader] _
      rfl).1 ⟨[1, 1], 0⟩ 3 _ rfl).2.1,
    ((step_down_cb_leaves_down 7 {}
      [.step_up_cb {} 3, .create 2 {} sample_create, .lookup_leader, .lookup_leader] _
      rfl).1 ⟨[1, 1], 0⟩ 3 _ rfl).2.2.1⟩

/-! ### UPDATE -/

theorem read_map_ok_version (db : MdDb) (a b c : Int) (map : pool_map)
    (h : db.read_map a b c = .ok map) : db.map_version = some map.version := by
  unfold MdDb.read_map MdDb.read_map_buf at h
  cases h1 : md_lookup a db.map_version with
  | error e =>
    rw [h1] at h
    cases h
  | ok ver =>
    rw [h1] at h
    cases h2 : md_lookup b db.map_buffer with
    | error e =>
      rw [h2] at h
      cases h
    | ok buf =>
      rw [h2] at h
      simp only [pool_map_create] at h
      by_cases cc : c ≠ 0
      · rw [if_pos cc] at h
        cases h
      · rw [if_neg cc] at h
        cases h
        exact md_lookup_ok_some _ _ _ h1

/-- The ways the middle part of `ds_pool_update_internal` ends: without a commit (DB and
cache as before; code 0 only with an unchanged version and nothing queued; something
queued only with a changed version), or with the commit of a changed version and the swap
of the cached map. -/
theorem update_core_run_cases (p : UpdateParams) (env : update_env)
    (ps_pool : Option ds_pool) (db : MdDb) (tgts : List Nat) (opc : pool_opc)
    (c : update_core) (h : update_core_run p env ps_pool db tgts opc = some c) :
    (c.updated = false ∧ c.db = db ∧ c.ps_pool = ps_pool ∧
      (c.tx = [] ∨ ∃ map, db.read_map env.rc_lookup_map_version env.rc_lookup_map_buffer
          env.rc_map_create = .ok map ∧ (p.ds_pool_map_tgts_update map tgts opc).1 = 0 ∧
          (p.ds_pool_map_tgts_update map tgts opc).2.version ≠ map.version) ∧
      (c.rc = 0 → c.tx = [] ∧ ∃ map, db.read_map env.rc_lookup_map_version
          env.rc_lookup_map_buffer env.rc_map_create = .ok map ∧
          (p.ds_pool_map_tgts_update map tgts opc).1 = 0 ∧
          (p.ds_pool_map_tgts_update map tgts opc).2.version = map.version)) ∨
    (c.updated = true ∧ c.rc = 0 ∧ ∃ map pool,
      db.read_map env.rc_lookup_map_version env.rc_lookup_map_buffer env.rc_map_create =
        .ok map ∧
      (p.ds_pool_map_tgts_update map tgts opc).1 = 0 ∧
      (p.ds_pool_map_tgts_update map tgts opc).2.version ≠ map.version ∧
      c.map_version = (p.ds_pool_map_tgts_update map tgts opc).2.version ∧
      c.map_buf = some ⟨(p.ds_pool_map_tgts_update map tgts opc).2.comps.length,
        (p.ds_pool_map_tgts_update map tgts opc).2.comps⟩ ∧
      c.tx = [MdOp.update_map_version (p.ds_pool_map_tgts_update map tgts opc).2.version,
        MdOp.update_map_buffer ⟨(p.ds_pool_map_tgts_update map tgts opc).2.comps.length,
          (p.ds_pool_map_tgts_update map tgts opc).2.comps⟩] ∧
      c.db = { db with
        map_version := some (p.ds_pool_map_tgts_update map tgts opc).2.version,
        map_buffer := some ⟨(p.ds_pool_map_tgts_update map tgts opc).2.comps.length,
          (p.ds_pool_map_tgts_update map tgts opc).2.comps⟩ } ∧
      ps_pool = some pool ∧
      c.ps_pool = some { pool with
        sp_map := some (p.ds_pool_map_tgts_update map tgts opc).2,
        sp_map_version := (p.ds_pool_map_tgts_update map tgts opc).2.version }) := by
  unfold update_core_run at h
  cases hm : db.read_map env.rc_lookup_map_version env.rc_lookup_map_buffer
      env.rc_map_create with
  | error e =>
    rw [hm] at h
    cases h
    have he := read_map_error_ne_zero _ _ _ _ _ hm
    exact Or.inl ⟨rfl, rfl, rfl, Or.inl rfl, fun h0 => absurd h0 he⟩
  | ok map =>
    rw [hm] at h
    simp only [] at h
    by_cases c1 : (p.ds_pool_map_tgts_update map tgts opc).1 ≠ 0
    · rw [if_pos c1] at h
      cases h
      exact Or.inl ⟨rfl, rfl, rfl, Or.inl rfl, fun h0 => absurd h0 c1⟩
    rw [if_neg c1] at h
    have hu0 : (p.ds_pool_map_tgts_update map tgts opc).1 = 0 := not_not.mp c1
    by_cases c2 : (p.ds_pool_map_tgts_update map tgts opc).2.version = map.version
    · rw [if_pos c2] at h
      cases h
      exact Or.inl ⟨rfl, rfl, rfl, Or.inl rfl, fun _ => ⟨rfl, map, rfl, hu0, c2⟩⟩
    rw [if_neg c2] at h
    unfold pool_buf_extract at h
    by_cases c3 : env.rc_buf_extract ≠ 0
    · rw [if_pos c3] at h
      simp only [] at h
      rw [if_pos c3] at h
      cases h
      exact Or.inl ⟨rfl, rfl, rfl, Or.inl rfl, fun h0 => absurd h0 c3⟩
    rw [if_neg c3] at h
    simp only [ne_eq, not_true_eq_false, if_false] at h
    unfold write_map_buf at h
    by_cases c4 : env.rc_update_map_version ≠ 0
    · rw [if_pos c4] at h
      simp only [] at h
      rw [if_pos c4] at h
      cases h
      exact Or.inl ⟨rfl, rfl, rfl, Or.inl rfl, fun h0 => absurd h0 c4⟩
    rw [if_neg c4] at h
    by_cases c5 : env.rc_update_map_buffer ≠ 0
    · rw [if_pos c5] at h
      simp only [] at h
      rw [if_pos c5] at h
      cases h
      exact Or.inl ⟨rfl, rfl, rfl, Or.inr ⟨map, rfl, hu0, c2⟩, fun h0 => absurd h0 c5⟩
    rw [if_neg c5] at h
    simp only [ne_eq, not_true_eq_false, if_false] at h
    unfold md_tx_commit at h
    by_cases c6 : env.rc_commit ≠ 0
    · rw [if_pos c6] at h
      simp only [] at h
      rw [if_pos c6] at h
      cases h
      exact Or.inl ⟨rfl, rfl, rfl, Or.inr ⟨map, rfl, hu0, c2⟩, fun h0 => absurd h0 c6⟩
    rw [if_neg c6] at h
    simp only [ne_eq, not_true_eq_false, if_false] at h
    cases ps_pool with
    | none => cases h
    | some pool =>
      simp only [] at h
      cases h
      exact Or.inr ⟨rfl, rfl, map, pool, rfl, hu0, c2, rfl, rfl, rfl, rfl, rfl, rfl⟩

/-- What the end of `ds_pool_update_internal` reports, when it returns. -/
theorem update_finish_some (env : update_env) (svc : pool_svc) (pto_op p_updated : Bool)
    (replicas : Option (List Nat)) (c : update_core) (r : update_result)
    (h : update_finish env svc pto_op p_updated replicas c = some r) :
    r.rc = c.rc ∧ r.updated = c.updated ∧
    r.p_updated = (if p_updated then some c.updated else none) ∧
    r.replicas = replicas ∧ r.tx = c.tx ∧ r.db = c.db ∧ r.ps_pool = c.ps_pool ∧
    r.map_update = (if c.updated then some (c.map_version, c.map_buf) else none) ∧
    (pto_op = true → ∃ pool m, c.ps_pool = some pool ∧ pool.sp_map = some m ∧
      r.po_map_version = some m.version) := by
  unfold update_finish at h
  simp only [] at h
  split at h
  · cases h
  · rename_i ver hver
    split at h
    · cases h
    · split at h
      · cases h
      · cases h
        refine ⟨rfl, rfl, rfl, rfl, rfl, rfl, rfl, rfl, fun hp => ?_⟩
        subst hp
        simp only [if_true] at hver
        cases hc : c.ps_pool with
        | none =>
          rw [hc] at hver
          cases hver
        | some pool =>
          rw [hc] at hver
          simp only [] at hver
          cases hs : pool.sp_map with
          | none =>
            rw [hs] at hver
            cases hver
          | some m =>
            rw [hs] at hver
            simp only [Option.some.injEq] at hver
            exact ⟨pool, m, rfl, hs, hver.symm⟩

/-- The end of `ds_pool_update_internal` does return when nothing was updated, the service
holds the leader reference just taken, and the cached map is there if it is to be
reported. -/
theorem update_finish_returns (env : update_env) (svc : pool_svc) (pto_op p_updated : Bool)
    (replicas : Option (List Nat)) (c : update_core) (hu : c.updated = false)
    (href : svc.ps_leader_ref > 0)
    (hpool : pto_op = true → ∃ pool m, c.ps_pool = some pool ∧ pool.sp_map = some m) :
    ∃ r, update_finish env svc pto_op p_updated replicas c = some r := by
  unfold update_finish
  simp only [hu, Bool.false_eq_true, if_false]
  unfold pool_svc_put_leader
  rw [if_pos href]
  cases pto_op with
  | false => exact ⟨_, rfl⟩
  | true =>
    obtain ⟨pool, m, hp, hm⟩ := hpool rfl
    simp only [if_true, hp, hm]
    exact ⟨_, rfl⟩

/-- The ways `ds_pool_update_internal` ends: before `read_map` with an error and nothing
changed, or through its middle part and its end. -/
theorem update_internal_cases (p : UpdateParams) (env : update_env)
    (pool_svc_hash : List pool_svc) (ps_pool : Option ds_pool) (db : MdDb)
    (pool_uuid : uuid_t) (tgts : List Nat) (opc : pool_opc)
    (pto_op p_updated replicasp : Bool) (r : update_result)
    (h : ds_pool_update_internal p env pool_svc_hash ps_pool db pool_uuid tgts opc pto_op
      p_updated replicasp = some r) :
    (r.rc ≠ 0 ∧ r.updated = false ∧ r.p_updated = (if p_updated then some false else none) ∧
      r.replicas = none ∧ r.tx = [] ∧ r.db = db ∧ r.ps_pool = ps_pool ∧
      r.map_update = none) ∨
    (∃ svc c, (pool_svc_lookup_leader pool_svc_hash env.st pool_uuid).svc = some svc ∧
      (pool_svc_lookup_leader pool_svc_hash env.st pool_uuid).rc = 0 ∧
      env.rc_tx_begin = 0 ∧ (replicasp = true → env.rc_get_ranks = 0) ∧
      update_core_run p env ps_pool db tgts opc = some c ∧
      (c.rc ≠ 0 → replicasp = true) ∧
      update_finish env svc pto_op p_updated
        (if c.rc ≠ 0 then none else if replicasp then some env.replicas else none) c =
          some r) := by
  unfold ds_pool_update_internal at h
  simp only [] at h
  by_cases c1 : (pool_svc_lookup_leader pool_svc_hash env.st pool_uuid).rc ≠ 0
  · rw [if_pos c1] at h
    cases h
    exact Or.inl ⟨c1, rfl, rfl, rfl, rfl, rfl, rfl, rfl⟩
  rw [if_neg c1] at h
  cases hs : (pool_svc_lookup_leader pool_svc_hash env.st pool_uuid).svc with
  | none =>
    exfalso
    unfold pool_svc_lookup_leader pool_svc_lookup at hs c1
    cases hf : pool_svc_hash.find? (fun s => s.ps_uuid == pool_uuid) with
    | none =>
      rw [hf] at c1
      cases hst : env.st <;> rw [hst] at c1 <;> simp [DER_NONEXIST, DER_NOTLEADER] at c1
    | some s0 =>
      rw [hf] at hs
      simp only [ne_eq, not_true_eq_false, if_false] at hs
      split at hs <;> cases hs
  | some svc =>
    rw [hs] at h
    simp only [] at h
    by_cases c2 : env.rc_tx_begin ≠ 0
    · rw [if_pos c2] at h
      split at h
      · cases h
      · cases h
        exact Or.inl ⟨c2, rfl, rfl, rfl, rfl, rfl, rfl, rfl⟩
    rw [if_neg c2] at h
    by_cases c3 : replicasp = true ∧ env.rc_get_ranks ≠ 0
    · rw [if_pos c3] at h
      obtain ⟨g1, g2, g3, g4, g5, g6, g7, g8, _⟩ := update_finish_some _ _ _ _ _ _ _ h
      simp only [Bool.false_eq_true, if_false] at g8
      exact Or.inl ⟨by rw [g1]; exact c3.2, g2, g3, g4, g5, g6, g7, g8⟩
    rw [if_neg c3] at h
    have hgr : replicasp = true → env.rc_get_ranks = 0 := by
      intro hr
      by_contra hne
      exact c3 ⟨hr, hne⟩
    cases hc : update_core_run p env ps_pool db tgts opc with
    | none =>
      rw [hc] at h
      cases h
    | some c =>
      rw [hc] at h
      simp only [] at h
      by_cases c4 : c.rc ≠ 0
      · rw [if_pos c4] at h
        by_cases c5 : replicasp = true
        · rw [if_pos c5] at h
          refine Or.inr ⟨svc, c, rfl, not_not.mp c1, not_not.mp c2, hgr, rfl, fun _ => c5, ?_⟩
          rw [if_pos c4]
          exact h
        · rw [if_neg c5] at h
          cases h
      · rw [if_neg c4] at h
        refine Or.inr ⟨svc, c, rfl, not_not.mp c1, not_not.mp c2, hgr, rfl,
          fun hne => absurd hne c4, ?_⟩
        rw [if_neg c4]
        exact h

theorem update_core_run_unchanged (p : UpdateParams) (env : update_env)
    (ps_pool : Option ds_pool) (db : MdDb) (tgts : List Nat) (opc : pool_opc)
    (map : pool_map)
    (hm : db.read_map env.rc_lookup_map_version env.rc_lookup_map_buffer env.rc_map_create =
      .ok map)
    (h0 : (p.ds_pool_map_tgts_update map tgts opc).1 = 0)
    (hv : (p.ds_pool_map_tgts_update map tgts opc).2.version = map.version) :
    update_core_run p env ps_pool db tgts opc =
      some ⟨0, false, (p.ds_pool_map_tgts_update map tgts opc).2.version, none, [], db,
        ps_pool⟩ := by
  unfold update_core_run
  rw [hm]
  simp only []
  rw [if_neg (by simp [h0]), if_pos hv]

/-- C17: when `ds_pool_update_internal` gets as far as applying the opcode (the service is
found and UP, `rdb_tx_begin`, `rdb_get_ranks` and `read_map` report no fault, the
application returns 0) and the application leaves the map version unchanged, it returns 0
with `updated = false`, queues nothing, and leaves the DB and the cached pool as they
were, calling no broadcast.  Whenever it returns: something is queued, or the DB or the
cache differ, only if the version after applying differs from the version read; the DB
differs only after a commit (`updated = true`); and a commit replaces the persisted
`map_version` (the version read) by the version after applying, which differs from it,
hence is strictly higher when applying did not lower it. -/
theorem update_internal_version_gate (p : UpdateParams) (env : update_env)
    (pool_svc_hash : List pool_svc) (ps_pool : Option ds_pool) (db : MdDb)
    (pool_uuid : uuid_t) (tgts : List Nat) (opc : pool_opc)
    (pto_op p_updated replicasp : Bool) :
    (∀ svc map, (pool_svc_lookup_leader pool_svc_hash env.st pool_uuid).rc = 0 →
      (pool_svc_lookup_leader pool_svc_hash env.st pool_uuid).svc = some svc →
      svc.ps_leader_ref > 0 → env.rc_tx_begin = 0 →
      (replicasp = true → env.rc_get_ranks = 0) →
      (pto_op = true → ∃ pool m, ps_pool = some pool ∧ pool.sp_map = some m) →
      db.read_map env.rc_lookup_map_version env.rc_lookup_map_buffer env.rc_map_create =
        .ok map →
      (p.ds_pool_map_tgts_update map tgts opc).1 = 0 →
      (p.ds_pool_map_tgts_update map tgts opc).2.version = map.version →
      ∃ r, ds_pool_update_internal p env pool_svc_hash ps_pool db pool_uuid tgts opc pto_op
          p_updated replicasp = some r ∧
        r.rc = 0 ∧ r.updated = false ∧
        r.p_updated = (if p_updated then some false else none) ∧
        r.tx = [] ∧ r.db = db ∧ r.ps_pool = ps_pool ∧ r.map_update = none) ∧
    (∀ r, ds_pool_update_internal p env pool_svc_hash ps_pool db pool_uuid tgts opc pto_op
        p_updated replicasp = some r →
      ((r.tx ≠ [] ∨ r.db ≠ db ∨ r.ps_pool ≠ ps_pool) →
        ∃ map, db.read_map env.rc_lookup_map_version env.rc_lookup_map_buffer
            env.rc_map_create = .ok map ∧
          (p.ds_pool_map_tgts_update map tgts opc).2.version ≠ map.version) ∧
      (r.db ≠ db → r.updated = true) ∧
      (r.updated = true →
        ∃ map, db.read_map env.rc_lookup_map_version env.rc_lookup_map_buffer
            env.rc_map_create = .ok map ∧
          db.map_version = some map.version ∧
          r.db.map_version = some (p.ds_pool_map_tgts_update map tgts opc).2.version ∧
          (p.ds_pool_map_tgts_update map tgts opc).2.version ≠ map.version ∧
          (map.version ≤ (p.ds_pool_map_tgts_update map tgts opc).2.version →
            map.version < (p.ds_pool_map_tgts_update map tgts opc).2.version))) := by
  constructor
  · intro svc map hrc hsvc href htx hgr hpool hm h0 hv
    have hcore := update_core_run_unchanged p env ps_pool db tgts opc map hm h0 hv
    obtain ⟨r, hr⟩ := update_finish_returns env svc pto_op p_updated
      (if replicasp then some env.replicas else none)
      ⟨0, false, (p.ds_pool_map_tgts_update map tgts opc).2.version, none, [], db, ps_pool⟩
      rfl href hpool
    obtain ⟨g1, g2, g3, _, g5, g6, g7, g8, _⟩ := update_finish_some _ _ _ _ _ _ _ hr
    refine ⟨r, ?_, g1, g2, g3, g5, g6, g7, g8⟩
    unfold ds_pool_update_internal
    simp only []
    rw [if_neg (by simp [hrc]), hsvc]
    simp only []
    rw [if_neg (by simp [htx]), if_neg (fun hh => hh.2 (hgr hh.1)), hcore]
    simp only [ne_eq, not_true_eq_false, if_false]
    exact hr
  · intro r h
    rcases update_internal_cases p env pool_svc_hash ps_pool db pool_uuid tgts opc pto_op
        p_updated replicasp r h with
      ⟨_, hu, _, _, htx, hdb, hpl, _⟩ | ⟨svc, c, _, _, _, _, hc, _, hf⟩
    · refine ⟨?_, fun hne => absurd hdb hne, fun ht => ?_⟩
      · rintro (h1 | h1 | h1)
        · exact absurd htx h1
        · exact absurd hdb h1
        · exact absurd hpl h1
      · rw [hu] at ht
        cases ht
    · obtain ⟨_, g2, _, _, g5, g6, g7, _, _⟩ := update_finish_some _ _ _ _ _ _ _ hf
      rcases update_core_run_cases p env ps_pool db tgts opc c hc with
        ⟨k1, k2, k3, k4, _⟩ | ⟨k1, _, map, pool, km, _, kv, _, _, _, kdb, _, _⟩
      · refine ⟨?_, fun hne => ?_, fun ht => ?_⟩
        · rintro (h1 | h1 | h1)
          · rw [g5] at h1
            rcases k4 with k4 | ⟨map, km, _, kv⟩
            · exact absurd k4 h1
            · exact ⟨map, km, kv⟩
          · rw [g6, k2] at h1
            exact absurd rfl h1
          · rw [g7, k3] at h1
            exact absurd rfl h1
        · rw [g6, k2] at hne
          exact absurd rfl hne
        · rw [g2, k1] at ht
          cases ht
      · refine ⟨fun _ => ⟨map, km, kv⟩, fun _ => by rw [g2, k1], fun _ => ?_⟩
        refine ⟨map, km, read_map_ok_version _ _ _ _ _ km, ?_, kv, fun hle => ?_⟩
        · rw [g6, kdb]
        · exact lt_of_le_of_ne hle (Ne.symm kv)

/-- C18: if the cached map is there and its version equals the persisted `map_version`
before `ds_pool_update_internal` runs, then when it returns the cached map is there and
its version equals the persisted `map_version` again (and `sp_map_version` too, if it did
before).  Without a commit the cached pool and the DB are as before and `pool_map_update`
is not called; with a commit the cached map version, `sp_map_version` and the persisted
`map_version` all equal the version with which `pool_map_update` is called, and the
buffer it is called with is the persisted `map_buffer`. -/
theorem update_internal_cache_matches_db (p : UpdateParams) (env : update_env)
    (pool_svc_hash : List pool_svc) (ps_pool : Option ds_pool) (db : MdDb)
    (pool_uuid : uuid_t) (tgts : List Nat) (opc : pool_opc)
    (pto_op p_updated replicasp : Bool) (pool : ds_pool) (m : pool_map)
    (hp : ps_pool = some pool) (hm : pool.sp_map = some m)
    (hv : db.map_version = some m.version) (r : update_result)
    (h : ds_pool_update_internal p env pool_svc_hash ps_pool db pool_uuid tgts opc pto_op
      p_updated replicasp = some r) :
    ∃ pool' m', r.ps_pool = some pool' ∧ pool'.sp_map = some m' ∧
      r.db.map_version = some m'.version ∧
      (pool.sp_map_version = m.version → pool'.sp_map_version = m'.version) ∧
      (r.updated = false → pool' = pool ∧ r.db = db ∧ r.map_update = none) ∧
      (r.updated = true → pool'.sp_map_version = m'.version ∧
        ∃ buf, r.map_update = some (m'.version, some buf) ∧ r.db.map_buffer = some buf) := by
  rcases update_internal_cases p env pool_svc_hash ps_pool db pool_uuid tgts opc pto_op
      p_updated replicasp r h with
    ⟨_, hu, _, _, _, hdb, hpl, hmu⟩ | ⟨svc, c, _, _, _, _, hc, _, hf⟩
  · refine ⟨pool, m, by rw [hpl, hp], hm, by rw [hdb, hv], fun hh => hh,
      fun _ => ⟨rfl, hdb, hmu⟩, fun ht => ?_⟩
    rw [hu] at ht
    cases ht
  · obtain ⟨_, g2, _, _, _, g6, g7, g8, _⟩ := update_finish_some _ _ _ _ _ _ _ hf
    rcases update_core_run_cases p env ps_pool db tgts opc c hc with
      ⟨k1, k2, k3, _, _⟩ | ⟨k1, _, map, pool0, _, _, _, kmv, kbuf, _, kdb, kp, kpl⟩
    · refine ⟨pool, m, by rw [g7, k3, hp], hm, by rw [g6, k2, hv], fun hh => hh,
        fun _ => ⟨rfl, by rw [g6, k2], ?_⟩, fun ht => ?_⟩
      · rw [g8, k1]
        rfl
      · rw [g2, k1] at ht
        cases ht
    · rw [hp] at kp
      cases kp
      refine ⟨_, (p.ds_pool_map_tgts_update map tgts opc).2, by rw [g7, kpl], rfl,
        by rw [g6, kdb], fun _ => rfl, fun hf' => ?_, fun _ => ⟨rfl,
          ⟨(p.ds_pool_map_tgts_update map tgts opc).2.comps.length,
            (p.ds_pool_map_tgts_update map tgts opc).2.comps⟩, ?_, ?_⟩⟩
      · rw [g2, k1] at hf'
        cases hf'
      · rw [g8, k1, kmv, kbuf]
        rfl
      · rw [g6, kdb]

/-! ### Address resolution and rebuild scheduling of UPDATE -/

theorem read_map_ok_unique (db : MdDb) (a b c a' b' c' : Int) (m m' : pool_map)
    (h : db.read_map a b c = .ok m) (h' : db.read_map a' b' c' = .ok m') : m = m' := by
  have key : ∀ (x y z : Int) (n : pool_map), db.read_map x y z = .ok n →
      ∃ buf, db.map_buffer = some buf ∧ db.map_version = some n.version ∧
        n.comps = buf.pb_comps := by
    intro x y z n hn
    have hver := read_map_ok_version db x y z n hn
    unfold MdDb.read_map MdDb.read_map_buf at hn
    cases h1 : md_lookup x db.map_version with
    | error e =>
      rw [h1] at hn
      cases hn
    | ok ver =>
      rw [h1] at hn
      cases h2 : md_lookup y db.map_buffer with
      | error e =>
        rw [h2] at hn
        cases hn
      | ok buf =>
        rw [h2] at hn
        simp only [pool_map_create] at hn
        by_cases cc : z ≠ 0
        · rw [if_pos cc] at hn
          cases hn
        · rw [if_neg cc] at hn
          cases hn
          exact ⟨buf, md_lookup_ok_some _ _ _ h2, hver, rfl⟩
  obtain ⟨buf, hb, hv, hc⟩ := key a b c m h
  obtain ⟨buf', hb', hv', hc'⟩ := key a' b' c' m' h'
  rw [hb] at hb'
  cases hb'
  rw [hv] at hv'
  cases m
  cases m'
  simp only [Option.some.injEq] at hv'
  simp only [] at hc hc'
  subst hv'
  subst hc
  subst hc'
  rfl

theorem find_ids_loop_ok (f : Nat → Int) (tgts : List pool_component) :
    ∀ (j : Nat) (rc : Int) (ids : List Nat), (find_ids_loop f j rc ids tgts).1 = 0 →
      rc = 0 ∧ (find_ids_loop f j rc ids tgts).2 = ids ++ tgts.map (fun t => t.co_id) := by
  induction tgts with
  | nil =>
    intro j rc ids h
    simp only [find_ids_loop] at h ⊢
    exact ⟨h, by simp⟩
  | cons t rest ih =>
    intro j rc ids h
    simp only [find_ids_loop, list_append] at h ⊢
    by_cases c : f j ≠ 0
    · rw [if_pos c] at h
      simp only [] at h
      rw [if_pos c] at h
      exact absurd h c
    · rw [if_neg c] at h ⊢
      simp only [ne_eq, not_true_eq_false, if_false] at h ⊢
      obtain ⟨h1, h2⟩ := ih (j + 1) rc (ids ++ [t.co_id]) h
      exact ⟨h1, by rw [h2]; simp⟩

theorem find_ids_loop_no_fault (f : Nat → Int) (hf : ∀ j, f j = 0)
    (tgts : List pool_component) :
    ∀ (j : Nat) (rc : Int) (ids : List Nat),
      find_ids_loop f j rc ids tgts = (rc, ids ++ tgts.map (fun t => t.co_id)) := by
  induction tgts with
  | nil =>
    intro j rc ids
    simp [find_ids_loop]
  | cons t rest ih =>
    intro j rc ids
    simp only [find_ids_loop, list_append, hf j, ne_eq, not_true_eq_false, if_false]
    rw [ih]
    simp

theorem spec_unmatched_addrs_cons (p : UpdateParams) (map : pool_map) (a : pool_target_addr)
    (rest : List pool_target_addr) :
    spec_unmatched_addrs p map (a :: rest) =
      if (p.pool_map_find_target_by_rank_idx map a.pta_rank a.pta_target).length = 0 then
        a :: spec_unmatched_addrs p map rest
      else spec_unmatched_addrs p map rest := by
  simp only [spec_unmatched_addrs, List.filter_cons, decide_eq_true_eq]

theorem spec_matched_ids_cons (p : UpdateParams) (map : pool_map) (a : pool_target_addr)
    (rest : List pool_target_addr) :
    spec_matched_ids p map (a :: rest) =
      (p.pool_map_find_target_by_rank_idx map a.pta_rank a.pta_target).map
        (fun t => t.co_id) ++ spec_matched_ids p map rest := by
  simp only [spec_matched_ids, List.flatMap_cons]

theorem find_addrs_loop_ok (p : UpdateParams) (env : find_env) (map : pool_map)
    (addrs : List pool_target_addr) :
    ∀ (i : Nat) (rc : Int) (ids : List Nat) (out : List pool_target_addr),
      (find_addrs_loop p env map i rc ids out addrs).1 = 0 →
      rc = 0 ∧
      (find_addrs_loop p env map i rc ids out addrs).2.1 =
        ids ++ spec_matched_ids p map addrs ∧
      (find_addrs_loop p env map i rc ids out addrs).2.2 =
        out ++ spec_unmatched_addrs p map addrs := by
  induction addrs with
  | nil =>
    intro i rc ids out h
    simp only [find_addrs_loop] at h ⊢
    exact ⟨h, by simp [spec_matched_ids], by simp [spec_unmatched_addrs]⟩
  | cons a rest ih =>
    intro i rc ids out h
    simp only [find_addrs_loop, list_append] at h ⊢
    by_cases c0 : (p.pool_map_find_target_by_rank_idx map a.pta_rank a.pta_target).length = 0
    · rw [if_pos c0] at h ⊢
      by_cases c1 : env.rc_addr_append i ≠ 0
      · rw [if_pos c1] at h
        simp only [] at h
        rw [if_pos c1] at h
        exact absurd h c1
      · rw [if_neg c1] at h ⊢
        simp only [ne_eq, not_true_eq_false, if_false] at h ⊢
        obtain ⟨h1, h2, h3⟩ := ih (i + 1) rc ids (out ++ [a]) h
        have hnil : p.pool_map_find_target_by_rank_idx map a.pta_rank a.pta_target = [] :=
          List.length_eq_zero.mp c0
        refine ⟨h1, ?_, ?_⟩
        · rw [h2, spec_matched_ids_cons, hnil]
          rfl
        · rw [h3, spec_unmatched_addrs_cons, if_pos c0]
          simp
    · rw [if_neg c0] at h ⊢
      obtain ⟨h1, h2, h3⟩ := ih (i + 1) _ _ out h
      obtain ⟨k1, k2⟩ := find_ids_loop_ok (env.rc_id_append i) _ 0 rc ids h1
      refine ⟨k1, ?_, ?_⟩
      · rw [h2, k2, spec_matched_ids_cons]
        simp
      · rw [h3, spec_unmatched_addrs_cons, if_neg c0]

theorem find_addrs_loop_no_fault (p : UpdateParams) (env : find_env) (map : pool_map)
    (ha : ∀ i, env.rc_addr_append i = 0) (hi : ∀ i j, env.rc_id_append i j = 0)
    (addrs : List pool_target_addr) :
    ∀ (i : Nat) (rc : Int) (ids : List Nat) (out : List pool_target_addr),
      find_addrs_loop p env map i rc ids out addrs =
        (rc, ids ++ spec_matched_ids p map addrs, out ++ spec_unmatched_addrs p map addrs) := by
  induction addrs with
  | nil =>
    intro i rc ids out
    simp [find_addrs_loop, spec_matched_ids, spec_unmatched_addrs]
  | cons a rest ih =>
    intro i rc ids out
    simp only [find_addrs_loop, list_append, ha i, ne_eq, not_true_eq_false, if_false]
    by_cases c0 : (p.pool_map_find_target_by_rank_idx map a.pta_rank a.pta_target).length = 0
    · rw [if_pos c0, ih, spec_matched_ids_cons, spec_unmatched_addrs_cons, if_pos c0]
      have hnil : p.pool_map_find_target_by_rank_idx map a.pta_rank a.pta_target = [] :=
        List.length_eq_zero.mp c0
      rw [hnil]
      simp
    · rw [if_neg c0, find_ids_loop_no_fault _ (hi i), ih, spec_matched_ids_cons,
        spec_unmatched_addrs_cons, if_neg c0]
      simp

/-- A run of `pool_find_all_targets_by_addr` that returns 0 has read the map and gives the
matched ids and the unmatched addresses. -/
theorem find_all_targets_ok (p : UpdateParams) (env : find_env)
    (pool_svc_hash : List pool_svc) (db : MdDb) (pool_uuid : uuid_t)
    (list : List pool_target_addr) (ids : List Nat) (out : List pool_target_addr)
    (svc : Option pool_svc)
    (h : pool_find_all_targets_by_addr p env pool_svc_hash db pool_uuid list =
      some (0, ids, out, svc)) :
    ∃ map, db.read_map env.rc_lookup_map_version env.rc_lookup_map_buffer env.rc_map_create =
        .ok map ∧
      ids = spec_matched_ids p map list ∧ out = spec_unmatched_addrs p map list := by
  unfold pool_find_all_targets_by_addr at h
  simp only [] at h
  by_cases c1 : (pool_svc_lookup_leader pool_svc_hash env.st pool_uuid).rc ≠ 0
  · rw [if_pos c1] at h
    simp only [Option.some.injEq, Prod.mk.injEq] at h
    exact absurd h.1 c1
  rw [if_neg c1] at h
  cases hs : (pool_svc_lookup_leader pool_svc_hash env.st pool_uuid).svc with
  | none =>
    rw [hs] at h
    simp only [Option.some.injEq, Prod.mk.injEq] at h
    exfalso
    unfold pool_svc_lookup_leader pool_svc_lookup at hs c1
    cases hf : pool_svc_hash.find? (fun s => s.ps_uuid == pool_uuid) with
    | none =>
      rw [hf] at c1
      cases hst : env.st <;> rw [hst] at c1 <;> simp [DER_NONEXIST, DER_NOTLEADER] at c1
    | some s0 =>
      rw [hf] at hs
      simp only [ne_eq, not_true_eq_false, if_false] at hs
      split at hs <;> cases hs
  | some sv =>
    rw [hs] at h
    simp only [] at h
    cases hp : pool_svc_put_leader sv with
    | none =>
      rw [hp] at h
      cases h
    | some sv' =>
      rw [hp] at h
      simp only [] at h
      by_cases c2 : env.rc_tx_begin ≠ 0
      · rw [if_pos c2] at h
        simp only [Option.some.injEq, Prod.mk.injEq] at h
        exact absurd h.1 c2
      rw [if_neg c2] at h
      cases hm : db.read_map env.rc_lookup_map_version env.rc_lookup_map_buffer
          env.rc_map_create with
      | error e =>
        rw [hm] at h
        simp only [Option.some.injEq, Prod.mk.injEq] at h
        exact absurd h.1 (read_map_error_ne_zero _ _ _ _ _ hm)
      | ok map =>
        rw [hm] at h
        simp only [Option.some.injEq, Prod.mk.injEq] at h
        obtain ⟨h1, h2, h3, _⟩ := h
        obtain ⟨_, k2, k3⟩ := find_addrs_loop_ok p env map list 0 0 [] [] h1
        refine ⟨map, rfl, ?_, ?_⟩
        · rw [← h2, k2]
          simp
        · rw [← h3, k3]
          simp

/-- Function `pool_find_all_targets_by_addr` returns 0 with the matched ids and the
unmatched addresses when the service is found and UP, the map is read and no append
fails. -/
theorem find_all_targets_succeeds (p : UpdateParams) (env : find_env)
    (pool_svc_hash : List pool_svc) (db : MdDb) (pool_uuid : uuid_t)
    (list : List pool_target_addr) (sv : pool_svc) (map : pool_map)
    (hrc : (pool_svc_lookup_leader pool_svc_hash env.st pool_uuid).rc = 0)
    (hsvc : (pool_svc_lookup_leader pool_svc_hash env.st pool_uuid).svc = some sv)
    (href : sv.ps_leader_ref > 0) (htx : env.rc_tx_begin = 0)
    (hm : db.read_map env.rc_lookup_map_version env.rc_lookup_map_buffer env.rc_map_create =
      .ok map)
    (ha : ∀ i, env.rc_addr_append i = 0) (hi : ∀ i j, env.rc_id_append i j = 0) :
    ∃ sv', pool_find_all_targets_by_addr p env pool_svc_hash db pool_uuid list =
      some (0, spec_matched_ids p map list, spec_unmatched_addrs p map list, some sv') := by
  unfold pool_find_all_targets_by_addr
  simp only []
  rw [if_neg (by simp [hrc]), hsvc]
  simp only []
  unfold pool_svc_put_leader
  rw [if_pos href]
  simp only []
  rw [if_neg (by simp [htx]), hm]
  simp only []
  rw [find_addrs_loop_no_fault p env map ha hi]
  exact ⟨pool_svc_put { sv with ps_leader_ref := sv.ps_leader_ref - 1 }, rfl⟩

theorem update_internal_outputs (p : UpdateParams) (env : update_env)
    (pool_svc_hash : List pool_svc) (ps_pool : Option ds_pool) (db : MdDb)
    (pool_uuid : uuid_t) (tgts : List Nat) (opc : pool_opc) (pto_op : Bool)
    (u : update_result)
    (h : ds_pool_update_internal p env pool_svc_hash ps_pool db pool_uuid tgts opc pto_op
      true true = some u) :
    u.p_updated = some u.updated ∧ (u.rc = 0 → u.replicas = some env.replicas) := by
  rcases update_internal_cases p env pool_svc_hash ps_pool db pool_uuid tgts opc pto_op
      true true u h with
    ⟨h1, h2, h3, _⟩ | ⟨svc, c, _, _, _, _, _, _, hf⟩
  · refine ⟨?_, fun h0 => absurd h0 h1⟩
    rw [h3, h2]
    rfl
  · obtain ⟨g1, g2, g3, g4, _⟩ := update_finish_some _ _ _ _ _ _ _ hf
    refine ⟨?_, fun h0 => ?_⟩
    · rw [g3, g2]
      rfl
    · rw [g4, if_neg (by rw [← g1]; simp [h0])]
      rfl

/-- The ways `ds_pool_update_handler` ends: with an error before
`ds_pool_update_internal` (nothing changed, no rebuild), or through
`pool_find_all_targets_by_addr` returning 0, `ds_pool_update_internal`, and the rebuild
test. -/
theorem update_handler_cases (p : UpdateParams) (env : update_handler_env)
    (pool_svc_hash : List pool_svc) (ps_pool : Option ds_pool) (db : MdDb)
    (opc : pool_opc) (req : pool_tgt_update_in) (r : update_handler_result)
    (h : ds_pool_update_handler p env pool_svc_hash ps_pool db opc req = some r) :
    (r.po_rc ≠ 0 ∧ r.updated = none ∧ r.rebuild = none ∧ r.tx = [] ∧ r.db = db ∧
      r.ps_pool = ps_pool ∧ r.pto_addr_list = []) ∨
    (∃ addrs ids out sv u, req.pti_addr_list = some addrs ∧
      pool_find_all_targets_by_addr p env.find pool_svc_hash db req.pi_uuid addrs =
        some (0, ids, out, sv) ∧
      ds_pool_update_internal p env.upd pool_svc_hash ps_pool db req.pi_uuid ids opc true
        true true = some u ∧
      update_schedule_rebuild p env opc u.rc u.p_updated u.po_map_version ids u.replicas =
        some r.rebuild ∧
      r.po_rc = u.rc ∧ r.po_map_version = u.po_map_version ∧
      r.pto_addr_list = (if u.rc ≠ 0 then [] else out) ∧ r.updated = u.p_updated ∧
      r.target_list = ids ∧ r.tx = u.tx ∧ r.db = u.db ∧ r.ps_pool = u.ps_pool ∧
      r.map_update = u.map_update) := by
  unfold ds_pool_update_handler at h
  cases hl : req.pti_addr_list with
  | none =>
    rw [hl] at h
    cases h
    exact Or.inl ⟨by simp [DER_INVAL], rfl, rfl, rfl, rfl, rfl, rfl⟩
  | some addrs =>
    rw [hl] at h
    simp only [] at h
    by_cases c1 : addrs.length = 0
    · rw [if_pos c1] at h
      cases h
      exact Or.inl ⟨by simp [DER_INVAL], rfl, rfl, rfl, rfl, rfl, rfl⟩
    rw [if_neg c1] at h
    cases hf : pool_find_all_targets_by_addr p env.find pool_svc_hash db req.pi_uuid addrs with
    | none =>
      rw [hf] at h
      cases h
    | some x =>
      obtain ⟨rc, ids, out, sv⟩ := x
      rw [hf] at h
      simp only [] at h
      by_cases c2 : rc ≠ 0
      · rw [if_pos c2] at h
        cases h
        exact Or.inl ⟨c2, rfl, rfl, rfl, rfl, rfl, rfl⟩
      rw [if_neg c2] at h
      have hrc : rc = 0 := not_not.mp c2
      subst hrc
      cases hu : ds_pool_update_internal p env.upd pool_svc_hash ps_pool db req.pi_uuid ids
          opc true true true with
      | none =>
        rw [hu] at h
        cases h
      | some u =>
        rw [hu] at h
        simp only [] at h
        cases hs : update_schedule_rebuild p env opc u.rc u.p_updated u.po_map_version ids
            u.replicas with
        | none =>
          rw [hs] at h
          cases h
        | some rb =>
          rw [hs] at h
          cases h
          exact Or.inr ⟨addrs, ids, out, sv, u, rfl, hf, hu, hs, rfl, rfl, rfl, rfl,
            rfl, rfl, rfl, rfl, rfl⟩

/-- A run of `ds_pool_update_internal` that returns 0 has read the map. -/
theorem update_internal_ok_reads (p : UpdateParams) (env : update_env)
    (pool_svc_hash : List pool_svc) (ps_pool : Option ds_pool) (db : MdDb)
    (pool_uuid : uuid_t) (tgts : List Nat) (opc : pool_opc)
    (pto_op p_updated replicasp : Bool) (u : update_result)
    (h : ds_pool_update_internal p env pool_svc_hash ps_pool db pool_uuid tgts opc pto_op
      p_updated replicasp = some u) (h0 : u.rc = 0) :
    ∃ map, db.read_map env.rc_lookup_map_version env.rc_lookup_map_buffer env.rc_map_create =
      .ok map := by
  rcases update_internal_cases p env pool_svc_hash ps_pool db pool_uuid tgts opc pto_op
      p_updated replicasp u h with
    ⟨h1, _⟩ | ⟨svc, c, _, _, _, _, hc, _, hf⟩
  · exact absurd h0 h1
  · obtain ⟨g1, _⟩ := update_finish_some _ _ _ _ _ _ _ hf
    rcases update_core_run_cases p env ps_pool db tgts opc c hc with
      ⟨_, _, _, _, k5⟩ | ⟨_, _, map, _, km, _⟩
    · obtain ⟨_, map, km, _⟩ := k5 (by rw [← g1]; exact h0)
      exact ⟨map, km⟩
    · exact ⟨map, km⟩

/-- A run of `ds_pool_update_internal` that committed has applied the opcode to the map
read, found a changed version, and stored the map it got in the DB and in the cache. -/
theorem update_internal_updated (p : UpdateParams) (env : update_env)
    (pool_svc_hash : List pool_svc) (ps_pool : Option ds_pool) (db : MdDb)
    (pool_uuid : uuid_t) (tgts : List Nat) (opc : pool_opc)
    (pto_op p_updated replicasp : Bool) (u : update_result)
    (h : ds_pool_update_internal p env pool_svc_hash ps_pool db pool_uuid tgts opc pto_op
      p_updated replicasp = some u) (hu : u.updated = true) :
    ∃ map pool, db.read_map env.rc_lookup_map_version env.rc_lookup_map_buffer
        env.rc_map_create = .ok map ∧
      (p.ds_pool_map_tgts_update map tgts opc).2.version ≠ map.version ∧
      u.db = { db with
        map_version := some (p.ds_pool_map_tgts_update map tgts opc).2.version,
        map_buffer := some ⟨(p.ds_pool_map_tgts_update map tgts opc).2.comps.length,
          (p.ds_pool_map_tgts_update map tgts opc).2.comps⟩ } ∧
      ps_pool = some pool ∧
      u.ps_pool = some { pool with
        sp_map := some (p.ds_pool_map_tgts_update map tgts opc).2,
        sp_map_version := (p.ds_pool_map_tgts_update map tgts opc).2.version } := by
  rcases update_internal_cases p env pool_svc_hash ps_pool db pool_uuid tgts opc pto_op
      p_updated replicasp u h with
    ⟨_, h2, _⟩ | ⟨svc, c, _, _, _, _, hc, _, hf⟩
  · rw [h2] at hu
    cases hu
  · obtain ⟨_, g2, _, _, _, g6, g7, _, _⟩ := update_finish_some _ _ _ _ _ _ _ hf
    rcases update_core_run_cases p env ps_pool db tgts opc c hc with
      ⟨k1, _⟩ | ⟨_, _, map, pool, km, _, kv, _, _, _, kdb, kp, kpl⟩
    · rw [g2, k1] at hu
      cases hu
    · exact ⟨map, pool, km, kv, by rw [g6, kdb], kp, by rw [g7, kpl]⟩

theorem update_schedule_rebuild_some (p : UpdateParams) (env : update_handler_env)
    (opc : pool_opc) (po_rc : Int) (updated : Option Bool) (po_map_version : Option Nat)
    (target_list : List Nat) (replicas : Option (List Nat))
    (rb : Option (Option Nat × List Nat × List Nat))
    (h : update_schedule_rebuild p env opc po_rc updated po_map_version target_list replicas =
      some rb) :
    (rb.isSome = true ↔ po_rc = 0 ∧ updated = some true ∧ opc = pool_opc.POOL_EXCLUDE ∧
      rebuild_disabled p env.getenv_rebuild env.fail_check = false) ∧
    (∀ x, rb = some x → ∃ reps, replicas = some reps ∧
      x = (po_map_version, target_list, reps)) := by
  unfold update_schedule_rebuild at h
  by_cases c1 : po_rc = 0 ∧ updated = some true ∧ opc = pool_opc.POOL_EXCLUDE
  · rw [if_pos c1] at h
    cases hd : rebuild_disabled p env.getenv_rebuild env.fail_check with
    | true =>
      rw [hd] at h
      simp only [if_true, Option.some.injEq] at h
      subst h
      refine ⟨⟨fun hh => (by cases hh), fun hh => (by cases hh.2.2.2)⟩, fun x hx => (by cases hx)⟩
    | false =>
      rw [hd] at h
      simp only [Bool.false_eq_true, if_false] at h
      cases replicas with
      | none => cases h
      | some reps =>
        simp only [Option.some.injEq] at h
        subst h
        refine ⟨⟨fun _ => ⟨c1.1, c1.2.1, c1.2.2, rfl⟩, fun _ => rfl⟩, fun x hx => ?_⟩
        cases hx
        exact ⟨reps, rfl, rfl⟩
  · rw [if_neg c1] at h
    simp only [Option.some.injEq] at h
    subst h
    refine ⟨⟨fun hh => (by cases hh), fun hh => absurd ⟨hh.1, hh.2.1, hh.2.2.1⟩ c1⟩,
      fun x hx => (by cases hx)⟩

theorem rebuild_disabled_iff (p : UpdateParams) (getenv_rebuild : Option (List Nat))
    (fail_check : Bool) :
    rebuild_disabled p getenv_rebuild fail_check = true ↔
      (∃ s, getenv_rebuild = some s ∧ s.map tolower = p.REBUILD_ENV_DISABLED.map tolower) ∨
      fail_check = true := by
  unfold rebuild_disabled strcasecmp
  cases getenv_rebuild with
  | none => simp
  | some s =>
    by_cases c : s.map tolower = p.REBUILD_ENV_DISABLED.map tolower
    · simp [c]
    · simp [c]

/-- C19: a run of `pool_find_all_targets_by_addr` that returns 0 gives as out-list exactly
the input addresses that match no target of the map read, in input order, and as id list
exactly the ids of the targets matched by the other addresses, in input order; it does
return 0 when the service is found and UP, the map is read and no append fails.  An
UPDATE that replies 0 returns that out-list, and has run `ds_pool_update_internal` with
that id list and the opcode of the RPC on the same map: when it committed, the DB and the
cache hold the map that applying the opcode to those ids gave. -/
theorem find_all_targets_partition (p : UpdateParams) (env : update_handler_env)
    (pool_svc_hash : List pool_svc) (ps_pool : Option ds_pool) (db : MdDb)
    (opc : pool_opc) (pool_uuid : uuid_t) (list : List pool_target_addr) :
    (∀ ids out sv,
      pool_find_all_targets_by_addr p env.find pool_svc_hash db pool_uuid list =
        some (0, ids, out, sv) →
      ∃ map, db.read_map env.find.rc_lookup_map_version env.find.rc_lookup_map_buffer
          env.find.rc_map_create = .ok map ∧
        out = spec_unmatched_addrs p map list ∧ ids = spec_matched_ids p map list) ∧
    (∀ sv map, (pool_svc_lookup_leader pool_svc_hash env.find.st pool_uuid).rc = 0 →
      (pool_svc_lookup_leader pool_svc_hash env.find.st pool_uuid).svc = some sv →
      sv.ps_leader_ref > 0 → env.find.rc_tx_begin = 0 →
      db.read_map env.find.rc_lookup_map_version env.find.rc_lookup_map_buffer
        env.find.rc_map_create = .ok map →
      (∀ i, env.find.rc_addr_append i = 0) → (∀ i j, env.find.rc_id_append i j = 0) →
      ∃ sv', pool_find_all_targets_by_addr p env.find pool_svc_hash db pool_uuid list =
        some (0, spec_matched_ids p map list, spec_unmatched_addrs p map list, some sv')) ∧
    (∀ r, ds_pool_update_handler p env pool_svc_hash ps_pool db opc ⟨pool_uuid, some list⟩ =
        some r → r.po_rc = 0 →
      ∃ map u, db.read_map env.upd.rc_lookup_map_version env.upd.rc_lookup_map_buffer
          env.upd.rc_map_create = .ok map ∧
        r.pto_addr_list = spec_unmatched_addrs p map list ∧
        r.target_list = spec_matched_ids p map list ∧
        ds_pool_update_internal p env.upd pool_svc_hash ps_pool db pool_uuid
          (spec_matched_ids p map list) opc true true true = some u ∧
        u.rc = 0 ∧ r.tx = u.tx ∧ r.db = u.db ∧ r.ps_pool = u.ps_pool ∧
        r.updated = some u.updated ∧
        (u.updated = true →
          r.db.map_version = some (p.ds_pool_map_tgts_update map
            (spec_matched_ids p map list) opc).2.version ∧
          r.db.map_buffer = some ⟨(p.ds_pool_map_tgts_update map
              (spec_matched_ids p map list) opc).2.comps.length,
            (p.ds_pool_map_tgts_update map (spec_matched_ids p map list) opc).2.comps⟩ ∧
          ∃ pool, r.ps_pool = some pool ∧ pool.sp_map = some (p.ds_pool_map_tgts_update map
            (spec_matched_ids p map list) opc).2)) := by
  refine ⟨?_, ?_, ?_⟩
  · intro ids out sv h
    obtain ⟨map, hm, hi, ho⟩ := find_all_targets_ok p env.find pool_svc_hash db pool_uuid list
      ids out sv h
    exact ⟨map, hm, ho, hi⟩
  · intro sv map hrc hsvc href htx hm ha hi
    exact find_all_targets_succeeds p env.find pool_svc_hash db pool_uuid list sv map hrc hsvc
      href htx hm ha hi
  · intro r h h0
    rcases update_handler_cases p env pool_svc_hash ps_pool db opc _ r h with
      ⟨hne, _⟩ | ⟨addrs, ids, out, sv, u, hl, hf, hu, _, g1, _, g3, g4, g5, g6, g7, g8, _⟩
    · exact absurd h0 hne
    · simp only [Option.some.injEq] at hl
      subst hl
      simp only [] at hf hu
      have hu0 : u.rc = 0 := by rw [← g1]; exact h0
      obtain ⟨mapf, hmf, hi, ho⟩ := find_all_targets_ok p env.find pool_svc_hash db pool_uuid
        list ids out sv hf
      obtain ⟨map, hm⟩ := update_internal_ok_reads p env.upd pool_svc_hash ps_pool db
        pool_uuid ids opc true true true u hu hu0
      have hsame : mapf = map := read_map_ok_unique db _ _ _ _ _ _ mapf map hmf hm
      subst hsame
      subst hi
      subst ho
      obtain ⟨k1, _⟩ := update_internal_outputs p env.upd pool_svc_hash ps_pool db pool_uuid
        _ opc true u hu
      refine ⟨mapf, u, hm, ?_, g5, hu, hu0, g6, g7, g8, by rw [g4, k1], fun hup => ?_⟩
      · rw [g3, if_neg (by simp [hu0])]
      · obtain ⟨map', pool, hm', _, kdb, _, kpl⟩ := update_internal_updated p env.upd
          pool_svc_hash ps_pool db pool_uuid _ opc true true true u hu hup
        have hsame : map' = mapf := read_map_ok_unique db _ _ _ _ _ _ map' mapf hm' hm
        subst hsame
        refine ⟨by rw [g7, kdb], by rw [g7, kdb], _, by rw [g8, kpl], rfl⟩

/-- C20: when the UPDATE handler returns, it has called `ds_rebuild_schedule` exactly when
the reply code is 0, `updated` is true, the opcode is `POOL_EXCLUDE` and the test for a
disabled rebuild is false; that test is true exactly when `getenv(REBUILD_ENV)` gives a
string equal to `REBUILD_ENV_DISABLED` up to the case of letters, or the fault injection
`DAOS_REBUILD_DISABLE` is set.  The call gets the map version of the reply, the id list
and the replica ranks.  Hence no rebuild is scheduled for another opcode, nor when
applying the opcode leaves the version of the map read unchanged, as for a repeated
EXCLUDE of a target that is excluded already. -/
theorem update_handler_rebuild_iff (p : UpdateParams) (env : update_handler_env)
    (pool_svc_hash : List pool_svc) (ps_pool : Option ds_pool) (db : MdDb)
    (opc : pool_opc) (req : pool_tgt_update_in) (r : update_handler_result)
    (h : ds_pool_update_handler p env pool_svc_hash ps_pool db opc req = some r) :
    (r.rebuild.isSome = true ↔ r.po_rc = 0 ∧ r.updated = some true ∧
      opc = pool_opc.POOL_EXCLUDE ∧
      rebuild_disabled p env.getenv_rebuild env.fail_check = false) ∧
    (rebuild_disabled p env.getenv_rebuild env.fail_check = true ↔
      (∃ s, env.getenv_rebuild = some s ∧
        s.map tolower = p.REBUILD_ENV_DISABLED.map tolower) ∨ env.fail_check = true) ∧
    (∀ x, r.rebuild = some x → x = (r.po_map_version, r.target_list, env.upd.replicas)) ∧
    (opc ≠ pool_opc.POOL_EXCLUDE → r.rebuild = none) ∧
    (∀ map, db.read_map env.upd.rc_lookup_map_version env.upd.rc_lookup_map_buffer
        env.upd.rc_map_create = .ok map →
      (p.ds_pool_map_tgts_update map r.target_list opc).2.version = map.version →
      r.rebuild = none) := by
  have hiff : r.rebuild.isSome = true ↔ r.po_rc = 0 ∧ r.updated = some true ∧
      opc = pool_opc.POOL_EXCLUDE ∧
      rebuild_disabled p env.getenv_rebuild env.fail_check = false := by
    rcases update_handler_cases p env pool_svc_hash ps_pool db opc req r h with
      ⟨hne, _, hrb, _⟩ | ⟨addrs, ids, out, sv, u, _, _, _, hs, g1, _, _, g4, _⟩
    · rw [hrb]
      exact ⟨fun hh => (by cases hh), fun hh => absurd hh.1 hne⟩
    · rw [g1, g4]
      exact (update_schedule_rebuild_some p env opc _ _ _ _ _ _ hs).1
  have hnone : ∀ {q : Prop}, (r.rebuild.isSome = true → q) → ¬ q → r.rebuild = none := by
    intro q hq hnq
    cases hrb : r.rebuild with
    | none => rfl
    | some x =>
      rw [hrb] at hq
      exact absurd (hq rfl) hnq
  refine ⟨hiff, rebuild_disabled_iff p _ _, ?_, ?_, ?_⟩
  · intro x hx
    rcases update_handler_cases p env pool_svc_hash ps_pool db opc req r h with
      ⟨_, _, hrb, _⟩ | ⟨addrs, ids, out, sv, u, _, _, hu, hs, g1, g2, _, _, g5, _⟩
    · rw [hrb] at hx
      cases hx
    · obtain ⟨reps, hreps, hxe⟩ := (update_schedule_rebuild_some p env opc _ _ _ _ _ _ hs).2 x hx
      have hu0 : u.rc = 0 := by
        rw [← g1]
        exact (hiff.mp (by rw [hx]; rfl)).1
      have hr := (update_internal_outputs p env.upd pool_svc_hash ps_pool db req.pi_uuid ids
        opc true u hu).2 hu0
      rw [hr] at hreps
      cases hreps
      rw [hxe, g2, g5]
  · intro hopc
    exact hnone (fun hh => (hiff.mp hh).2.2.1) hopc
  · intro map hm hv
    rcases update_handler_cases p env pool_svc_hash ps_pool db opc req r h with
      ⟨_, _, hrb, _⟩ | ⟨addrs, ids, out, sv, u, _, _, hu, _, _, _, _, g4, g5, _⟩
    · exact hrb
    · apply hnone (fun hh => (hiff.mp hh).2.1)
      intro hupd
      obtain ⟨k1, _⟩ := update_internal_outputs p env.upd pool_svc_hash ps_pool db req.pi_uuid
        ids opc true u hu
      rw [g4, k1] at hupd
      simp only [Option.some.injEq] at hupd
      obtain ⟨map', _, hm', hne, _⟩ := update_internal_updated p env.upd pool_svc_hash ps_pool
        db req.pi_uuid ids opc true true true u hu hupd
      have hsame : map' = map := read_map_ok_unique db _ _ _ _ _ _ map' map hm' hm
      subst hsame
      rw [g5] at hv
      exact hne hv

/-- C17, at the sample pool: an ADD of target 2 leaves the version of the sample map
unchanged; `ds_pool_update_internal` returns 0 with `updated = false`, queues nothing and
leaves the DB as it is. -/
theorem update_internal_version_gate_witness :
    ∃ r, ds_pool_update_internal sample_update_params {} [sample_svc] (some sample_ds_pool)
        sample_md 7 [2] pool_opc.POOL_ADD true true true = some r ∧
      r.rc = 0 ∧ r.updated = false ∧ r.tx = [] ∧ r.db = sample_md :=
  match (update_internal_version_gate sample_update_params {} [sample_svc]
      (some sample_ds_pool) sample_md 7 [2] pool_opc.POOL_ADD true true true).1 _ _ rfl rfl
      (by decide) rfl (fun _ => rfl) (fun _ => ⟨_, _, rfl, rfl⟩) rfl rfl rfl with
  | ⟨r, h, h1, h2, _, h4, h5, _⟩ => ⟨r, h, h1, h2, h4, h5⟩

/-- C18, at the sample pool: an EXCLUDE of target 2 commits; afterwards the cached map and
the persisted `map_version` agree. -/
theorem update_internal_cache_matches_db_witness :
    ∃ r, ds_pool_update_internal sample_update_params {} [sample_svc] (some sample_ds_pool)
        sample_md 7 [2] pool_opc.POOL_EXCLUDE true true true = some r ∧
      r.updated = true ∧ r.db.map_version = some 2 ∧
      ∃ pool' m', r.ps_pool = some pool' ∧ pool'.sp_map = some m' ∧
        r.db.map_version = some m'.version :=
  ⟨_, rfl, rfl, rfl,
    match update_internal_cache_matches_db sample_update_params {} [sample_svc]
        (some sample_ds_pool) sample_md 7 [2] pool_opc.POOL_EXCLUDE true true true
        sample_ds_pool _ rfl rfl rfl _ rfl with
    | ⟨pool', m', h1, h2, h3, _⟩ => ⟨pool', m', h1, h2, h3⟩⟩

/-- C19, at the sample pool: an EXCLUDE of the addresses (rank 2, index 0) and (rank 9,
index 0) replies 0, resolves the first to target 2 and returns the second in the
out-list. -/
theorem find_all_targets_partition_witness :
    ∃ r, ds_pool_update_handler sample_update_params {} [sample_svc] (some sample_ds_pool)
        sample_md pool_opc.POOL_EXCLUDE ⟨7, some [⟨2, 0⟩, ⟨9, 0⟩]⟩ = some r ∧
      r.po_rc = 0 ∧ r.pto_addr_list = [⟨9, 0⟩] ∧ r.target_list = [2] ∧
      ∃ map, r.pto_addr_list = spec_unmatched_addrs sample_update_params map
          [⟨2, 0⟩, ⟨9, 0⟩] ∧
        r.target_list = spec_matched_ids sample_update_params map [⟨2, 0⟩, ⟨9, 0⟩] :=
  ⟨_, rfl, rfl, rfl, rfl,
    (fun r h h0 =>
      match (find_all_targets_partition sample_update_params {} [sample_svc]
          (some sample_ds_pool) sample_md pool_opc.POOL_EXCLUDE 7 [⟨2, 0⟩, ⟨9, 0⟩]).2.2 r h
          h0 with
      | ⟨map, _, _, h1, h2, _⟩ => ⟨map, h1, h2⟩ :
      ∀ r : update_handler_result,
        ds_pool_update_handler sample_update_params {} [sample_svc] (some sample_ds_pool)
          sample_md pool_opc.POOL_EXCLUDE ⟨7, some [⟨2, 0⟩, ⟨9, 0⟩]⟩ = some r →
        r.po_rc = 0 →
        ∃ map, r.pto_addr_list = spec_unmatched_addrs sample_update_params map
            [⟨2, 0⟩, ⟨9, 0⟩] ∧
          r.target_list = spec_matched_ids sample_update_params map [⟨2, 0⟩, ⟨9, 0⟩])
      _ rfl rfl⟩

/-- C20, at the sample pool: an EXCLUDE of the address (rank 2, index 0) schedules a
rebuild; the same EXCLUDE again, on the DB and cache the first one left, replies 0 and
schedules none. -/
theorem update_handler_rebuild_iff_witness :
    ∃ r r2, ds_pool_update_handler sample_update_params {} [sample_svc]
        (some sample_ds_pool) sample_md pool_opc.POOL_EXCLUDE ⟨7, some [⟨2, 0⟩]⟩ = some r ∧
      r.rebuild.isSome = true ∧
      ds_pool_update_handler sample_update_params {} [sample_svc] r.ps_pool r.db
        pool_opc.POOL_EXCLUDE ⟨7, some [⟨2, 0⟩]⟩ = some r2 ∧
      r2.po_rc = 0 ∧ r2.rebuild = none :=
  ⟨_, _, rfl,
    (update_handler_rebuild_iff sample_update_params {} [sample_svc] (some sample_ds_pool)
      sample_md pool_opc.POOL_EXCLUDE ⟨7, some [⟨2, 0⟩]⟩ _ rfl).1.mpr ⟨rfl, rfl, rfl, rfl⟩,
    rfl, rfl, rfl⟩

/-! ### Error paths of EVICT and DISCONNECT -/

/-- C21 (evaluation at the failing input): one handle is connected (`nhandles = 1`, one
record).  When the target broadcast of the close pipeline fails (`tdo_rc ≠ 0`),
`pool_disconnect_hdls` returns `-DER_IO` with nothing queued, yet the EVICT replies 0
(the code of the commit of the empty transaction), where a DISCONNECT of the same handle
replies `-DER_IO`.  When instead the last step of the pipeline fails (the update of
`nhandles`, with `-DER_NOMEM`), the EVICT commits the deletes queued so far and replies 0:
the record is gone while `nhandles` stays 1. -/
theorem evict_replies_zero_after_failed_close :
    pool_disconnect_hdls { tdo_rc := 1 }
      { sample_db with nhandles := 1, handles := [(11, 1)] } [] [11] = (- DER_IO, []) ∧
    ds_pool_evict_handler sample_params { hdls := { tdo_rc := 1 } } [sample_svc]
      { sample_db with nhandles := 1, handles := [(11, 1)] } 7 =
      some { po_rc := 0, db := { sample_db with nhandles := 1, handles := [(11, 1)] } } ∧
    ds_pool_disconnect_handler sample_params { hdls := { tdo_rc := 1 } } [sample_svc]
      { sample_db with nhandles := 1, handles := [(11, 1)] } 7 11 =
      { po_rc := - DER_IO, db := { sample_db with nhandles := 1, handles := [(11, 1)] } } ∧
    ds_pool_evict_handler sample_params { hdls := { rc_update_nhandles := -DER_NOMEM } }
      [sample_svc] { sample_db with nhandles := 1, handles := [(11, 1)] } 7 =
      some { po_rc := 0, db := { sample_db with nhandles := 1, handles := [] } } := by
  decide

theorem kvs_lookup_delete_self (l : List (uuid_t × Nat)) (k : uuid_t) :
    kvs_lookup (kvs_delete l k) k = none := by
  unfold kvs_lookup kvs_delete
  rw [Option.map_eq_none']
  rw [List.find?_eq_none]
  intro e he
  rw [List.mem_filter] at he
  simpa using he.2

/-- A DISCONNECT that replies 0 leaves a handle table without the handle. -/
theorem disconnect_ok_handle_absent (p : Params) (env : disconnect_env)
    (pool_svc_hash : List pool_svc) (db : PoolDb) (pi_uuid pi_hdl : uuid_t)
    (h0 : (ds_pool_disconnect_handler p env pool_svc_hash db pi_uuid pi_hdl).po_rc = 0) :
    kvs_lookup (ds_pool_disconnect_handler p env pool_svc_hash db pi_uuid pi_hdl).db.handles
      pi_hdl = none := by
  generalize hr : ds_pool_disconnect_handler p env pool_svc_hash db pi_uuid pi_hdl = r at h0 ⊢
  unfold ds_pool_disconnect_handler at hr
  simp only [] at hr
  by_cases h1 : (pool_svc_lookup_leader pool_svc_hash env.st pi_uuid).rc ≠ 0
  · rw [if_pos h1] at hr; subst hr; exact absurd h0 h1
  rw [if_neg h1] at hr
  by_cases h2 : env.rc_tx_begin ≠ 0
  · rw [if_pos h2] at hr; subst hr; exact absurd h0 h2
  rw [if_neg h2] at hr
  by_cases h3 : (rdb_tx_lookup_handle env.rc_lookup_handle db pi_hdl).1 ≠ 0
  · rw [if_pos h3] at hr
    subst hr
    simp only [] at h0 ⊢
    by_cases h4 : (rdb_tx_lookup_handle env.rc_lookup_handle db pi_hdl).1 = -DER_NONEXIST
    · exact rdb_tx_lookup_handle_nonexist _ _ _ h4
    · rw [if_neg h4] at h0
      exact absurd h0 h3
  rw [if_neg h3] at hr
  rcases disconnect_handler_cases p env pool_svc_hash db pi_uuid pi_hdl with hc | ⟨_, _, hdb⟩
  · -- the DB is unchanged although the handle is there: the reply is not 0
    exfalso
    rcases pool_disconnect_hdls_cases env.hdls db [pi_hdl] with hk | hk
    · rw [if_neg (not_not.mpr hk.1)] at hr
      rcases rdb_tx_commit_cases p env.rc_commit db (pool_disconnect_hdls env.hdls db []
          [pi_hdl]).2 with hq | hq
      · subst hr
        exact hq.1 h0
      · have hfound := rdb_tx_lookup_handle_zero env.rc_lookup_handle db pi_hdl
          (not_not.mp h3)
        have hmem := kvs_lookup_some_mem _ _ _ hfound
        have hlt := kvs_delete_length_lt db.handles pi_hdl _ hmem
        have hdb' : (ds_pool_disconnect_handler p env pool_svc_hash db pi_uuid pi_hdl).db =
            (rdb_tx_commit p env.rc_commit db
              (pool_disconnect_hdls env.hdls db [] [pi_hdl]).2).2 := by
          unfold ds_pool_disconnect_handler
          simp only []
          rw [if_neg h1, if_neg h2, if_neg h3, if_neg (not_not.mpr hk.1)]
        rw [hdb', hq.2, hk.2] at hc
        have hlen := congrArg (fun d => d.handles.length) hc
        simp [tx_apply_op] at hlen
        omega
    · rw [if_pos hk.1] at hr
      subst hr
      exact hk.1 h0
  · have hr' : (ds_pool_disconnect_handler p env pool_svc_hash db pi_uuid pi_hdl) = r := by
      unfold ds_pool_disconnect_handler
      simp only []
      rw [if_neg h1, if_neg h2, if_neg h3]
      exact hr
    rw [← hr', hdb]
    exact kvs_lookup_delete_self _ _

/-- C22: a DISCONNECT whose handle is absent from the handle table leaves the DB (handle
table and `nhandles`) as it is, and what it replies does not depend on what the container
close, the target broadcast, the updates or the commit would report: none of them is
reached.  When the service is found and UP and `rdb_tx_begin` and the lookup report no
fault, the reply is 0.  After any DISCONNECT that replied 0 the handle is absent, so a
second DISCONNECT of the same handle is such a no-op. -/
theorem disconnect_absent_handle_noop (p : Params) (pool_svc_hash : List pool_svc)
    (pi_uuid pi_hdl : uuid_t) :
    (∀ env db, kvs_lookup db.handles pi_hdl = none →
      (ds_pool_disconnect_handler p env pool_svc_hash db pi_uuid pi_hdl).db = db ∧
      ((pool_svc_lookup_leader pool_svc_hash env.st pi_uuid).rc = 0 → env.rc_tx_begin = 0 →
        (env.rc_lookup_handle = 0 ∨ env.rc_lookup_handle = -DER_NONEXIST) →
        (ds_pool_disconnect_handler p env pool_svc_hash db pi_uuid pi_hdl).po_rc = 0) ∧
      (∀ hdls rc_commit,
        ds_pool_disconnect_handler p { env with hdls := hdls, rc_commit := rc_commit }
          pool_svc_hash db pi_uuid pi_hdl =
        ds_pool_disconnect_handler p env pool_svc_hash db pi_uuid pi_hdl)) ∧
    (∀ env1 env2 db,
      (ds_pool_disconnect_handler p env1 pool_svc_hash db pi_uuid pi_hdl).po_rc = 0 →
      (ds_pool_disconnect_handler p env2 pool_svc_hash
        (ds_pool_disconnect_handler p env1 pool_svc_hash db pi_uuid pi_hdl).db pi_uuid
        pi_hdl).db =
        (ds_pool_disconnect_handler p env1 pool_svc_hash db pi_uuid pi_hdl).db ∧
      ((pool_svc_lookup_leader pool_svc_hash env2.st pi_uuid).rc = 0 → env2.rc_tx_begin = 0 →
        (env2.rc_lookup_handle = 0 ∨ env2.rc_lookup_handle = -DER_NONEXIST) →
        (ds_pool_disconnect_handler p env2 pool_svc_hash
          (ds_pool_disconnect_handler p env1 pool_svc_hash db pi_uuid pi_hdl).db pi_uuid
          pi_hdl).po_rc = 0)) := by
  have key : ∀ (env : disconnect_env) (db : PoolDb), kvs_lookup db.handles pi_hdl = none →
      ds_pool_disconnect_handler p env pool_svc_hash db pi_uuid pi_hdl =
        if (pool_svc_lookup_leader pool_svc_hash env.st pi_uuid).rc ≠ 0 then
          { po_rc := (pool_svc_lookup_leader pool_svc_hash env.st pi_uuid).rc, db := db }
        else if env.rc_tx_begin ≠ 0 then { po_rc := env.rc_tx_begin, db := db }
        else if env.rc_lookup_handle ≠ 0 ∧ env.rc_lookup_handle ≠ -DER_NONEXIST then
          { po_rc := env.rc_lookup_handle, db := db }
        else { po_rc := 0, db := db } := by
    intro env db habs
    unfold ds_pool_disconnect_handler
    simp only []
    by_cases h1 : (pool_svc_lookup_leader pool_svc_hash env.st pi_uuid).rc ≠ 0
    · rw [if_pos h1, if_pos h1]
    rw [if_neg h1, if_neg h1]
    by_cases h2 : env.rc_tx_begin ≠ 0
    · rw [if_pos h2, if_pos h2]
    rw [if_neg h2, if_neg h2]
    by_cases h3 : env.rc_lookup_handle ≠ 0 ∧ env.rc_lookup_handle ≠ -DER_NONEXIST
    · have hl : rdb_tx_lookup_handle env.rc_lookup_handle db pi_hdl =
          (env.rc_lookup_handle, 0) := by
        unfold rdb_tx_lookup_handle
        rw [if_pos h3]
      rw [hl, if_pos h3]
      simp only []
      rw [if_pos h3.1, if_neg h3.2]
    · rw [rdb_tx_lookup_handle_of_none db pi_hdl _ h3 habs, if_neg h3]
      simp [DER_NONEXIST]
  have part1 : ∀ (env : disconnect_env) (db : PoolDb), kvs_lookup db.handles pi_hdl = none →
      (ds_pool_disconnect_handler p env pool_svc_hash db pi_uuid pi_hdl).db = db ∧
      ((pool_svc_lookup_leader pool_svc_hash env.st pi_uuid).rc = 0 → env.rc_tx_begin = 0 →
        (env.rc_lookup_handle = 0 ∨ env.rc_lookup_handle = -DER_NONEXIST) →
        (ds_pool_disconnect_handler p env pool_svc_hash db pi_uuid pi_hdl).po_rc = 0) := by
    intro env db habs
    rw [key env db habs]
    constructor
    · split_ifs <;> rfl
    · intro hrc htx hl
      rw [if_neg (by simp [hrc]), if_neg (by simp [htx]), if_neg]
      rintro ⟨a, b⟩
      rcases hl with hl | hl
      · exact a hl
      · exact b hl
  constructor
  · intro env db habs
    refine ⟨(part1 env db habs).1, (part1 env db habs).2, ?_⟩
    intro hdls rc_commit
    rw [key env db habs, key _ db habs]
  · intro env1 env2 db h0
    exact part1 env2 _ (disconnect_ok_handle_absent p env1 pool_svc_hash db pi_uuid pi_hdl h0)

/-- C22, at the sample pool without any handle: a DISCONNECT of handle 11 replies 0 and
leaves the DB as it is. -/
theorem disconnect_absent_handle_noop_witness :
    (ds_pool_disconnect_handler sample_params {} [sample_svc] sample_db 7 11).po_rc = 0 ∧
    (ds_pool_disconnect_handler sample_params {} [sample_svc] sample_db 7 11).db =
      sample_db :=
  ⟨((disconnect_absent_handle_noop sample_params [sample_svc] 7 11).1 {} sample_db
      (by decide)).2.1 (by decide) rfl (Or.inl rfl),
   ((disconnect_absent_handle_noop sample_params [sample_svc] 7 11).1 {} sample_db
      (by decide)).1⟩

/-! ### `find_hdls_to_evict` and a fault-free EVICT -/

theorem evict_arg_ok_count_le (arg : evict_iter_arg) (seen : List uuid_t)
    (h : evict_arg_ok arg seen) : arg.eia_n_hdl_uuids ≤ arg.eia_hdl_uuids.length := by
  obtain ⟨_, _, _, h4⟩ := h
  have := congrArg List.length h4
  simp only [List.length_take] at this
  omega

/-- With the array as `rdb_tx_iterate` keeps it and an allocation that succeeds,
`evict_iter_cb` returns 0: neither of its assertions fails and the slot written is inside
the array. -/
theorem evict_iter_cb_total (arg : evict_iter_arg) (seen : List uuid_t) (key : uuid_t)
    (h : evict_arg_ok arg seen) : ∃ arg', evict_iter_cb true arg key = Ret.ok arg' := by
  have hle := evict_arg_ok_count_le arg seen h
  obtain ⟨h1, h2, _, _⟩ := h
  unfold evict_iter_cb
  rw [if_neg (by rw [h1]; omega)]
  simp only []
  rw [if_neg (by simp)]
  by_cases hg : 16 * (arg.eia_n_hdl_uuids + 1) > arg.eia_hdl_uuids_size
  · simp only [hg, decide_True, if_true]
    rw [if_pos (by simp only [List.length_append, List.length_replicate]; omega)]
    exact ⟨_, rfl⟩
  · simp only [hg, decide_False, Bool.false_eq_true, if_false]
    rw [if_pos (by omega)]
    exact ⟨_, rfl⟩

theorem rdb_tx_iterate_evict_total (alloc_ok : List Bool)
    (hall : ∀ i, alloc_ok.getD i true = true) (rest : List (uuid_t × Nat)) :
    ∀ (i : Nat) (arg : evict_iter_arg) (seen : List uuid_t), evict_arg_ok arg seen →
      ∃ arg', rdb_tx_iterate_evict alloc_ok i rest arg = Ret.ok arg' := by
  induction rest with
  | nil =>
    intro i arg seen _
    exact ⟨arg, by simp [rdb_tx_iterate_evict]⟩
  | cons e rest ih =>
    intro i arg seen h
    obtain ⟨a, ha⟩ := evict_iter_cb_total arg seen e.1 h
    unfold rdb_tx_iterate_evict
    rw [hall i, ha]
    simp only []
    exact ih (i + 1) a (seen ++ [e.1]) (evict_iter_cb_ok _ _ _ _ _ h ha)

/-- On success the argument `find_hdls_to_evict` hands back is as `rdb_tx_iterate` keeps
it, for the keys of the whole handle KVS. -/
theorem find_hdls_to_evict_arg_ok (env : evict_env) (db : PoolDb) (arg : evict_iter_arg)
    (h : find_hdls_to_evict env db = Ret.ok arg) :
    evict_arg_ok arg (db.handles.map Prod.fst) := by
  unfold find_hdls_to_evict at h
  simp only [] at h
  split_ifs at h with c1 c2
  have h0 : evict_arg_ok
      { eia_hdl_uuids := List.replicate 4 0, eia_hdl_uuids_size := 16 * 4,
        eia_n_hdl_uuids := 0 } [] := by
    refine ⟨by simp, by simp, by simp, by simp⟩
  have := rdb_tx_iterate_evict_ok env.alloc_ok db.handles 0 _ arg [] h0 h
  simpa using this

/-- Function `find_hdls_to_evict` returns 0 when its allocations succeed and
`rdb_tx_iterate` reports no fault of its own. -/
theorem find_hdls_to_evict_total (env : evict_env) (db : PoolDb)
    (ha : env.alloc_first_ok = true) (hall : ∀ i, env.alloc_ok.getD i true = true)
    (hi : env.rc_iterate = 0) : ∃ arg, find_hdls_to_evict env db = Ret.ok arg := by
  unfold find_hdls_to_evict
  simp only []
  rw [if_neg (by simp [ha]), if_neg (by simp [hi])]
  exact rdb_tx_iterate_evict_total env.alloc_ok hall db.handles 0 _ []
    ⟨by simp, by simp, by simp, by simp⟩

/-- With no fault in the close pipeline, `pool_disconnect_hdls` queues one delete per
handle and the update of the counter. -/
theorem pool_disconnect_hdls_no_fault (db : PoolDb) (hdls : List uuid_t) :
    pool_disconnect_hdls {} db [] hdls =
      (0, hdls.map TxOp.delete_handle ++
        [TxOp.update_nhandles ((db.nhandles + (2 ^ 32 - hdls.length % 2 ^ 32)) % 2 ^ 32)]) := by
  rcases pool_disconnect_hdls_cases {} db hdls with hc | ⟨hne, _⟩
  · exact Prod.ext hc.1 hc.2
  · exfalso
    apply hne
    unfold pool_disconnect_hdls rdb_tx_lookup_root pool_disconnect_bcast
    simp only [ne_eq, not_true_eq_false, if_false]
    rcases pool_disconnect_hdls_loop_cases [] hdls 0 [] with hl | ⟨_, j, _, hj, _⟩
    · simp only [hl.1, not_true_eq_false, if_false]
    · simp at hj

/-- C27: for a handle KVS of fewer than `2 ^ 31` records (the count is an `int`):
`find_hdls_to_evict` returns 0 when its allocations succeed and the iteration reports no
fault; whenever it returns 0, the first `eia_n_hdl_uuids` slots of the array hold exactly
the keys of the KVS in iteration order, that count is the number of records, and the
array size is at least 16 bytes per handle counted and more than 16 bytes.  One callback
on an array that holds the keys `seen` gives an array that holds `seen` followed by the
new key, also when it has to double the array.  An EVICT in which no collaborator reports
a fault, on a DB whose `nhandles` is the number of records, replies 0 and leaves an empty
handle table with `nhandles = 0`. -/
theorem find_hdls_to_evict_lists_all (p : Params) (env : evict_env) (db : PoolDb)
    (hn : db.handles.length < 2 ^ 31) :
    (env.alloc_first_ok = true → (∀ i, env.alloc_ok.getD i true = true) →
      env.rc_iterate = 0 → ∃ arg, find_hdls_to_evict env db = Ret.ok arg) ∧
    (∀ arg, find_hdls_to_evict env db = Ret.ok arg →
      arg.eia_hdl_uuids.take arg.eia_n_hdl_uuids = db.handles.map Prod.fst ∧
      arg.eia_n_hdl_uuids = db.handles.length ∧
      16 * arg.eia_n_hdl_uuids ≤ arg.eia_hdl_uuids_size ∧ 16 < arg.eia_hdl_uuids_size) ∧
    (∀ alloc_ok arg arg' seen key, evict_arg_ok arg seen →
      evict_iter_cb alloc_ok arg key = Ret.ok arg' →
      arg'.eia_hdl_uuids.take arg'.eia_n_hdl_uuids = seen ++ [key] ∧
      arg'.eia_n_hdl_uuids = seen.length + 1 ∧
      16 * arg'.eia_n_hdl_uuids ≤ arg'.eia_hdl_uuids_size) ∧
    (∀ pool_svc_hash pi_uuid,
      (pool_svc_lookup_leader pool_svc_hash rdb_stat.present pi_uuid).rc = 0 →
      db.nhandles = db.handles.length →
      ds_pool_evict_handler p {} pool_svc_hash db pi_uuid =
        some { po_rc := 0, db := { db with nhandles := 0, handles := [] } }) := by
  refine ⟨?_, ?_, ?_, ?_⟩
  · intro ha hall hi
    exact find_hdls_to_evict_total env db ha hall hi
  · intro arg h
    have hok := find_hdls_to_evict_arg_ok env db arg h
    have hle := evict_arg_ok_count_le arg _ hok
    obtain ⟨h1, h2, h3, h4⟩ := hok
    refine ⟨h4, by simpa using h3, by omega, by omega⟩
  · intro alloc_ok arg arg' seen key h hcb
    have hok := evict_iter_cb_ok alloc_ok arg arg' seen key h hcb
    have hle := evict_arg_ok_count_le arg' _ hok
    obtain ⟨h1, h2, h3, h4⟩ := hok
    refine ⟨h4, by simpa using h3, by omega⟩
  · intro pool_svc_hash pi_uuid hrc hcount
    obtain ⟨arg, harg⟩ := find_hdls_to_evict_total {} db rfl (by simp) rfl
    obtain ⟨hkeys, hcnt⟩ := find_hdls_to_evict_ok {} db arg harg
    unfold ds_pool_evict_handler
    simp only []
    rw [if_neg (by simp [hrc]), if_neg (by simp), harg]
    simp only []
    rw [hkeys]
    by_cases hpos : arg.eia_n_hdl_uuids > 0
    · rw [if_pos hpos, pool_disconnect_hdls_no_fault]
      simp only [rdb_tx_commit, ne_eq, not_true_eq_false, if_false]
      rw [List.foldl_append, foldl_delete_ops, foldl_kvs_delete_all]
      have hn' : db.handles.length < 2147483648 := by
        have := hn
        norm_num at this
        exact this
      simp only [tx_apply_op, List.length_map, Option.some.injEq, handler_result.mk.injEq,
        true_and]
      have hmod : (db.nhandles + (2 ^ 32 - db.handles.length % 2 ^ 32)) % 2 ^ 32 = 0 := by
        norm_num
        omega
      rw [hmod]
      rfl
    · rw [if_neg hpos]
      have hzero : db.handles.length = 0 := by omega
      have hnil : db.handles = [] := List.length_eq_zero.mp hzero
      simp only [rdb_tx_commit, ne_eq, not_true_eq_false, if_false, List.foldl_nil]
      cases db
      simp_all

/-- C27, at the sample pool with five handles (one more than the array first holds):
`find_hdls_to_evict` returns the five keys in order, in an array doubled to 128 bytes. -/
theorem find_hdls_to_evict_lists_all_witness :
    (∃ arg, find_hdls_to_evict {}
        { sample_db with nhandles := 5,
                         handles := [(11, 1), (12, 1), (13, 1), (14, 1), (15, 1)] } =
          Ret.ok arg) ∧
    find_hdls_to_evict {}
        { sample_db with nhandles := 5,
                         handles := [(11, 1), (12, 1), (13, 1), (14, 1), (15, 1)] } =
      Ret.ok ⟨[11, 12, 13, 14, 15, 0, 0, 0], 128, 5⟩ :=
  ⟨(find_hdls_to_evict_lists_all sample_params {}
      { sample_db with nhandles := 5,
                       handles := [(11, 1), (12, 1), (13, 1), (14, 1), (15, 1)] }
      (by decide)).1 rfl (by simp) rfl, by decide⟩

/-! ### `get_md_cap` -/

/-- What `get_md_cap` returns for every `int`: the default for 0 to 127, `n` MB from 128
on, and for a negative `n` the value `2 ^ 64 - |n| * 2 ^ 20`, because the comparison with
the minimum is made in `size_t`. -/
theorem get_md_cap_cases (n : Int) (hlo : -2 ^ 31 ≤ n) (hhi : n < 2 ^ 31) :
    (0 ≤ n → n < 128 → get_md_cap (some n) = 2 ^ 27) ∧
    (128 ≤ n → get_md_cap (some n) = n.toNat * 2 ^ 20) ∧
    (n < 0 → get_md_cap (some n) = 2 ^ 64 - (-n).toNat * 2 ^ 20) := by
  have hdef : ((1 : Nat) <<< 27) % 2 ^ 64 = 134217728 := by decide
  have hmin : (134217728 : Nat) >>> 20 = 128 := by decide
  unfold get_md_cap
  simp only [hdef, hmin, Nat.shiftLeft_eq]
  refine ⟨?_, ?_, ?_⟩
  · intro h0 h1
    have he : n % 2 ^ 64 = n := Int.emod_eq_of_lt h0 (by omega)
    rw [he, if_pos (by omega)]
    norm_num
  · intro h1
    have he : n % 2 ^ 64 = n := Int.emod_eq_of_lt (by omega) (by omega)
    rw [he, if_neg (by omega)]
    have : n.toNat < 2147483648 := by omega
    norm_num
    omega
  · intro hneg
    have he : n % 2 ^ 64 = n + 2 ^ 64 := by
      rw [← Int.add_emod_self]
      exact Int.emod_eq_of_lt (by omega) (by omega)
    rw [he, if_neg (by omega)]
    have h1 : (n + 2 ^ 64).toNat = 18446744073709551616 - (-n).toNat := by omega
    have h2 : (-n).toNat ≤ 2147483648 := by omega
    have h3 : 1 ≤ (-n).toNat := by omega
    rw [h1]
    norm_num
    omega

/-- C23 (evaluation at the failing input): for `DAOS_MD_CAP=-1`, `get_md_cap` does not
return the 128 MB default but `2 ^ 64 - 2 ^ 20` bytes, as for every negative value it
returns `2 ^ 64 - |n| * 2 ^ 20`; the default is returned for the values 0 to 127 and when
the variable is unset, and `n * 2 ^ 20` from 128 on. -/
theorem get_md_cap_negative_not_clamped :
    get_md_cap (some (-1)) = 2 ^ 64 - 2 ^ 20 ∧ get_md_cap (some (-1)) ≠ 2 ^ 27 ∧
    get_md_cap (some (-2 ^ 31)) = 2 ^ 64 - 2 ^ 51 ∧
    get_md_cap none = 2 ^ 27 ∧ get_md_cap (some 0) = 2 ^ 27 ∧
    get_md_cap (some 127) = 2 ^ 27 ∧ get_md_cap (some 128) = 128 * 2 ^ 20 ∧
    get_md_cap (some 200) = 200 * 2 ^ 20 := by
  decide

/-! ### The stop flag -/

/-- The step-down callback changes neither the stop flag nor the term. -/
theorem pool_svc_step_down_cb_frame (env : step_down_env) (term : Nat) (svc : pool_svc)
    (ps_pool : Option ds_pool) (svc' : pool_svc) (p' : Option ds_pool)
    (h : pool_svc_step_down_cb env term svc ps_pool = some (svc', p')) :
    svc'.ps_stop = svc.ps_stop ∧ svc'.ps_term = svc.ps_term := by
  unfold pool_svc_step_down_cb at h
  by_cases c1 : svc.ps_term ≠ term
  · rw [if_pos c1] at h
    cases h
  rw [if_neg c1] at h
  by_cases c2 : svc.ps_state = pool_svc_state.POOL_SVC_DOWN
  · rw [if_pos c2] at h
    cases h
  rw [if_neg c2] at h
  simp only [] at h
  by_cases c3 : svc.ps_state = pool_svc_state.POOL_SVC_UP
  · rw [if_pos c3] at h
    unfold pool_svc_step_down at h
    rw [if_neg c2] at h
    simp only [] at h
    cases hw : wait_leader_refs env.wakeups
        { svc with ps_state := pool_svc_state.POOL_SVC_DRAINING } with
    | none =>
      rw [hw] at h
      cases h
    | some svc1 =>
      rw [hw] at h
      simp only [] at h
      obtain ⟨_, _, g3, g4⟩ := wait_leader_refs_done _ _ _ hw
      by_cases c4 : ps_pool.isNone = true
      · rw [if_pos c4] at h
        cases h
      rw [if_neg c4] at h
      by_cases c5 : env.rc_group_rank ≠ 0
      · rw [if_pos c5] at h
        cases h
      rw [if_neg c5] at h
      cases h
      exact ⟨g3, g4⟩
  · rw [if_neg c3] at h
    cases h
    exact ⟨rfl, rfl⟩

/-- No event clears the stop flag. -/
theorem lifecycle_step_keeps_stop (s s' : pool_svc_rt) (op : LifecycleOp)
    (hstop : s.svc.ps_stop = true) (h : lifecycle_step s op = some s') :
    s'.svc.ps_stop = true := by
  cases op with
  | step_up_cb env term =>
    simp only [lifecycle_step] at h
    by_cases cm : s.ps_mutex_locked = true
    · rw [if_pos cm] at h
      cases h
    rw [if_neg cm] at h
    unfold pool_svc_step_up_cb at h
    rw [if_pos hstop] at h
    cases h
    exact hstop
  | step_down_cb env term =>
    simp only [lifecycle_step] at h
    by_cases cm : s.ps_mutex_locked = true
    · rw [if_pos cm] at h
      cases h
    rw [if_neg cm] at h
    cases hd : pool_svc_step_down_cb env term s.svc s.ps_pool with
    | none =>
      rw [hd] at h
      cases h
    | some x =>
      obtain ⟨svc', p'⟩ := x
      rw [hd] at h
      cases h
      obtain ⟨g1, _⟩ := pool_svc_step_down_cb_frame env term s.svc s.ps_pool svc' p' hd
      simp only []
      rw [g1]
      exact hstop
  | create nx env req =>
    simp only [lifecycle_step] at h
    split at h
    · cases h
    cases hc : ds_pool_create_handler nx env s.hash s.ps_pool s.db req with
    | none =>
      rw [hc] at h
      cases h
    | some r =>
      rw [hc] at h
      simp only [] at h
      cases hreg : s.hash.find? (fun x => x.ps_uuid == req.pi_uuid) with
      | none =>
        obtain ⟨rc, _, hr⟩ := create_handler_unregistered nx env s.hash s.ps_pool s.db req hreg
        rw [hr] at hc
        cases hc
        simp only [] at h
        cases h
        exact hstop
      | some svc0 =>
        have hs0 : svc0 = s.svc := pool_svc_rt_hash_find s _ svc0 hreg
        subst hs0
        rcases create_handler_cases nx env s.hash s.ps_pool s.db req s.svc hreg r hc with
          ⟨rc, sv, _, hsv, hr⟩ | ⟨_, hns, _⟩ | ⟨_, hns, _⟩ | ⟨_, hns, _⟩ | ⟨_, hns, _⟩
        · rw [hr] at h
          rcases hsv with hsv | hsv
          · rw [hsv] at h
            cases h
            exact hstop
          · rw [hsv] at h
            cases h
            exact hstop
        · rw [hstop] at hns
          cases hns
        · rw [hstop] at hns
          cases hns
        · rw [hstop] at hns
          cases hns
        · rw [hstop] at hns
          cases hns
  | lookup_leader =>
    simp only [lifecycle_step] at h
    unfold pool_svc_rt.hash at h
    by_cases hb : s.registered = true
    swap
    · rw [if_neg hb, pool_svc_lookup_leader_nil] at h
      cases h
      exact hstop
    rw [if_pos hb] at h
    have hfind : [s.svc].find? (fun x => x.ps_uuid == s.svc.ps_uuid) = some s.svc := by
      simp
    unfold pool_svc_lookup_leader pool_svc_lookup at h
    rw [hfind] at h
    simp only [ne_eq, not_true_eq_false, if_false] at h
    cases hupb : pool_svc_up { s.svc with ps_ref := s.svc.ps_ref + 1 } with
    | false =>
      rw [hupb] at h
      simp only [Bool.not_false, if_true] at h
      cases h
      exact hstop
    | true =>
      rw [hupb] at h
      simp only [Bool.not_true, Bool.false_eq_true, if_false] at h
      cases h
      exact hstop
  | put_leader =>
    simp only [lifecycle_step] at h
    unfold pool_svc_put_leader at h
    by_cases c : s.svc.ps_leader_ref > 0
    · rw [if_pos c] at h
      simp only [] at h
      cases h
      exact hstop
    · rw [if_neg c] at h
      cases h
  | stop =>
    simp only [lifecycle_step] at h
    by_cases cm : s.ps_mutex_locked = true
    · rw [if_pos cm] at h
      cases h
    rw [if_neg cm, pool_svc_stop_enter_fst] at h
    cases h
    rfl
  | stop_finish =>
    simp only [lifecycle_step] at h
    by_cases cm : s.ps_mutex_locked = true ∨ s.svc.ps_stop = false ∨ s.registered = false
    · rw [if_pos cm] at h
      cases h
    rw [if_neg cm] at h
    unfold pool_svc_stop_leave at h
    by_cases cd : s.svc.ps_state ≠ pool_svc_state.POOL_SVC_DOWN
    · rw [if_pos cd] at h
      cases h
    rw [if_neg cd] at h
    cases h
    exact hstop

theorem lifecycle_run_keeps_stop (ops : List LifecycleOp) (s s' : pool_svc_rt)
    (hstop : s.svc.ps_stop = true) (h : lifecycle_run s ops = some s') :
    s'.svc.ps_stop = true := by
  induction ops generalizing s with
  | nil =>
    simp only [lifecycle_run] at h
    cases h
    exact hstop
  | cons op ops ih =>
    simp only [lifecycle_run] at h
    cases hs : lifecycle_step s op with
    | none =>
      rw [hs] at h
      cases h
    | some s1 =>
      rw [hs] at h
      exact ih s1 (lifecycle_step_keeps_stop s s1 op hstop hs) h

/-- A CREATE that meets a registered service whose stop flag is set replies
`-DER_CANCELED` and changes nothing, when the counts of the request match its arrays. -/
theorem create_on_stopping_service (nx : Nat) (env : create_env)
    (pool_svc_hash : List pool_svc) (ps_pool : Option ds_pool) (db : MdDb)
    (req : pool_create_in) (svc0 : pool_svc)
    (hreg : pool_svc_hash.find? (fun s => s.ps_uuid == req.pi_uuid) = some svc0)
    (hstop : svc0.ps_stop = true)
    (hu : req.pri_ntgts = req.pri_tgt_uuids.length)
    (hr : req.pri_ntgts = req.pri_tgt_ranks.length)
    (hd : req.pri_ndomains = req.pri_domains.length) :
    ds_pool_create_handler nx env pool_svc_hash ps_pool db req =
      some ⟨-DER_CANCELED, [], none, db, some svc0, ps_pool, false⟩ := by
  have hlk : pool_svc_lookup pool_svc_hash env.st req.pi_uuid =
      { rc := 0, svc := some { svc0 with ps_ref := svc0.ps_ref + 1 } } := by
    unfold pool_svc_lookup
    rw [hreg]
  unfold ds_pool_create_handler
  rw [if_neg (by simp [← hu, ← hr]), if_neg (by simp [← hd])]
  simp only [hlk, ne_eq, not_true_eq_false, if_false, hstop, if_true]
  cases svc0
  simp_all [pool_svc_put]

/-- No event puts a service back into the registry. -/
theorem lifecycle_step_keeps_unregistered (s s' : pool_svc_rt) (op : LifecycleOp)
    (hreg : s.registered = false) (h : lifecycle_step s op = some s') :
    s'.registered = false := by
  cases op with
  | step_up_cb env term =>
    simp only [lifecycle_step] at h
    by_cases cm : s.ps_mutex_locked = true
    · rw [if_pos cm] at h
      cases h
    rw [if_neg cm] at h
    cases hu : pool_svc_step_up_cb env term s.svc s.ps_pool s.db with
    | none =>
      rw [hu] at h
      cases h
    | some x =>
      obtain ⟨rc, svc', p'⟩ := x
      rw [hu] at h
      cases h
      exact hreg
  | step_down_cb env term =>
    simp only [lifecycle_step] at h
    by_cases cm : s.ps_mutex_locked = true
    · rw [if_pos cm] at h
      cases h
    rw [if_neg cm] at h
    cases hd : pool_svc_step_down_cb env term s.svc s.ps_pool with
    | none =>
      rw [hd] at h
      cases h
    | some x =>
      obtain ⟨svc', p'⟩ := x
      rw [hd] at h
      cases h
      exact hreg
  | create nx env req =>
    simp only [lifecycle_step] at h
    split at h
    · cases h
    cases hc : ds_pool_create_handler nx env s.hash s.ps_pool s.db req with
    | none =>
      rw [hc] at h
      cases h
    | some r =>
      rw [hc] at h
      simp only [] at h
      cases hsv : r.svc with
      | none =>
        rw [hsv] at h
        cases h
        exact hreg
      | some sv =>
        rw [hsv] at h
        cases h
        exact hreg
  | lookup_leader =>
    simp only [lifecycle_step] at h
    cases hl : (pool_svc_lookup_leader s.hash rdb_stat.present s.svc.ps_uuid).svc with
    | none =>
      rw [hl] at h
      cases h
      exact hreg
    | some sv =>
      rw [hl] at h
      cases h
      exact hreg
  | put_leader =>
    simp only [lifecycle_step] at h
    cases hl : pool_svc_put_leader s.svc with
    | none =>
      rw [hl] at h
      cases h
    | some sv =>
      rw [hl] at h
      cases h
      exact hreg
  | stop =>
    simp only [lifecycle_step] at h
    by_cases cm : s.ps_mutex_locked = true
    · rw [if_pos cm] at h
      cases h
    rw [if_neg cm] at h
    cases h
    exact hreg
  | stop_finish =>
    simp only [lifecycle_step] at h
    rw [if_pos (Or.inr (Or.inr hreg))] at h
    cases h

theorem lifecycle_run_keeps_unregistered (ops : List LifecycleOp) (s s' : pool_svc_rt)
    (hreg : s.registered = false) (h : lifecycle_run s ops = some s') :
    s'.registered = false := by
  induction ops generalizing s with
  | nil =>
    simp only [lifecycle_run] at h
    cases h
    exact hreg
  | cons op ops ih =>
    simp only [lifecycle_run] at h
    cases hs : lifecycle_step s op with
    | none =>
      rw [hs] at h
      cases h
    | some s1 =>
      rw [hs] at h
      exact ih s1 (lifecycle_step_keeps_unregistered s s1 op hreg hs) h

/-- A CREATE for a pool without registry entry replies `-DER_PROTO` when the counts of the
request do not match its arrays, `-DER_NONEXIST` when the DB file does not exist, and
`-DER_NOTLEADER` otherwise; it changes nothing. -/
theorem create_on_unregistered_service (nx : Nat) (env : create_env)
    (ps_pool : Option ds_pool) (db : MdDb) (req : pool_create_in) :
    ds_pool_create_handler nx env [] ps_pool db req =
      some ⟨if req.pri_ntgts ≠ req.pri_tgt_uuids.length ∨
              req.pri_ntgts ≠ req.pri_tgt_ranks.length ∨
              req.pri_ndomains ≠ req.pri_domains.length then -DER_PROTO
            else if env.st = rdb_stat.enoent then -DER_NONEXIST else -DER_NOTLEADER,
        [], none, db, none, ps_pool, false⟩ := by
  by_cases hmis : req.pri_ntgts ≠ req.pri_tgt_uuids.length ∨
      req.pri_ntgts ≠ req.pri_tgt_ranks.length ∨
      req.pri_ndomains ≠ req.pri_domains.length
  · rw [if_pos hmis]
    unfold ds_pool_create_handler
    by_cases c1 : req.pri_ntgts ≠ req.pri_tgt_uuids.length ∨
        req.pri_ntgts ≠ req.pri_tgt_ranks.length
    · rw [if_pos c1]
    rw [if_neg c1]
    have c2 : req.pri_ndomains ≠ req.pri_domains.length := by
      rcases hmis with c | c | c
      · exact absurd (Or.inl c) c1
      · exact absurd (Or.inr c) c1
      · exact c
    rw [if_pos c2]
  · rw [if_neg hmis]
    unfold ds_pool_create_handler
    rw [if_neg (fun c => hmis (by
      rcases c with c | c
      · exact Or.inl c
      · exact Or.inr (Or.inl c))), if_neg (fun c => hmis (Or.inr (Or.inr c)))]
    cases hst : env.st <;>
      simp [pool_svc_lookup, DER_NONEXIST, DER_NOTLEADER]

/-- C26: a call of `pool_svc_stop` that gets the mutex leaves the stop flag set, and in
every state reached from a state with the flag set, by whatever events (callbacks,
CREATEs, handlers taking and putting leader references, further calls of `pool_svc_stop`,
and the stopping call ending its wait and removing the service from the registry):
the flag is still set; `pool_svc_lookup_leader` fails, with `-DER_NOTLEADER` and the
service left as it is while the service is in the registry, whatever the leader reference
count, and after its removal with `-DER_NOTLEADER`, or `-DER_NONEXIST` when the DB file
does not exist; the step-up callback returns 0 and changes neither the service (state and
term included) nor the cached pool; a CREATE replies with an error and changes nothing,
the error being `-DER_PROTO` when the counts of the request do not match its arrays,
otherwise `-DER_CANCELED` while the service is in the registry and `-DER_NOTLEADER` (or
`-DER_NONEXIST` without DB file) after its removal; a further `pool_svc_stop` returns at
once without any effect; a service out of the registry stays out; and the stopping call
does end, by removing the service from the registry, once the service is DOWN and the
mutex free. -/
theorem stop_flag_is_final :
    (∀ s0 s1, lifecycle_step s0 LifecycleOp.stop = some s1 → s1.svc.ps_stop = true) ∧
    (∀ s ops s', s.svc.ps_stop = true → lifecycle_run s ops = some s' →
      s'.svc.ps_stop = true ∧
      (∀ st,
        (pool_svc_lookup_leader s'.hash st s'.svc.ps_uuid).rc =
          (if s'.registered = true then -DER_NOTLEADER
           else if st = rdb_stat.enoent then -DER_NONEXIST else -DER_NOTLEADER) ∧
        (pool_svc_lookup_leader s'.hash st s'.svc.ps_uuid).svc =
          (if s'.registered = true then some s'.svc else none)) ∧
      (∀ env term, pool_svc_step_up_cb env term s'.svc s'.ps_pool s'.db =
        some (0, s'.svc, s'.ps_pool)) ∧
      (∀ nx env req, req.pi_uuid = s'.svc.ps_uuid →
        ∃ r, ds_pool_create_handler nx env s'.hash s'.ps_pool s'.db req = some r ∧
          r.po_rc ≠ 0 ∧ r.tx = [] ∧ r.db = s'.db ∧ r.ps_pool = s'.ps_pool ∧
          r.svc.getD s'.svc = s'.svc ∧ r.mutex_locked = false ∧
          r.po_rc =
            (if req.pri_ntgts ≠ req.pri_tgt_uuids.length ∨
                req.pri_ntgts ≠ req.pri_tgt_ranks.length ∨
                req.pri_ndomains ≠ req.pri_domains.length then -DER_PROTO
             else if s'.registered = true then -DER_CANCELED
             else if env.st = rdb_stat.enoent then -DER_NONEXIST else -DER_NOTLEADER)) ∧
      pool_svc_stop_enter s'.svc = (s'.svc, false, false) ∧
      (s'.ps_mutex_locked = false → lifecycle_step s' LifecycleOp.stop = some s') ∧
      (s.registered = false → s'.registered = false) ∧
      (s'.registered = true → s'.ps_mutex_locked = false →
        s'.svc.ps_state = pool_svc_state.POOL_SVC_DOWN →
        ∃ s'', lifecycle_step s' LifecycleOp.stop_finish = some s'' ∧
          s''.registered = false ∧ s''.svc.ps_stop = true)) := by
  constructor
  · intro s0 s1 h
    simp only [lifecycle_step] at h
    by_cases cm : s0.ps_mutex_locked = true
    · rw [if_pos cm] at h
      cases h
    rw [if_neg cm, pool_svc_stop_enter_fst] at h
    cases h
    rfl
  intro s ops s' hstop hrun
  have hs := lifecycle_run_keeps_stop ops s s' hstop hrun
  have henter : pool_svc_stop_enter s'.svc = (s'.svc, false, false) := by
    unfold pool_svc_stop_enter
    rw [if_pos hs]
  refine ⟨hs, ?_, ?_, ?_, henter, ?_, ?_, ?_⟩
  · intro st
    by_cases hb : s'.registered = true
    · have hh : s'.hash = [s'.svc] := by
        unfold pool_svc_rt.hash
        rw [if_pos hb]
      rw [hh, if_pos hb, if_pos hb]
      have hfind : [s'.svc].find? (fun x => x.ps_uuid == s'.svc.ps_uuid) = some s'.svc := by
        simp
      unfold pool_svc_lookup_leader pool_svc_lookup
      rw [hfind]
      have hup : pool_svc_up { s'.svc with ps_ref := s'.svc.ps_ref + 1 } = false := by
        simp [pool_svc_up, hs]
      simp only [ne_eq, not_true_eq_false, if_false, hup, Bool.not_false, if_true]
      simp [pool_svc_put]
    · have hh : s'.hash = [] := by
        unfold pool_svc_rt.hash
        rw [if_neg hb]
      rw [hh, if_neg hb, if_neg hb, pool_svc_lookup_leader_nil]
      exact ⟨rfl, rfl⟩
  · intro env term
    unfold pool_svc_step_up_cb
    rw [if_pos hs]
  · intro nx env req huuid
    by_cases hb : s'.registered = true
    · have hh : s'.hash = [s'.svc] := by
        unfold pool_svc_rt.hash
        rw [if_pos hb]
      rw [hh]
      have hreg : [s'.svc].find? (fun x => x.ps_uuid == req.pi_uuid) = some s'.svc := by
        simp [huuid]
      by_cases hc : req.pri_ntgts = req.pri_tgt_uuids.length ∧
          req.pri_ntgts = req.pri_tgt_ranks.length ∧
          req.pri_ndomains = req.pri_domains.length
      · refine ⟨_, create_on_stopping_service nx env [s'.svc] s'.ps_pool s'.db req s'.svc hreg
          hs hc.1 hc.2.1 hc.2.2, ?_, rfl, rfl, rfl, rfl, rfl, ?_⟩
        · simp [DER_CANCELED]
        · rw [if_neg (by
            intro hh'
            rcases hh' with c | c | c
            · exact c hc.1
            · exact c hc.2.1
            · exact c hc.2.2), if_pos hb]
      · have hmis : req.pri_ntgts ≠ req.pri_tgt_uuids.length ∨
            req.pri_ntgts ≠ req.pri_tgt_ranks.length ∨
            req.pri_ndomains ≠ req.pri_domains.length := by
          by_contra hn
          apply hc
          refine ⟨?_, ?_, ?_⟩
          · by_contra hne
            exact hn (Or.inl hne)
          · by_contra hne
            exact hn (Or.inr (Or.inl hne))
          · by_contra hne
            exact hn (Or.inr (Or.inr hne))
        have hproto : ds_pool_create_handler nx env [s'.svc] s'.ps_pool s'.db req =
            some ⟨-DER_PROTO, [], none, s'.db, none, s'.ps_pool, false⟩ := by
          unfold ds_pool_create_handler
          by_cases c1 : req.pri_ntgts ≠ req.pri_tgt_uuids.length ∨
              req.pri_ntgts ≠ req.pri_tgt_ranks.length
          · rw [if_pos c1]
          · rw [if_neg c1]
            have c2 : req.pri_ndomains ≠ req.pri_domains.length := by
              rcases hmis with c | c | c
              · exact absurd (Or.inl c) c1
              · exact absurd (Or.inr c) c1
              · exact c
            rw [if_pos c2]
        refine ⟨_, hproto, by simp [DER_PROTO], rfl, rfl, rfl, rfl, rfl, ?_⟩
        rw [if_pos hmis]
    · have hh : s'.hash = [] := by
        unfold pool_svc_rt.hash
        rw [if_neg hb]
      rw [hh]
      refine ⟨_, create_on_unregistered_service nx env s'.ps_pool s'.db req, ?_, rfl, rfl,
        rfl, rfl, rfl, ?_⟩
      · simp only []
        split_ifs <;> simp [DER_PROTO, DER_NONEXIST, DER_NOTLEADER]
      · simp only []
        rw [if_neg hb]
  · intro hm
    simp only [lifecycle_step]
    rw [if_neg (by simp [hm]), henter]
  · intro hreg
    exact lifecycle_run_keeps_unregistered ops s s' hreg hrun
  · intro hreg hm hdown
    simp only [lifecycle_step]
    rw [if_neg (by simp [hm, hs, hreg])]
    unfold pool_svc_stop_leave
    rw [if_neg (by simp [hdown])]
    exact ⟨_, rfl, rfl, hs⟩

/-- C26, at the sample service (UP) after `pool_svc_stop` has set the flag while one leader
reference is held: a lookup for a leader and a CREATE are turned away, the step-down
callback drains the reference, a step-up callback and a second `pool_svc_stop` change
nothing, the stopping call removes the service from the registry, and a further lookup
gets `-DER_NOTLEADER` with the flag still set. -/
theorem stop_flag_is_final_witness :
    ∃ s', lifecycle_run ⟨pool_svc_stop_mark { sample_svc with ps_leader_ref := 1 },
        some sample_ds_pool, sample_md, false, true⟩
        [.lookup_leader, .create 2 {} sample_create, .step_down_cb ⟨[1], 0⟩ 3,
          .step_up_cb {} 4, .stop, .stop_finish, .lookup_leader,
          .create 2 {} sample_create] = some s' ∧
      s'.svc.ps_stop = true ∧ s'.registered = false ∧
      s'.svc.ps_state = pool_svc_state.POOL_SVC_DOWN ∧
      (pool_svc_lookup_leader s'.hash rdb_stat.present s'.svc.ps_uuid).rc = -DER_NOTLEADER :=
  ⟨_, rfl,
    (stop_flag_is_final.2 ⟨pool_svc_stop_mark { sample_svc with ps_leader_ref := 1 },
        some sample_ds_pool, sample_md, false, true⟩
        [.lookup_leader, .create 2 {} sample_create, .step_down_cb ⟨[1], 0⟩ 3,
          .step_up_cb {} 4, .stop, .stop_finish, .lookup_leader,
          .create 2 {} sample_create] _ rfl rfl).1,
    rfl, rfl,
    ((stop_flag_is_final.2 ⟨pool_svc_stop_mark { sample_svc with ps_leader_ref := 1 },
        some sample_ds_pool, sample_md, false, true⟩
        [.lookup_leader, .create 2 {} sample_create, .step_down_cb ⟨[1], 0⟩ 3,
          .step_up_cb {} 4, .stop, .stop_finish, .lookup_leader,
          .create 2 {} sample_create] _ rfl rfl).2.1 rdb_stat.present).1⟩

/-- C26 (counterexample): on the sample service with the stop flag set, a CREATE whose
target count (4) differs from the length of its UUID array (3) is rejected with
`-DER_PROTO`, not with `-DER_CANCELED`: the counts are checked before the service is
looked up.  And after a `pool_svc_stop` on a new service (DOWN) has run to its end, the
service is out of the registry and the sample CREATE is rejected with `-DER_NOTLEADER`,
not with `-DER_CANCELED`: the registry is looked up before the stop flag is tested. -/
theorem create_on_stopped_service_not_canceled :
    (pool_svc_stop_mark sample_svc).ps_stop = true ∧
    (∃ r, ds_pool_create_handler 2 {} [pool_svc_stop_mark sample_svc] none {}
        { sample_create with pri_ntgts := 4 } = some r ∧ r.po_rc = -DER_PROTO) ∧
    -DER_PROTO ≠ -DER_CANCELED ∧
    (∃ s, lifecycle_run (pool_svc_rt.init 7 {}) [.stop, .stop_finish] = some s ∧
      s.svc.ps_stop = true ∧ s.registered = false ∧
      ∃ r, ds_pool_create_handler 2 {} s.hash s.ps_pool s.db sample_create = some r ∧
        r.po_rc = -DER_NOTLEADER) ∧
    -DER_NOTLEADER ≠ -DER_CANCELED :=
  ⟨rfl, ⟨_, rfl, rfl⟩, by decide, ⟨_, rfl, rfl, rfl, _, rfl, rfl⟩, by decide⟩

/-! ### The mutex of CREATE and the replica list of UPDATE -/

/-- When a CREATE meets a registered service, `ps_mutex` is still locked at the reply
exactly when the transaction ended with an error or the step-up in UP_EMPTY failed. -/
theorem create_mutex_locked_iff (nx : Nat) (env : create_env) (pool_svc_hash : List pool_svc)
    (ps_pool : Option ds_pool) (db : MdDb) (req : pool_create_in) (svc0 : pool_svc)
    (hreg : pool_svc_hash.find? (fun s => s.ps_uuid == req.pi_uuid) = some svc0)
    (r : create_result)
    (h : ds_pool_create_handler nx env pool_svc_hash ps_pool db req = some r) :
    r.mutex_locked = true ↔ r.tx_rc.isSome = true ∧ r.po_rc ≠ 0 := by
  rcases create_handler_cases nx env pool_svc_hash ps_pool db req svc0 hreg r h with
    ⟨rc, s, _, _, hr⟩ | ⟨hne, _, hr⟩ | ⟨_, _, _, hr⟩ | ⟨_, _, _, rc, p, _, hrc, hr⟩ |
    ⟨_, _, _, p, _, hr⟩
  · rw [hr]
    simp
  · rw [hr]
    simp [hne]
  · rw [hr]
    simp
  · rw [hr]
    simp [hrc]
  · rw [hr]
    simp

/-- C28 (evaluation at the failing inputs): a CREATE on the service of pool 7 (UP_EMPTY,
empty DB) whose `rdb_tx_commit` fails with `-DER_NOMEM` replies that error with the mutex
still locked, and so does a CREATE whose transaction succeeds but whose step-up fails (in
`ds_rebuild_regenerate_task`); a CREATE without fault releases it.  After the failed
CREATE the step-down callback cannot take the mutex: the sequence does not complete. -/
theorem create_leaves_mutex_locked :
    (∃ r, ds_pool_create_handler 2 { rc_commit := -DER_NOMEM }
        [⟨7, 1, false, 3, pool_svc_state.POOL_SVC_UP_EMPTY, 0, 0⟩] none {} sample_create =
          some r ∧ r.po_rc = -DER_NOMEM ∧ r.mutex_locked = true) ∧
    (∃ r, ds_pool_create_handler 2 { step_up := { rc_regenerate := -DER_NOMEM } }
        [⟨7, 1, false, 3, pool_svc_state.POOL_SVC_UP_EMPTY, 0, 0⟩] none {} sample_create =
          some r ∧ r.po_rc = -DER_NOMEM ∧ r.mutex_locked = true) ∧
    (∃ r, ds_pool_create_handler 2 {}
        [⟨7, 1, false, 3, pool_svc_state.POOL_SVC_UP_EMPTY, 0, 0⟩] none {} sample_create =
          some r ∧ r.po_rc = 0 ∧ r.mutex_locked = false) ∧
    (∃ s, lifecycle_run (pool_svc_rt.init 7 {})
        [.step_up_cb {} 3, .create 2 { rc_commit := -DER_NOMEM } sample_create] = some s ∧
      s.ps_mutex_locked = true ∧
      lifecycle_step s (.step_down_cb {} 3) = none) :=
  ⟨⟨_, rfl, rfl, rfl⟩, ⟨_, rfl, rfl, rfl⟩, ⟨_, rfl, rfl, rfl⟩, ⟨_, rfl, rfl, rfl⟩⟩

/-- With no replica pointer given, `ds_pool_update_internal` does not return once its
middle part (from `read_map` to the commit) ends with an error: `*replicasp` is
dereferenced at `out_replicas`. -/
theorem update_internal_null_replicas (p : UpdateParams) (env : update_env)
    (pool_svc_hash : List pool_svc) (ps_pool : Option ds_pool) (db : MdDb)
    (pool_uuid : uuid_t) (tgts : List Nat) (opc : pool_opc) (pto_op p_updated : Bool)
    (svc : pool_svc) (c : update_core)
    (hrc : (pool_svc_lookup_leader pool_svc_hash env.st pool_uuid).rc = 0)
    (hsvc : (pool_svc_lookup_leader pool_svc_hash env.st pool_uuid).svc = some svc)
    (htx : env.rc_tx_begin = 0)
    (hc : update_core_run p env ps_pool db tgts opc = some c) (hne : c.rc ≠ 0) :
    ds_pool_update_internal p env pool_svc_hash ps_pool db pool_uuid tgts opc pto_op p_updated
      false = none := by
  unfold ds_pool_update_internal
  simp only []
  rw [if_neg (by simp [hrc]), hsvc]
  simp only []
  rw [if_neg (by simp [htx]), if_neg (by simp), hc]
  simp only []
  rw [if_pos hne]
  simp

/-- C29 (evaluation at the failing input): at the sample pool, `ds_pool_tgt_exclude` of
target 2 with a failing `rdb_tx_commit`, and `ds_pool_tgt_exclude_out` with a failing
`read_map`, do not return: `ds_pool_update_internal` dereferences the `NULL` `replicasp`
at `out_replicas`.  The same runs with a replica pointer return the error, and
`ds_pool_tgt_exclude` without fault returns 0. -/
theorem tgt_exclude_derefs_null_replicas :
    ds_pool_tgt_exclude sample_update_params { rc_commit := -DER_NOMEM } [sample_svc]
      (some sample_ds_pool) sample_md 7 [2] = none ∧
    ds_pool_tgt_exclude_out sample_update_params { rc_lookup_map_buffer := -DER_NOMEM }
      [sample_svc] (some sample_ds_pool) sample_md 7 [2] = none ∧
    (∃ r, ds_pool_update_internal sample_update_params { rc_commit := -DER_NOMEM }
        [sample_svc] (some sample_ds_pool) sample_md 7 [2] pool_opc.POOL_EXCLUDE false false
        true = some r ∧ r.rc = -DER_NOMEM ∧ r.replicas = none) ∧
    (∃ r, ds_pool_update_internal sample_update_params { rc_lookup_map_buffer := -DER_NOMEM }
        [sample_svc] (some sample_ds_pool) sample_md 7 [2] pool_opc.POOL_EXCLUDE_OUT false
        false true = some r ∧ r.rc = -DER_NOMEM ∧ r.replicas = none) ∧
    (∃ r, ds_pool_tgt_exclude sample_update_params {} [sample_svc] (some sample_ds_pool)
        sample_md 7 [2] = some r ∧ r.rc = 0 ∧ r.updated = true) :=
  ⟨rfl, rfl, ⟨_, rfl, rfl, rfl⟩, ⟨_, rfl, rfl, rfl⟩, ⟨_, rfl, rfl, rfl⟩⟩

/-! ### ATTR_LIST -/

/-- One callback of ATTR_LIST: with the IOV array in order (the index within the count, a
count of at least 1 unless no buffer space is available) and, unless no buffer space is
available, a reallocation that succeeds, it returns 0, adds the key length to the
aggregate length, and keeps the array in order. -/
theorem attr_list_iter_cb_ok (realloc_ok : Bool) (a : attr_list_iter_args) (key : List Nat)
    (hidx : a.alia_iov_index ≤ a.alia_iov_count)
    (hcnt : a.alia_available = 0 ∨ 1 ≤ a.alia_iov_count)
    (hre : a.alia_available = 0 ∨ realloc_ok = true) :
    ∃ a', attr_list_iter_cb realloc_ok a key = some (0, a') ∧
      a'.alia_length = (a.alia_length + key.length) % 2 ^ 64 ∧
      a'.alia_iov_index ≤ a'.alia_iov_count ∧
      (a'.alia_available = 0 ∨ 1 ≤ a'.alia_iov_count) ∧
      (a.alia_available = 0 → a'.alia_available = 0) := by
  unfold attr_list_iter_cb
  simp only []
  by_cases c1 : a.alia_available > key.length ∧ key.length > 0
  · rw [if_pos c1]
    have hav : a.alia_available ≠ 0 := by omega
    have hc1 : 1 ≤ a.alia_iov_count := by
      rcases hcnt with h | h
      · exact absurd h hav
      · exact h
    have hr : realloc_ok = true := by
      rcases hre with h | h
      · exact absurd h hav
      · exact h
    rw [if_neg (by simp [hr])]
    by_cases c2 : a.alia_iov_index = a.alia_iov_count
    · simp only [c2, if_true]
      rw [if_pos (by omega)]
      exact ⟨_, rfl, rfl, by simp only []; omega, Or.inr (by simp only []; omega),
        fun h => absurd h hav⟩
    · simp only [c2, if_false]
      rw [if_pos (by omega)]
      exact ⟨_, rfl, rfl, by simp only []; omega, Or.inr hc1, fun h => absurd h hav⟩
  · rw [if_neg c1]
    exact ⟨_, rfl, rfl, hidx, hcnt, fun h => h⟩

theorem spec_names_length_cons (e : List Nat × List Nat) (rest : List (List Nat × List Nat)) :
    spec_names_length (e :: rest) = e.1.length + spec_names_length rest := by
  simp [spec_names_length]

/-- The iteration of ATTR_LIST returns 0 with the aggregate length raised by the sum of
the key lengths, when no reallocation it needs fails. -/
theorem rdb_tx_iterate_attr_list_ok (realloc_ok : List Bool)
    (rest : List (List Nat × List Nat)) :
    ∀ (i : Nat) (a : attr_list_iter_args), a.alia_iov_index ≤ a.alia_iov_count →
      (a.alia_available = 0 ∨ 1 ≤ a.alia_iov_count) →
      (a.alia_available = 0 ∨ ∀ j, realloc_ok.getD j true = true) →
      a.alia_length < 2 ^ 64 →
      ∃ a', rdb_tx_iterate_attr_list realloc_ok i rest a = some (0, a') ∧
        a'.alia_length = (a.alia_length + spec_names_length rest) % 2 ^ 64 := by
  induction rest with
  | nil =>
    intro i a _ _ _ hl
    refine ⟨a, rfl, ?_⟩
    simp only [spec_names_length, List.map_nil, List.sum_nil, Nat.add_zero]
    exact (Nat.mod_eq_of_lt hl).symm
  | cons e rest ih =>
    intro i a hidx hcnt hre hl
    have hre1 : a.alia_available = 0 ∨ realloc_ok.getD i true = true := by
      rcases hre with h | h
      · exact Or.inl h
      · exact Or.inr (h i)
    obtain ⟨a1, h1, hlen, hidx1, hcnt1, hav1⟩ :=
      attr_list_iter_cb_ok (realloc_ok.getD i true) a e.1 hidx hcnt hre1
    have hre' : a1.alia_available = 0 ∨ ∀ j, realloc_ok.getD j true = true := by
      rcases hre with h | h
      · exact Or.inl (hav1 h)
      · exact Or.inr h
    obtain ⟨a', h2, hlen2⟩ := ih (i + 1) a1 hidx1 hcnt1 hre'
      (by rw [hlen]; exact Nat.mod_lt _ (by norm_num))
    refine ⟨a', ?_, ?_⟩
    · unfold rdb_tx_iterate_attr_list
      rw [h1]
      simp only [ne_eq, not_true_eq_false, if_false]
      exact h2
    · rw [hlen2, hlen, spec_names_length_cons, Nat.mod_add_mod, Nat.add_assoc]

/-- C24: when the handler of ATTR_LIST gets as far as the iteration (the service is found
and UP, `rdb_tx_begin` succeeds, and with a bulk handle its length is read and the IOV
array allocated) and the iteration ends without fault (no fault of `rdb_tx_iterate`, and
with a bulk handle no reallocation fails), it returns and reports as `palo_size` the sum
of the key lengths of the user-attribute KVS (as a `size_t`, so modulo `2 ^ 64`),
whatever the bulk handle: none, or one of any size; whether the names are then sent, and
with what code, does not change it. -/
theorem attr_list_reports_total_length (env : attr_list_env) (pool_svc_hash : List pool_svc)
    (user : List (List Nat × List Nat)) (pi_uuid : uuid_t) (pali_bulk : Option Nat)
    (hrc : (pool_svc_lookup_leader pool_svc_hash env.st pi_uuid).rc = 0)
    (htx : env.rc_tx_begin = 0)
    (hbulk : pali_bulk.isSome = true → env.rc_bulk_get_len = 0 ∧ env.alloc_iovs_ok = true ∧
      ∀ j, env.realloc_ok.getD j true = true)
    (hit : env.rc_iterate = 0) :
    ∃ r, ds_pool_attr_list_handler env pool_svc_hash user pi_uuid pali_bulk = some r ∧
      r.palo_size = some (spec_names_length user % 2 ^ 64) ∧
      (spec_names_length user < 2 ^ 64 → r.palo_size = some (spec_names_length user)) := by
  have hinit : ∃ a', rdb_tx_iterate_attr_list env.realloc_ok 0 user
      { alia_available := pali_bulk.getD 0, alia_length := 0, alia_iov_index := 0,
        alia_iov_count := if pali_bulk.isSome = true then 1 else 0, alia_iovs := [] } =
        some (0, a') ∧
      a'.alia_length = (0 + spec_names_length user) % 2 ^ 64 := by
    apply rdb_tx_iterate_attr_list_ok
    · exact Nat.zero_le _
    · cases pali_bulk with
      | none => exact Or.inl rfl
      | some b => exact Or.inr (by simp)
    · cases pali_bulk with
      | none => exact Or.inl rfl
      | some b => exact Or.inr (hbulk rfl).2.2
    · norm_num
  obtain ⟨a', hit', hlen⟩ := hinit
  rw [Nat.zero_add] at hlen
  have hsize : ∃ r, ds_pool_attr_list_handler env pool_svc_hash user pi_uuid pali_bulk =
      some r ∧ r.palo_size = some a'.alia_length := by
    unfold ds_pool_attr_list_handler
    simp only []
    rw [if_neg (by simp [hrc]), if_neg (by simp [htx]),
      if_neg (fun hh => hh.2 (hbulk hh.1).1),
      if_neg (fun hh => hh.2 (hbulk hh.1).2.1),
      if_neg (by simp [hit]), hit']
    simp only [ne_eq, not_true_eq_false, if_false]
    by_cases c1 : a'.alia_iov_index > 0
    · rw [if_pos c1]
      by_cases c2 : env.rc_bulk_create = 0
      · rw [if_neg (not_not.mpr c2)]
        exact ⟨_, rfl, rfl⟩
      · rw [if_pos c2]
        exact ⟨_, rfl, rfl⟩
    · rw [if_neg c1]
      exact ⟨_, rfl, rfl⟩
  obtain ⟨r, hr, hs⟩ := hsize
  refine ⟨r, hr, by rw [hs, hlen], fun hlt => ?_⟩
  rw [hs, hlen, Nat.mod_eq_of_lt hlt]

/-- C24, at the sample service with the attributes "a" and "bc": the size reported is 5,
with no bulk handle as with a handle of 1 byte. -/
theorem attr_list_reports_total_length_witness :
    (∃ r, ds_pool_attr_list_handler {} [sample_svc] [([97, 0], [1]), ([98, 99, 0], [2])] 7
        none = some r ∧ r.palo_size = some 5) ∧
    (∃ r, ds_pool_attr_list_handler {} [sample_svc] [([97, 0], [1]), ([98, 99, 0], [2])] 7
        (some 1) = some r ∧ r.palo_size = some 5) :=
  ⟨match attr_list_reports_total_length {} [sample_svc] [([97, 0], [1]), ([98, 99, 0], [2])]
        7 none (by decide) rfl (fun h => absurd h (by decide)) rfl with
    | ⟨r, h1, _, h3⟩ => ⟨r, h1, h3 (by decide)⟩,
   match attr_list_reports_total_length {} [sample_svc] [([97, 0], [1]), ([98, 99, 0], [2])]
        7 (some 1) (by decide) rfl (fun _ => ⟨rfl, rfl, fun j => by simp⟩) rfl with
    | ⟨r, h1, _, h3⟩ => ⟨r, h1, h3 (by decide)⟩⟩

/-- With a client buffer larger than the total length of the names, none of them empty,
and no fault, the iteration puts every name into the IOV array, in order. -/
theorem rdb_tx_iterate_attr_list_all (rest : List (List Nat × List Nat)) :
    ∀ (i : Nat) (a : attr_list_iter_args), a.alia_iov_index ≤ a.alia_iov_count →
      1 ≤ a.alia_iov_count → spec_names_length rest < a.alia_available →
      (∀ e ∈ rest, 0 < e.1.length) →
      ∃ a', rdb_tx_iterate_attr_list [] i rest a = some (0, a') ∧
        a'.alia_iovs = a.alia_iovs ++ rest.map Prod.fst ∧
        a'.alia_available = a.alia_available - spec_names_length rest ∧
        a'.alia_iov_index = a.alia_iov_index + rest.length := by
  induction rest with
  | nil =>
    intro i a _ _ _ _
    exact ⟨a, rfl, by simp, by simp [spec_names_length], by simp⟩
  | cons e rest ih =>
    intro i a hidx hcnt hav hpos
    rw [spec_names_length_cons] at hav
    have hpe : 0 < e.1.length := hpos e (List.mem_cons_self _ _)
    have hc1 : a.alia_available > e.1.length ∧ e.1.length > 0 := ⟨by omega, hpe⟩
    unfold rdb_tx_iterate_attr_list attr_list_iter_cb
    simp only [List.getD_nil]
    rw [if_pos hc1, if_neg (by simp)]
    by_cases c2 : a.alia_iov_index = a.alia_iov_count
    · simp only [c2, if_true]
      rw [if_pos (by omega)]
      simp only [ne_eq, not_true_eq_false, if_false]
      obtain ⟨a', h1, h2, h3, h4⟩ := ih (i + 1)
        { alia_available := a.alia_available - e.1.length,
          alia_length := (a.alia_length + e.1.length) % 2 ^ 64,
          alia_iov_index := a.alia_iov_count + 1, alia_iov_count := a.alia_iov_count * 2,
          alia_iovs := a.alia_iovs ++ [e.1] }
        (by simp only []; omega) (by simp only []; omega) (by simp only []; omega)
        (fun x hx => hpos x (List.mem_cons_of_mem _ hx))
      refine ⟨a', h1, ?_, ?_, ?_⟩
      · rw [h2]
        simp
      · rw [h3, spec_names_length_cons]
        simp only []
        omega
      · rw [h4]
        simp only [List.length_cons]
        omega
    · simp only [c2, if_false]
      rw [if_pos (by omega)]
      simp only [ne_eq, not_true_eq_false, if_false]
      obtain ⟨a', h1, h2, h3, h4⟩ := ih (i + 1)
        { alia_available := a.alia_available - e.1.length,
          alia_length := (a.alia_length + e.1.length) % 2 ^ 64,
          alia_iov_index := a.alia_iov_index + 1, alia_iov_count := a.alia_iov_count,
          alia_iovs := a.alia_iovs ++ [e.1] }
        (by simp only []; omega) (by simp only []; omega) (by simp only []; omega)
        (fun x hx => hpos x (List.mem_cons_of_mem _ hx))
      refine ⟨a', h1, ?_, ?_, ?_⟩
      · rw [h2]
        simp
      · rw [h3, spec_names_length_cons]
        simp only []
        omega
      · rw [h4]
        simp only [List.length_cons]
        omega

/-- With a client buffer strictly larger than the total length of the names (none empty,
at least one) and no fault, ATTR_LIST replies 0, reports the total length and sends every
name, in iteration order, in a bulk PUT of the total length. -/
theorem attr_list_sends_all_when_larger (pool_svc_hash : List pool_svc)
    (user : List (List Nat × List Nat)) (pi_uuid : uuid_t) (bulk_size : Nat)
    (hrc : (pool_svc_lookup_leader pool_svc_hash rdb_stat.present pi_uuid).rc = 0)
    (hne : user ≠ []) (hpos : ∀ e ∈ user, 0 < e.1.length)
    (hlt : spec_names_length user < bulk_size) (h64 : bulk_size < 2 ^ 64) :
    ds_pool_attr_list_handler {} pool_svc_hash user pi_uuid (some bulk_size) =
      some ⟨0, some (spec_names_length user),
        some (user.map Prod.fst, spec_names_length user)⟩ := by
  obtain ⟨a', h1, h2, h3, h4⟩ := rdb_tx_iterate_attr_list_all user 0
    { alia_available := bulk_size, alia_length := 0, alia_iov_index := 0,
      alia_iov_count := 1, alia_iovs := [] } (by simp) (by simp) hlt hpos
  obtain ⟨a'', g1, g2⟩ := rdb_tx_iterate_attr_list_ok [] user 0
    { alia_available := bulk_size, alia_length := 0, alia_iov_index := 0,
      alia_iov_count := 1, alia_iovs := [] } (by simp) (Or.inr (by simp))
    (Or.inr (by simp)) (by norm_num)
  rw [h1] at g1
  simp only [Option.some.injEq, Prod.mk.injEq, true_and] at g1
  subst g1
  have hlen : a'.alia_length = spec_names_length user := by
    rw [g2]
    simp only [Nat.zero_add]
    exact Nat.mod_eq_of_lt (by omega)
  have hidx : a'.alia_iov_index > 0 := by
    rw [h4]
    have : 0 < user.length := List.length_pos.mpr hne
    simp only []
    omega
  unfold ds_pool_attr_list_handler
  simp only []
  rw [if_neg (by simp [hrc]), if_neg (by simp), if_neg (by simp), if_neg (by simp),
    if_neg (by simp)]
  simp only [Option.isSome_some, if_true, Option.getD_some]
  rw [h1]
  simp only [ne_eq, not_true_eq_false, if_false]
  rw [if_pos hidx]
  simp only [attr_bulk_transfer, ne_eq, not_true_eq_false, if_false, if_true]
  rw [hlen, h2, h3]
  simp only [List.nil_append]
  have : bulk_size - (bulk_size - spec_names_length user) = spec_names_length user := by
    omega
  rw [this]

/-- C25 (evaluation at the failing input): with the one attribute "a" (`palo_size = 2`
with no bulk handle), ATTR_LIST with a bulk handle of exactly 2 bytes replies 0, reports 2
and sends nothing; with the attributes "a" and "b" and a handle of exactly 4 bytes it
sends only "a", 2 bytes of the 4 reported.  With one byte more (3 and 5) every name is
sent. -/
theorem attr_list_drops_last_name_at_exact_size :
    ds_pool_attr_list_handler {} [sample_svc] [([97, 0], [1])] 7 none =
      some ⟨0, some 2, none⟩ ∧
    ds_pool_attr_list_handler {} [sample_svc] [([97, 0], [1])] 7 (some 2) =
      some ⟨0, some 2, none⟩ ∧
    ds_pool_attr_list_handler {} [sample_svc] [([97, 0], [1]), ([98, 0], [2])] 7 (some 4) =
      some ⟨0, some 4, some ([[97, 0]], 2)⟩ ∧
    ds_pool_attr_list_handler {} [sample_svc] [([97, 0], [1])] 7 (some 3) =
      some ⟨0, some 2, some ([[97, 0]], 2)⟩ ∧
    ds_pool_attr_list_handler {} [sample_svc] [([97, 0], [1]), ([98, 0], [2])] 7 (some 5) =
      some ⟨0, some 4, some ([[97, 0], [98, 0]], 4)⟩ := by
  decide

/-! ### ATTR_SET -/

theorem attr_set_scan_zero (l : List Nat) (off : Nat) : attr_set_scan l off 0 = .ok off := by
  cases l <;> rfl

/-- The scan passes a name without NUL and its terminator, and counts one NUL. -/
theorem attr_set_scan_name (name rest : List Nat) (h0 : 0 ∉ name) :
    ∀ (off k : Nat), attr_set_scan (name ++ 0 :: rest) off (k + 1) =
      attr_set_scan rest (off + (name.length + 1)) k := by
  induction name with
  | nil =>
    intro off k
    simp [attr_set_scan]
  | cons b name ih =>
    intro off k
    have hb : b ≠ 0 := fun h => h0 (by simp [h])
    have h0' : 0 ∉ name := fun h => h0 (List.mem_cons_of_mem _ h)
    simp only [List.cons_append, attr_set_scan, if_neg hb, List.length_cons]
    have h := ih h0' (off + 1) k
    have e : off + 1 + (name.length + 1) = off + (name.length + 1 + 1) := by omega
    rw [e] at h
    exact h

/-- On packed names the scan stops right after them. -/
theorem attr_set_scan_names (pairs : List (List Nat × List Nat)) (tail : List Nat)
    (h0 : ∀ e ∈ pairs, 0 ∉ e.1) :
    ∀ off : Nat, attr_set_scan ((pairs.map (fun e => e.1 ++ [0])).flatten ++ tail) off
      pairs.length = .ok (off + ((pairs.map (fun e => e.1 ++ [0])).flatten).length) := by
  induction pairs with
  | nil =>
    intro off
    simp [attr_set_scan_zero]
  | cons e rest ih =>
    intro off
    have hl : ((e :: rest).map (fun e => e.1 ++ [0])).flatten ++ tail =
        e.1 ++ 0 :: ((rest.map (fun e => e.1 ++ [0])).flatten ++ tail) := by
      simp
    rw [hl, List.length_cons, attr_set_scan_name _ _ (h0 e (List.mem_cons_self _ _)),
      ih (fun x hx => h0 x (List.mem_cons_of_mem _ hx))]
    simp only [List.map_cons, List.flatten_cons, List.length_append, List.length_cons,
      List.length_nil]
    congr 1
    omega

theorem strlen_loop_name (name rest : List Nat) (h0 : 0 ∉ name) :
    ∀ (off n : Nat), strlen_loop (name ++ 0 :: rest) off n = .ok (n + name.length) := by
  induction name with
  | nil =>
    intro off n
    simp [strlen_loop]
  | cons b name ih =>
    intro off n
    have hb : b ≠ 0 := fun h => h0 (by simp [h])
    have h0' : 0 ∉ name := fun h => h0 (List.mem_cons_of_mem _ h)
    simp only [List.cons_append, strlen_loop, if_neg hb, List.length_cons]
    have h := ih h0' (off + 1) (n + 1)
    have e : n + 1 + name.length = n + (name.length + 1) := by omega
    rw [e] at h
    exact h

theorem drop_add_of_prefix (data P Q : List Nat) (a : Nat) (h : data.drop a = P ++ Q) :
    data.drop (a + P.length) = Q := by
  rw [← List.drop_drop, h, List.drop_left]

theorem read_bytes_prefix (data value Z : List Nat) (off : Nat)
    (h : data.drop off = value ++ Z) : read_bytes data off value.length = .ok value := by
  unfold read_bytes
  by_cases c : value.length = 0
  · rw [if_pos c]
    rw [List.length_eq_zero.mp c]
  · rw [if_neg c]
    have hlen : (data.drop off).length = value.length + Z.length := by
      rw [h, List.length_append]
    rw [List.length_drop] at hlen
    rw [if_pos (by omega), h, List.take_left]

theorem nat_to_le_length (n v : Nat) : (nat_to_le n v).length = n := by
  induction n generalizing v with
  | zero => rfl
  | succ n ih => simp [nat_to_le, ih]

theorem le_to_nat_nat_to_le (n v : Nat) : le_to_nat (nat_to_le n v) = v % 256 ^ n := by
  induction n generalizing v with
  | zero => simp [nat_to_le, le_to_nat, Nat.mod_one]
  | succ n ih =>
    simp only [nat_to_le, le_to_nat, ih]
    rw [pow_succ', Nat.mod_mul]

theorem read_size_t_prefix (data Z : List Nat) (off v : Nat) (hv : v < 2 ^ 64)
    (h : data.drop off = nat_to_le 8 v ++ Z) : read_size_t data off = .ok v := by
  have hr := read_bytes_prefix data (nat_to_le 8 v) Z off h
  rw [nat_to_le_length] at hr
  unfold read_size_t
  rw [hr]
  simp only [le_to_nat_nat_to_le]
  rw [Nat.mod_eq_of_lt (by norm_num at hv ⊢; exact hv)]

/-- The update loop on packed names, sizes and values queues the pairs in order. -/
theorem attr_set_loop_packed (data : List Nat) (sizes : Nat)
    (rest : List (List Nat × List Nat)) :
    ∀ (i names values : Nat) (tx : List (List Nat × List Nat)) (X Y Z : List Nat),
      (∀ e ∈ rest, 0 ∉ e.1 ∧ e.2.length < 2 ^ 64) →
      data.drop names = (rest.map (fun e => e.1 ++ [0])).flatten ++ X →
      data.drop (sizes + 8 * i) = (rest.map (fun e => nat_to_le 8 e.2.length)).flatten ++ Y →
      data.drop values = (rest.map (fun e => e.2)).flatten ++ Z →
      attr_set_loop data [] sizes rest.length i names values tx =
        .ok (0, tx ++ rest.map (fun e => (e.1 ++ [0], e.2))) := by
  induction rest with
  | nil =>
    intro i names values tx X Y Z _ _ _ _
    simp [attr_set_loop]
  | cons e rest ih =>
    intro i names values tx X Y Z hwf hn hs hv
    have he := hwf e (List.mem_cons_self _ _)
    have hn1 : data.drop names =
        (e.1 ++ [0]) ++ ((rest.map (fun e => e.1 ++ [0])).flatten ++ X) := by
      rw [hn]; simp
    have hn2 : data.drop names =
        e.1 ++ 0 :: ((rest.map (fun e => e.1 ++ [0])).flatten ++ X) := by
      rw [hn]; simp
    have hs1 : data.drop (sizes + 8 * i) = nat_to_le 8 e.2.length ++
        ((rest.map (fun e => nat_to_le 8 e.2.length)).flatten ++ Y) := by
      rw [hs]; simp
    have hv1 : data.drop values = e.2 ++ ((rest.map (fun e => e.2)).flatten ++ Z) := by
      rw [hv]; simp
    have hstr : strlen data names = .ok e.1.length := by
      unfold strlen
      rw [hn2, strlen_loop_name _ _ he.1, Nat.zero_add]
    have hsz : read_size_t data (sizes + 8 * i) = .ok e.2.length :=
      read_size_t_prefix data _ _ _ he.2 hs1
    have hkey : read_bytes data names (e.1.length + 1) = .ok (e.1 ++ [0]) := by
      have := read_bytes_prefix data (e.1 ++ [0]) _ names hn1
      simpa using this
    have hval : read_bytes data values e.2.length = .ok e.2 :=
      read_bytes_prefix data e.2 _ values hv1
    have hn' := drop_add_of_prefix data _ _ names hn1
    have hs' := drop_add_of_prefix data _ _ (sizes + 8 * i) hs1
    have hv' := drop_add_of_prefix data _ _ values hv1
    rw [nat_to_le_length] at hs'
    have e1 : sizes + 8 * i + 8 = sizes + 8 * (i + 1) := by omega
    rw [e1] at hs'
    have e2 : names + (e.1 ++ [0]).length = names + (e.1.length + 1) := by simp
    rw [e2] at hn'
    have hrec := ih (i + 1) (names + (e.1.length + 1)) (values + e.2.length)
      (tx ++ [(e.1 ++ [0], e.2)]) X Y Z (fun x hx => hwf x (List.mem_cons_of_mem _ hx))
      hn' hs' hv'
    rw [List.length_cons]
    unfold attr_set_loop
    simp only [hstr, hsz, hkey, hval, List.getD_nil, ne_eq, not_true_eq_false, if_false]
    rw [hrec]
    simp

theorem packed_sizes_length (pairs : List (List Nat × List Nat)) :
    ((pairs.map (fun e => nat_to_le 8 e.2.length)).flatten).length = 8 * pairs.length := by
  induction pairs with
  | nil => rfl
  | cons e rest ih =>
    simp only [List.map_cons, List.flatten_cons, List.length_append, nat_to_le_length,
      List.length_cons, ih]
    omega

/-- On the well-formed payload that packs the pairs (name, value), names without NUL and
values shorter than `2 ^ 64` bytes, with the count of the pairs and no fault, ATTR_SET
reads inside the buffer, queues exactly the updates name with NUL → value, in order,
commits them and replies 0. -/
theorem attr_set_well_formed (pool_svc_hash : List pool_svc) (pi_uuid : uuid_t)
    (pairs : List (List Nat × List Nat))
    (hrc : (pool_svc_lookup_leader pool_svc_hash rdb_stat.present pi_uuid).rc = 0)
    (hwf : ∀ e ∈ pairs, 0 ∉ e.1 ∧ e.2.length < 2 ^ 64) :
    ds_pool_attr_set_handler {} pool_svc_hash pi_uuid pairs.length (spec_attr_pack pairs) =
      .ok ⟨0, pairs.map (fun e => (e.1 ++ [0], e.2)), true⟩ := by
  have hscan := attr_set_scan_names pairs
    ((pairs.map (fun e => nat_to_le 8 e.2.length)).flatten ++
      (pairs.map (fun e => e.2)).flatten) (fun e he => (hwf e he).1) 0
  rw [Nat.zero_add] at hscan
  have hslen := packed_sizes_length pairs
  have hdata : spec_attr_pack pairs = (pairs.map (fun e => e.1 ++ [0])).flatten ++
      ((pairs.map (fun e => nat_to_le 8 e.2.length)).flatten ++
        (pairs.map (fun e => e.2)).flatten) := rfl
  have hloop := attr_set_loop_packed (spec_attr_pack pairs)
    ((pairs.map (fun e => e.1 ++ [0])).flatten).length pairs 0 0
    (((pairs.map (fun e => e.1 ++ [0])).flatten).length + 8 * pairs.length) []
    ((pairs.map (fun e => nat_to_le 8 e.2.length)).flatten ++
        (pairs.map (fun e => e.2)).flatten)
    ((pairs.map (fun e => e.2)).flatten) [] hwf
    (by rw [List.drop_zero, hdata])
    (by rw [Nat.mul_zero, Nat.add_zero, hdata, List.drop_left])
    (by
      rw [hdata, ← hslen, ← List.drop_drop, List.drop_left, List.drop_left,
        List.append_nil])
  unfold ds_pool_attr_set_handler
  simp only []
  rw [if_neg (by simp [hrc]), if_neg (by simp), if_neg (by simp), if_neg (by simp),
    if_neg (by simp), if_neg (by decide)]
  rw [hdata, hscan, ← hdata]
  simp only []
  rw [hloop]
  simp

/-- With fewer NULs in the buffer than the count asks for, the scan reads the byte right
after the buffer. -/
theorem attr_set_scan_too_few_nuls (data : List Nat) :
    ∀ (off k : Nat), data.count 0 < k →
      attr_set_scan data off k = .out_of_bounds (off + data.length) := by
  induction data with
  | nil =>
    intro off k h
    cases k with
    | zero => exact absurd h (by simp)
    | succ k => rfl
  | cons b rest ih =>
    intro off k h
    cases k with
    | zero => exact absurd h (by simp)
    | succ k =>
      have e : off + 1 + rest.length = off + (rest.length + 1) := by omega
      by_cases hb : b = 0
      · subst hb
        simp only [List.count_cons_self] at h
        simp only [attr_set_scan, if_true, List.length_cons]
        rw [ih (off + 1) k (by omega), e]
      · have hc : (b :: rest).count 0 = rest.count 0 := by
          simp [List.count_cons, hb]
        rw [hc] at h
        simp only [attr_set_scan, if_neg hb, List.length_cons]
        rw [ih (off + 1) (k + 1) h, e]

/-- Whenever the transferred payload holds fewer NULs than the count of the request, an
ATTR_SET that gets as far as the parsing reads the byte at offset `bulk_size`. -/
theorem attr_set_too_few_nuls (env : attr_set_env) (pool_svc_hash : List pool_svc)
    (pi_uuid : uuid_t) (pasi_count : Nat) (pasi_bulk : List Nat)
    (hrc : (pool_svc_lookup_leader pool_svc_hash env.st pi_uuid).rc = 0)
    (htx : env.rc_tx_begin = 0) (hlen : env.rc_bulk_get_len = 0)
    (halloc : env.alloc_ok = true) (hcreate : env.rc_bulk_create = 0)
    (hget : (attr_bulk_transfer env.bulk).1 = 0)
    (hnul : pasi_bulk.count 0 < pasi_count) :
    ds_pool_attr_set_handler env pool_svc_hash pi_uuid pasi_count pasi_bulk =
      .out_of_bounds pasi_bulk.length := by
  unfold ds_pool_attr_set_handler
  simp only []
  rw [if_neg (by simp [hrc]), if_neg (by simp [htx]), if_neg (by simp [hlen]),
    if_neg (by simp [halloc]), if_neg (by simp [hcreate]), if_neg (by simp [hget]),
    attr_set_scan_too_few_nuls pasi_bulk 0 pasi_count hnul, Nat.zero_add]

/-- C30 (evaluation at the failing input): on the transferred payload of one byte `A`
(no NUL) with the count 1, the scan of `ds_pool_attr_set_handler` reads the byte at offset
1 = `bulk_size`; on the payload "a\0" with the count 1 the read of `sizes[0]` starts at
offset 2 = `bulk_size`; with a size of 5 before a value of one byte the read of the value
leaves the buffer at offset 11 = `bulk_size`; and a count of 2 on the well-formed payload
of one pair leaves it too.  The well-formed payloads of the pair ("a", [9]) with the count
1 and of the pairs ("a", [9]), ("b", []) with the count 2 give exactly their updates, in
order, and are committed. -/
theorem attr_set_reads_past_bulk_size :
    ds_pool_attr_set_handler {} [sample_svc] 7 1 [65] = Access.out_of_bounds 1 ∧
    ds_pool_attr_set_handler {} [sample_svc] 7 1 [97, 0] = Access.out_of_bounds 2 ∧
    ds_pool_attr_set_handler {} [sample_svc] 7 1 [97, 0, 5, 0, 0, 0, 0, 0, 0, 0, 9] =
      Access.out_of_bounds 11 ∧
    ds_pool_attr_set_handler {} [sample_svc] 7 2 [97, 0, 1, 0, 0, 0, 0, 0, 0, 0, 9] =
      Access.out_of_bounds 11 ∧
    ds_pool_attr_set_handler {} [sample_svc] 7 1 [97, 0, 1, 0, 0, 0, 0, 0, 0, 0, 9] =
      Access.ok ⟨0, [([97, 0], [9])], true⟩ ∧
    ds_pool_attr_set_handler {} [sample_svc] 7 2 (spec_attr_pack [([97], [9]), ([98], [])]) =
      Access.ok ⟨0, [([97, 0], [9]), ([98, 0], [])], true⟩ := by
  decide

end DaosPool
